import Mathlib

/-!
# Q2RTX path tracer front end (`src/refresh/vkpt/main.c`)

A shallow embedding of two host-side components of the renderer:

* the temporal identity matcher at the end of `prepare_entities`
  (current/previous instance correspondence for both instance families);
* the dynamic resolution scaling controller `drs_process` together with the
  cvar callbacks that bound its configuration.

C `int` values are `Int`; array objects are lists whose length is the array
size; the two-element ping-pong arrays indexed by `entity_frame_num` are
functions from `Bool`.  C `double` values are modelled by exact rationals, so
rounding of the floating-point operations is not part of the model.
-/

namespace Q2RTX

/-! ## Temporal identity matcher -/

/-- Array sizes used by the matcher.  The three constants, and the declarations of
the four identity arrays, are in headers that are not part of the translated
sources, so the sizes are parameters here; the identity arrays of a family are
taken to have the size that caps the instance count of that family. -/
structure Limits where
  /-- size of the `*_entity_ids[2][MAX_ENTITIES]` arrays -/
  MAX_ENTITIES : Nat
  /-- size of `model_current_to_prev` and `model_prev_to_current` -/
  SHADER_MAX_ENTITIES : Nat
  /-- size of `world_current_to_prev` and `world_prev_to_current` -/
  SHADER_MAX_BSP_ENTITIES : Nat
deriving DecidableEq, Repr

/-- The bit field `entity_hash_t` with its three members `mesh : 8`,
`model : 9` and `entity : 15`. -/
structure entity_hash_t where
  mesh : Int
  model : Int
  entity : Int
deriving DecidableEq, Repr

/-- Assignment of the three members in `process_regular_entity`
(`hash.entity = entity->id; hash.model = entity->model; hash.mesh = i;`):
every member keeps the low bits that fit its width. -/
def make_hash (entity_id entity_model mesh_index : Int) : entity_hash_t :=
  { mesh := mesh_index % 256, model := entity_model % 512, entity := entity_id % 32768 }

/-- The 32-bit pattern of a hash, members allocated from the least significant
bit upwards (`*(uint32_t*)&hash`). -/
def hash_bits (h : entity_hash_t) : Int :=
  h.mesh + h.model * 256 + h.entity * 131072

/-- Conversion of a 32-bit pattern to the `int` stored in `model_entity_ids`. -/
def to_int32 (u : Int) : Int :=
  if u % 4294967296 < 2147483648 then u % 4294967296 else u % 4294967296 - 4294967296

/-- Reading an `int` of `model_entity_ids` back as a hash
(`*(entity_hash_t*)&model_entity_ids[..][i]`). -/
def hash_of_int (k : Int) : entity_hash_t :=
  { mesh := k % 4294967296 % 256,
    model := k % 4294967296 / 256 % 512,
    entity := k % 4294967296 / 131072 }

/-- The key written by `process_regular_entity` for one mesh instance. -/
def model_key (entity_id entity_model mesh_index : Int) : Int :=
  to_int32 (hash_bits (make_hash entity_id entity_model mesh_index))

/-- One family of the identity map: the arrays `*_current_to_prev` and
`*_prev_to_current`. -/
structure IdentityMap where
  current_to_prev : List Int
  prev_to_current : List Int
deriving DecidableEq, Repr

/-- The value every byte-wise `memset(.., ~0u, ..)` leaves in a 32-bit slot: all
bits set, which is `-1` when the slot is read as `int`. -/
def SENTINEL : Int := -1

/-- Both arrays of a family after the `memset` calls. -/
def memset_map (size : Nat) : IdentityMap :=
  { current_to_prev := List.replicate size SENTINEL,
    prev_to_current := List.replicate size SENTINEL }

/-- Guard of the world family loop: keys are compared and nothing else. -/
def world_guard (_key : Int) : Bool := true

/-- Guard of the model family loop: `hash.entity != 0`. -/
def model_guard (key : Int) : Bool := decide ((hash_of_int key).entity ≠ 0)

/-- Body of the inner loop of the matcher for the pair `(i, j)`. -/
def match_body (guard : Int → Bool) (cur prev : List Int) (i j : Nat)
    (m : IdentityMap) : IdentityMap :=
  if cur.getD i 0 = prev.getD j 0 ∧ guard (cur.getD i 0) = true then
    { current_to_prev := m.current_to_prev.set i (j : Int),
      prev_to_current := m.prev_to_current.set j (i : Int) }
  else m

/-- The loop `for (j = 0; j < count; j++)` for a fixed `i`, given by the number
of iterations already run. -/
def match_inner (guard : Int → Bool) (cur prev : List Int) (i : Nat) :
    Nat → IdentityMap → IdentityMap
  | 0, m => m
  | j + 1, m => match_body guard cur prev i j (match_inner guard cur prev i j m)

/-- The loop `for (i = 0; i < count; i++)` around `match_inner`. -/
def match_outer (guard : Int → Bool) (cur prev : List Int) (prev_count : Nat) :
    Nat → IdentityMap → IdentityMap
  | 0, m => m
  | i + 1, m =>
    match_inner guard cur prev i prev_count (match_outer guard cur prev prev_count i m)

/-- Lines 2047–2072 for one family: reset both arrays, then compare all pairs. -/
def match_family (guard : Int → Bool) (size : Nat) (cur prev : List Int)
    (cur_count prev_count : Nat) : IdentityMap :=
  match_outer guard cur prev prev_count cur_count (memset_map size)

/-- The static variables of the matcher. -/
structure MatcherState where
  entity_frame_num : Bool
  world_entity_ids : Bool → List Int
  model_entity_ids : Bool → List Int
  world_entity_id_count : Bool → Nat
  model_entity_id_count : Bool → Nat

/-- The identity arrays of the instance buffer. -/
structure InstanceBuffer where
  world : IdentityMap
  model : IdentityMap
deriving DecidableEq, Repr

/-- Sequential stores `ids[k] = key; k++` starting at index `k`. -/
def store_ids : List Int → Nat → List Int → List Int
  | arr, _, [] => arr
  | arr, k, key :: rest => store_ids (arr.set k key) (k + 1) rest

/-- Program start: all statics are zero. -/
def MatcherState.init (L : Limits) : MatcherState :=
  { entity_frame_num := false
    world_entity_ids := fun _ => List.replicate L.MAX_ENTITIES 0
    model_entity_ids := fun _ => List.replicate L.MAX_ENTITIES 0
    world_entity_id_count := fun _ => 0
    model_entity_id_count := fun _ => 0 }

/-- Update of one slot of a ping-pong pair. -/
def set_slot {α : Type} (f : Bool → α) (b : Bool) (v : α) : Bool → α :=
  fun c => if c = b then v else f c

/-- The identity part of `prepare_entities`.  `world_ids` lists `entity->id` of
the calls of `process_bsp_entity` in order and `model_keys` the keys of the
mesh instances reaching the store in `process_regular_entity`; both overflow
guards stop the stores at the array size. -/
def prepare_entities (L : Limits) (st : MatcherState) (world_ids model_keys : List Int) :
    MatcherState × InstanceBuffer :=
  let frame := !st.entity_frame_num
  let w := world_ids.take L.SHADER_MAX_BSP_ENTITIES
  let k := model_keys.take L.SHADER_MAX_ENTITIES
  let wids := set_slot st.world_entity_ids frame (store_ids (st.world_entity_ids frame) 0 w)
  let mids := set_slot st.model_entity_ids frame (store_ids (st.model_entity_ids frame) 0 k)
  let wcount := set_slot st.world_entity_id_count frame w.length
  let mcount := set_slot st.model_entity_id_count frame k.length
  ({ entity_frame_num := frame
     world_entity_ids := wids
     model_entity_ids := mids
     world_entity_id_count := wcount
     model_entity_id_count := mcount },
   { world := match_family world_guard L.SHADER_MAX_BSP_ENTITIES
       (wids frame) (wids (!frame)) (wcount frame) (wcount (!frame))
     model := match_family model_guard L.SHADER_MAX_ENTITIES
       (mids frame) (mids (!frame)) (mcount frame) (mcount (!frame)) })

/-- Array sizes and counts are consistent: what `prepare_entities` maintains. -/
def MatcherState.WellFormed (L : Limits) (st : MatcherState) : Prop :=
  L.SHADER_MAX_BSP_ENTITIES ≤ L.MAX_ENTITIES ∧ L.SHADER_MAX_ENTITIES ≤ L.MAX_ENTITIES ∧
  ∀ b : Bool,
    (st.world_entity_ids b).length = L.MAX_ENTITIES ∧
    (st.model_entity_ids b).length = L.MAX_ENTITIES ∧
    st.world_entity_id_count b ≤ L.SHADER_MAX_BSP_ENTITIES ∧
    st.model_entity_id_count b ≤ L.SHADER_MAX_ENTITIES

instance (L : Limits) (st : MatcherState) : Decidable (st.WellFormed L) := by
  unfold MatcherState.WellFormed
  infer_instance


/-- Specification helper: the largest index below `n` at which `p` holds, as the
`int` the loops leave in a slot, or the sentinel when there is none. -/
def last_index (p : Nat → Bool) : Nat → Int
  | 0 => SENTINEL
  | n + 1 => if p n = true then (n : Int) else last_index p n

/-- The test of the inner loop as a Boolean. -/
def hit (guard : Int → Bool) (cur prev : List Int) (i j : Nat) : Bool :=
  decide (cur.getD i 0 = prev.getD j 0 ∧ guard (cur.getD i 0) = true)


/-- Key at index `i` of this frame's world list. -/
def MatcherState.world_cur (st : MatcherState) (i : Nat) : Int :=
  (st.world_entity_ids st.entity_frame_num).getD i 0

/-- Key at index `j` of last frame's world list. -/
def MatcherState.world_prev (st : MatcherState) (j : Nat) : Int :=
  (st.world_entity_ids (!st.entity_frame_num)).getD j 0

/-- Live count of this frame's world list. -/
def MatcherState.world_cur_count (st : MatcherState) : Nat :=
  st.world_entity_id_count st.entity_frame_num

/-- Live count of last frame's world list. -/
def MatcherState.world_prev_count (st : MatcherState) : Nat :=
  st.world_entity_id_count (!st.entity_frame_num)

/-- Key at index `i` of this frame's model list. -/
def MatcherState.model_cur (st : MatcherState) (i : Nat) : Int :=
  (st.model_entity_ids st.entity_frame_num).getD i 0

/-- Key at index `j` of last frame's model list. -/
def MatcherState.model_prev (st : MatcherState) (j : Nat) : Int :=
  (st.model_entity_ids (!st.entity_frame_num)).getD j 0

/-- Live count of this frame's model list. -/
def MatcherState.model_cur_count (st : MatcherState) : Nat :=
  st.model_entity_id_count st.entity_frame_num

/-- Live count of last frame's model list. -/
def MatcherState.model_prev_count (st : MatcherState) : Nat :=
  st.model_entity_id_count (!st.entity_frame_num)

/-- Array sizes of a build used in the concrete examples. -/
def example_limits : Limits :=
  { MAX_ENTITIES := 1024, SHADER_MAX_ENTITIES := 1024, SHADER_MAX_BSP_ENTITIES := 128 }


/-! ## Dynamic resolution scaling -/

/-- The console variables read by the controller: `integer` members are `Int`,
`value` members are rationals. -/
structure Cvars where
  drs_enable : Int
  drs_target : ℚ
  drs_minscale : Int
  drs_maxscale : Int
  drs_adjust_up : ℚ
  drs_adjust_down : ℚ
  drs_gain : ℚ
  scr_viewsize : Int
  cl_paused : Int
  sv_paused : Int
  pt_accumulation_rendering : Int
  pt_accumulation_rendering_framenum : Int

/-- The values `drs_init` registers (`Cvar_Get` defaults), with the viewport at
100 percent and the game running. -/
def Cvars.default : Cvars :=
  { drs_enable := 0, drs_target := 60, drs_minscale := 50, drs_maxscale := 100,
    drs_adjust_up := 92 / 100, drs_adjust_down := 98 / 100, drs_gain := 20,
    scr_viewsize := 100, cl_paused := 0, sv_paused := 0,
    pt_accumulation_rendering := 1, pt_accumulation_rendering_framenum := 500 }

/-- The ranges the change callbacks `viewsize_changed`, `drs_target_changed`,
`drs_minscale_changed` and `drs_maxscale_changed` clamp their cvars to. -/
def Cvars.in_range (c : Cvars) : Prop :=
  25 ≤ c.scr_viewsize ∧ c.scr_viewsize ≤ 200 ∧
  30 ≤ c.drs_target ∧ c.drs_target ≤ 240 ∧
  25 ≤ c.drs_minscale ∧ c.drs_minscale ≤ 100 ∧
  50 ≤ c.drs_maxscale ∧ c.drs_maxscale ≤ 200

instance (c : Cvars) : Decidable c.in_range := by
  unfold Cvars.in_range
  infer_instance

/-- `is_accumulation_rendering_active`. -/
def is_accumulation_rendering_active (c : Cvars) : Bool :=
  decide (c.cl_paused = 2 ∧ c.sv_paused ≠ 0 ∧ c.pt_accumulation_rendering > 0)

/-- The file-scope and function-scope statics of the controller. -/
structure DrsState where
  drs_current_scale : Int
  drs_effective_scale : Int
  num_valid_frames : Nat
  valid_frame_times : List ℚ
deriving DecidableEq, Repr

/-- `SCALING_FRAMES`. -/
def SCALING_FRAMES : Nat := 5

/-- Program start: the statics are zero. -/
def DrsState.init : DrsState :=
  { drs_current_scale := 0, drs_effective_scale := 0, num_valid_frames := 0,
    valid_frame_times := List.replicate SCALING_FRAMES 0 }

/-- `compare_doubles`. -/
def compare_doubles (a b : ℚ) : Int :=
  if a < b then -1 else if a > b then 1 else 0

/-- Insertion of one element in front of the first element it does not follow,
according to the comparison function. -/
def ordered_insert (cmp : ℚ → ℚ → Int) (x : ℚ) : List ℚ → List ℚ
  | [] => [x]
  | y :: ys => if cmp x y ≤ 0 then x :: y :: ys else y :: ordered_insert cmp x ys

/-- The library routine `qsort` on an array of doubles: the array reordered so that
the comparison function never puts an element after a later one.  (The order
of elements that compare equal is not observable on numbers.) -/
def qsort (cmp : ℚ → ℚ → Int) : List ℚ → List ℚ
  | [] => []
  | x :: xs => ordered_insert cmp x (qsort cmp xs)

/-- Modelled from the spec: the macro `clamp(a, b, c)` comes from a shared header
that is not among the translated sources.  As used in the spec's formulas it
replaces a value below the first bound `b` by `b`, otherwise a value above the
second bound `c` by `c`, and leaves any other value alone; it assigns the
result to `a`. -/
def clamp (a b c : ℚ) : ℚ :=
  if a < b then b else if a > c then c else a

/-- Conversion of a double to `int`: the fractional part is discarded. -/
def to_int (x : ℚ) : Int := if 0 ≤ x then ⌊x⌋ else -⌊-x⌋

/-- The accumulation loop `for (i = 1; i < SCALING_FRAMES - 1; i++)` over the sorted
samples, followed by the division by `SCALING_FRAMES - 2`. -/
def representative_time (sorted : List ℚ) : ℚ :=
  (0 + sorted.getD 1 0 + sorted.getD 2 0 + sorted.getD 3 0) / 3

/-- The local `scale` of `drs_process` after the two branches, from the previous
`drs_current_scale` and the representative time. -/
def drs_raw_scale (c : Cvars) (current_scale : Int) (rep : ℚ) : Int :=
  let target_time : ℚ := 1000 / c.drs_target
  let f : ℚ := c.drs_gain * (1 - rep / target_time) - 1
  if rep < target_time * c.drs_adjust_up then
    current_scale + to_int (clamp (f + 1 / 2) 1 10)
  else if rep > target_time * c.drs_adjust_down then
    to_int ((current_scale : ℚ) + clamp (f - 1 / 2) (-1) (-10))
  else
    current_scale

/-- `drs_process`, with the frame time read from the profiler as the argument `ms`. -/
def drs_process (c : Cvars) (ms : ℚ) (s : DrsState) : DrsState :=
  if c.drs_enable = 0 then
    { s with
      num_valid_frames := 0
      drs_effective_scale :=
        if is_accumulation_rendering_active c = true then max 100 c.scr_viewsize else 0 }
  else if is_accumulation_rendering_active c = true then
    { s with
      num_valid_frames := 0
      drs_effective_scale := max c.drs_minscale c.drs_maxscale }
  else if ms < 0 ∨ ms > 1000 then
    { s with drs_effective_scale := s.drs_current_scale }
  else if s.num_valid_frames + 1 < SCALING_FRAMES then
    { s with
      drs_effective_scale := s.drs_current_scale
      valid_frame_times := s.valid_frame_times.set s.num_valid_frames ms
      num_valid_frames := s.num_valid_frames + 1 }
  else
    let sorted := qsort compare_doubles (s.valid_frame_times.set s.num_valid_frames ms)
    let scale := drs_raw_scale c s.drs_current_scale (representative_time sorted)
    { drs_current_scale := max c.drs_minscale (min c.drs_maxscale scale)
      drs_effective_scale := max c.drs_minscale (min c.drs_maxscale scale)
      num_valid_frames := 0
      valid_frame_times := sorted }

/-- A run of frames under a fixed configuration: one call of `drs_process` per
measured frame time. -/
def drs_frames (c : Cvars) : List ℚ → DrsState → DrsState
  | [], s => s
  | ms :: rest, s => drs_frames c rest (drs_process c ms s)


/-! ## Render extent and cvar callbacks -/

/-- A `VkExtent2D`: two `uint32_t` members. -/
structure VkExtent2D where
  width : Nat
  height : Nat
deriving DecidableEq, Repr

/-- Conversion of a non-integral value to `uint32_t`: the fractional part is
discarded; a result outside the range of the type is reduced modulo `2^32`. -/
def to_uint32 (x : ℚ) : Nat := (to_int x % 4294967296).toNat

/-- The expression `(uint32_t)(dim * (float)scale / 100.f)`. -/
def scale_dimension (dim : Nat) (scale : Int) : Nat :=
  to_uint32 ((dim : ℚ) * (scale : ℚ) / 100)

/-- The statement `result.width = (result.width + 1) & ~1` on a `uint32_t`. -/
def round_width (w : Nat) : Nat :=
  ((w + 1) % 4294967296) &&& 4294967294

/-- The local `scale` of `get_render_extent`. -/
def render_scale (c : Cvars) (s : DrsState) : Int :=
  if s.drs_effective_scale ≠ 0 then s.drs_effective_scale else c.scr_viewsize

/-- `get_render_extent`, with `qvk.extent_unscaled` as an argument. -/
def get_render_extent (c : Cvars) (s : DrsState) (extent_unscaled : VkExtent2D) : VkExtent2D :=
  { width := round_width (scale_dimension extent_unscaled.width (render_scale c s))
    height := scale_dimension extent_unscaled.height (render_scale c s) }

/-- The width of `get_screen_image_extent` before the rounding statement. -/
def screen_image_width_unrounded (c : Cvars) (extent_unscaled extent_render : VkExtent2D) : Nat :=
  if c.drs_enable ≠ 0 then
    scale_dimension extent_unscaled.width (max c.drs_minscale c.drs_maxscale)
  else
    max extent_render.width extent_unscaled.width

/-- `get_screen_image_extent`, with `qvk.extent_unscaled` and `qvk.extent_render` as
arguments. -/
def get_screen_image_extent (c : Cvars) (extent_unscaled extent_render : VkExtent2D) :
    VkExtent2D :=
  { width := round_width (screen_image_width_unrounded c extent_unscaled extent_render)
    height :=
      if c.drs_enable ≠ 0 then
        scale_dimension extent_unscaled.height (max c.drs_minscale c.drs_maxscale)
      else
        max extent_render.height extent_unscaled.height }

/-- The value stored in `feedback.resolution_scale` by `R_BeginFrame_RTX` right after
`drs_process`. -/
def feedback_resolution_scale (c : Cvars) (s : DrsState) : Int :=
  if s.drs_effective_scale ≠ 0 then s.drs_effective_scale else c.scr_viewsize

/-- Modelled from the spec: `Cvar_ClampInteger` belongs to the cvar module, which is
not among the translated sources.  It brings the integer value of the cvar it
is given into the range `[lo, hi]` and touches nothing else. -/
def Cvar_ClampInteger (value lo hi : Int) : Int :=
  if value < lo then lo else if value > hi then hi else value

/-- `drs_minscale_changed`. -/
def drs_minscale_changed (c : Cvars) : Cvars :=
  { c with drs_minscale := Cvar_ClampInteger c.drs_minscale 25 100 }

/-- `drs_maxscale_changed`. -/
def drs_maxscale_changed (c : Cvars) : Cvars :=
  { c with drs_maxscale := Cvar_ClampInteger c.drs_maxscale 50 200 }

/-- `viewsize_changed`. -/
def viewsize_changed (c : Cvars) : Cvars :=
  { c with scr_viewsize := Cvar_ClampInteger c.scr_viewsize 25 200 }

/-- A run-time change of `drs_minscale` to `v`: the cvar takes the value and its
change callback runs.  The callback has no statement on the statics of the
controller, so they are passed through. -/
def set_drs_minscale (v : Int) (c : Cvars) (s : DrsState) : Cvars × DrsState :=
  (drs_minscale_changed { c with drs_minscale := v }, s)

/-- A run-time change of `drs_maxscale` to `v`, as `set_drs_minscale`. -/
def set_drs_maxscale (v : Int) (c : Cvars) (s : DrsState) : Cvars × DrsState :=
  (drs_maxscale_changed { c with drs_maxscale := v }, s)

/-! ## Accumulation rendering -/

/-- Further cvars read by `evaluate_reference_mode`. -/
structure RefModeCvars where
  pt_reflect_refract : Int
  flt_enable : Int
  pt_num_bounce_rays : ℚ

/-- The structure `reference_mode_t`. -/
structure reference_mode_t where
  enable_accumulation : Bool
  enable_denoiser : Bool
  num_bounce_rays : ℚ
  temporal_blend_factor : ℚ
  reflect_refract : Int
deriving DecidableEq, Repr

/-- `get_accumulation_rendering_framenum`. -/
def get_accumulation_rendering_framenum (c : Cvars) : Int :=
  max 128 c.pt_accumulation_rendering_framenum

/-- The library function `round`: nearest integer, halfway cases away from zero. -/
def round_half_away (x : ℚ) : ℚ :=
  if 0 ≤ x then ((⌊x + 1 / 2⌋ : Int) : ℚ) else -((⌊-x + 1 / 2⌋ : Int) : ℚ)

/-- What one call of `evaluate_reference_mode` leaves behind: the global counter
`num_accumulated_frames`, the filled `reference_mode_t`, and the argument of
the call of `SCR_SetHudAlpha`, if there is one.  The text drawn on the screen
is not part of the model. -/
structure RefModeResult where
  num_accumulated_frames : Int
  ref_mode : reference_mode_t
  hud_alpha : Option ℚ
deriving DecidableEq, Repr

/-- `evaluate_reference_mode`, with the global counter `num_accumulated_frames` as an
argument.  The counter is an `int`; the model does not cover the overflow of
its increment. -/
def evaluate_reference_mode (c : Cvars) (rc : RefModeCvars) (num_accumulated_frames : Int) :
    RefModeResult :=
  if is_accumulation_rendering_active c = true then
    let n := num_accumulated_frames + 1
    let num_warmup_frames : Int := 5
    let num_frames_to_accumulate := get_accumulation_rendering_framenum c
    let frames_after_accumulation_finished := n - num_warmup_frames - num_frames_to_accumulate
    { num_accumulated_frames := n
      ref_mode :=
        { enable_accumulation := true
          enable_denoiser := false
          num_bounce_rays := 2
          temporal_blend_factor :=
            1 / ((min (max 1 (n - num_warmup_frames)) num_frames_to_accumulate : Int) : ℚ)
          reflect_refract := min 10 (max 4 rc.pt_reflect_refract) }
      hud_alpha :=
        if c.pt_accumulation_rendering = 1 then
          some (max 0 (min 1 (((50 - frames_after_accumulation_finished : Int) : ℚ) * (2 / 100))))
        else if c.pt_accumulation_rendering = 2 then some 0
        else none }
  else
    { num_accumulated_frames := 0
      ref_mode :=
        { enable_accumulation := false
          enable_denoiser := decide (rc.flt_enable ≠ 0)
          num_bounce_rays :=
            if rc.pt_num_bounce_rays = 1 / 2 then 1 / 2
            else max 0 (min 2 (round_half_away rc.pt_num_bounce_rays))
          temporal_blend_factor := 0
          reflect_refract := min 10 (max 0 rc.pt_reflect_refract) }
      hud_alpha := none }

/-- Consecutive calls of `evaluate_reference_mode`, one per entry of the list, each
with the cvars of its frame: the value of the counter after the last call. -/
def reference_frames : List (Cvars × RefModeCvars) → Int → Int
  | [], n => n
  | (c, rc) :: rest, n => reference_frames rest (evaluate_reference_mode c rc n).num_accumulated_frames

/-! ## Frame cadence and submissions -/

/-- The result codes the frame functions distinguish, and two further error codes. -/
inductive VkResult where
  | VK_SUCCESS
  | VK_TIMEOUT
  | VK_SUBOPTIMAL_KHR
  | VK_ERROR_OUT_OF_DATE_KHR
  | VK_ERROR_DEVICE_LOST
  | VK_ERROR_SURFACE_LOST_KHR
  | VK_ERROR_OUT_OF_DEVICE_MEMORY
deriving DecidableEq, Repr

/-- The four semaphores of a `semaphore_group_t`. -/
inductive SemaphoreKind where
  | image_available
  | render_finished
  | transfer_finished
  | trace_finished
deriving DecidableEq, Repr

/-- The semaphore `qvk.semaphores[frame][gpu].kind`. -/
structure Semaphore where
  frame : Nat
  gpu : Nat
  kind : SemaphoreKind
deriving DecidableEq, Repr

/-- The calls into the device that the frame functions make, in program order. -/
inductive Event where
  /-- `vkWaitForFences` on `fences_frame_sync[slot]` -/
  | wait_for_fences (slot : Nat)
  /-- `vkResetFences` on `fences_frame_sync[slot]` -/
  | reset_fences (slot : Nat)
  /-- `vkDeviceWaitIdle` -/
  | device_wait_idle
  /-- the destruction and creation steps of `recreate_swapchain` -/
  | swapchain_rebuild
  /-- `vkAcquireNextImageKHR` signalling the given semaphore -/
  | acquire_next_image (signal : Semaphore)
  /-- `vkQueueSubmit` through `vkpt_submit_command_buffer`; `fence` is the index of the
  frame fence passed, if one is passed -/
  | queue_submit (waits signals : List Semaphore) (fence : Option Nat)
  /-- `vkQueuePresentKHR` -/
  | queue_present (waits : List Semaphore)
  /-- `exit(1)` -/
  | process_exit
deriving DecidableEq, Repr

/-- The frame fence an event signals on completion. -/
def Event.fence : Event → Option Nat
  | Event.queue_submit _ _ f => f
  | _ => none

/-- The semaphores an event waits on. -/
def Event.waits : Event → List Semaphore
  | Event.queue_submit w _ _ => w
  | Event.queue_present w => w
  | _ => []

/-- The semaphores an event signals. -/
def Event.signals : Event → List Semaphore
  | Event.queue_submit _ s _ => s
  | Event.acquire_next_image s => [s]
  | _ => []

/-- The members of `qvk` and the file statics the frame functions use for
synchronisation.  `trace_signaled` holds `qvk.semaphores[frame][0].trace_signaled`
for every frame slot; `exited` records that `exit` was called. -/
structure QvkState where
  frame_counter : Nat
  current_frame_index : Nat
  swap_chain : Bool
  wait_for_idle_frames : Nat
  device_count : Nat
  trace_signaled : List Bool
  frame_ready : Bool
  exited : Bool
deriving DecidableEq, Repr

/-- The state after initialisation with `N` frame slots: counter 0, no semaphore
marked as signalled. -/
def QvkState.init (N device_count : Nat) (swap_chain : Bool) : QvkState :=
  { frame_counter := 0, current_frame_index := 0, swap_chain := swap_chain,
    wait_for_idle_frames := 0, device_count := device_count,
    trace_signaled := List.replicate N false, frame_ready := false, exited := false }

/-- `recreate_swapchain`; `created` tells whether `create_swapchain` produced a swap
chain (it produces none while the surface has no extent).  `N` is
`MAX_FRAMES_IN_FLIGHT`, defined in a header that is not among the sources. -/
def recreate_swapchain (N : Nat) (created : Bool) (st : QvkState) : QvkState × List Event :=
  ({ st with swap_chain := created, wait_for_idle_frames := N * 2 },
   [Event.device_wait_idle, Event.swapchain_rebuild])

/-- What a call of `R_BeginFrame_RTX` meets outside the program: the result of the
fence wait, whether the surface has an extent, whether the comparison of the
screen image extents asks for a rebuild, the outcome of each rebuild, and for
every pass through the label `retry` the result of the acquisition together
with the outcome of the rebuild that follows a stale result. -/
structure BeginEnv where
  res_fence : VkResult
  surface_has_extent : Bool
  created_first : Bool
  screen_extent_changed : Bool
  created_second : Bool
  acquire : List (VkResult × Bool)
deriving DecidableEq, Repr

/-- The loop at the label `retry` of `R_BeginFrame_RTX`.  The result is `none` when the
list of acquisition results ends while the loop is still running; otherwise
it holds the state, the events, and the last acquisition result, or no result
when the function returned for lack of a swap chain. -/
def acquire_loop (N : Nat) :
    List (VkResult × Bool) → QvkState → Option (QvkState × List Event × Option VkResult)
  | [], st => if st.swap_chain = false then some (st, [], none) else none
  | (res, created) :: rest, st =>
    if st.swap_chain = false then some (st, [], none)
    else
      let ev := Event.acquire_next_image
        { frame := st.current_frame_index, gpu := 0, kind := SemaphoreKind.image_available }
      if res = VkResult.VK_ERROR_OUT_OF_DATE_KHR ∨ res = VkResult.VK_SUBOPTIMAL_KHR then
        match acquire_loop N rest (recreate_swapchain N created st).1 with
        | none => none
        | some (st2, evs2, r) => some (st2, ev :: (recreate_swapchain N created st).2 ++ evs2, r)
      else some (st, [ev], some res)

/-- `R_BeginFrame_RTX`.  The result is `none` when the acquisition loop does not end
within the given environment. -/
def R_BeginFrame_RTX (N : Nat) (env : BeginEnv) (st : QvkState) :
    Option (QvkState × List Event) :=
  let slot := st.frame_counter % N
  let st0 := { st with current_frame_index := slot }
  if env.res_fence = VkResult.VK_ERROR_DEVICE_LOST then
    some ({ st0 with exited := true }, [Event.wait_for_fences slot, Event.process_exit])
  else
    let r1 := if st0.swap_chain = false ∧ env.surface_has_extent = true
      then recreate_swapchain N env.created_first st0 else (st0, [])
    let r2 := if env.screen_extent_changed = true
      then recreate_swapchain N env.created_second r1.1 else (r1.1, [])
    match acquire_loop N env.acquire r2.1 with
    | none => none
    | some (st3, evs3, none) =>
      some (st3, Event.wait_for_fences slot :: (r1.2 ++ r2.2 ++ evs3))
    | some (st3, evs3, some _) =>
      let r4 := if st3.wait_for_idle_frames ≠ 0
        then ({ st3 with wait_for_idle_frames := st3.wait_for_idle_frames - 1 },
              [Event.device_wait_idle])
        else (st3, [])
      some (r4.1, Event.wait_for_fences slot ::
        (r1.2 ++ r2.2 ++ evs3 ++ r4.2 ++
          [Event.reset_fences slot, Event.queue_submit [] [] none]))

/-- The semaphores `qvk.semaphores[frame][gpu].kind` for `gpu < device_count`. -/
def gpu_semaphores (device_count frame : Nat) (kind : SemaphoreKind) : List Semaphore :=
  (List.range device_count).map fun gpu => { frame := frame, gpu := gpu, kind := kind }

/-- The index `(qvk.current_frame_index - 1) % MAX_FRAMES_IN_FLIGHT`, the subtraction
being done on `uint32_t`. -/
def prev_frame_index (N current_frame_index : Nat) : Nat :=
  ((current_frame_index + 4294967295) % 4294967296) % N

/-- The submissions of `R_RenderFrame_RTX`.  `world_ready` is false when the function
returns because the world model is not loaded. -/
def R_RenderFrame_RTX (N : Nat) (world_ready : Bool) (st : QvkState) : QvkState × List Event :=
  if st.swap_chain = false then (st, [])
  else if world_ready = false then (st, [])
  else
    let cur := st.current_frame_index
    let prev := prev_frame_index N cur
    let transfer_semaphores := gpu_semaphores st.device_count cur SemaphoreKind.transfer_finished
    let trace_semaphores := gpu_semaphores st.device_count cur SemaphoreKind.trace_finished
    let prev_trace_semaphores :=
      gpu_semaphores st.device_count prev SemaphoreKind.trace_finished
    let transfer := Event.queue_submit
      (if st.trace_signaled.getD prev false = true then prev_trace_semaphores else [])
      transfer_semaphores none
    let flags1 := st.trace_signaled.set prev false
    let primary := Event.queue_submit transfer_semaphores [] none
    let secondary := Event.queue_submit [] trace_semaphores none
    let flags2 := flags1.set cur true
    let post := Event.queue_submit [] [] none
    ({ st with trace_signaled := flags2, frame_ready := true },
     [transfer, primary, secondary, post])

/-- `R_EndFrame_RTX`; `created` is the outcome of the rebuild that follows a stale
present result. -/
def R_EndFrame_RTX (N : Nat) (res_present : VkResult) (created : Bool) (st : QvkState) :
    QvkState × List Event :=
  if st.swap_chain = false then (st, [])
  else
    let cur := st.current_frame_index
    let signal_semaphores := gpu_semaphores st.device_count cur SemaphoreKind.render_finished
    let submit := Event.queue_submit
      [{ frame := cur, gpu := 0, kind := SemaphoreKind.image_available }]
      signal_semaphores (some cur)
    let st1 := { st with frame_ready := false }
    let r2 := if res_present = VkResult.VK_ERROR_OUT_OF_DATE_KHR ∨
        res_present = VkResult.VK_SUBOPTIMAL_KHR
      then recreate_swapchain N created st1 else (st1, [])
    ({ r2.1 with frame_counter := r2.1.frame_counter + 1 },
     submit :: Event.queue_present signal_semaphores :: r2.2)

/-- What one frame meets: the environment of `R_BeginFrame_RTX`, one entry per call of
`R_RenderFrame_RTX`, and the result of the present with the outcome of the
rebuild that may follow. -/
structure FrameEnv where
  begin_env : BeginEnv
  render_calls : List Bool
  res_present : VkResult
  created : Bool
deriving DecidableEq, Repr

/-- The calls of `R_RenderFrame_RTX` of one frame. -/
def render_calls (N : Nat) : List Bool → QvkState → QvkState × List Event
  | [], st => (st, [])
  | world_ready :: rest, st =>
    ((render_calls N rest (R_RenderFrame_RTX N world_ready st).1).1,
     (R_RenderFrame_RTX N world_ready st).2 ++
       (render_calls N rest (R_RenderFrame_RTX N world_ready st).1).2)

/-- One frame: `R_BeginFrame_RTX`, the calls of `R_RenderFrame_RTX`, `R_EndFrame_RTX`.
Nothing follows a call of `exit`. -/
def run_frame (N : Nat) (env : FrameEnv) (st : QvkState) : Option (QvkState × List Event) :=
  match R_BeginFrame_RTX N env.begin_env st with
  | none => none
  | some (st1, evs1) =>
    if st1.exited = true then some (st1, evs1)
    else
      some ((R_EndFrame_RTX N env.res_present env.created
              (render_calls N env.render_calls st1).1).1,
            evs1 ++ (render_calls N env.render_calls st1).2 ++
              (R_EndFrame_RTX N env.res_present env.created
                (render_calls N env.render_calls st1).1).2)

/-- A sequence of frames and the events it produces. -/
def run_frames (N : Nat) : List FrameEnv → QvkState → Option (QvkState × List Event)
  | [], st => some (st, [])
  | env :: rest, st =>
    match run_frame N env st with
    | none => none
    | some (st1, evs1) =>
      if st1.exited = true then some (st1, evs1)
      else
        match run_frames N rest st1 with
        | none => none
        | some (st2, evs2) => some (st2, evs1 ++ evs2)

/-- Specification: between two events of a trace that signal the same frame fence
there is a wait on that fence. -/
def fence_discipline (tr : List Event) : Prop :=
  ∀ (a b c : List Event) (e1 e2 : Event) (slot : Nat),
    tr = a ++ e1 :: (b ++ e2 :: c) → e1.fence = some slot → e2.fence = some slot →
    Event.wait_for_fences slot ∈ b

/-- Specification: two events that signal a frame fence, with no such event between
them, use different fences. -/
def alternating_slots (tr : List Event) : Prop :=
  ∀ (a b c : List Event) (e1 e2 : Event) (s1 s2 : Nat),
    tr = a ++ e1 :: (b ++ e2 :: c) → e1.fence = some s1 → e2.fence = some s2 →
    (∀ x ∈ b, x.fence = none) → s1 ≠ s2

/-- Specification: every wait on a `trace_finished` semaphore comes after an event that
signals this semaphore, with no other wait on it in between. -/
def trace_wait_discipline (tr : List Event) : Prop :=
  ∀ (a c : List Event) (e : Event) (w : Semaphore),
    tr = a ++ e :: c → w ∈ e.waits → w.kind = SemaphoreKind.trace_finished →
    ∃ (a1 a2 : List Event) (e0 : Event),
      a = a1 ++ e0 :: a2 ∧ w ∈ e0.signals ∧ ∀ x ∈ a2, w ∉ x.waits

/-- Checker for `fence_discipline`: `pending` lists the fences signalled since their
last wait; the result is `none` when a pending fence is signalled again. -/
def fence_monitor : List Nat → List Event → Option (List Nat)
  | pending, [] => some pending
  | pending, Event.wait_for_fences slot :: rest =>
    fence_monitor (pending.filter fun s => decide (s ≠ slot)) rest
  | pending, Event.queue_submit _ _ (some slot) :: rest =>
    if slot ∈ pending then none else fence_monitor (slot :: pending) rest
  | pending, _ :: rest => fence_monitor pending rest

/-- Checker for `alternating_slots`: `last` is the fence signalled last. -/
def slot_monitor : Option Nat → List Event → Option (Option Nat)
  | last, [] => some last
  | last, Event.queue_submit _ _ (some slot) :: rest =>
    if last = some slot then none else slot_monitor (some slot) rest
  | last, _ :: rest => slot_monitor last rest

/-- Checker for `trace_wait_discipline`: `pending` lists the `trace_finished` semaphores
signalled and not yet waited on. -/
def trace_monitor : List Semaphore → List Event → Option (List Semaphore)
  | pending, [] => some pending
  | pending, e :: rest =>
    if ∀ w ∈ e.waits, w.kind = SemaphoreKind.trace_finished → w ∈ pending then
      trace_monitor
        (pending.filter (fun p => decide (p ∉ e.waits)) ++
          e.signals.filter (fun s => decide (s.kind = SemaphoreKind.trace_finished)))
        rest
    else none

/-- Link between the flags and the checker for `trace_wait_discipline`: the
`trace_finished` semaphores of every flagged slot are pending. -/
def flags_pending (P : List Semaphore) (st : QvkState) : Prop :=
  ∀ slot : Nat, st.trace_signaled.getD slot false = true →
    ∀ g : Nat, g < st.device_count →
      ({ frame := slot, gpu := g, kind := SemaphoreKind.trace_finished } : Semaphore) ∈ P

/-- An event that neither signals nor awaits a frame fence. -/
def Event.fence_quiet (e : Event) : Prop :=
  e.fence = none ∧ ∀ s : Nat, e ≠ Event.wait_for_fences s

/-- An event that neither signals nor awaits a `trace_finished` semaphore. -/
def Event.trace_quiet (e : Event) : Prop :=
  (∀ w ∈ e.waits, w.kind ≠ SemaphoreKind.trace_finished) ∧
  (∀ s ∈ e.signals, s.kind ≠ SemaphoreKind.trace_finished)

/-- Link between the frame counter and the checker for `alternating_slots`: the
fence signalled last belongs to the frame before the current one. -/
def last_slot_link (N : Nat) (last : Option Nat) (st : QvkState) : Prop :=
  ∀ s : Nat, last = some s → ∃ c : Nat, st.frame_counter = c + 1 ∧ s = c % N


/-- A frame without incident: the fence wait and the acquisition succeed, the world is
rendered once, and the present succeeds. -/
def example_frame : FrameEnv :=
  { begin_env :=
      { res_fence := VkResult.VK_SUCCESS, surface_has_extent := true, created_first := true,
        screen_extent_changed := false, created_second := true,
        acquire := [(VkResult.VK_SUCCESS, true)] },
    render_calls := [true], res_present := VkResult.VK_SUCCESS, created := true }

/-! ## Light statistics -/

/-- The members of `global_ubo` read by the statistics block of `get_direct_illumination`.
`current_frame_idx` is taken as the 32-bit unsigned number the shader sees. -/
structure GlobalUbo where
  pt_light_stats : Int
  num_static_lights : Int
  current_frame_idx : Nat
deriving DecidableEq, Repr

/-- The assignment `ubo->current_frame_idx = qvk.frame_counter` of `prepare_ubo`: the frame
counter is reduced to the 32 bits of the member. -/
def prepare_ubo_current_frame_idx (frame_counter : Nat) : Nat :=
  frame_counter % 4294967296

/-- The counters `light_stats_bufers[buffer].stats[addr]`, by buffer and address.  The
declaration of the buffers is not among the sources; the counters are taken
as natural numbers. -/
abbrev LightStats := Nat → Nat → Nat

/-- The call `atomicAdd(light_stats_bufers[buffer].stats[addr], data)`. -/
def atomicAdd (stats : LightStats) (buffer addr data : Nat) : LightStats :=
  fun b a => if b = buffer ∧ a = addr then stats b a + data else stats b a

/-- What the statistics block of one evaluation of `get_direct_illumination` depends on:
the two luminances `l_polygonal` and `l_spherical`, the random number `rng2`, the
result of `trace_shadow_ray`, the index of the polygonal light that was sampled,
and the arguments of `get_light_stats_addr`. -/
structure LightSample where
  l_polygonal : ℚ
  l_spherical : ℚ
  rng2 : ℚ
  shadow : ℚ
  polygonal_light_index : Int
  cluster_idx : Nat
  primary_direction : Nat

/-- The flag `null_light` of `get_direct_illumination`. -/
def null_light (x : LightSample) : Bool :=
  decide (x.l_polygonal + x.l_spherical = 0)

/-- The weight `w` of the polygonal class in `get_direct_illumination`. -/
def light_weight (x : LightSample) : ℚ :=
  if null_light x = true then 1 / 2 else x.l_polygonal / (x.l_polygonal + x.l_spherical)

/-- The flag `is_polygonal` of `get_direct_illumination`. -/
def is_polygonal (x : LightSample) : Bool :=
  decide (x.rng2 < light_weight x)

/-- The value of `vis` of `get_direct_illumination` after the shadow ray. -/
def light_vis (x : LightSample) : ℚ :=
  (if is_polygonal x = true then 1 / light_weight x else 1 / (1 - light_weight x)) * x.shadow

/-- The condition of the statistics block of `get_direct_illumination`. -/
def light_stats_condition (ubo : GlobalUbo) (x : LightSample) : Prop :=
  ubo.pt_light_stats ≠ 0 ∧ is_polygonal x = true ∧ null_light x = false ∧
    x.polygonal_light_index ≥ 0 ∧ x.polygonal_light_index < ubo.num_static_lights

instance (ubo : GlobalUbo) (x : LightSample) : Decidable (light_stats_condition ubo x) := by
  unfold light_stats_condition
  infer_instance

/-- The address of the counter: `addr`, and `addr + 1` on 32 bits when `vis == 0`. -/
def light_stats_counter (get_light_stats_addr : Nat → Int → Nat → Nat) (x : LightSample) : Nat :=
  if light_vis x = 0 then
    (get_light_stats_addr x.cluster_idx x.polygonal_light_index x.primary_direction + 1)
      % 4294967296
  else get_light_stats_addr x.cluster_idx x.polygonal_light_index x.primary_direction

/-- The effect of one evaluation of `get_direct_illumination` on the light statistics.
`NUM_LIGHT_STATS_BUFFERS` and the function `get_light_stats_addr` are declared in
headers that are not among the sources and are parameters here. -/
def get_direct_illumination (NUM_LIGHT_STATS_BUFFERS : Nat)
    (get_light_stats_addr : Nat → Int → Nat → Nat) (ubo : GlobalUbo) (x : LightSample)
    (stats : LightStats) : LightStats :=
  if light_stats_condition ubo x then
    atomicAdd stats (ubo.current_frame_idx % NUM_LIGHT_STATS_BUFFERS)
      (light_stats_counter get_light_stats_addr x) 1
  else stats

/-- The index of the statistics buffer that `get_direct_illumination` writes. -/
def stats_write_index (NUM_LIGHT_STATS_BUFFERS frame_idx : Nat) : Nat :=
  frame_idx % NUM_LIGHT_STATS_BUFFERS

/-- Modelled from the spec: the code that reads the light statistics (the builder of the
light lists) is not among the sources.  After the spec it reads the buffer
`(frame_idx - 1) mod B`, the remainder of the integer `frame_idx - 1` in the range
`[0, B)`: at frame index 0 that is the buffer `B - 1`. -/
def stats_read_index (NUM_LIGHT_STATS_BUFFERS frame_idx : Nat) : Nat :=
  (((frame_idx : Int) - 1) % (NUM_LIGHT_STATS_BUFFERS : Int)).toNat

/-! ## Skinned-pose matrices -/

/-- The members of `ModelInstance` that the code of the pose matrices writes. -/
structure ModelInstance where
  offset_prev : Int
  is_iqm : Int
deriving DecidableEq, Repr

/-- What the code of the pose matrices reads of an entity and its model: `num_poses` when
`model->iqmData` is not null, the floats that `R_ComputeIQMTransforms` produces (12 for
every pose), and for every mesh that is instanced the value
`mesh->vertex_offset + oldframe * ...` that `fill_model_instance` stores first. -/
structure PoseEntity where
  iqmData : Option Nat
  transforms : List ℚ
  mesh_offset_prev : List Int

/-- The statics and buffers of the pose matrices: `entity_frame_num`, `iqm_matrix_count`,
`model_entity_id_count`, the arrays `model_instances` and `model_instances_prev` of the
instance buffer, `qvk.iqm_matrices_shadow`, `qvk.iqm_matrices_prev`, and the staging
buffer that is uploaded. -/
structure PoseState where
  entity_frame_num : Bool
  iqm_matrix_count : Bool → Nat
  model_entity_id_count : Bool → Nat
  model_instances : List ModelInstance
  model_instances_prev : List ModelInstance
  iqm_matrices_shadow : List ℚ
  iqm_matrices_prev : List ℚ
  iqm_matrix_staging : List ℚ

/-- The state at program start: zeroed statics and zeroed buffers for `MAX_IQM_MATRICES`
matrices. -/
def PoseState.init (L : Limits) (MAX_IQM_MATRICES : Nat) : PoseState :=
  { entity_frame_num := false
    iqm_matrix_count := fun _ => 0
    model_entity_id_count := fun _ => 0
    model_instances := List.replicate L.SHADER_MAX_ENTITIES { offset_prev := 0, is_iqm := 0 }
    model_instances_prev := List.replicate L.SHADER_MAX_ENTITIES { offset_prev := 0, is_iqm := 0 }
    iqm_matrices_shadow := List.replicate (MAX_IQM_MATRICES * 12) 0
    iqm_matrices_prev := List.replicate (MAX_IQM_MATRICES * 12) 0
    iqm_matrix_staging := List.replicate (MAX_IQM_MATRICES * 12) 0 }

/-- The call `memcpy(dst + offset, src, n * sizeof(float))` on arrays of floats. -/
def memcpy (dst : List ℚ) (offset : Nat) (src : List ℚ) (n : Nat) : List ℚ :=
  dst.take offset ++ src.take n ++ dst.drop (offset + n)

/-- The last statements of `fill_model_instance`: `is_iqm` tells whether the model has
`iqmData`, and then `offset_prev` is the index of the first pose matrix. -/
def fill_model_instance (e : PoseEntity) (mesh_offset_prev : Int) (iqm_matrix_index : Int) :
    ModelInstance :=
  let is_iqm : Int := if e.iqmData.isSome = true then 1 else 0
  { is_iqm := is_iqm
    offset_prev := if is_iqm ≠ 0 then iqm_matrix_index else mesh_offset_prev }

/-- The loop over the meshes of `process_regular_entity`, for the meshes that are
instanced: the instance is filled and the index advances; the loop ends when
the index reaches `SHADER_MAX_ENTITIES`. -/
def instance_meshes (L : Limits) (e : PoseEntity) (iqm_matrix_index : Int) :
    List Int → List ModelInstance → Nat → List ModelInstance × Nat
  | [], instances, model_instance_idx => (instances, model_instance_idx)
  | m :: rest, instances, model_instance_idx =>
    if model_instance_idx ≥ L.SHADER_MAX_ENTITIES then (instances, model_instance_idx)
    else
      instance_meshes L e iqm_matrix_index rest
        (instances.set model_instance_idx (fill_model_instance e m iqm_matrix_index))
        (model_instance_idx + 1)

/-- The part of `process_regular_entity` that concerns the pose matrices: a model with
`iqmData` and at least one pose takes the next `num_poses` matrices (the function
returns when they do not fit); any other model has the matrix index `-1`.
The result is the state, `model_instance_idx` and `iqm_matrix_offset`. -/
def process_regular_entity (L : Limits) (MAX_IQM_MATRICES : Nat) (e : PoseEntity)
    (st : PoseState) (model_instance_idx iqm_matrix_offset : Nat) : PoseState × Nat × Nat :=
  match e.iqmData with
  | some (num_poses + 1) =>
    if iqm_matrix_offset + (num_poses + 1) > MAX_IQM_MATRICES then
      (st, model_instance_idx, iqm_matrix_offset)
    else
      let shadow := memcpy st.iqm_matrices_shadow (iqm_matrix_offset * 12) e.transforms
        ((num_poses + 1) * 12)
      let r := instance_meshes L e (iqm_matrix_offset : Int) e.mesh_offset_prev
        st.model_instances model_instance_idx
      ({ st with iqm_matrices_shadow := shadow, model_instances := r.1 }, r.2,
        iqm_matrix_offset + (num_poses + 1))
  | _ =>
    let r := instance_meshes L e (-1) e.mesh_offset_prev st.model_instances model_instance_idx
    ({ st with model_instances := r.1 }, r.2, iqm_matrix_offset)

/-- The calls of `process_regular_entity` of one frame, in the order in which
`prepare_entities` makes them. -/
def process_entities (L : Limits) (MAX_IQM_MATRICES : Nat) :
    List PoseEntity → PoseState → Nat → Nat → PoseState × Nat × Nat
  | [], st, model_instance_idx, iqm_matrix_offset => (st, model_instance_idx, iqm_matrix_offset)
  | e :: rest, st, model_instance_idx, iqm_matrix_offset =>
    let r := process_regular_entity L MAX_IQM_MATRICES e st model_instance_idx iqm_matrix_offset
    process_entities L MAX_IQM_MATRICES rest r.1 r.2.1 r.2.2

/-- The loop of `prepare_entities` that patches the previous model instances: the
instances below `count` that are flagged `is_iqm` have `cur` added to `offset_prev`. -/
def patch_prev_instances (count : Nat) (cur : Nat) (instances : List ModelInstance) :
    List ModelInstance :=
  instances.mapIdx fun i m =>
    if i < count ∧ m.is_iqm ≠ 0 then { m with offset_prev := m.offset_prev + (cur : Int) }
    else m

/-- The statements of `prepare_entities` on the pose matrices: the frame number flips,
the instances of the last frame are copied to `model_instances_prev`, the
entities are processed, the counts are stored; when this frame has matrices,
the matrices of the last frame (if any) are appended to the shadow buffer and
the previous instances are patched, the matrices of this frame are kept for
the next frame, and both blocks are copied to the staging buffer. -/
def prepare_entities_poses (L : Limits) (MAX_IQM_MATRICES : Nat) (entities : List PoseEntity)
    (st : PoseState) : PoseState :=
  let cur_frame := !st.entity_frame_num
  let st1 : PoseState :=
    { st with entity_frame_num := cur_frame, model_instances_prev := st.model_instances }
  let r := process_entities L MAX_IQM_MATRICES entities st1 0 0
  let st2 : PoseState := { r.1 with
    model_entity_id_count := fun b => if b = cur_frame then r.2.1 else r.1.model_entity_id_count b
    iqm_matrix_count := fun b => if b = cur_frame then r.2.2 else r.1.iqm_matrix_count b }
  let cur : Nat := st2.iqm_matrix_count cur_frame
  let prev : Nat := st2.iqm_matrix_count (!cur_frame)
  if cur > 0 then
    let st3 : PoseState :=
      if prev > 0 then
        { st2 with
          iqm_matrices_shadow := memcpy st2.iqm_matrices_shadow (cur * 12) st2.iqm_matrices_prev
            (prev * 12)
          model_instances_prev :=
            patch_prev_instances (st2.model_entity_id_count (!cur_frame)) cur
              st2.model_instances_prev }
      else st2
    let st4 : PoseState := { st3 with
      iqm_matrices_prev := memcpy st3.iqm_matrices_prev 0 st3.iqm_matrices_shadow (cur * 12) }
    { st4 with
      iqm_matrix_staging :=
        memcpy st4.iqm_matrix_staging 0 st4.iqm_matrices_shadow ((cur + prev) * 12) }
  else st2

/-- A model with `iqmData` and no pose, with one mesh. -/
def static_iqm_entity : PoseEntity :=
  { iqmData := some 0, transforms := [], mesh_offset_prev := [0] }

/-- A model with `iqmData` and two poses, with one mesh; every float of its pose
matrices is `v`. -/
def posed_iqm_entity (v : ℚ) : PoseEntity :=
  { iqmData := some 2, transforms := List.replicate 24 v, mesh_offset_prev := [0] }

/-! ## Runs with a changing configuration, and repeated signals -/

/-- Specification: between two events of a trace that signal the same `trace_finished`
semaphore there is an event that waits on it. -/
def no_double_signal (tr : List Event) : Prop :=
  ∀ (a b c : List Event) (e1 e2 : Event) (w : Semaphore),
    tr = a ++ e1 :: (b ++ e2 :: c) → w ∈ e1.signals → w ∈ e2.signals →
    w.kind = SemaphoreKind.trace_finished → ∃ x ∈ b, w ∈ x.waits

/-- Checker for `no_double_signal`: `pending` lists the `trace_finished` semaphores signalled
and not yet waited on; the result is `none` when a pending semaphore is signalled
again. -/
def signal_monitor : List Semaphore → List Event → Option (List Semaphore)
  | pending, [] => some pending
  | pending, e :: rest =>
    if ∀ s ∈ e.signals, s.kind = SemaphoreKind.trace_finished → s ∉ pending then
      signal_monitor
        (pending.filter (fun p => decide (p ∉ e.waits)) ++
          e.signals.filter (fun s => decide (s.kind = SemaphoreKind.trace_finished)))
        rest
    else none

/-- A frame without incident in which `R_RenderFrame_RTX` is called twice. -/
def double_render_frame : FrameEnv :=
  { example_frame with render_calls := [true, true] }

/-- A frame without incident in which `R_RenderFrame_RTX` is not called. -/
def no_render_frame : FrameEnv :=
  { example_frame with render_calls := [] }

/-- A frame in which the fence wait runs out of device memory and the acquisition
reports a lost surface. -/
def failing_frame : FrameEnv :=
  { example_frame with
    begin_env :=
      { example_frame.begin_env with
        res_fence := VkResult.VK_ERROR_OUT_OF_DEVICE_MEMORY
        acquire := [(VkResult.VK_ERROR_SURFACE_LOST_KHR, true)] } }

/-- Link between the state and the checker for `no_double_signal`: the pending semaphores
are `trace_finished` semaphores of the slot of the frame before the current one, and
the flag of that slot is set. -/
def signal_link (N : Nat) (P : List Semaphore) (st : QvkState) : Prop :=
  ∀ p ∈ P, ∃ c : Nat, st.frame_counter = c + 1 ∧
    st.trace_signaled.getD (c % N) false = true ∧
    p ∈ gpu_semaphores st.device_count (c % N) SemaphoreKind.trace_finished

/-! ## Double precision arithmetic

`drs_process` computes in the C type `double`.  The definitions of this section follow
its operations one by one in IEEE 754 binary64 arithmetic with the default rounding
(to nearest, ties to even): every operation of the source is rounded once to
binary64, without extended precision and without fused multiply-add.  The exact
definitions above describe the same controller without the rounding. -/

/-- A value of the C type `double`: a finite number, an infinity or a NaN.  A finite
value is meant to be a binary64 number; every operation below rounds its result
to one.  Zero carries no sign: a zero divisor counts as `+0`. -/
inductive Double where
  | finite (q : ℚ)
  | pos_inf
  | neg_inf
  | nan
deriving DecidableEq, Repr

/-- The nearest integer, the even one of the two when they are equally near. -/
def round_half_even (y : ℚ) : Int :=
  if y - ⌊y⌋ < 1 / 2 then ⌊y⌋
  else if 1 / 2 < y - ⌊y⌋ then ⌊y⌋ + 1
  else if ⌊y⌋ % 2 = 0 then ⌊y⌋ else ⌊y⌋ + 1

/-- The exponent of the last place of the binary64 numbers next to `x`: 52 places
below the leading bit of `x`, and `-1074` for the subnormal numbers. -/
def double_exponent (x : ℚ) : Int :=
  max (Int.log 2 |x|) (-1022) - 52

/-- Rounding of an exact result to binary64: the nearest multiple of the last place,
ties to the even multiple, and an infinity when that is `2^1024` or more in
magnitude. -/
def round_double (x : ℚ) : Double :=
  if (2 : ℚ) ^ (1024 : Nat) ≤
      |(round_half_even (x / (2 : ℚ) ^ double_exponent x) : ℚ) * (2 : ℚ) ^ double_exponent x| then
    (if 0 < x then Double.pos_inf else Double.neg_inf)
  else Double.finite ((round_half_even (x / (2 : ℚ) ^ double_exponent x) : ℚ) *
    (2 : ℚ) ^ double_exponent x)

/-- Unary minus. -/
def Double.neg : Double → Double
  | Double.finite q => Double.finite (-q)
  | Double.pos_inf => Double.neg_inf
  | Double.neg_inf => Double.pos_inf
  | Double.nan => Double.nan

/-- The sum of two doubles. -/
def Double.add : Double → Double → Double
  | Double.finite a, Double.finite b => round_double (a + b)
  | Double.finite _, Double.pos_inf => Double.pos_inf
  | Double.finite _, Double.neg_inf => Double.neg_inf
  | Double.finite _, Double.nan => Double.nan
  | Double.pos_inf, Double.finite _ => Double.pos_inf
  | Double.pos_inf, Double.pos_inf => Double.pos_inf
  | Double.pos_inf, Double.neg_inf => Double.nan
  | Double.pos_inf, Double.nan => Double.nan
  | Double.neg_inf, Double.finite _ => Double.neg_inf
  | Double.neg_inf, Double.pos_inf => Double.nan
  | Double.neg_inf, Double.neg_inf => Double.neg_inf
  | Double.neg_inf, Double.nan => Double.nan
  | Double.nan, _ => Double.nan

/-- The difference of two doubles. -/
def Double.sub (a b : Double) : Double :=
  Double.add a (Double.neg b)

/-- The product of two doubles. -/
def Double.mul : Double → Double → Double
  | Double.finite a, Double.finite b => round_double (a * b)
  | Double.finite a, Double.pos_inf =>
    if a = 0 then Double.nan else if 0 < a then Double.pos_inf else Double.neg_inf
  | Double.finite a, Double.neg_inf =>
    if a = 0 then Double.nan else if 0 < a then Double.neg_inf else Double.pos_inf
  | Double.finite _, Double.nan => Double.nan
  | Double.pos_inf, Double.finite b =>
    if b = 0 then Double.nan else if 0 < b then Double.pos_inf else Double.neg_inf
  | Double.pos_inf, Double.pos_inf => Double.pos_inf
  | Double.pos_inf, Double.neg_inf => Double.neg_inf
  | Double.pos_inf, Double.nan => Double.nan
  | Double.neg_inf, Double.finite b =>
    if b = 0 then Double.nan else if 0 < b then Double.neg_inf else Double.pos_inf
  | Double.neg_inf, Double.pos_inf => Double.neg_inf
  | Double.neg_inf, Double.neg_inf => Double.pos_inf
  | Double.neg_inf, Double.nan => Double.nan
  | Double.nan, _ => Double.nan

/-- The quotient of two doubles. -/
def Double.div : Double → Double → Double
  | Double.finite a, Double.finite b =>
    if b = 0 then
      (if a = 0 then Double.nan else if 0 < a then Double.pos_inf else Double.neg_inf)
    else round_double (a / b)
  | Double.finite _, Double.pos_inf => Double.finite 0
  | Double.finite _, Double.neg_inf => Double.finite 0
  | Double.finite _, Double.nan => Double.nan
  | Double.pos_inf, Double.finite b => if 0 ≤ b then Double.pos_inf else Double.neg_inf
  | Double.pos_inf, Double.pos_inf => Double.nan
  | Double.pos_inf, Double.neg_inf => Double.nan
  | Double.pos_inf, Double.nan => Double.nan
  | Double.neg_inf, Double.finite b => if 0 ≤ b then Double.neg_inf else Double.pos_inf
  | Double.neg_inf, Double.pos_inf => Double.nan
  | Double.neg_inf, Double.neg_inf => Double.nan
  | Double.neg_inf, Double.nan => Double.nan
  | Double.nan, _ => Double.nan

/-- The comparison `a < b` of two doubles; a comparison with a NaN is false. -/
def Double.lt : Double → Double → Bool
  | Double.finite a, Double.finite b => decide (a < b)
  | Double.finite _, Double.pos_inf => true
  | Double.finite _, Double.neg_inf => false
  | Double.finite _, Double.nan => false
  | Double.pos_inf, _ => false
  | Double.neg_inf, Double.finite _ => true
  | Double.neg_inf, Double.pos_inf => true
  | Double.neg_inf, Double.neg_inf => false
  | Double.neg_inf, Double.nan => false
  | Double.nan, _ => false

/-- The comparison `a > b` of two doubles. -/
def Double.gt (a b : Double) : Bool :=
  Double.lt b a

/-- The range of the C type `int`. -/
def int_range (z : Int) : Prop :=
  -2147483648 ≤ z ∧ z ≤ 2147483647

instance (z : Int) : Decidable (int_range z) := by
  unfold int_range
  infer_instance

/-- Conversion of a double to `int`: the fractional part is discarded.  The
conversion of a NaN, of an infinity and of a value whose integer part is not in
the range of `int` is undefined. -/
def Double.to_int : Double → Option Int
  | Double.finite q => if int_range (Q2RTX.to_int q) then some (Q2RTX.to_int q) else none
  | Double.pos_inf => none
  | Double.neg_inf => none
  | Double.nan => none

/-- Conversion of an `int` to double. -/
def Double.of_int (z : Int) : Double :=
  round_double (z : ℚ)

/-- The result of an operation on ints: undefined when it is not in the range of
`int`. -/
def int_result (z : Int) : Option Int :=
  if int_range z then some z else none

/-- Modelled from the spec: the macro `clamp(a, b, c)` as in `clamp`, applied to a double:
a value below the first bound becomes that bound, otherwise a value above the
second bound becomes that bound; a NaN is below and above nothing and stays. -/
def clamp_double (a b c : Double) : Double :=
  if Double.lt a b = true then b else if Double.gt a c = true then c else a

/-- The accumulation loop `for (i = 1; i < SCALING_FRAMES - 1; i++)` over the sorted
samples and the division by `SCALING_FRAMES - 2`, each addition and the division
rounded. -/
def representative_time_double (sorted : List ℚ) : Double :=
  Double.div
    (Double.add
      (Double.add (Double.add (Double.finite 0) (Double.finite (sorted.getD 1 0)))
        (Double.finite (sorted.getD 2 0)))
      (Double.finite (sorted.getD 3 0)))
    (Double.finite 3)

/-- The local `target_time` of `drs_process`: `1000.0 / cvar_drs_target->value`.  The `value`
member of a cvar is a `float`, which converts to double without change. -/
def target_time_double (c : Cvars) : Double :=
  Double.div (Double.finite 1000) (Double.finite c.drs_target)

/-- The local `f` of `drs_process` as initialized:
`cvar_drs_gain->value * (1.0 - representative_time / target_time) - 1.0`. -/
def regulator_double (c : Cvars) (rep : Double) : Double :=
  Double.sub
    (Double.mul (Double.finite c.drs_gain)
      (Double.sub (Double.finite 1) (Double.div rep (target_time_double c))))
    (Double.finite 1)

/-- The test of the first branch of `drs_process`:
`representative_time < target_time * cvar_drs_adjust_up->value`. -/
def drs_headroom_double (c : Cvars) (rep : Double) : Bool :=
  Double.lt rep (Double.mul (target_time_double c) (Double.finite c.drs_adjust_up))

/-- The test of the second branch of `drs_process`:
`representative_time > target_time * cvar_drs_adjust_down->value`. -/
def drs_overload_double (c : Cvars) (rep : Double) : Bool :=
  Double.gt rep (Double.mul (target_time_double c) (Double.finite c.drs_adjust_down))

/-- The local `scale` of `drs_process` after the two branches, in double arithmetic:
`f += 0.5; clamp(f, 1, 10); scale += (int)f;` in the first branch, and
`f -= 0.5; clamp(f, -1, -10); scale += f;` in the second, where `scale += f` is
`scale = (int)((double)scale + f)`. -/
def drs_raw_scale_double (c : Cvars) (current_scale : Int) (rep : Double) : Option Int :=
  if drs_headroom_double c rep = true then
    (Double.to_int (clamp_double (Double.add (regulator_double c rep) (Double.finite (1 / 2)))
      (Double.finite 1) (Double.finite 10))).bind
      (fun step => int_result (current_scale + step))
  else if drs_overload_double c rep = true then
    Double.to_int (Double.add (Double.of_int current_scale)
      (clamp_double (Double.sub (regulator_double c rep) (Double.finite (1 / 2)))
        (Double.finite (-1)) (Double.finite (-10))))
  else
    some current_scale

/-- `drs_process` in double arithmetic, with the frame time read from the profiler as
the argument `ms`, a finite number.  The result is `none` when the behaviour of a
conversion in the scaling decision is undefined. -/
def drs_process_double (c : Cvars) (ms : ℚ) (s : DrsState) : Option DrsState :=
  if c.drs_enable = 0 then
    some { s with
      num_valid_frames := 0
      drs_effective_scale :=
        if is_accumulation_rendering_active c = true then max 100 c.scr_viewsize else 0 }
  else if is_accumulation_rendering_active c = true then
    some { s with
      num_valid_frames := 0
      drs_effective_scale := max c.drs_minscale c.drs_maxscale }
  else if ms < 0 ∨ ms > 1000 then
    some { s with drs_effective_scale := s.drs_current_scale }
  else if s.num_valid_frames + 1 < SCALING_FRAMES then
    some { s with
      drs_effective_scale := s.drs_current_scale
      valid_frame_times := s.valid_frame_times.set s.num_valid_frames ms
      num_valid_frames := s.num_valid_frames + 1 }
  else
    (drs_raw_scale_double c s.drs_current_scale
      (representative_time_double
        (qsort compare_doubles (s.valid_frame_times.set s.num_valid_frames ms)))).map
      (fun scale =>
        { drs_current_scale := max c.drs_minscale (min c.drs_maxscale scale)
          drs_effective_scale := max c.drs_minscale (min c.drs_maxscale scale)
          num_valid_frames := 0
          valid_frame_times :=
            qsort compare_doubles (s.valid_frame_times.set s.num_valid_frames ms) })

/-- A run of frames under a fixed configuration in double arithmetic: one call of
`drs_process` per measured frame time. -/
def drs_frames_double (c : Cvars) : List ℚ → DrsState → Option DrsState
  | [], s => some s
  | ms :: rest, s => (drs_process_double c ms s).bind (drs_frames_double c rest)

/-- The values `drs_init` registers, with the two fractional defaults as the `float`
members of the cvars hold them: `0.92f` and `0.98f`. -/
def Cvars.default_float : Cvars :=
  { Cvars.default with
    drs_adjust_up := 15435039 / 16777216
    drs_adjust_down := 2055209 / 2097152 }

/-- The samples of window `k` of a run that starts with an empty ring and holds valid
frame times only: five consecutive samples. -/
def drs_window_samples (ts : List ℚ) (k : Nat) : List ℚ :=
  (ts.drop (5 * k)).take 5

/-- An `int` that one step of the regulator, of at most 10 either way, does not take
out of the range of `int`. -/
def scale_range (z : Int) : Prop :=
  -2147483638 ≤ z ∧ z ≤ 2147483637

instance (z : Int) : Decidable (scale_range z) := by
  unfold scale_range
  infer_instance
/-! ## Lemmas on the matcher loops -/

theorem getElem?_set_ite (l : List Int) (i k : Nat) (v : Int) :
    (l.set i v)[k]? = if k = i ∧ i < l.length then some v else l[k]? := by
  rw [List.getElem?_set]
  by_cases h : i = k
  · subst h
    by_cases h2 : i < l.length
    · simp [h2]
    · have : l[i]? = none := List.getElem?_eq_none (by omega)
      simp [h2, this]
  · have h' : ¬ k = i := fun e => h e.symm
    simp [h, h']

theorem last_index_eq_sentinel (p : Nat → Bool) (n : Nat) :
    last_index p n = SENTINEL ↔ ∀ j, j < n → p j = false := by
  induction n with
  | zero => simp [last_index]
  | succ n ih =>
    unfold last_index
    by_cases h : p n = true
    · rw [if_pos h]
      constructor
      · intro e
        simp only [SENTINEL] at e
        omega
      · intro hall
        have := hall n (Nat.lt_succ_self n)
        simp [h] at this
    · rw [if_neg h, ih]
      constructor
      · intro hall j hj
        rcases Nat.lt_succ_iff_lt_or_eq.mp hj with hlt | heq
        · exact hall j hlt
        · subst heq; simpa using h
      · intro hall j hj
        exact hall j (Nat.lt_succ_of_lt hj)

theorem last_index_spec (p : Nat → Bool) (n : Nat) (v : Int) (hv : v ≠ SENTINEL) :
    last_index p n = v ↔
      ∃ j : Nat, v = (j : Int) ∧ j < n ∧ p j = true ∧
        ∀ j2 : Nat, j < j2 → j2 < n → p j2 = false := by
  induction n with
  | zero =>
    simp only [last_index]
    constructor
    · intro e; exact absurd e.symm hv
    · rintro ⟨j, _, hj, _⟩; omega
  | succ n ih =>
    unfold last_index
    by_cases h : p n = true
    · rw [if_pos h]
      constructor
      · intro e
        refine ⟨n, e.symm, Nat.lt_succ_self n, h, ?_⟩
        intro j2 h1 h2; omega
      · rintro ⟨j, hvj, hj, hpj, hlast⟩
        by_cases hjn : j = n
        · subst hjn; exact hvj.symm
        · have hlt : j < n := by omega
          have := hlast n hlt (Nat.lt_succ_self n)
          simp [h] at this
    · rw [if_neg h, ih]
      constructor
      · rintro ⟨j, hvj, hj, hpj, hlast⟩
        refine ⟨j, hvj, Nat.lt_succ_of_lt hj, hpj, ?_⟩
        intro j2 h1 h2
        rcases Nat.lt_succ_iff_lt_or_eq.mp h2 with hlt | heq
        · exact hlast j2 h1 hlt
        · subst heq; simpa using h
      · rintro ⟨j, hvj, hj, hpj, hlast⟩
        have hjn : j ≠ n := by
          intro e; subst e; exact h hpj
        refine ⟨j, hvj, by omega, hpj, ?_⟩
        intro j2 h1 h2
        exact hlast j2 h1 (Nat.lt_succ_of_lt h2)

theorem match_body_eq (guard : Int → Bool) (cur prev : List Int) (i j : Nat) (m : IdentityMap) :
    match_body guard cur prev i j m =
      if hit guard cur prev i j = true then
        { current_to_prev := m.current_to_prev.set i (j : Int),
          prev_to_current := m.prev_to_current.set j (i : Int) }
      else m := by
  unfold match_body hit
  by_cases h : cur.getD i 0 = prev.getD j 0 ∧ guard (cur.getD i 0) = true
  · rw [if_pos h, if_pos (by simpa using h)]
  · rw [if_neg h, if_neg (by simpa using h)]

theorem match_inner_length (guard : Int → Bool) (cur prev : List Int) (i n : Nat)
    (m : IdentityMap) :
    (match_inner guard cur prev i n m).current_to_prev.length = m.current_to_prev.length ∧
    (match_inner guard cur prev i n m).prev_to_current.length = m.prev_to_current.length := by
  induction n with
  | zero => simp [match_inner]
  | succ n ih =>
    simp only [match_inner, match_body_eq]
    by_cases h : hit guard cur prev i n = true
    · rw [if_pos h]; simp [ih.1, ih.2]
    · rw [if_neg h]; exact ih

theorem match_inner_c2p (guard : Int → Bool) (cur prev : List Int) (i n : Nat)
    (m : IdentityMap) (k : Nat) :
    (match_inner guard cur prev i n m).current_to_prev[k]? =
      if k = i ∧ i < m.current_to_prev.length ∧ last_index (hit guard cur prev i) n ≠ SENTINEL
      then some (last_index (hit guard cur prev i) n) else m.current_to_prev[k]? := by
  induction n with
  | zero => simp [match_inner, last_index]
  | succ n ih =>
    simp only [match_inner, match_body_eq, last_index]
    by_cases h : hit guard cur prev i n = true
    · simp only [if_pos h]
      simp only [getElem?_set_ite, (match_inner_length guard cur prev i n m).1]
      have hn : ((n : Int) ≠ SENTINEL) := by simp only [SENTINEL]; omega
      by_cases hk : k = i ∧ i < m.current_to_prev.length
      · rw [if_pos hk, if_pos ⟨hk.1, hk.2, hn⟩]
      · rw [if_neg hk, if_neg (fun c => hk ⟨c.1, c.2.1⟩), ih,
          if_neg (fun c => hk ⟨c.1, c.2.1⟩)]
    · simp only [if_neg h]
      exact ih

theorem match_inner_p2c (guard : Int → Bool) (cur prev : List Int) (i n : Nat)
    (m : IdentityMap) (k : Nat) :
    (match_inner guard cur prev i n m).prev_to_current[k]? =
      if k < n ∧ k < m.prev_to_current.length ∧ hit guard cur prev i k = true
      then some (i : Int) else m.prev_to_current[k]? := by
  induction n with
  | zero => simp [match_inner]
  | succ n ih =>
    simp only [match_inner, match_body_eq]
    by_cases h : hit guard cur prev i n = true
    · rw [if_pos h]
      simp only [getElem?_set_ite, (match_inner_length guard cur prev i n m).2]
      by_cases hk : k = n
      · subst hk
        by_cases hl : k < m.prev_to_current.length
        · rw [if_pos ⟨rfl, hl⟩, if_pos ⟨Nat.lt_succ_self k, hl, h⟩]
        · rw [if_neg (fun c => hl c.2), ih, if_neg (fun c => hl c.2.1),
            if_neg (fun c => hl c.2.1)]
      · rw [if_neg (fun c => hk c.1), ih]
        by_cases hc : k < n ∧ k < m.prev_to_current.length ∧ hit guard cur prev i k = true
        · rw [if_pos hc, if_pos ⟨Nat.lt_succ_of_lt hc.1, hc.2⟩]
        · rw [if_neg hc, if_neg (fun c => hc ⟨by omega, c.2⟩)]
    · rw [if_neg h, ih]
      by_cases hc : k < n ∧ k < m.prev_to_current.length ∧ hit guard cur prev i k = true
      · rw [if_pos hc, if_pos ⟨Nat.lt_succ_of_lt hc.1, hc.2⟩]
      · rw [if_neg hc, if_neg]
        rintro ⟨c1, c2, c3⟩
        by_cases hk : k = n
        · subst hk; exact h c3
        · exact hc ⟨by omega, c2, c3⟩

theorem match_outer_length (guard : Int → Bool) (cur prev : List Int) (pc n : Nat)
    (m : IdentityMap) :
    (match_outer guard cur prev pc n m).current_to_prev.length = m.current_to_prev.length ∧
    (match_outer guard cur prev pc n m).prev_to_current.length = m.prev_to_current.length := by
  induction n with
  | zero => simp [match_outer]
  | succ n ih =>
    simp only [match_outer]
    have h := match_inner_length guard cur prev n pc (match_outer guard cur prev pc n m)
    exact ⟨h.1.trans ih.1, h.2.trans ih.2⟩

theorem match_outer_c2p (guard : Int → Bool) (cur prev : List Int) (pc n : Nat)
    (m : IdentityMap) (k : Nat) :
    (match_outer guard cur prev pc n m).current_to_prev[k]? =
      if k < n ∧ k < m.current_to_prev.length ∧ last_index (hit guard cur prev k) pc ≠ SENTINEL
      then some (last_index (hit guard cur prev k) pc) else m.current_to_prev[k]? := by
  induction n with
  | zero => simp [match_outer]
  | succ n ih =>
    simp only [match_outer]
    rw [match_inner_c2p, (match_outer_length guard cur prev pc n m).1, ih]
    by_cases hk : k = n
    · subst hk
      by_cases hc : k < m.current_to_prev.length ∧
          last_index (hit guard cur prev k) pc ≠ SENTINEL
      · rw [if_pos ⟨rfl, hc⟩, if_pos ⟨Nat.lt_succ_self k, hc⟩]
      · rw [if_neg (fun c => hc c.2), if_neg (fun c => Nat.lt_irrefl k c.1),
          if_neg (fun c => hc c.2)]
    · rw [if_neg (fun c => hk c.1)]
      by_cases hc : k < n ∧ k < m.current_to_prev.length ∧
          last_index (hit guard cur prev k) pc ≠ SENTINEL
      · rw [if_pos hc, if_pos ⟨Nat.lt_succ_of_lt hc.1, hc.2⟩]
      · rw [if_neg hc, if_neg (fun c => hc ⟨by omega, c.2⟩)]

theorem match_outer_p2c (guard : Int → Bool) (cur prev : List Int) (pc n : Nat)
    (m : IdentityMap) (k : Nat) :
    (match_outer guard cur prev pc n m).prev_to_current[k]? =
      if k < pc ∧ k < m.prev_to_current.length ∧
          last_index (fun i => hit guard cur prev i k) n ≠ SENTINEL
      then some (last_index (fun i => hit guard cur prev i k) n)
      else m.prev_to_current[k]? := by
  induction n with
  | zero => simp [match_outer, last_index]
  | succ n ih =>
    simp only [match_outer, last_index]
    rw [match_inner_p2c, (match_outer_length guard cur prev pc n m).2, ih]
    have hn : ((n : Int) ≠ SENTINEL) := by simp only [SENTINEL]; omega
    by_cases h : hit guard cur prev n k = true
    · simp only [if_pos h]
      by_cases hc : k < pc ∧ k < m.prev_to_current.length
      · rw [if_pos ⟨hc.1, hc.2, h⟩, if_pos ⟨hc.1, hc.2, hn⟩]
      · rw [if_neg (fun c => hc ⟨c.1, c.2.1⟩), if_neg (fun c => hc ⟨c.1, c.2.1⟩),
          if_neg (fun c => hc ⟨c.1, c.2.1⟩)]
    · simp only [if_neg h]
      rw [if_neg (fun c => h c.2.2)]

theorem getElem?_memset (size k : Nat) (hk : k < size) :
    (List.replicate size SENTINEL)[k]? = some SENTINEL := by
  rw [List.getElem?_replicate, if_pos hk]

theorem match_family_length (guard : Int → Bool) (size : Nat) (cur prev : List Int)
    (n pc : Nat) :
    (match_family guard size cur prev n pc).current_to_prev.length = size ∧
    (match_family guard size cur prev n pc).prev_to_current.length = size := by
  unfold match_family
  have h := match_outer_length guard cur prev pc n (memset_map size)
  simp only [memset_map, List.length_replicate] at h
  exact h

theorem match_family_c2p (guard : Int → Bool) (size : Nat) (cur prev : List Int)
    (n pc k : Nat) (hk : k < size) :
    (match_family guard size cur prev n pc).current_to_prev[k]? =
      some (if k < n then last_index (hit guard cur prev k) pc else SENTINEL) := by
  unfold match_family
  rw [match_outer_c2p]
  simp only [memset_map, List.length_replicate, getElem?_memset size k hk]
  by_cases h1 : k < n
  · by_cases h2 : last_index (hit guard cur prev k) pc = SENTINEL
    · rw [if_neg (fun c => c.2.2 h2), if_pos h1, h2]
    · rw [if_pos ⟨h1, hk, h2⟩, if_pos h1]
  · rw [if_neg (fun c => h1 c.1), if_neg h1]

theorem match_family_p2c (guard : Int → Bool) (size : Nat) (cur prev : List Int)
    (n pc k : Nat) (hk : k < size) :
    (match_family guard size cur prev n pc).prev_to_current[k]? =
      some (if k < pc then last_index (fun i => hit guard cur prev i k) n else SENTINEL) := by
  unfold match_family
  rw [match_outer_p2c]
  simp only [memset_map, List.length_replicate, getElem?_memset size k hk]
  by_cases h1 : k < pc
  · by_cases h2 : last_index (fun i => hit guard cur prev i k) n = SENTINEL
    · rw [if_neg (fun c => c.2.2 h2), if_pos h1, h2]
    · rw [if_pos ⟨h1, hk, h2⟩, if_pos h1]
  · rw [if_neg (fun c => h1 c.1), if_neg h1]

theorem hit_world (cur prev : List Int) (i j : Nat) :
    hit world_guard cur prev i j = true ↔ cur.getD i 0 = prev.getD j 0 := by
  simp [hit, world_guard]

theorem hit_model (cur prev : List Int) (i j : Nat) :
    hit model_guard cur prev i j = true ↔
      (cur.getD i 0 = prev.getD j 0 ∧ (hash_of_int (cur.getD i 0)).entity ≠ 0) := by
  simp [hit, model_guard]

theorem set_slot_same {α : Type} (f : Bool → α) (b : Bool) (v : α) :
    set_slot f b v b = v := by
  simp [set_slot]

theorem set_slot_other {α : Type} (f : Bool → α) (b : Bool) (v : α) :
    set_slot f b v (!b) = f (!b) := by
  cases b <;> simp [set_slot]

theorem set_slot_other2 {α : Type} (f : Bool → α) (b : Bool) (v : α) :
    set_slot f (!b) v b = f b := by
  cases b <;> simp [set_slot]

theorem prepare_world_eq (L : Limits) (st : MatcherState) (w k : List Int) :
    (prepare_entities L st w k).2.world =
      match_family world_guard L.SHADER_MAX_BSP_ENTITIES
        ((prepare_entities L st w k).1.world_entity_ids (prepare_entities L st w k).1.entity_frame_num)
        ((prepare_entities L st w k).1.world_entity_ids
          (!(prepare_entities L st w k).1.entity_frame_num))
        (prepare_entities L st w k).1.world_cur_count
        (prepare_entities L st w k).1.world_prev_count := rfl

theorem prepare_model_eq (L : Limits) (st : MatcherState) (w k : List Int) :
    (prepare_entities L st w k).2.model =
      match_family model_guard L.SHADER_MAX_ENTITIES
        ((prepare_entities L st w k).1.model_entity_ids (prepare_entities L st w k).1.entity_frame_num)
        ((prepare_entities L st w k).1.model_entity_ids
          (!(prepare_entities L st w k).1.entity_frame_num))
        (prepare_entities L st w k).1.model_cur_count
        (prepare_entities L st w k).1.model_prev_count := rfl

theorem prepare_counts (L : Limits) (st : MatcherState) (w k : List Int)
    (hwf : st.WellFormed L) :
    (prepare_entities L st w k).1.world_cur_count ≤ L.SHADER_MAX_BSP_ENTITIES ∧
    (prepare_entities L st w k).1.world_prev_count ≤ L.SHADER_MAX_BSP_ENTITIES ∧
    (prepare_entities L st w k).1.model_cur_count ≤ L.SHADER_MAX_ENTITIES ∧
    (prepare_entities L st w k).1.model_prev_count ≤ L.SHADER_MAX_ENTITIES := by
  obtain ⟨_, _, hb⟩ := hwf
  simp only [prepare_entities, MatcherState.world_cur_count, MatcherState.world_prev_count,
    MatcherState.model_cur_count, MatcherState.model_prev_count, set_slot_same, set_slot_other,
    set_slot_other2, Bool.not_not, List.length_take]
  refine ⟨Nat.min_le_left _ _, (hb _).2.2.1, Nat.min_le_left _ _, (hb _).2.2.2⟩

/-- What the loops leave in the tables of one family, entry by entry. -/
theorem family_entries (guard : Int → Bool) (size : Nat) (cur prev : List Int) (n pc : Nat)
    (hn : n ≤ size) (hpc : pc ≤ size) :
    (∀ i v, (match_family guard size cur prev n pc).current_to_prev[i]? = some v →
        v ≠ SENTINEL →
        ∃ j : Nat, v = (j : Int) ∧ i < n ∧ j < pc ∧ hit guard cur prev i j = true ∧
          ∀ j2 : Nat, j < j2 → j2 < pc → hit guard cur prev i j2 = false) ∧
    (∀ j v, (match_family guard size cur prev n pc).prev_to_current[j]? = some v →
        v ≠ SENTINEL →
        ∃ i : Nat, v = (i : Int) ∧ i < n ∧ j < pc ∧ hit guard cur prev i j = true ∧
          ∀ i2 : Nat, i < i2 → i2 < n → hit guard cur prev i2 j = false) ∧
    (∀ i j : Nat, i < n → j < pc → hit guard cur prev i j = true →
        (∀ j2 : Nat, j < j2 → j2 < pc → hit guard cur prev i j2 = false) →
        (match_family guard size cur prev n pc).current_to_prev[i]? = some (j : Int)) ∧
    (∀ i j : Nat, i < n → j < pc → hit guard cur prev i j = true →
        (∀ i2 : Nat, i < i2 → i2 < n → hit guard cur prev i2 j = false) →
        (match_family guard size cur prev n pc).prev_to_current[j]? = some (i : Int)) ∧
    (∀ i : Nat, i < size → (i < n → ∀ j : Nat, j < pc → hit guard cur prev i j = false) →
        (match_family guard size cur prev n pc).current_to_prev[i]? = some SENTINEL) ∧
    (∀ j : Nat, j < size → (j < pc → ∀ i : Nat, i < n → hit guard cur prev i j = false) →
        (match_family guard size cur prev n pc).prev_to_current[j]? = some SENTINEL) ∧
    (∀ i : Nat, i < n →
        (match_family guard size cur prev n pc).current_to_prev[i]? = some SENTINEL →
        ∀ j : Nat, j < pc → hit guard cur prev i j = false) ∧
    (∀ j : Nat, j < pc →
        (match_family guard size cur prev n pc).prev_to_current[j]? = some SENTINEL →
        ∀ i : Nat, i < n → hit guard cur prev i j = false) := by
  have hlen := match_family_length guard size cur prev n pc
  refine ⟨?_, ?_, ?_, ?_, ?_, ?_, ?_, ?_⟩
  · intro i v hv hne
    have hi : i < size := by
      have := (List.getElem?_eq_some_iff.mp hv).1
      rw [hlen.1] at this; exact this
    rw [match_family_c2p guard size cur prev n pc i hi] at hv
    have hv' := Option.some.inj hv
    by_cases h1 : i < n
    · rw [if_pos h1] at hv'
      obtain ⟨j, e, hj, hp, hl⟩ := (last_index_spec _ pc v hne).mp hv'
      exact ⟨j, e, h1, hj, hp, hl⟩
    · rw [if_neg h1] at hv'
      exact absurd hv'.symm hne
  · intro j v hv hne
    have hj : j < size := by
      have := (List.getElem?_eq_some_iff.mp hv).1
      rw [hlen.2] at this; exact this
    rw [match_family_p2c guard size cur prev n pc j hj] at hv
    have hv' := Option.some.inj hv
    by_cases h1 : j < pc
    · rw [if_pos h1] at hv'
      obtain ⟨i, e, hi, hp, hl⟩ := (last_index_spec _ n v hne).mp hv'
      exact ⟨i, e, hi, h1, hp, hl⟩
    · rw [if_neg h1] at hv'
      exact absurd hv'.symm hne
  · intro i j hi hj hp hl
    rw [match_family_c2p guard size cur prev n pc i (by omega), if_pos hi]
    have hne : ((j : Int) ≠ SENTINEL) := by simp only [SENTINEL]; omega
    rw [(last_index_spec _ pc (j : Int) hne).mpr ⟨j, rfl, hj, hp, hl⟩]
  · intro i j hi hj hp hl
    rw [match_family_p2c guard size cur prev n pc j (by omega), if_pos hj]
    have hne : ((i : Int) ≠ SENTINEL) := by simp only [SENTINEL]; omega
    rw [(last_index_spec _ n (i : Int) hne).mpr ⟨i, rfl, hi, hp, hl⟩]
  · intro i hi hall
    rw [match_family_c2p guard size cur prev n pc i hi]
    by_cases h1 : i < n
    · rw [if_pos h1, (last_index_eq_sentinel _ pc).mpr (hall h1)]
    · rw [if_neg h1]
  · intro j hj hall
    rw [match_family_p2c guard size cur prev n pc j hj]
    by_cases h1 : j < pc
    · rw [if_pos h1, (last_index_eq_sentinel _ n).mpr (hall h1)]
    · rw [if_neg h1]
  · intro i hi hv
    rw [match_family_c2p guard size cur prev n pc i (by omega), if_pos hi] at hv
    exact (last_index_eq_sentinel _ pc).mp (Option.some.inj hv)
  · intro j hj hv
    rw [match_family_p2c guard size cur prev n pc j (by omega), if_pos hj] at hv
    exact (last_index_eq_sentinel _ n).mp (Option.some.inj hv)

/-- The world tables after `prepare_entities`, entry by entry, in terms of the
key lists of the two frames. -/
theorem world_tables (L : Limits) (st : MatcherState) (w k : List Int)
    (hwf : st.WellFormed L) (r : MatcherState × InstanceBuffer)
    (hr : r = prepare_entities L st w k) :
    (∀ i v, r.2.world.current_to_prev[i]? = some v → v ≠ SENTINEL →
        ∃ j : Nat, v = (j : Int) ∧ i < r.1.world_cur_count ∧ j < r.1.world_prev_count ∧
          r.1.world_cur i = r.1.world_prev j ∧
          ∀ j2 : Nat, j < j2 → j2 < r.1.world_prev_count → r.1.world_cur i ≠ r.1.world_prev j2) ∧
    (∀ j v, r.2.world.prev_to_current[j]? = some v → v ≠ SENTINEL →
        ∃ i : Nat, v = (i : Int) ∧ i < r.1.world_cur_count ∧ j < r.1.world_prev_count ∧
          r.1.world_cur i = r.1.world_prev j ∧
          ∀ i2 : Nat, i < i2 → i2 < r.1.world_cur_count → r.1.world_cur i2 ≠ r.1.world_prev j) ∧
    (∀ i j : Nat, i < r.1.world_cur_count → j < r.1.world_prev_count →
        r.1.world_cur i = r.1.world_prev j →
        (∀ j2 : Nat, j < j2 → j2 < r.1.world_prev_count → r.1.world_cur i ≠ r.1.world_prev j2) →
        r.2.world.current_to_prev[i]? = some (j : Int)) ∧
    (∀ i j : Nat, i < r.1.world_cur_count → j < r.1.world_prev_count →
        r.1.world_cur i = r.1.world_prev j →
        (∀ i2 : Nat, i < i2 → i2 < r.1.world_cur_count → r.1.world_cur i2 ≠ r.1.world_prev j) →
        r.2.world.prev_to_current[j]? = some (i : Int)) ∧
    (∀ i : Nat, i < L.SHADER_MAX_BSP_ENTITIES →
        (i < r.1.world_cur_count → ∀ j : Nat, j < r.1.world_prev_count →
          r.1.world_cur i ≠ r.1.world_prev j) →
        r.2.world.current_to_prev[i]? = some SENTINEL) ∧
    (∀ j : Nat, j < L.SHADER_MAX_BSP_ENTITIES →
        (j < r.1.world_prev_count → ∀ i : Nat, i < r.1.world_cur_count →
          r.1.world_cur i ≠ r.1.world_prev j) →
        r.2.world.prev_to_current[j]? = some SENTINEL) ∧
    (∀ i : Nat, i < r.1.world_cur_count → r.2.world.current_to_prev[i]? = some SENTINEL →
        ∀ j : Nat, j < r.1.world_prev_count → r.1.world_cur i ≠ r.1.world_prev j) ∧
    (∀ j : Nat, j < r.1.world_prev_count → r.2.world.prev_to_current[j]? = some SENTINEL →
        ∀ i : Nat, i < r.1.world_cur_count → r.1.world_cur i ≠ r.1.world_prev j) := by
  have hc := prepare_counts L st w k hwf
  rw [← hr] at hc
  have F := family_entries world_guard L.SHADER_MAX_BSP_ENTITIES
    (r.1.world_entity_ids r.1.entity_frame_num) (r.1.world_entity_ids (!r.1.entity_frame_num))
    r.1.world_cur_count r.1.world_prev_count hc.1 hc.2.1
  have e : r.2.world = match_family world_guard L.SHADER_MAX_BSP_ENTITIES
      (r.1.world_entity_ids r.1.entity_frame_num) (r.1.world_entity_ids (!r.1.entity_frame_num))
      r.1.world_cur_count r.1.world_prev_count := by
    rw [hr]; exact prepare_world_eq L st w k
  rw [← e] at F
  have hf : ∀ i j, hit world_guard (r.1.world_entity_ids r.1.entity_frame_num)
      (r.1.world_entity_ids (!r.1.entity_frame_num)) i j = false ↔
      r.1.world_cur i ≠ r.1.world_prev j := by
    intro i j
    rw [← Bool.not_eq_true, hit_world]; rfl
  simp only [hit_world, hf] at F
  exact F

/-- The model tables after `prepare_entities`, entry by entry, in terms of the
key lists of the two frames and of the guard on the entity member. -/
theorem model_tables (L : Limits) (st : MatcherState) (w k : List Int)
    (hwf : st.WellFormed L) (r : MatcherState × InstanceBuffer)
    (hr : r = prepare_entities L st w k) :
    (∀ i v, r.2.model.current_to_prev[i]? = some v → v ≠ SENTINEL →
        ∃ j : Nat, v = (j : Int) ∧ i < r.1.model_cur_count ∧ j < r.1.model_prev_count ∧
          (r.1.model_cur i = r.1.model_prev j ∧ (hash_of_int (r.1.model_cur i)).entity ≠ 0) ∧
          ∀ j2 : Nat, j < j2 → j2 < r.1.model_prev_count →
            ¬ (r.1.model_cur i = r.1.model_prev j2 ∧
              (hash_of_int (r.1.model_cur i)).entity ≠ 0)) ∧
    (∀ j v, r.2.model.prev_to_current[j]? = some v → v ≠ SENTINEL →
        ∃ i : Nat, v = (i : Int) ∧ i < r.1.model_cur_count ∧ j < r.1.model_prev_count ∧
          (r.1.model_cur i = r.1.model_prev j ∧ (hash_of_int (r.1.model_cur i)).entity ≠ 0) ∧
          ∀ i2 : Nat, i < i2 → i2 < r.1.model_cur_count →
            ¬ (r.1.model_cur i2 = r.1.model_prev j ∧
              (hash_of_int (r.1.model_cur i2)).entity ≠ 0)) ∧
    (∀ i j : Nat, i < r.1.model_cur_count → j < r.1.model_prev_count →
        (r.1.model_cur i = r.1.model_prev j ∧ (hash_of_int (r.1.model_cur i)).entity ≠ 0) →
        (∀ j2 : Nat, j < j2 → j2 < r.1.model_prev_count →
          ¬ (r.1.model_cur i = r.1.model_prev j2 ∧
            (hash_of_int (r.1.model_cur i)).entity ≠ 0)) →
        r.2.model.current_to_prev[i]? = some (j : Int)) ∧
    (∀ i j : Nat, i < r.1.model_cur_count → j < r.1.model_prev_count →
        (r.1.model_cur i = r.1.model_prev j ∧ (hash_of_int (r.1.model_cur i)).entity ≠ 0) →
        (∀ i2 : Nat, i < i2 → i2 < r.1.model_cur_count →
          ¬ (r.1.model_cur i2 = r.1.model_prev j ∧
            (hash_of_int (r.1.model_cur i2)).entity ≠ 0)) →
        r.2.model.prev_to_current[j]? = some (i : Int)) ∧
    (∀ i : Nat, i < L.SHADER_MAX_ENTITIES →
        (i < r.1.model_cur_count → ∀ j : Nat, j < r.1.model_prev_count →
          ¬ (r.1.model_cur i = r.1.model_prev j ∧
            (hash_of_int (r.1.model_cur i)).entity ≠ 0)) →
        r.2.model.current_to_prev[i]? = some SENTINEL) ∧
    (∀ j : Nat, j < L.SHADER_MAX_ENTITIES →
        (j < r.1.model_prev_count → ∀ i : Nat, i < r.1.model_cur_count →
          ¬ (r.1.model_cur i = r.1.model_prev j ∧
            (hash_of_int (r.1.model_cur i)).entity ≠ 0)) →
        r.2.model.prev_to_current[j]? = some SENTINEL) ∧
    (∀ i : Nat, i < r.1.model_cur_count → r.2.model.current_to_prev[i]? = some SENTINEL →
        ∀ j : Nat, j < r.1.model_prev_count →
          ¬ (r.1.model_cur i = r.1.model_prev j ∧
            (hash_of_int (r.1.model_cur i)).entity ≠ 0)) ∧
    (∀ j : Nat, j < r.1.model_prev_count → r.2.model.prev_to_current[j]? = some SENTINEL →
        ∀ i : Nat, i < r.1.model_cur_count →
          ¬ (r.1.model_cur i = r.1.model_prev j ∧
            (hash_of_int (r.1.model_cur i)).entity ≠ 0)) := by
  have hc := prepare_counts L st w k hwf
  rw [← hr] at hc
  have F := family_entries model_guard L.SHADER_MAX_ENTITIES
    (r.1.model_entity_ids r.1.entity_frame_num) (r.1.model_entity_ids (!r.1.entity_frame_num))
    r.1.model_cur_count r.1.model_prev_count hc.2.2.1 hc.2.2.2
  have e : r.2.model = match_family model_guard L.SHADER_MAX_ENTITIES
      (r.1.model_entity_ids r.1.entity_frame_num) (r.1.model_entity_ids (!r.1.entity_frame_num))
      r.1.model_cur_count r.1.model_prev_count := by
    rw [hr]; exact prepare_model_eq L st w k
  rw [← e] at F
  have hf : ∀ i j, hit model_guard (r.1.model_entity_ids r.1.entity_frame_num)
      (r.1.model_entity_ids (!r.1.entity_frame_num)) i j = false ↔
      ¬ (r.1.model_cur i = r.1.model_prev j ∧ (hash_of_int (r.1.model_cur i)).entity ≠ 0) := by
    intro i j
    rw [← Bool.not_eq_true, hit_model]; rfl
  simp only [hit_model, hf] at F
  exact F

theorem tables_length (L : Limits) (st : MatcherState) (w k : List Int) :
    (prepare_entities L st w k).2.world.current_to_prev.length = L.SHADER_MAX_BSP_ENTITIES ∧
    (prepare_entities L st w k).2.world.prev_to_current.length = L.SHADER_MAX_BSP_ENTITIES ∧
    (prepare_entities L st w k).2.model.current_to_prev.length = L.SHADER_MAX_ENTITIES ∧
    (prepare_entities L st w k).2.model.prev_to_current.length = L.SHADER_MAX_ENTITIES := by
  rw [prepare_world_eq, prepare_model_eq]
  exact ⟨(match_family_length _ _ _ _ _ _).1, (match_family_length _ _ _ _ _ _).2,
    (match_family_length _ _ _ _ _ _).1, (match_family_length _ _ _ _ _ _).2⟩

theorem store_ids_length (keys : List Int) (arr : List Int) (k : Nat) :
    (store_ids arr k keys).length = arr.length := by
  induction keys generalizing arr k with
  | nil => rfl
  | cons key rest ih => simp [store_ids, ih]

theorem store_ids_getElem? (keys : List Int) (arr : List Int) (k i : Nat)
    (hfit : k + keys.length ≤ arr.length) :
    (store_ids arr k keys)[i]? =
      if k ≤ i ∧ i < k + keys.length then keys[i - k]? else arr[i]? := by
  induction keys generalizing arr k with
  | nil =>
    simp only [store_ids, List.length_nil, Nat.add_zero]
    rw [if_neg (by omega)]
  | cons key rest ih =>
    simp only [store_ids, List.length_cons] at hfit ⊢
    rw [ih (arr.set k key) (k + 1) (by rw [List.length_set]; omega), getElem?_set_ite]
    by_cases h1 : k + 1 ≤ i ∧ i < k + 1 + rest.length
    · rw [if_pos h1, if_pos (by omega)]
      have : i - k = (i - (k + 1)) + 1 := by omega
      rw [this, List.getElem?_cons_succ]
    · rw [if_neg h1]
      by_cases h2 : i = k
      · subst h2
        rw [if_pos ⟨rfl, by omega⟩, if_pos (by omega)]
        simp
      · rw [if_neg (fun c => h2 c.1), if_neg (by omega)]

theorem store_ids_getD (keys : List Int) (arr : List Int) (i : Nat)
    (hfit : keys.length ≤ arr.length) (hi : i < keys.length) :
    (store_ids arr 0 keys).getD i 0 = keys.getD i 0 := by
  rw [List.getD_eq_getElem?_getD, List.getD_eq_getElem?_getD,
    store_ids_getElem? keys arr 0 i (by omega), if_pos (by omega)]
  simp

theorem prepare_wellFormed (L : Limits) (st : MatcherState) (w k : List Int)
    (hwf : st.WellFormed L) : (prepare_entities L st w k).1.WellFormed L := by
  obtain ⟨h1, h2, hb⟩ := hwf
  refine ⟨h1, h2, ?_⟩
  intro b
  simp only [prepare_entities, set_slot]
  by_cases hc : b = !st.entity_frame_num
  · simp only [hc, if_true, store_ids_length, List.length_take]
    exact ⟨(hb _).1, (hb _).2.1, Nat.min_le_left _ _, Nat.min_le_left _ _⟩
  · simp only [hc, if_false]
    exact hb b

/-- The key lists seen by the loops of a call of `prepare_entities`: this
frame's lists are the stored inputs, last frame's lists are those of the state
the call started from. -/
theorem prepare_view (L : Limits) (st : MatcherState) (w k : List Int)
    (hwf : st.WellFormed L) :
    (prepare_entities L st w k).1.world_cur_count = (w.take L.SHADER_MAX_BSP_ENTITIES).length ∧
    (prepare_entities L st w k).1.model_cur_count = (k.take L.SHADER_MAX_ENTITIES).length ∧
    (∀ i, i < (w.take L.SHADER_MAX_BSP_ENTITIES).length →
      (prepare_entities L st w k).1.world_cur i = (w.take L.SHADER_MAX_BSP_ENTITIES).getD i 0) ∧
    (∀ i, i < (k.take L.SHADER_MAX_ENTITIES).length →
      (prepare_entities L st w k).1.model_cur i = (k.take L.SHADER_MAX_ENTITIES).getD i 0) ∧
    (prepare_entities L st w k).1.world_prev_count = st.world_cur_count ∧
    (prepare_entities L st w k).1.model_prev_count = st.model_cur_count ∧
    (∀ j, (prepare_entities L st w k).1.world_prev j = st.world_cur j) ∧
    (∀ j, (prepare_entities L st w k).1.model_prev j = st.model_cur j) := by
  obtain ⟨h1, h2, hb⟩ := hwf
  simp only [prepare_entities, MatcherState.world_cur_count, MatcherState.world_prev_count,
    MatcherState.model_cur_count, MatcherState.model_prev_count, MatcherState.world_cur,
    MatcherState.world_prev, MatcherState.model_cur, MatcherState.model_prev,
    set_slot_same, set_slot_other2, Bool.not_not]
  refine ⟨trivial, trivial, ?_, ?_, trivial, trivial, fun _ => trivial, fun _ => trivial⟩
  · intro i hi
    apply store_ids_getD _ _ _ _ hi
    rw [(hb _).1, List.length_take]
    exact le_trans (Nat.min_le_left _ _) h1
  · intro i hi
    apply store_ids_getD _ _ _ _ hi
    rw [(hb _).2.1, List.length_take]
    exact le_trans (Nat.min_le_left _ _) h2

theorem nodup_getD_ne (l : List Int) (hl : l.Nodup) (i j : Nat) (hi : i < l.length)
    (hj : j < l.length) (hij : i ≠ j) : l.getD i 0 ≠ l.getD j 0 := by
  rw [List.getD_eq_getElem?_getD, List.getD_eq_getElem?_getD,
    List.getElem?_eq_getElem hi, List.getElem?_eq_getElem hj]
  simp only [Option.getD_some]
  intro e
  exact hij ((List.Nodup.getElem_inj_iff hl).mp e)

/-! ## Claims on the identity matcher -/

set_option maxRecDepth 20000

theorem wellFormed_after_init (L : Limits) (h1 : L.SHADER_MAX_BSP_ENTITIES ≤ L.MAX_ENTITIES)
    (h2 : L.SHADER_MAX_ENTITIES ≤ L.MAX_ENTITIES) : (MatcherState.init L).WellFormed L := by
  refine ⟨h1, h2, ?_⟩
  intro b
  simp [MatcherState.init]

/-- C1 (counterexample): one mesh instance of the previous frame whose key occurs
twice in the current frame (world id 5, and the model key of entity 5, model 3,
mesh 0).  In both families `current_to_prev[0] = 0` is not the sentinel, yet
`prev_to_current[0] = 1`, not `0`. -/
theorem C1_symmetry_counterexample :
    ((prepare_entities example_limits
        (prepare_entities example_limits (MatcherState.init example_limits) [5]
          [model_key 5 3 0]).1
        [5, 5] [model_key 5 3 0, model_key 5 3 0]).2.world.current_to_prev[0]? = some 0 ∧
      (prepare_entities example_limits
        (prepare_entities example_limits (MatcherState.init example_limits) [5]
          [model_key 5 3 0]).1
        [5, 5] [model_key 5 3 0, model_key 5 3 0]).2.world.prev_to_current[0]? = some 1) ∧
    ((prepare_entities example_limits
        (prepare_entities example_limits (MatcherState.init example_limits) [5]
          [model_key 5 3 0]).1
        [5, 5] [model_key 5 3 0, model_key 5 3 0]).2.model.current_to_prev[0]? = some 0 ∧
      (prepare_entities example_limits
        (prepare_entities example_limits (MatcherState.init example_limits) [5]
          [model_key 5 3 0]).1
        [5, 5] [model_key 5 3 0, model_key 5 3 0]).2.model.prev_to_current[0]? = some 1) := by
  decide

/-- C1 (amended): after `prepare_entities`, in each family, if
`current_to_prev[i] = j` is not the sentinel and no later index of the current
list holds the same key as index `i`, then `prev_to_current[j] = i`. -/
theorem C1_identity_symmetry (L : Limits) (st : MatcherState) (world_ids model_keys : List Int)
    (hwf : st.WellFormed L) (r : MatcherState × InstanceBuffer)
    (hr : r = prepare_entities L st world_ids model_keys) (i : Nat) (j : Int)
    (hj : j ≠ SENTINEL) :
    (r.2.world.current_to_prev[i]? = some j →
      (∀ i2 : Nat, i < i2 → i2 < r.1.world_cur_count → r.1.world_cur i2 ≠ r.1.world_cur i) →
      r.2.world.prev_to_current[j.toNat]? = some (i : Int)) ∧
    (r.2.model.current_to_prev[i]? = some j →
      (∀ i2 : Nat, i < i2 → i2 < r.1.model_cur_count → r.1.model_cur i2 ≠ r.1.model_cur i) →
      r.2.model.prev_to_current[j.toNat]? = some (i : Int)) := by
  constructor
  · intro h hlast
    have T := world_tables L st world_ids model_keys hwf r hr
    obtain ⟨j0, e, hi, hj0, hp, _⟩ := T.1 i j h hj
    subst e
    rw [Int.toNat_ofNat]
    refine T.2.2.2.1 i j0 hi hj0 hp ?_
    intro i2 h1 h2 e2
    exact hlast i2 h1 h2 (e2.trans hp.symm)
  · intro h hlast
    have T := model_tables L st world_ids model_keys hwf r hr
    obtain ⟨j0, e, hi, hj0, hp, _⟩ := T.1 i j h hj
    subst e
    rw [Int.toNat_ofNat]
    refine T.2.2.2.1 i j0 hi hj0 hp ?_
    intro i2 h1 h2 e2
    exact hlast i2 h1 h2 (e2.1.trans hp.1.symm)

/-- Witness for C1: the world lists `[5, 7]` after `[7, 5]`, at `i = 0` and `j = 1`. -/
theorem C1_identity_symmetry_witness :
    (prepare_entities example_limits
        (prepare_entities example_limits (MatcherState.init example_limits) [7, 5] []).1
        [5, 7] []).2.world.current_to_prev[0]? = some 1 ∧
    (prepare_entities example_limits
        (prepare_entities example_limits (MatcherState.init example_limits) [7, 5] []).1
        [5, 7] []).2.world.prev_to_current[1]? = some 0 :=
  ⟨by decide,
   (C1_identity_symmetry example_limits
      (prepare_entities example_limits (MatcherState.init example_limits) [7, 5] []).1
      [5, 7] []
      (prepare_wellFormed _ _ _ _ (wellFormed_after_init _ (by decide) (by decide)))
      _ rfl 0 1 (by decide)).1 (by decide) (by
        intro i2 h1 h2
        have h3 : i2 < 2 := h2
        have h4 : i2 = 1 := by omega
        subst h4
        decide)⟩

/-- C2: after `prepare_entities`, for every index `i` below the live count of
the current world list, `world_current_to_prev[i]` is not the sentinel exactly
when some index below the previous live count holds an equal key, and then it is
such an index; entries from the live count up to the array size are the
sentinel.  The same holds in the model family for the keys whose entity member
is not zero. -/
theorem C2_matching_result (L : Limits) (st : MatcherState) (world_ids model_keys : List Int)
    (hwf : st.WellFormed L) (r : MatcherState × InstanceBuffer)
    (hr : r = prepare_entities L st world_ids model_keys) :
    (∀ i : Nat, i < r.1.world_cur_count →
      ∃ v : Int, r.2.world.current_to_prev[i]? = some v ∧
        (v ≠ SENTINEL ↔ ∃ j : Nat, j < r.1.world_prev_count ∧ r.1.world_prev j = r.1.world_cur i) ∧
        (v ≠ SENTINEL → ∃ j : Nat, v = (j : Int) ∧ j < r.1.world_prev_count ∧
          r.1.world_prev j = r.1.world_cur i)) ∧
    (∀ i : Nat, r.1.world_cur_count ≤ i → i < L.SHADER_MAX_BSP_ENTITIES →
      r.2.world.current_to_prev[i]? = some SENTINEL) ∧
    (∀ i : Nat, i < r.1.model_cur_count → (hash_of_int (r.1.model_cur i)).entity ≠ 0 →
      ∃ v : Int, r.2.model.current_to_prev[i]? = some v ∧
        (v ≠ SENTINEL ↔ ∃ j : Nat, j < r.1.model_prev_count ∧ r.1.model_prev j = r.1.model_cur i) ∧
        (v ≠ SENTINEL → ∃ j : Nat, v = (j : Int) ∧ j < r.1.model_prev_count ∧
          r.1.model_prev j = r.1.model_cur i)) ∧
    (∀ i : Nat, r.1.model_cur_count ≤ i → i < L.SHADER_MAX_ENTITIES →
      r.2.model.current_to_prev[i]? = some SENTINEL) := by
  have hc := prepare_counts L st world_ids model_keys hwf
  have hlen := tables_length L st world_ids model_keys
  rw [← hr] at hc hlen
  have TW := world_tables L st world_ids model_keys hwf r hr
  have TM := model_tables L st world_ids model_keys hwf r hr
  refine ⟨?_, ?_, ?_, ?_⟩
  · intro i hi
    have hi2 : i < r.2.world.current_to_prev.length := by rw [hlen.1]; omega
    refine ⟨r.2.world.current_to_prev[i], List.getElem?_eq_getElem hi2, ?_, ?_⟩
    · constructor
      · intro hne
        obtain ⟨j, _, _, hj, hp, _⟩ := TW.1 i _ (List.getElem?_eq_getElem hi2) hne
        exact ⟨j, hj, hp.symm⟩
      · rintro ⟨j, hj, hp⟩ hs
        have hv : r.2.world.current_to_prev[i]? = some SENTINEL := by
          rw [List.getElem?_eq_getElem hi2, hs]
        exact TW.2.2.2.2.2.2.1 i hi hv j hj hp.symm
    · intro hne
      obtain ⟨j, e, _, hj, hp, _⟩ := TW.1 i _ (List.getElem?_eq_getElem hi2) hne
      exact ⟨j, e, hj, hp.symm⟩
  · intro i h1 h2
    exact TW.2.2.2.2.1 i h2 (fun c => absurd c (by omega))
  · intro i hi hent
    have hi2 : i < r.2.model.current_to_prev.length := by rw [hlen.2.2.1]; omega
    refine ⟨r.2.model.current_to_prev[i], List.getElem?_eq_getElem hi2, ?_, ?_⟩
    · constructor
      · intro hne
        obtain ⟨j, _, _, hj, hp, _⟩ := TM.1 i _ (List.getElem?_eq_getElem hi2) hne
        exact ⟨j, hj, hp.1.symm⟩
      · rintro ⟨j, hj, hp⟩ hs
        have hv : r.2.model.current_to_prev[i]? = some SENTINEL := by
          rw [List.getElem?_eq_getElem hi2, hs]
        exact TM.2.2.2.2.2.2.1 i hi hv j hj ⟨hp.symm, hent⟩
    · intro hne
      obtain ⟨j, e, _, hj, hp, _⟩ := TM.1 i _ (List.getElem?_eq_getElem hi2) hne
      exact ⟨j, e, hj, hp.1.symm⟩
  · intro i h1 h2
    exact TM.2.2.2.2.1 i h2 (fun c => absurd c (by omega))

/-- Witness for C2: world lists `[5, 9]` after `[7, 5]`: index 0 is matched to
previous index 1 and index 1, whose key is new, keeps the sentinel. -/
theorem C2_matching_result_witness :
    (prepare_entities example_limits
        (prepare_entities example_limits (MatcherState.init example_limits) [7, 5] []).1
        [5, 9] []).2.world.current_to_prev.take 3 = [1, -1, -1] ∧
    ∀ i : Nat, 2 ≤ i → i < 128 →
      (prepare_entities example_limits
        (prepare_entities example_limits (MatcherState.init example_limits) [7, 5] []).1
        [5, 9] []).2.world.current_to_prev[i]? = some SENTINEL :=
  ⟨by decide,
   (C2_matching_result example_limits
      (prepare_entities example_limits (MatcherState.init example_limits) [7, 5] []).1
      [5, 9] []
      (prepare_wellFormed _ _ _ _ (wellFormed_after_init _ (by decide) (by decide)))
      _ rfl).2.1⟩

/-- C3: a current model instance whose key has entity member 0 keeps the
sentinel in `model_current_to_prev`, and no entry of `model_prev_to_current`
is set to its index, whatever the previous list holds; the entity member of a
key written by `process_regular_entity` is the low 15 bits of `entity->id`. -/
theorem C3_model_no_entity_excluded (L : Limits) (st : MatcherState)
    (world_ids model_keys : List Int) (hwf : st.WellFormed L)
    (r : MatcherState × InstanceBuffer)
    (hr : r = prepare_entities L st world_ids model_keys) :
    (∀ i : Nat, i < r.1.model_cur_count → (hash_of_int (r.1.model_cur i)).entity = 0 →
      r.2.model.current_to_prev[i]? = some SENTINEL ∧
      ∀ j : Nat, r.2.model.prev_to_current[j]? ≠ some (i : Int)) ∧
    (∀ entity_id entity_model mesh_index : Int,
      (hash_of_int (model_key entity_id entity_model mesh_index)).entity = entity_id % 32768) := by
  have hc := prepare_counts L st world_ids model_keys hwf
  rw [← hr] at hc
  have TM := model_tables L st world_ids model_keys hwf r hr
  constructor
  · intro i hi hent
    constructor
    · exact TM.2.2.2.2.1 i (by omega) (fun _ j _ c => c.2 hent)
    · intro j hv
      have hne : ((i : Int) ≠ SENTINEL) := by simp only [SENTINEL]; omega
      obtain ⟨i0, e, _, _, hp, _⟩ := TM.2.1 j _ hv hne
      have : i = i0 := by exact_mod_cast e
      subst this
      exact hp.2 hent
  · intro entity_id entity_model mesh_index
    simp only [hash_of_int, model_key, to_int32, hash_bits, make_hash]
    split <;> omega

/-- Witness for C3: the key of entity id 0, model 3, mesh 1 in two consecutive
frames: the instance stays unmatched although the previous list holds the same
key. -/
theorem C3_model_no_entity_excluded_witness :
    (prepare_entities example_limits
        (prepare_entities example_limits (MatcherState.init example_limits) []
          [model_key 0 3 1]).1
        [] [model_key 0 3 1]).2.model.current_to_prev[0]? = some SENTINEL ∧
    ∀ j : Nat, (prepare_entities example_limits
        (prepare_entities example_limits (MatcherState.init example_limits) []
          [model_key 0 3 1]).1
        [] [model_key 0 3 1]).2.model.prev_to_current[j]? ≠ some ((0 : Nat) : Int) :=
  (C3_model_no_entity_excluded example_limits
      (prepare_entities example_limits (MatcherState.init example_limits) []
        [model_key 0 3 1]).1
      [] [model_key 0 3 1]
      (prepare_wellFormed _ _ _ _ (wellFormed_after_init _ (by decide) (by decide)))
      _ rfl).1 0 (by decide) (by decide)

/-- C4 (the code at the failing input): the world list `[0]` in two consecutive
frames.  The two zero keys are matched: `world_current_to_prev[0]` and
`world_prev_to_current[0]` are both `0`, not the sentinel. -/
theorem C4_world_zero_keys_match :
    (prepare_entities example_limits
        (prepare_entities example_limits (MatcherState.init example_limits) [0] []).1
        [0] []).2.world.current_to_prev[0]? = some 0 ∧
    (prepare_entities example_limits
        (prepare_entities example_limits (MatcherState.init example_limits) [0] []).1
        [0] []).2.world.prev_to_current[0]? = some 0 := by
  decide

/-- C5 (counterexample): two consecutive frames with identical lists.  With the
model list holding one key of entity id 0 the entry `model_current_to_prev[0]`
is the sentinel, and with the world list `[7, 7]` the entry
`world_current_to_prev[0]` is `1`; neither is `0`. -/
theorem C5_identity_permutation_counterexample :
    (prepare_entities example_limits
        (prepare_entities example_limits (MatcherState.init example_limits) [7, 7]
          [model_key 0 3 1]).1
        [7, 7] [model_key 0 3 1]).2.model.current_to_prev[0]? = some SENTINEL ∧
    (prepare_entities example_limits
        (prepare_entities example_limits (MatcherState.init example_limits) [7, 7]
          [model_key 0 3 1]).1
        [7, 7] [model_key 0 3 1]).2.world.current_to_prev[0]? = some 1 := by
  decide

/-- C5 (amended): when two consecutive calls of `prepare_entities` receive the
same key lists, then after the second call both tables of a family are the
identity on its live indices, provided the keys within that family's list are
pairwise distinct and, in the model family, every key has a non-zero entity
member. -/
theorem C5_identical_frames (L : Limits) (st : MatcherState) (world_ids model_keys : List Int)
    (hwf : st.WellFormed L) (r : MatcherState × InstanceBuffer)
    (hr : r = prepare_entities L (prepare_entities L st world_ids model_keys).1
      world_ids model_keys) :
    (world_ids.Nodup →
      ∀ i : Nat, i < world_ids.length → i < L.SHADER_MAX_BSP_ENTITIES →
        r.2.world.current_to_prev[i]? = some (i : Int) ∧
        r.2.world.prev_to_current[i]? = some (i : Int)) ∧
    (model_keys.Nodup → (∀ x ∈ model_keys, (hash_of_int x).entity ≠ 0) →
      ∀ i : Nat, i < model_keys.length → i < L.SHADER_MAX_ENTITIES →
        r.2.model.current_to_prev[i]? = some (i : Int) ∧
        r.2.model.prev_to_current[i]? = some (i : Int)) := by
  have wf1 := prepare_wellFormed L st world_ids model_keys hwf
  have V1 := prepare_view L st world_ids model_keys hwf
  have V2 := prepare_view L (prepare_entities L st world_ids model_keys).1 world_ids model_keys wf1
  rw [← hr] at V2
  obtain ⟨a1, a2, a3, a4, _, _, _, _⟩ := V1
  obtain ⟨b1, b2, b3, b4, b5, b6, b7, b8⟩ := V2
  constructor
  · intro hw i h1 h2
    have T := world_tables L _ world_ids model_keys wf1 r hr
    have hw2 : (world_ids.take L.SHADER_MAX_BSP_ENTITIES).Nodup :=
      List.Nodup.sublist (List.take_sublist _ _) hw
    have hlen : i < (world_ids.take L.SHADER_MAX_BSP_ENTITIES).length := by
      rw [List.length_take]; omega
    have hci : i < r.1.world_cur_count := by rw [b1]; exact hlen
    have hpi : i < r.1.world_prev_count := by rw [b5, a1]; exact hlen
    have hcur : ∀ x, x < (world_ids.take L.SHADER_MAX_BSP_ENTITIES).length →
        r.1.world_cur x = (world_ids.take L.SHADER_MAX_BSP_ENTITIES).getD x 0 := b3
    have hprev : ∀ x, x < (world_ids.take L.SHADER_MAX_BSP_ENTITIES).length →
        r.1.world_prev x = (world_ids.take L.SHADER_MAX_BSP_ENTITIES).getD x 0 := by
      intro x hx; rw [b7, a3 x hx]
    constructor
    · refine T.2.2.1 i i hci hpi ?_ ?_
      · rw [hcur i hlen, hprev i hlen]
      · intro j2 g1 g2
        have g3 : j2 < (world_ids.take L.SHADER_MAX_BSP_ENTITIES).length := by
          rw [b5, a1] at g2; exact g2
        rw [hcur i hlen, hprev j2 g3]
        exact nodup_getD_ne _ hw2 i j2 hlen g3 (by omega)
    · refine T.2.2.2.1 i i hci hpi ?_ ?_
      · rw [hcur i hlen, hprev i hlen]
      · intro i2 g1 g2
        have g3 : i2 < (world_ids.take L.SHADER_MAX_BSP_ENTITIES).length := by
          rw [b1] at g2; exact g2
        rw [hcur i2 g3, hprev i hlen]
        exact nodup_getD_ne _ hw2 i2 i g3 hlen (by omega)
  · intro hk hent i h1 h2
    have T := model_tables L _ world_ids model_keys wf1 r hr
    have hk2 : (model_keys.take L.SHADER_MAX_ENTITIES).Nodup :=
      List.Nodup.sublist (List.take_sublist _ _) hk
    have hlen : i < (model_keys.take L.SHADER_MAX_ENTITIES).length := by
      rw [List.length_take]; omega
    have hci : i < r.1.model_cur_count := by rw [b2]; exact hlen
    have hpi : i < r.1.model_prev_count := by rw [b6, a2]; exact hlen
    have hcur : ∀ x, x < (model_keys.take L.SHADER_MAX_ENTITIES).length →
        r.1.model_cur x = (model_keys.take L.SHADER_MAX_ENTITIES).getD x 0 := b4
    have hprev : ∀ x, x < (model_keys.take L.SHADER_MAX_ENTITIES).length →
        r.1.model_prev x = (model_keys.take L.SHADER_MAX_ENTITIES).getD x 0 := by
      intro x hx; rw [b8, a4 x hx]
    have hmem : (model_keys.take L.SHADER_MAX_ENTITIES).getD i 0 ∈
        model_keys.take L.SHADER_MAX_ENTITIES := by
      rw [List.getD_eq_getElem?_getD, List.getElem?_eq_getElem hlen]
      exact List.getElem_mem hlen
    have hne : (hash_of_int (r.1.model_cur i)).entity ≠ 0 := by
      rw [hcur i hlen]
      exact hent _ (List.mem_of_mem_take hmem)
    constructor
    · refine T.2.2.1 i i hci hpi ⟨?_, hne⟩ ?_
      · rw [hcur i hlen, hprev i hlen]
      · intro j2 g1 g2 c
        have g3 : j2 < (model_keys.take L.SHADER_MAX_ENTITIES).length := by
          rw [b6, a2] at g2; exact g2
        rw [hcur i hlen, hprev j2 g3] at c
        exact nodup_getD_ne _ hk2 i j2 hlen g3 (by omega) c.1
    · refine T.2.2.2.1 i i hci hpi ⟨?_, hne⟩ ?_
      · rw [hcur i hlen, hprev i hlen]
      · intro i2 g1 g2 c
        have g3 : i2 < (model_keys.take L.SHADER_MAX_ENTITIES).length := by
          rw [b2] at g2; exact g2
        rw [hcur i2 g3, hprev i hlen] at c
        exact nodup_getD_ne _ hk2 i2 i g3 hlen (by omega) c.1

/-- Witness for C5: world ids `[4, 9]` and the keys of entity 1 (model 3, meshes 0
and 1) in two consecutive frames. -/
theorem C5_identical_frames_witness :
    (prepare_entities example_limits
        (prepare_entities example_limits (MatcherState.init example_limits) [4, 9]
          [model_key 1 3 0, model_key 1 3 1]).1
        [4, 9] [model_key 1 3 0, model_key 1 3 1]).2.world.current_to_prev[1]? = some 1 ∧
    (prepare_entities example_limits
        (prepare_entities example_limits (MatcherState.init example_limits) [4, 9]
          [model_key 1 3 0, model_key 1 3 1]).1
        [4, 9] [model_key 1 3 0, model_key 1 3 1]).2.model.prev_to_current[1]? = some 1 :=
  ⟨((C5_identical_frames example_limits (MatcherState.init example_limits) [4, 9]
      [model_key 1 3 0, model_key 1 3 1]
      (wellFormed_after_init _ (by decide) (by decide))
      _ rfl).1 (by decide) 1 (by decide) (by decide)).1,
   ((C5_identical_frames example_limits (MatcherState.init example_limits) [4, 9]
      [model_key 1 3 0, model_key 1 3 1]
      (wellFormed_after_init _ (by decide) (by decide))
      _ rfl).2 (by decide) (by decide) 1 (by decide) (by decide)).2⟩

/-! ## Lemmas on the resolution controller -/

/-- Five consecutive valid samples from an empty ring: the first four are stored and
the fifth triggers the decision on the sorted ring. -/
theorem drs_window (c : Cvars) (s : DrsState) (t1 t2 t3 t4 t5 : ℚ)
    (hen : c.drs_enable ≠ 0) (hacc : is_accumulation_rendering_active c = false)
    (hn : s.num_valid_frames = 0) (hlen : s.valid_frame_times.length = 5)
    (h1 : 0 ≤ t1 ∧ t1 ≤ 1000) (h2 : 0 ≤ t2 ∧ t2 ≤ 1000) (h3 : 0 ≤ t3 ∧ t3 ≤ 1000)
    (h4 : 0 ≤ t4 ∧ t4 ≤ 1000) (h5 : 0 ≤ t5 ∧ t5 ≤ 1000) :
    drs_frames c [t1, t2, t3, t4, t5] s =
      { drs_current_scale := max c.drs_minscale (min c.drs_maxscale
          (drs_raw_scale c s.drs_current_scale
            (representative_time (qsort compare_doubles [t1, t2, t3, t4, t5]))))
        drs_effective_scale := max c.drs_minscale (min c.drs_maxscale
          (drs_raw_scale c s.drs_current_scale
            (representative_time (qsort compare_doubles [t1, t2, t3, t4, t5]))))
        num_valid_frames := 0
        valid_frame_times := qsort compare_doubles [t1, t2, t3, t4, t5] } := by
  obtain ⟨cs, es, n, ring⟩ := s
  simp only at hn hlen
  subst hn
  match ring, hlen with
  | [r1, r2, r3, r4, r5], _ =>
    have v : ∀ t : ℚ, 0 ≤ t ∧ t ≤ 1000 → ¬ (t < 0 ∨ t > 1000) := by
      intro t ht hc
      rcases hc with hc | hc
      · exact absurd ht.1 (not_le.mpr hc)
      · exact absurd ht.2 (not_le.mpr hc)
    simp [drs_frames, drs_process, hen, hacc, v t1 h1, v t2 h2, v t3 h3, v t4 h4, v t5 h5,
      SCALING_FRAMES]

theorem ordered_insert_perm (cmp : ℚ → ℚ → Int) (x : ℚ) (l : List ℚ) :
    (ordered_insert cmp x l).Perm (x :: l) := by
  induction l with
  | nil => exact List.Perm.refl _
  | cons y ys ih =>
    unfold ordered_insert
    by_cases h : cmp x y ≤ 0
    · rw [if_pos h]
    · rw [if_neg h]
      exact (List.Perm.cons y ih).trans (List.Perm.swap x y ys)

theorem qsort_perm (cmp : ℚ → ℚ → Int) (l : List ℚ) : (qsort cmp l).Perm l := by
  induction l with
  | nil => exact List.Perm.refl _
  | cons x xs ih =>
    unfold qsort
    exact (ordered_insert_perm cmp x (qsort cmp xs)).trans (List.Perm.cons x ih)

theorem qsort_length (cmp : ℚ → ℚ → Int) (l : List ℚ) : (qsort cmp l).length = l.length :=
  (qsort_perm cmp l).length_eq

theorem drs_frames_append (c : Cvars) (l1 l2 : List ℚ) (s : DrsState) :
    drs_frames c (l1 ++ l2) s = drs_frames c l2 (drs_frames c l1 s) := by
  induction l1 generalizing s with
  | nil => rfl
  | cons t rest ih =>
    show drs_frames c (rest ++ l2) (drs_process c t s) = _
    rw [ih]
    rfl

theorem to_int_of_nonneg (x : ℚ) (hx : 0 ≤ x) : to_int x = ⌊x⌋ := by
  unfold to_int
  rw [if_pos hx]

theorem clamp_scale_mono (lo hi a x step : Int) (ha : a = max lo (min hi x))
    (h1 : 1 ≤ step) :
    a ≤ max lo (min hi (a + step)) ∧
    (a < hi → a < max lo (min hi (a + step))) ∧
    (a = hi → max lo (min hi (a + step)) = hi) := by
  subst ha
  simp only [max_def, min_def]
  split_ifs <;> omega

/-! ## Claims on the resolution controller -/

/-- C6 (counterexample): with the default cvars (DRS disabled, accumulation inactive,
all cvars within their callback ranges) the effective scale after `drs_process`
is 0, below `drs_minscale = 50` and below 25; and with DRS enabled, `drs_minscale
= 100` and `drs_maxscale = 50` (both within their ranges) a scaling decision
leaves the effective scale at 100, above `drs_maxscale`. -/
theorem C6_unset_scale_counterexample :
    (Cvars.default.in_range ∧
      (drs_process Cvars.default 10 DrsState.init).drs_effective_scale = 0 ∧
      ¬ (Cvars.default.drs_minscale ≤
          (drs_process Cvars.default 10 DrsState.init).drs_effective_scale) ∧
      ¬ (25 ≤ (drs_process Cvars.default 10 DrsState.init).drs_effective_scale)) ∧
    (Cvars.in_range { Cvars.default with drs_enable := 1, drs_minscale := 100, drs_maxscale := 50 } ∧
      ¬ ((drs_frames { Cvars.default with drs_enable := 1, drs_minscale := 100, drs_maxscale := 50 }
            [10, 10, 10, 10, 10] DrsState.init).drs_effective_scale ≤ 50)) := by
  refine ⟨⟨?_, ?_, ?_, ?_⟩, ?_, ?_⟩
  · norm_num [Cvars.in_range, Cvars.default]
  · simp [drs_process, Cvars.default, is_accumulation_rendering_active]
  · simp [drs_process, Cvars.default, is_accumulation_rendering_active]
  · simp [drs_process, Cvars.default, is_accumulation_rendering_active]
  · norm_num [Cvars.in_range, Cvars.default]
  · rw [drs_window { Cvars.default with drs_enable := 1, drs_minscale := 100, drs_maxscale := 50 }
      DrsState.init 10 10 10 10 10 (by simp [Cvars.default])
      (by simp [is_accumulation_rendering_active, Cvars.default]) rfl rfl
      (by norm_num) (by norm_num) (by norm_num) (by norm_num) (by norm_num)]
    simp [Cvars.default]

/-- C6 (amended): with DRS enabled, the cvars within their callback ranges and
`drs_minscale ≤ drs_maxscale`, a call of `drs_process` that runs while
accumulation is active, or that takes a scaling decision, or that starts with
`drs_current_scale` in `[drs_minscale, drs_maxscale]`, leaves the effective
scale in `[drs_minscale, drs_maxscale]` and in `[25, 200]`; and a
`drs_current_scale` within `[drs_minscale, drs_maxscale]` before the call is
within it after the call. -/
theorem C6_drs_bounds (c : Cvars) (ms : ℚ) (s : DrsState) (hr : c.in_range)
    (hen : c.drs_enable ≠ 0) (hmm : c.drs_minscale ≤ c.drs_maxscale)
    (h : is_accumulation_rendering_active c = true ∨
      (0 ≤ ms ∧ ms ≤ 1000 ∧ SCALING_FRAMES ≤ s.num_valid_frames + 1) ∨
      (c.drs_minscale ≤ s.drs_current_scale ∧ s.drs_current_scale ≤ c.drs_maxscale)) :
    (c.drs_minscale ≤ (drs_process c ms s).drs_effective_scale ∧
      (drs_process c ms s).drs_effective_scale ≤ c.drs_maxscale ∧
      25 ≤ (drs_process c ms s).drs_effective_scale ∧
      (drs_process c ms s).drs_effective_scale ≤ 200) ∧
    ((c.drs_minscale ≤ s.drs_current_scale ∧ s.drs_current_scale ≤ c.drs_maxscale) →
      c.drs_minscale ≤ (drs_process c ms s).drs_current_scale ∧
      (drs_process c ms s).drs_current_scale ≤ c.drs_maxscale) := by
  obtain ⟨_, _, _, _, r5, _, _, r8⟩ := hr
  have key : ∀ x : Int, c.drs_minscale ≤ max c.drs_minscale (min c.drs_maxscale x) ∧
      max c.drs_minscale (min c.drs_maxscale x) ≤ c.drs_maxscale := by
    intro x
    simp only [max_def, min_def]
    split_ifs <;> omega
  unfold drs_process
  rw [if_neg hen]
  by_cases hacc : is_accumulation_rendering_active c = true
  · rw [if_pos hacc]
    simp only [max_eq_right hmm]
    exact ⟨⟨hmm, le_refl _, le_trans r5 hmm, r8⟩, fun g => g⟩
  · rw [if_neg hacc]
    by_cases hms : ms < 0 ∨ ms > 1000
    · rw [if_pos hms]
      rcases h with h | h | h
      · exact absurd h hacc
      · rcases hms with g | g
        · exact absurd h.1 (not_le.mpr g)
        · exact absurd h.2.1 (not_le.mpr g)
      · exact ⟨⟨h.1, h.2, le_trans r5 h.1, le_trans h.2 r8⟩, fun g => g⟩
    · rw [if_neg hms]
      by_cases hfull : s.num_valid_frames + 1 < SCALING_FRAMES
      · rw [if_pos hfull]
        rcases h with h | h | h
        · exact absurd h hacc
        · exact absurd h.2.2 (not_le.mpr hfull)
        · exact ⟨⟨h.1, h.2, le_trans r5 h.1, le_trans h.2 r8⟩, fun g => g⟩
      · rw [if_neg hfull]
        have k := key (drs_raw_scale c s.drs_current_scale (representative_time
          (qsort compare_doubles (s.valid_frame_times.set s.num_valid_frames ms))))
        exact ⟨⟨k.1, k.2, le_trans r5 k.1, le_trans k.2 r8⟩, fun _ => k⟩

/-- Witness for C6: the default cvars with DRS enabled, at the decision taken on the
fifth sample of the first window after program start. -/
theorem C6_drs_bounds_witness :
    (50 ≤ (drs_process { Cvars.default with drs_enable := 1 } 10
        { DrsState.init with num_valid_frames := 4 }).drs_effective_scale ∧
      (drs_process { Cvars.default with drs_enable := 1 } 10
        { DrsState.init with num_valid_frames := 4 }).drs_effective_scale ≤ 100 ∧
      25 ≤ (drs_process { Cvars.default with drs_enable := 1 } 10
        { DrsState.init with num_valid_frames := 4 }).drs_effective_scale ∧
      (drs_process { Cvars.default with drs_enable := 1 } 10
        { DrsState.init with num_valid_frames := 4 }).drs_effective_scale ≤ 200) :=
  (C6_drs_bounds { Cvars.default with drs_enable := 1 } 10
    { DrsState.init with num_valid_frames := 4 }
    (by norm_num [Cvars.in_range, Cvars.default])
    (by simp [Cvars.default]) (by simp [Cvars.default])
    (Or.inr (Or.inl (by norm_num [SCALING_FRAMES, DrsState.init])))).1

/-- Five equal valid samples from an empty ring under the default cvars with DRS
enabled. -/
theorem window_equal_samples (t : ℚ) (ht : 0 ≤ t ∧ t ≤ 1000) (cur eff : Int) (ring : List ℚ)
    (hring : ring.length = 5) :
    drs_frames { Cvars.default with drs_enable := 1 } [t, t, t, t, t]
        { drs_current_scale := cur, drs_effective_scale := eff, num_valid_frames := 0,
          valid_frame_times := ring } =
      { drs_current_scale :=
          max 50 (min 100 (drs_raw_scale { Cvars.default with drs_enable := 1 } cur t))
        drs_effective_scale :=
          max 50 (min 100 (drs_raw_scale { Cvars.default with drs_enable := 1 } cur t))
        num_valid_frames := 0
        valid_frame_times := [t, t, t, t, t] } := by
  rw [drs_window { Cvars.default with drs_enable := 1 } _ t t t t t (by simp [Cvars.default])
    (by simp [is_accumulation_rendering_active, Cvars.default]) rfl hring ht ht ht ht ht]
  have hq : qsort compare_doubles [t, t, t, t, t] = [t, t, t, t, t] := by
    simp [qsort, ordered_insert, compare_doubles]
  have hrep : representative_time [t, t, t, t, t] = t := by
    simp only [representative_time, List.getD_cons_succ, List.getD_cons_zero]
    ring
  rw [hq, hrep]
  rfl

/-- C9 (the code at the failing input): default cvars with DRS enabled.  Thirty frames
of 1 ms from program start bring the scale to 100.  Five further frames of
20.75 ms give the regulator output -5.9, and five frames of 205/12 ms give
-1.5; in both cases the scale before the final clamp is 99, one below the
previous scale, and the stored scale is 99. -/
theorem C9_decrease_step_at_failing_input :
    (20 : ℚ) * (1 - (83 / 4) / (1000 / 60)) - 1 = -59 / 10 ∧
    (20 : ℚ) * (1 - (205 / 12) / (1000 / 60)) - 1 = -3 / 2 ∧
    (drs_frames { Cvars.default with drs_enable := 1 } (List.replicate 30 1)
      DrsState.init).drs_current_scale = 100 ∧
    drs_raw_scale { Cvars.default with drs_enable := 1 } 100 (83 / 4) = 99 ∧
    drs_raw_scale { Cvars.default with drs_enable := 1 } 100 (205 / 12) = 99 ∧
    (drs_frames { Cvars.default with drs_enable := 1 }
      (List.replicate 30 1 ++ [83 / 4, 83 / 4, 83 / 4, 83 / 4, 83 / 4])
      DrsState.init).drs_current_scale = 99 ∧
    (drs_frames { Cvars.default with drs_enable := 1 }
      (List.replicate 30 1 ++ [205 / 12, 205 / 12, 205 / 12, 205 / 12, 205 / 12])
      DrsState.init).drs_current_scale = 99 := by
  have r1 : drs_raw_scale { Cvars.default with drs_enable := 1 } 100 (83 / 4) = 99 := by
    norm_num [drs_raw_scale, Cvars.default, clamp, to_int]
  have r2 : drs_raw_scale { Cvars.default with drs_enable := 1 } 100 (205 / 12) = 99 := by
    norm_num [drs_raw_scale, Cvars.default, clamp, to_int]
  have up : ∀ cur : Int,
      drs_raw_scale { Cvars.default with drs_enable := 1 } cur 1 = cur + 10 := by
    intro cur
    norm_num [drs_raw_scale, Cvars.default, clamp, to_int]
  have one : (0 : ℚ) ≤ 1 ∧ (1 : ℚ) ≤ 1000 := by norm_num
  have warm : drs_frames { Cvars.default with drs_enable := 1 } (List.replicate 30 1)
      DrsState.init =
      { drs_current_scale := 100, drs_effective_scale := 100, num_valid_frames := 0,
        valid_frame_times := [1, 1, 1, 1, 1] } := by
    have e : List.replicate 30 (1 : ℚ) = [1, 1, 1, 1, 1] ++ ([1, 1, 1, 1, 1] ++
        ([1, 1, 1, 1, 1] ++ ([1, 1, 1, 1, 1] ++ ([1, 1, 1, 1, 1] ++ [1, 1, 1, 1, 1])))) := rfl
    rw [e, drs_frames_append, drs_frames_append, drs_frames_append, drs_frames_append,
      drs_frames_append]
    have i0 : DrsState.init = DrsState.mk 0 0 0 (List.replicate 5 0) := rfl
    rw [i0, window_equal_samples 1 one 0 0 (List.replicate 5 0) rfl, up,
      window_equal_samples 1 one _ _ [1, 1, 1, 1, 1] rfl, up,
      window_equal_samples 1 one _ _ [1, 1, 1, 1, 1] rfl, up,
      window_equal_samples 1 one _ _ [1, 1, 1, 1, 1] rfl, up,
      window_equal_samples 1 one _ _ [1, 1, 1, 1, 1] rfl, up,
      window_equal_samples 1 one _ _ [1, 1, 1, 1, 1] rfl, up]
    rfl
  refine ⟨by norm_num, by norm_num, by rw [warm], r1, r2, ?_, ?_⟩
  · rw [drs_frames_append, warm,
      window_equal_samples (83 / 4) (by norm_num) 100 100 [1, 1, 1, 1, 1] rfl, r1]
    rfl
  · rw [drs_frames_append, warm,
      window_equal_samples (205 / 12) (by norm_num) 100 100 [1, 1, 1, 1, 1] rfl, r2]
    rfl

/-! ## Further lemmas on the resolution controller -/

theorem to_int_intCast (n : Int) : to_int (n : ℚ) = n := by
  unfold to_int
  by_cases h : (0 : ℚ) ≤ (n : ℚ)
  · rw [if_pos h, Int.floor_intCast]
  · rw [if_neg h]
    have : -(n : ℚ) = ((-n : Int) : ℚ) := by push_cast; ring
    rw [this, Int.floor_intCast]
    omega

theorem clamp_scale_antitone (lo hi a step : Int) (ha : lo ≤ a) (h1 : 1 ≤ step) :
    max lo (min hi (a - step)) ≤ a ∧ lo ≤ max lo (min hi (a - step)) ∧
    (a = lo → max lo (min hi (a - step)) = lo) := by
  simp only [max_def, min_def]
  split_ifs <;> omega


/-! ## Claims on the resolution controller, continued -/

/-- Thirty frames of 1 ms from program start under the default cvars with DRS
enabled bring the scale to 100. -/
theorem thirty_fast_frames :
    drs_frames { Cvars.default with drs_enable := 1 } (List.replicate 30 1) DrsState.init =
      DrsState.mk 100 100 0 [1, 1, 1, 1, 1] := by
  have up : ∀ cur : Int,
      drs_raw_scale { Cvars.default with drs_enable := 1 } cur 1 = cur + 10 := by
    intro cur
    norm_num [drs_raw_scale, Cvars.default, clamp, to_int]
  have one : (0 : ℚ) ≤ 1 ∧ (1 : ℚ) ≤ 1000 := by norm_num
  have e : List.replicate 30 (1 : ℚ) = [1, 1, 1, 1, 1] ++ ([1, 1, 1, 1, 1] ++
      ([1, 1, 1, 1, 1] ++ ([1, 1, 1, 1, 1] ++ ([1, 1, 1, 1, 1] ++ [1, 1, 1, 1, 1])))) := rfl
  rw [e, drs_frames_append, drs_frames_append, drs_frames_append, drs_frames_append,
    drs_frames_append]
  have i0 : DrsState.init = DrsState.mk 0 0 0 (List.replicate 5 0) := rfl
  rw [i0, window_equal_samples 1 one 0 0 (List.replicate 5 0) rfl, up,
    window_equal_samples 1 one _ _ [1, 1, 1, 1, 1] rfl, up,
    window_equal_samples 1 one _ _ [1, 1, 1, 1, 1] rfl, up,
    window_equal_samples 1 one _ _ [1, 1, 1, 1, 1] rfl, up,
    window_equal_samples 1 one _ _ [1, 1, 1, 1, 1] rfl, up,
    window_equal_samples 1 one _ _ [1, 1, 1, 1, 1] rfl, up]
  rfl

/-- C13: with `drs_enable = 0` and accumulation inactive, whatever the state of the
controller before the call, `drs_process` leaves the effective scale at 0
(unset), and the scale used by `get_render_extent` and the value stored in
`feedback.resolution_scale` are both `scr_viewsize`. -/
theorem C13_scenario_a (c : Cvars) (ms : ℚ) (s : DrsState) (extent_unscaled : VkExtent2D)
    (hdis : c.drs_enable = 0) (hacc : is_accumulation_rendering_active c = false) :
    (drs_process c ms s).drs_effective_scale = 0 ∧
    render_scale c (drs_process c ms s) = c.scr_viewsize ∧
    feedback_resolution_scale c (drs_process c ms s) = c.scr_viewsize ∧
    get_render_extent c (drs_process c ms s) extent_unscaled =
      { width := round_width (scale_dimension extent_unscaled.width c.scr_viewsize)
        height := scale_dimension extent_unscaled.height c.scr_viewsize } := by
  have h0 : (drs_process c ms s).drs_effective_scale = 0 := by
    unfold drs_process
    rw [if_pos hdis, hacc]
    simp
  refine ⟨h0, ?_, ?_, ?_⟩
  · unfold render_scale
    rw [h0]; simp
  · unfold feedback_resolution_scale
    rw [h0]; simp
  · unfold get_render_extent render_scale
    rw [h0]; simp

/-- Witness for C13: the default cvars (DRS disabled, game running) after the warm-up
that left the scale at 100, on a 1921 x 1080 surface. -/
theorem C13_scenario_a_witness :
    (drs_process Cvars.default 10 (DrsState.mk 100 100 0 [1, 1, 1, 1, 1])).drs_effective_scale
      = 0 ∧
    render_scale Cvars.default
      (drs_process Cvars.default 10 (DrsState.mk 100 100 0 [1, 1, 1, 1, 1])) = 100 :=
  ⟨(C13_scenario_a Cvars.default 10 (DrsState.mk 100 100 0 [1, 1, 1, 1, 1])
      (VkExtent2D.mk 1921 1080) rfl (by simp [is_accumulation_rendering_active, Cvars.default])).1,
   (C13_scenario_a Cvars.default 10 (DrsState.mk 100 100 0 [1, 1, 1, 1, 1])
      (VkExtent2D.mk 1921 1080) rfl
      (by simp [is_accumulation_rendering_active, Cvars.default])).2.1⟩

/-- C14 (counterexample): accumulation active (`cl_paused = 2`, `sv_paused = 1`).  With
DRS disabled and `drs_maxscale = 50` the effective scale is 100; with DRS
enabled, `drs_minscale = 100` and `drs_maxscale = 50` it is 100 as well.
Neither is `drs_maxscale`. -/
theorem C14_accumulation_scale_counterexample :
    (is_accumulation_rendering_active
        { Cvars.default with cl_paused := 2, sv_paused := 1, drs_maxscale := 50 } = true ∧
      (drs_process { Cvars.default with cl_paused := 2, sv_paused := 1, drs_maxscale := 50 } 10
        DrsState.init).drs_effective_scale = 100) ∧
    (is_accumulation_rendering_active
        { Cvars.default with cl_paused := 2, sv_paused := 1, drs_enable := 1,
                             drs_minscale := 100, drs_maxscale := 50 } = true ∧
      (drs_process { Cvars.default with cl_paused := 2, sv_paused := 1, drs_enable := 1,
                                        drs_minscale := 100, drs_maxscale := 50 } 10
        DrsState.init).drs_effective_scale = 100) := by
  refine ⟨⟨?_, ?_⟩, ?_, ?_⟩
  · simp [is_accumulation_rendering_active, Cvars.default]
  · simp [drs_process, is_accumulation_rendering_active, Cvars.default]
  · simp [is_accumulation_rendering_active, Cvars.default]
  · simp [drs_process, is_accumulation_rendering_active, Cvars.default]

/-- C14 (amended): whenever accumulation rendering is active, after `drs_process` the
effective scale is `max(100, scr_viewsize)` when DRS is disabled and
`max(drs_minscale, drs_maxscale)` when DRS is enabled, which is `drs_maxscale`
when `drs_minscale ≤ drs_maxscale`. -/
theorem C14_accumulation_scale (c : Cvars) (ms : ℚ) (s : DrsState)
    (hacc : is_accumulation_rendering_active c = true) :
    (c.drs_enable = 0 → (drs_process c ms s).drs_effective_scale = max 100 c.scr_viewsize) ∧
    (c.drs_enable ≠ 0 →
      (drs_process c ms s).drs_effective_scale = max c.drs_minscale c.drs_maxscale ∧
      (c.drs_minscale ≤ c.drs_maxscale →
        (drs_process c ms s).drs_effective_scale = c.drs_maxscale)) := by
  constructor
  · intro h
    unfold drs_process
    rw [if_pos h, if_pos hacc]
  · intro h
    have e : (drs_process c ms s).drs_effective_scale = max c.drs_minscale c.drs_maxscale := by
      unfold drs_process
      rw [if_neg h, if_pos hacc]
    exact ⟨e, fun hle => by rw [e, max_eq_right hle]⟩

/-- Witness for C14: the default cvars with DRS enabled and the game fully paused. -/
theorem C14_accumulation_scale_witness :
    (drs_process { Cvars.default with cl_paused := 2, sv_paused := 1, drs_enable := 1 } 10
      DrsState.init).drs_effective_scale = 100 :=
  ((C14_accumulation_scale { Cvars.default with cl_paused := 2, sv_paused := 1, drs_enable := 1 }
    10 DrsState.init (by simp [is_accumulation_rendering_active, Cvars.default])).2
    (by simp [Cvars.default])).2 (by simp [Cvars.default])

/-- C15 (counterexample): default cvars with DRS enabled, after thirty frames of 1 ms
the scale is 100.  Setting `drs_maxscale` to 60 leaves the cvar at 60 and
`drs_current_scale` at 100, above the new maximum, when the callback returns;
a following frame that does not complete a window still renders at 100. -/
theorem C15_no_immediate_reclamp :
    (set_drs_maxscale 60 { Cvars.default with drs_enable := 1 }
      (drs_frames { Cvars.default with drs_enable := 1 } (List.replicate 30 1)
        DrsState.init)).1.drs_maxscale = 60 ∧
    (set_drs_maxscale 60 { Cvars.default with drs_enable := 1 }
      (drs_frames { Cvars.default with drs_enable := 1 } (List.replicate 30 1)
        DrsState.init)).2.drs_current_scale = 100 ∧
    (drs_process
      (set_drs_maxscale 60 { Cvars.default with drs_enable := 1 }
        (drs_frames { Cvars.default with drs_enable := 1 } (List.replicate 30 1)
          DrsState.init)).1 1
      (set_drs_maxscale 60 { Cvars.default with drs_enable := 1 }
        (drs_frames { Cvars.default with drs_enable := 1 } (List.replicate 30 1)
          DrsState.init)).2).drs_effective_scale = 100 := by
  rw [thirty_fast_frames]
  refine ⟨by decide, rfl, ?_⟩
  norm_num [set_drs_maxscale, drs_maxscale_changed, Cvar_ClampInteger, drs_process,
    Cvars.default, is_accumulation_rendering_active, SCALING_FRAMES]

/-- C15 (amended): a run-time change of `drs_minscale` or `drs_maxscale` clamps the cvar
itself (to `[25, 100]` and `[50, 200]`) and leaves `drs_current_scale` as it
was; the next scaling decision of `drs_process` stores a scale that is at
least `drs_minscale` and, when `drs_minscale ≤ drs_maxscale`, at most
`drs_maxscale`. -/
theorem C15_reclamp_at_next_decision (c : Cvars) (s : DrsState) (v : Int) (ms : ℚ)
    (hen : c.drs_enable ≠ 0) (hacc : is_accumulation_rendering_active c = false)
    (hms : 0 ≤ ms ∧ ms ≤ 1000) (hn : s.num_valid_frames = 4) :
    ((set_drs_minscale v c s).2 = s ∧
      25 ≤ (set_drs_minscale v c s).1.drs_minscale ∧
      (set_drs_minscale v c s).1.drs_minscale ≤ 100) ∧
    ((set_drs_maxscale v c s).2 = s ∧
      50 ≤ (set_drs_maxscale v c s).1.drs_maxscale ∧
      (set_drs_maxscale v c s).1.drs_maxscale ≤ 200) ∧
    (c.drs_minscale ≤ (drs_process c ms s).drs_current_scale ∧
      (c.drs_minscale ≤ c.drs_maxscale →
        (drs_process c ms s).drs_current_scale ≤ c.drs_maxscale)) := by
  have hclamp : ∀ x lo hi : Int, lo ≤ hi →
      lo ≤ Cvar_ClampInteger x lo hi ∧ Cvar_ClampInteger x lo hi ≤ hi := by
    intro x lo hi h
    unfold Cvar_ClampInteger
    split_ifs <;> omega
  refine ⟨⟨rfl, ?_, ?_⟩, ⟨rfl, ?_, ?_⟩, ?_⟩
  · exact (hclamp v 25 100 (by decide)).1
  · exact (hclamp v 25 100 (by decide)).2
  · exact (hclamp v 50 200 (by decide)).1
  · exact (hclamp v 50 200 (by decide)).2
  · have hv : ¬ (ms < 0 ∨ ms > 1000) := by
      intro hc
      rcases hc with hc | hc
      · exact absurd hms.1 (not_le.mpr hc)
      · exact absurd hms.2 (not_le.mpr hc)
    have hfull : ¬ (s.num_valid_frames + 1 < SCALING_FRAMES) := by
      rw [hn]; decide
    unfold drs_process
    rw [if_neg hen, if_neg (by rw [hacc]; decide), if_neg hv, if_neg hfull]
    simp only
    constructor
    · exact le_max_left _ _
    · intro hle
      exact max_le hle (min_le_left _ _)

/-- Witness for C15: default cvars with DRS enabled and `drs_maxscale` already lowered
to 60, scale still 100, at the fifth sample of a window. -/
theorem C15_reclamp_at_next_decision_witness :
    50 ≤ (drs_process { Cvars.default with drs_enable := 1, drs_maxscale := 60 } 1
      (DrsState.mk 100 100 4 [1, 1, 1, 1, 1])).drs_current_scale ∧
    (drs_process { Cvars.default with drs_enable := 1, drs_maxscale := 60 } 1
      (DrsState.mk 100 100 4 [1, 1, 1, 1, 1])).drs_current_scale ≤ 60 :=
  ⟨(C15_reclamp_at_next_decision { Cvars.default with drs_enable := 1, drs_maxscale := 60 }
      (DrsState.mk 100 100 4 [1, 1, 1, 1, 1]) 60 1 (by simp [Cvars.default])
      (by simp [is_accumulation_rendering_active, Cvars.default]) (by norm_num) rfl).2.2.1,
   (C15_reclamp_at_next_decision { Cvars.default with drs_enable := 1, drs_maxscale := 60 }
      (DrsState.mk 100 100 4 [1, 1, 1, 1, 1]) 60 1 (by simp [Cvars.default])
      (by simp [is_accumulation_rendering_active, Cvars.default]) (by norm_num) rfl).2.2.2
      (by simp [Cvars.default])⟩

theorem land_clear_bit0 (x : Nat) (hx : x < 4294967296) : x &&& 4294967294 = x / 2 * 2 := by
  apply Nat.eq_of_testBit_eq
  intro i
  rw [Nat.testBit_and]
  cases i with
  | zero =>
    have : (x / 2 * 2).testBit 0 = false := by
      rw [Nat.testBit_zero]; simp
    rw [this]; simp
  | succ i =>
    rw [Nat.testBit_succ, Nat.testBit_succ, Nat.testBit_succ]
    have e1 : (4294967294 : Nat) / 2 = 2 ^ 31 - 1 := by norm_num
    have e2 : x / 2 * 2 / 2 = x / 2 := by omega
    rw [e1, e2, Nat.testBit_two_pow_sub_one]
    by_cases h : i < 31
    · simp [h]
    · have : (x / 2).testBit i = false := by
        apply Nat.testBit_lt_two_pow
        have : 2 ^ 31 ≤ 2 ^ i := Nat.pow_le_pow_right (by norm_num) (by omega)
        omega
      simp [h, this]

theorem round_width_eq (w : Nat) :
    round_width w = (w + 1) % 4294967296 / 2 * 2 := by
  unfold round_width
  exact land_clear_bit0 _ (Nat.mod_lt _ (by norm_num))

/-- C16: the width returned by `get_render_extent` and by `get_screen_image_extent` is
the unrounded width `w` passed through `(w + 1) & ~1` on 32 bits: it is even,
and for `w < 2^32 - 1` it is `w` or `w + 1`; the height is the unrounded
height. -/
theorem C16_even_width (c : Cvars) (s : DrsState) (extent_unscaled extent_render : VkExtent2D) :
    (∀ w : Nat, round_width w % 2 = 0 ∧
      (w < 4294967295 → w ≤ round_width w ∧ round_width w ≤ w + 1)) ∧
    (get_render_extent c s extent_unscaled).width =
      round_width (scale_dimension extent_unscaled.width (render_scale c s)) ∧
    (get_render_extent c s extent_unscaled).height =
      scale_dimension extent_unscaled.height (render_scale c s) ∧
    (get_screen_image_extent c extent_unscaled extent_render).width =
      round_width (screen_image_width_unrounded c extent_unscaled extent_render) ∧
    (get_screen_image_extent c extent_unscaled extent_render).height =
      (if c.drs_enable ≠ 0 then
        scale_dimension extent_unscaled.height (max c.drs_minscale c.drs_maxscale)
      else max extent_render.height extent_unscaled.height) ∧
    (get_render_extent c s extent_unscaled).width % 2 = 0 ∧
    (get_screen_image_extent c extent_unscaled extent_render).width % 2 = 0 := by
  have hr : ∀ w : Nat, round_width w % 2 = 0 ∧
      (w < 4294967295 → w ≤ round_width w ∧ round_width w ≤ w + 1) := by
    intro w
    rw [round_width_eq]
    constructor
    · omega
    · intro hw
      have : (w + 1) % 4294967296 = w + 1 := Nat.mod_eq_of_lt (by omega)
      rw [this]
      omega
  refine ⟨hr, rfl, rfl, rfl, rfl, ?_, ?_⟩
  · exact (hr _).1
  · exact (hr _).1


/-! ## Claims on accumulation rendering -/

/-- C17: while accumulation is active the blend factor is `1 / clamp(n - 5, 1, T)` for
the counter `n` after the increment of this frame and the target count `T` of
`get_accumulation_rendering_framenum`; counters 1 to 5 give 1, the factor does
not increase with the counter, and with the target set to 500 every counter
from 505 on gives `1 / 500`. -/
theorem C17_blend_factor (c : Cvars) (rc : RefModeCvars) (n0 : Int)
    (hact : is_accumulation_rendering_active c = true) :
    (evaluate_reference_mode c rc n0).ref_mode.temporal_blend_factor =
      1 / ((max 1 (min (get_accumulation_rendering_framenum c) (n0 + 1 - 5)) : Int) : ℚ) ∧
    (1 ≤ n0 + 1 → n0 + 1 ≤ 5 →
      (evaluate_reference_mode c rc n0).ref_mode.temporal_blend_factor = 1) ∧
    (∀ m0 : Int, n0 ≤ m0 →
      (evaluate_reference_mode c rc m0).ref_mode.temporal_blend_factor ≤
        (evaluate_reference_mode c rc n0).ref_mode.temporal_blend_factor) ∧
    (c.pt_accumulation_rendering_framenum = 500 → 505 ≤ n0 + 1 →
      (evaluate_reference_mode c rc n0).ref_mode.temporal_blend_factor = 1 / 500) := by
  have hT : (128 : Int) ≤ get_accumulation_rendering_framenum c := le_max_left _ _
  have hval : ∀ m : Int, (evaluate_reference_mode c rc m).ref_mode.temporal_blend_factor =
      1 / ((min (max 1 (m + 1 - 5)) (get_accumulation_rendering_framenum c) : Int) : ℚ) := by
    intro m
    unfold evaluate_reference_mode
    rw [if_pos hact]
  have hpos : ∀ m : Int,
      (1 : Int) ≤ min (max 1 (m + 1 - 5)) (get_accumulation_rendering_framenum c) := by
    intro m
    exact le_min (le_max_left _ _) (by omega)
  refine ⟨?_, ?_, ?_, ?_⟩
  · rw [hval]
    have : min (max 1 (n0 + 1 - 5)) (get_accumulation_rendering_framenum c) =
        max 1 (min (get_accumulation_rendering_framenum c) (n0 + 1 - 5)) := by
      simp only [max_def, min_def]
      split_ifs <;> omega
    rw [this]
  · intro _ h5
    rw [hval]
    have : min (max 1 (n0 + 1 - 5)) (get_accumulation_rendering_framenum c) = 1 := by
      simp only [max_def, min_def]
      split_ifs <;> omega
    rw [this]
    norm_num
  · intro m0 hm
    rw [hval, hval]
    have h1 := hpos n0
    have hle : min (max 1 (n0 + 1 - 5)) (get_accumulation_rendering_framenum c) ≤
        min (max 1 (m0 + 1 - 5)) (get_accumulation_rendering_framenum c) := by
      simp only [max_def, min_def]
      split_ifs <;> omega
    have q1 : (0 : ℚ) <
        ((min (max 1 (n0 + 1 - 5)) (get_accumulation_rendering_framenum c) : Int) : ℚ) := by
      exact_mod_cast (by omega :
        (0 : Int) < min (max 1 (n0 + 1 - 5)) (get_accumulation_rendering_framenum c))
    exact one_div_le_one_div_of_le q1 (by exact_mod_cast hle)
  · intro h500 hn
    rw [hval]
    have hT500 : get_accumulation_rendering_framenum c = 500 := by
      unfold get_accumulation_rendering_framenum
      rw [h500]; decide
    have : min (max 1 (n0 + 1 - 5)) (get_accumulation_rendering_framenum c) = 500 := by
      rw [hT500]
      simp only [max_def, min_def]
      split_ifs <;> omega
    rw [this]
    norm_num

/-- Witness for C17: the default cvars (target 500) with the game fully paused, at the
frame that raises the counter to 505. -/
theorem C17_blend_factor_witness :
    (evaluate_reference_mode { Cvars.default with cl_paused := 2, sv_paused := 1 }
      (RefModeCvars.mk 2 1 1) 504).ref_mode.temporal_blend_factor = 1 / 500 :=
  (C17_blend_factor { Cvars.default with cl_paused := 2, sv_paused := 1 }
    (RefModeCvars.mk 2 1 1) 504
    (by simp [is_accumulation_rendering_active, Cvars.default])).2.2.2
    (by simp [Cvars.default]) (by norm_num)

theorem reference_frames_active (frames : List (Cvars × RefModeCvars)) (n : Int)
    (hact : ∀ f ∈ frames, is_accumulation_rendering_active f.1 = true) :
    reference_frames frames n = n + frames.length := by
  induction frames generalizing n with
  | nil => simp [reference_frames]
  | cons f rest ih =>
    obtain ⟨c, rc⟩ := f
    have h1 : is_accumulation_rendering_active c = true := hact (c, rc) (by simp)
    have h2 : (evaluate_reference_mode c rc n).num_accumulated_frames = n + 1 := by
      unfold evaluate_reference_mode
      rw [if_pos h1]
    simp only [reference_frames]
    rw [h2, ih (n + 1) (fun f hf => hact f (List.mem_cons_of_mem _ hf))]
    simp only [List.length_cons]
    push_cast
    ring

/-- C18: `evaluate_reference_mode` reports `enable_accumulation` exactly when
`cl_paused = 2`, `sv_paused` is non-zero and `pt_accumulation_rendering > 0`;
it then adds one to `num_accumulated_frames`, for every value of the `int`
counter below its largest value `2^31 - 1`, where the increment does not
overflow; otherwise it sets the counter to 0, `enable_accumulation` to false and
the blend factor to 0.  After an inactive call followed by `k` active calls,
`k` at most `2^31 - 1`, the counter is `k`, and it has stayed in the range of an
`int` after every call on the way. -/
theorem C18_accumulation_state_machine (c : Cvars) (rc : RefModeCvars) (n : Int) :
    ((evaluate_reference_mode c rc n).ref_mode.enable_accumulation = true ↔
      (c.cl_paused = 2 ∧ c.sv_paused ≠ 0 ∧ c.pt_accumulation_rendering > 0)) ∧
    ((c.cl_paused = 2 ∧ c.sv_paused ≠ 0 ∧ c.pt_accumulation_rendering > 0) →
      -2147483648 ≤ n → n < 2147483647 →
      (evaluate_reference_mode c rc n).num_accumulated_frames = n + 1 ∧
      (evaluate_reference_mode c rc n).num_accumulated_frames ≤ 2147483647) ∧
    (¬ (c.cl_paused = 2 ∧ c.sv_paused ≠ 0 ∧ c.pt_accumulation_rendering > 0) →
      (evaluate_reference_mode c rc n).num_accumulated_frames = 0 ∧
      (evaluate_reference_mode c rc n).ref_mode.enable_accumulation = false ∧
      (evaluate_reference_mode c rc n).ref_mode.temporal_blend_factor = 0) ∧
    (∀ frames : List (Cvars × RefModeCvars),
      ¬ (c.cl_paused = 2 ∧ c.sv_paused ≠ 0 ∧ c.pt_accumulation_rendering > 0) →
      (∀ f ∈ frames, f.1.cl_paused = 2 ∧ f.1.sv_paused ≠ 0 ∧
        f.1.pt_accumulation_rendering > 0) →
      frames.length ≤ 2147483647 →
      reference_frames ((c, rc) :: frames) n = frames.length ∧
      ∀ m : Nat, m ≤ frames.length →
        reference_frames ((c, rc) :: frames.take m) n = m ∧
        reference_frames ((c, rc) :: frames.take m) n ≤ 2147483647) := by
  have hiff : ∀ d : Cvars, is_accumulation_rendering_active d = true ↔
      (d.cl_paused = 2 ∧ d.sv_paused ≠ 0 ∧ d.pt_accumulation_rendering > 0) := by
    intro d
    simp [is_accumulation_rendering_active]
  have hoff : ¬ (c.cl_paused = 2 ∧ c.sv_paused ≠ 0 ∧ c.pt_accumulation_rendering > 0) →
      (evaluate_reference_mode c rc n).num_accumulated_frames = 0 ∧
      (evaluate_reference_mode c rc n).ref_mode.enable_accumulation = false ∧
      (evaluate_reference_mode c rc n).ref_mode.temporal_blend_factor = 0 := by
    intro h
    have h2 : ¬ is_accumulation_rendering_active c = true := fun e => h ((hiff c).mp e)
    unfold evaluate_reference_mode
    rw [if_neg h2]
    exact ⟨rfl, rfl, rfl⟩
  refine ⟨?_, ?_, hoff, ?_⟩
  · by_cases h : is_accumulation_rendering_active c = true
    · have : (evaluate_reference_mode c rc n).ref_mode.enable_accumulation = true := by
        unfold evaluate_reference_mode
        rw [if_pos h]
      exact ⟨fun _ => (hiff c).mp h, fun _ => this⟩
    · have h3 := (hoff (fun e => h ((hiff c).mpr e))).2.1
      constructor
      · intro e
        rw [h3] at e
        exact absurd e (by decide)
      · intro e
        exact absurd ((hiff c).mpr e) h
  · intro h _ hhi
    have e : (evaluate_reference_mode c rc n).num_accumulated_frames = n + 1 := by
      unfold evaluate_reference_mode
      rw [if_pos ((hiff c).mpr h)]
    rw [e]
    exact ⟨rfl, by omega⟩
  · intro frames h hall hlen
    have hrun : ∀ l : List (Cvars × RefModeCvars),
        (∀ f ∈ l, f.1.cl_paused = 2 ∧ f.1.sv_paused ≠ 0 ∧ f.1.pt_accumulation_rendering > 0) →
        reference_frames ((c, rc) :: l) n = l.length := by
      intro l hl
      simp only [reference_frames]
      rw [(hoff h).1, reference_frames_active l 0 (fun f hf => (hiff f.1).mpr (hl f hf))]
      simp
    refine ⟨hrun frames hall, ?_⟩
    intro m hm
    have e := hrun (frames.take m) (fun f hf => hall f (List.mem_of_mem_take hf))
    rw [List.length_take, Nat.min_eq_left hm] at e
    rw [e]
    exact ⟨rfl, by omega⟩

/-! ## Lemmas on traces and their checkers -/

theorem fence_monitor_step (P : List Nat) (x : Event) (rest : List Event) :
    fence_monitor P (x :: rest) =
      match x with
      | Event.wait_for_fences slot => fence_monitor (P.filter fun s => decide (s ≠ slot)) rest
      | Event.queue_submit _ _ (some slot) =>
        if slot ∈ P then none else fence_monitor (slot :: P) rest
      | _ => fence_monitor P rest := by
  cases x with
  | queue_submit w s f => cases f <;> rfl
  | _ => rfl

theorem fence_monitor_append (t1 t2 : List Event) (P : List Nat) :
    fence_monitor P (t1 ++ t2) = (fence_monitor P t1).bind fun P1 => fence_monitor P1 t2 := by
  induction t1 generalizing P with
  | nil => rfl
  | cons x xs ih =>
    rw [List.cons_append, fence_monitor_step, fence_monitor_step]
    cases x with
    | queue_submit w s f =>
      cases f with
      | none => exact ih P
      | some slot =>
        by_cases h : slot ∈ P
        · simp only [if_pos h]; rfl
        · simp only [if_neg h]; exact ih _
    | wait_for_fences slot => exact ih _
    | reset_fences slot => exact ih P
    | device_wait_idle => exact ih P
    | swapchain_rebuild => exact ih P
    | acquire_next_image s => exact ih P
    | queue_present w => exact ih P
    | process_exit => exact ih P

theorem fence_of_submit (e : Event) (slot : Nat) (h : e.fence = some slot) :
    ∃ w s, e = Event.queue_submit w s (some slot) := by
  cases e with
  | queue_submit w s f =>
    simp only [Event.fence] at h
    exact ⟨w, s, by rw [h]⟩
  | _ => simp [Event.fence] at h

theorem fence_monitor_pending (b c : List Event) (e2 : Event) (slot : Nat) (P P2 : List Nat)
    (hm : fence_monitor P (b ++ e2 :: c) = some P2) (hp : slot ∈ P)
    (he : e2.fence = some slot) : Event.wait_for_fences slot ∈ b := by
  induction b generalizing P with
  | nil =>
    obtain ⟨w, s, rfl⟩ := fence_of_submit e2 slot he
    rw [List.nil_append, fence_monitor_step] at hm
    simp only [if_pos hp] at hm
    exact absurd hm (by simp)
  | cons y ys ih =>
    rw [List.cons_append, fence_monitor_step] at hm
    cases y with
    | wait_for_fences s =>
      by_cases hs : s = slot
      · subst hs; exact List.mem_cons_self _ _
      · refine List.mem_cons_of_mem _ (ih _ hm ?_)
        rw [List.mem_filter]
        exact ⟨hp, by simpa using fun e => hs e.symm⟩
    | queue_submit w s f =>
      cases f with
      | none => exact List.mem_cons_of_mem _ (ih P hm hp)
      | some s2 =>
        by_cases h : s2 ∈ P
        · simp only [if_pos h] at hm
          exact absurd hm (by simp)
        · simp only [if_neg h] at hm
          exact List.mem_cons_of_mem _ (ih _ hm (List.mem_cons_of_mem _ hp))
    | reset_fences s => exact List.mem_cons_of_mem _ (ih P hm hp)
    | device_wait_idle => exact List.mem_cons_of_mem _ (ih P hm hp)
    | swapchain_rebuild => exact List.mem_cons_of_mem _ (ih P hm hp)
    | acquire_next_image s => exact List.mem_cons_of_mem _ (ih P hm hp)
    | queue_present w => exact List.mem_cons_of_mem _ (ih P hm hp)
    | process_exit => exact List.mem_cons_of_mem _ (ih P hm hp)

theorem fence_monitor_tail (P P2 : List Nat) (x : Event) (rest : List Event)
    (hm : fence_monitor P (x :: rest) = some P2) :
    ∃ P1, fence_monitor P1 rest = some P2 := by
  rw [fence_monitor_step] at hm
  cases x with
  | queue_submit w s f =>
    cases f with
    | none => exact ⟨P, hm⟩
    | some s2 =>
      by_cases h : s2 ∈ P
      · simp only [if_pos h] at hm
        exact absurd hm (by simp)
      · simp only [if_neg h] at hm
        exact ⟨_, hm⟩
  | wait_for_fences slot => exact ⟨_, hm⟩
  | reset_fences slot => exact ⟨P, hm⟩
  | device_wait_idle => exact ⟨P, hm⟩
  | swapchain_rebuild => exact ⟨P, hm⟩
  | acquire_next_image s => exact ⟨P, hm⟩
  | queue_present w => exact ⟨P, hm⟩
  | process_exit => exact ⟨P, hm⟩

/-- A trace accepted by the fence checker has the fence discipline. -/
theorem fence_monitor_sound (tr : List Event) (P P2 : List Nat)
    (hm : fence_monitor P tr = some P2) : fence_discipline tr := by
  intro a b c e1 e2 slot htr h1 h2
  subst htr
  induction a generalizing P with
  | nil =>
    obtain ⟨w, s, rfl⟩ := fence_of_submit e1 slot h1
    rw [List.nil_append, fence_monitor_step] at hm
    by_cases h : slot ∈ P
    · simp only [if_pos h] at hm
      exact absurd hm (by simp)
    · simp only [if_neg h] at hm
      exact fence_monitor_pending b c e2 slot _ P2 hm (List.mem_cons_self _ _) h2
  | cons x xs ih =>
    obtain ⟨P1, h⟩ := fence_monitor_tail P P2 x _ hm
    exact ih P1 h

theorem slot_monitor_step (L : Option Nat) (x : Event) (rest : List Event) :
    slot_monitor L (x :: rest) =
      match x.fence with
      | some slot => if L = some slot then none else slot_monitor (some slot) rest
      | none => slot_monitor L rest := by
  cases x with
  | queue_submit w s f => cases f <;> rfl
  | _ => rfl

theorem slot_monitor_append (t1 t2 : List Event) (L : Option Nat) :
    slot_monitor L (t1 ++ t2) = (slot_monitor L t1).bind fun L1 => slot_monitor L1 t2 := by
  induction t1 generalizing L with
  | nil => rfl
  | cons x xs ih =>
    rw [List.cons_append, slot_monitor_step, slot_monitor_step]
    cases hx : x.fence with
    | none => exact ih L
    | some slot =>
      simp only
      by_cases h : L = some slot
      · simp only [if_pos h]; rfl
      · simp only [if_neg h]; exact ih _

theorem slot_monitor_quiet (evs : List Event) (L : Option Nat)
    (h : ∀ e ∈ evs, e.fence = none) : slot_monitor L evs = some L := by
  induction evs with
  | nil => rfl
  | cons x xs ih =>
    rw [slot_monitor_step, h x (List.mem_cons_self _ _)]
    exact ih (fun e he => h e (List.mem_cons_of_mem _ he))

/-- A trace accepted by the slot checker alternates its frame fences. -/
theorem slot_monitor_sound (tr : List Event) (L L2 : Option Nat)
    (hm : slot_monitor L tr = some L2) : alternating_slots tr := by
  intro a b c e1 e2 s1 s2 htr h1 h2 hb
  subst htr
  induction a generalizing L with
  | nil =>
    rw [List.nil_append, slot_monitor_step, h1] at hm
    simp only at hm
    by_cases h : L = some s1
    · simp only [if_pos h] at hm
      exact absurd hm (by simp)
    · simp only [if_neg h] at hm
      rw [slot_monitor_append, slot_monitor_quiet b _ hb] at hm
      simp only [Option.bind] at hm
      rw [slot_monitor_step, h2] at hm
      simp only at hm
      intro e
      subst e
      simp at hm
  | cons x xs ih =>
    rw [List.cons_append, slot_monitor_step] at hm
    cases hx : x.fence with
    | none =>
      rw [hx] at hm
      exact ih L hm
    | some slot =>
      rw [hx] at hm
      simp only at hm
      by_cases h : L = some slot
      · simp only [if_pos h] at hm
        exact absurd hm (by simp)
      · simp only [if_neg h] at hm
        exact ih _ hm


theorem trace_monitor_step (P : List Semaphore) (e : Event) (rest : List Event) :
    trace_monitor P (e :: rest) =
      if ∀ w ∈ e.waits, w.kind = SemaphoreKind.trace_finished → w ∈ P then
        trace_monitor
          (P.filter (fun p => decide (p ∉ e.waits)) ++
            e.signals.filter (fun s => decide (s.kind = SemaphoreKind.trace_finished)))
          rest
      else none := rfl

theorem trace_monitor_append (t1 t2 : List Event) (P : List Semaphore) :
    trace_monitor P (t1 ++ t2) = (trace_monitor P t1).bind fun P1 => trace_monitor P1 t2 := by
  induction t1 generalizing P with
  | nil => rfl
  | cons x xs ih =>
    rw [List.cons_append, trace_monitor_step, trace_monitor_step]
    by_cases h : ∀ w ∈ x.waits, w.kind = SemaphoreKind.trace_finished → w ∈ P
    · rw [if_pos h, if_pos h]; exact ih _
    · rw [if_neg h, if_neg h]; rfl

/-- In a trace accepted by the checker, an awaited `trace_finished` semaphore was
pending at the start and not awaited since, or was signalled before and not
awaited since. -/
theorem trace_monitor_origin (tr : List Event) (P P2 : List Semaphore)
    (hm : trace_monitor P tr = some P2) (a c : List Event) (e : Event) (w : Semaphore)
    (htr : tr = a ++ e :: c) (hw : w ∈ e.waits) (hk : w.kind = SemaphoreKind.trace_finished) :
    (w ∈ P ∧ ∀ x ∈ a, w ∉ x.waits) ∨
    ∃ (a1 a2 : List Event) (e0 : Event),
      a = a1 ++ e0 :: a2 ∧ w ∈ e0.signals ∧ ∀ x ∈ a2, w ∉ x.waits := by
  subst htr
  induction a generalizing P with
  | nil =>
    rw [List.nil_append, trace_monitor_step] at hm
    by_cases h : ∀ w ∈ e.waits, w.kind = SemaphoreKind.trace_finished → w ∈ P
    · exact Or.inl ⟨h w hw hk, fun x hx => absurd hx (List.not_mem_nil x)⟩
    · rw [if_neg h] at hm
      exact absurd hm (by simp)
  | cons x xs ih =>
    rw [List.cons_append, trace_monitor_step] at hm
    by_cases h : ∀ w ∈ x.waits, w.kind = SemaphoreKind.trace_finished → w ∈ P
    · rw [if_pos h] at hm
      rcases ih _ hm with ⟨hin, hno⟩ | ⟨a1, a2, e0, ha, hs, hno⟩
      · rcases List.mem_append.mp hin with h1 | h1
        · rw [List.mem_filter] at h1
          left
          refine ⟨h1.1, ?_⟩
          intro y hy
          rcases List.mem_cons.mp hy with e1 | e1
          · rw [e1]; simpa using h1.2
          · exact hno y e1
        · rw [List.mem_filter] at h1
          right
          exact ⟨[], xs, x, rfl, h1.1, hno⟩
      · right
        exact ⟨x :: a1, a2, e0, by rw [ha]; rfl, hs, hno⟩
    · rw [if_neg h] at hm
      exact absurd hm (by simp)

/-- A trace accepted by the checker from an empty pending list has the discipline of
the `trace_finished` waits. -/
theorem trace_monitor_sound (tr : List Event) (P2 : List Semaphore)
    (hm : trace_monitor [] tr = some P2) : trace_wait_discipline tr := by
  intro a c e w htr hw hk
  rcases trace_monitor_origin tr [] P2 hm a c e w htr hw hk with ⟨hin, _⟩ | h
  · exact absurd hin (List.not_mem_nil w)
  · exact h

/-- Events without a wait on, or a signal of, a `trace_finished` semaphore. -/
theorem trace_monitor_quiet (evs : List Event) (P : List Semaphore)
    (h : ∀ e ∈ evs, (∀ w ∈ e.waits, w.kind ≠ SemaphoreKind.trace_finished) ∧
      (∀ s ∈ e.signals, s.kind ≠ SemaphoreKind.trace_finished)) :
    ∃ P1, trace_monitor P evs = some P1 ∧
      ∀ p : Semaphore, p.kind = SemaphoreKind.trace_finished → p ∈ P → p ∈ P1 := by
  induction evs generalizing P with
  | nil => exact ⟨P, rfl, fun _ _ hp => hp⟩
  | cons x xs ih =>
    have hx := h x (List.mem_cons_self _ _)
    rw [trace_monitor_step, if_pos (fun w hw hk => absurd hk (hx.1 w hw))]
    obtain ⟨P1, h1, h2⟩ := ih
      (P.filter (fun p => decide (p ∉ x.waits)) ++
        x.signals.filter (fun s => decide (s.kind = SemaphoreKind.trace_finished)))
      (fun e he => h e (List.mem_cons_of_mem _ he))
    refine ⟨P1, h1, ?_⟩
    intro p hk hp
    apply h2 p hk
    apply List.mem_append_left
    rw [List.mem_filter]
    refine ⟨hp, ?_⟩
    simp only [decide_eq_true_eq]
    intro hc
    exact hx.1 p hc hk

theorem mem_gpu_semaphores (dc frame : Nat) (kind : SemaphoreKind) (p : Semaphore) :
    p ∈ gpu_semaphores dc frame kind ↔ p.frame = frame ∧ p.gpu < dc ∧ p.kind = kind := by
  unfold gpu_semaphores
  simp only [List.mem_map, List.mem_range]
  constructor
  · rintro ⟨g, hg, rfl⟩
    exact ⟨rfl, hg, rfl⟩
  · rintro ⟨h1, h2, h3⟩
    refine ⟨p.gpu, h2, ?_⟩
    cases p
    simp only at h1 h3
    subst h1; subst h3
    rfl

theorem getD_set_false (l : List Bool) (i j : Nat) (h : (l.set i false).getD j false = true) :
    j ≠ i ∧ l.getD j false = true := by
  rw [List.getD_eq_getElem?_getD, List.getElem?_set] at h
  by_cases hij : i = j
  · subst hij
    rw [if_pos rfl] at h
    by_cases hl : i < l.length
    · rw [if_pos hl] at h; simp at h
    · rw [if_neg hl] at h; simp at h
  · rw [if_neg hij] at h
    refine ⟨fun e => hij e.symm, ?_⟩
    rw [List.getD_eq_getElem?_getD]
    exact h

theorem getD_set_true (l : List Bool) (i j : Nat) (h : (l.set i true).getD j false = true) :
    j = i ∨ l.getD j false = true := by
  rw [List.getD_eq_getElem?_getD, List.getElem?_set] at h
  by_cases hij : i = j
  · exact Or.inl hij.symm
  · rw [if_neg hij] at h
    right
    rw [List.getD_eq_getElem?_getD]
    exact h


theorem trace_step_mem (P : List Semaphore) (e : Event) (p : Semaphore)
    (h : (p ∈ P ∧ p ∉ e.waits) ∨ (p ∈ e.signals ∧ p.kind = SemaphoreKind.trace_finished)) :
    p ∈ P.filter (fun q => decide (q ∉ e.waits)) ++
      e.signals.filter (fun s => decide (s.kind = SemaphoreKind.trace_finished)) := by
  rcases h with ⟨h1, h2⟩ | ⟨h1, h2⟩
  · apply List.mem_append_left
    rw [List.mem_filter]
    exact ⟨h1, by simpa using h2⟩
  · apply List.mem_append_right
    rw [List.mem_filter]
    exact ⟨h1, by simpa using h2⟩

theorem semaphore_eq (w : Semaphore) (f : Nat) (k : SemaphoreKind) (h1 : w.frame = f)
    (h3 : w.kind = k) : w = { frame := f, gpu := w.gpu, kind := k } := by
  cases w
  simp only at h1 h3
  subst h1; subst h3
  rfl

/-- One call of `R_RenderFrame_RTX` is accepted by the checker and keeps the link
between the flags and the pending semaphores. -/
theorem render_trace_ok (N : Nat) (world_ready : Bool) (st : QvkState) (P : List Semaphore)
    (hinv : flags_pending P st) :
    ∃ P1, trace_monitor P (R_RenderFrame_RTX N world_ready st).2 = some P1 ∧
      flags_pending P1 (R_RenderFrame_RTX N world_ready st).1 := by
  unfold R_RenderFrame_RTX
  by_cases hsw : st.swap_chain = false
  · rw [if_pos hsw]; exact ⟨P, rfl, hinv⟩
  · rw [if_neg hsw]
    by_cases hwr : world_ready = false
    · rw [if_pos hwr]; exact ⟨P, rfl, hinv⟩
    · rw [if_neg hwr]
      simp only
      have c1 : ∀ w ∈ (Event.queue_submit
          (if st.trace_signaled.getD (prev_frame_index N st.current_frame_index) false = true
            then gpu_semaphores st.device_count (prev_frame_index N st.current_frame_index)
              SemaphoreKind.trace_finished else [])
          (gpu_semaphores st.device_count st.current_frame_index
            SemaphoreKind.transfer_finished) none).waits,
          w.kind = SemaphoreKind.trace_finished → w ∈ P := by
        intro w hw _
        simp only [Event.waits] at hw
        by_cases hf : st.trace_signaled.getD (prev_frame_index N st.current_frame_index) false
            = true
        · rw [if_pos hf] at hw
          obtain ⟨h1, h2, h3⟩ := (mem_gpu_semaphores _ _ _ _).mp hw
          have := hinv _ hf w.gpu h2
          rw [semaphore_eq w _ _ h1 h3]
          exact this
        · rw [if_neg hf] at hw
          exact absurd hw (List.not_mem_nil w)
      have c2 : ∀ (Q : List Semaphore), ∀ w ∈ (Event.queue_submit
          (gpu_semaphores st.device_count st.current_frame_index
            SemaphoreKind.transfer_finished) [] none).waits,
          w.kind = SemaphoreKind.trace_finished → w ∈ Q := by
        intro Q w hw hk
        simp only [Event.waits] at hw
        have := ((mem_gpu_semaphores _ _ _ _).mp hw).2.2
        rw [hk] at this
        exact absurd this (by decide)
      have c3 : ∀ (Q R : List Semaphore), ∀ w ∈ (Event.queue_submit [] R none).waits,
          w.kind = SemaphoreKind.trace_finished → w ∈ Q := by
        intro Q R w hw _
        simp only [Event.waits] at hw
        exact absurd hw (List.not_mem_nil w)
      rw [trace_monitor_step, if_pos c1, trace_monitor_step, if_pos (c2 _),
        trace_monitor_step, if_pos (c3 _ _), trace_monitor_step, if_pos (c3 _ _)]
      refine ⟨_, rfl, ?_⟩
      intro slot hflag g hg
      simp only at hflag hg
      apply trace_step_mem
      left
      refine ⟨?_, by simp [Event.waits]⟩
      apply trace_step_mem
      rcases getD_set_true _ _ _ hflag with hcur | hold
      · right
        refine ⟨?_, rfl⟩
        simp only [Event.signals]
        rw [mem_gpu_semaphores]
        exact ⟨hcur, hg, rfl⟩
      · left
        refine ⟨?_, by simp [Event.waits]⟩
        obtain ⟨hne, hflag0⟩ := getD_set_false _ _ _ hold
        apply trace_step_mem
        left
        constructor
        · apply trace_step_mem
          left
          refine ⟨hinv slot hflag0 g hg, ?_⟩
          simp only [Event.waits]
          intro hc
          by_cases hf : st.trace_signaled.getD (prev_frame_index N st.current_frame_index)
              false = true
          · rw [if_pos hf] at hc
            exact hne ((mem_gpu_semaphores _ _ _ _).mp hc).1
          · rw [if_neg hf] at hc
            exact absurd hc (List.not_mem_nil _)
        · simp only [Event.waits]
          intro hc
          have := ((mem_gpu_semaphores _ _ _ _).mp hc).2.2
          simp at this

theorem render_fields (N : Nat) (world_ready : Bool) (st : QvkState) :
    (R_RenderFrame_RTX N world_ready st).1.frame_counter = st.frame_counter ∧
    (R_RenderFrame_RTX N world_ready st).1.current_frame_index = st.current_frame_index ∧
    (R_RenderFrame_RTX N world_ready st).1.swap_chain = st.swap_chain ∧
    (R_RenderFrame_RTX N world_ready st).1.device_count = st.device_count ∧
    (R_RenderFrame_RTX N world_ready st).1.exited = st.exited ∧
    (∀ e ∈ (R_RenderFrame_RTX N world_ready st).2,
      e.fence = none ∧ ∀ s, e ≠ Event.wait_for_fences s) := by
  unfold R_RenderFrame_RTX
  by_cases hsw : st.swap_chain = false
  · rw [if_pos hsw]
    exact ⟨rfl, rfl, rfl, rfl, rfl, fun e he => absurd he (List.not_mem_nil e)⟩
  · rw [if_neg hsw]
    by_cases hwr : world_ready = false
    · rw [if_pos hwr]
      exact ⟨rfl, rfl, rfl, rfl, rfl, fun e he => absurd he (List.not_mem_nil e)⟩
    · rw [if_neg hwr]
      refine ⟨rfl, rfl, rfl, rfl, rfl, ?_⟩
      intro e he
      simp only [List.mem_cons, List.mem_singleton, List.not_mem_nil, or_false] at he
      rcases he with h | h | h | h <;> subst h <;> exact ⟨rfl, fun s => by simp⟩

theorem render_calls_fields (N : Nat) (calls : List Bool) (st : QvkState) :
    (render_calls N calls st).1.frame_counter = st.frame_counter ∧
    (render_calls N calls st).1.current_frame_index = st.current_frame_index ∧
    (render_calls N calls st).1.swap_chain = st.swap_chain ∧
    (render_calls N calls st).1.device_count = st.device_count ∧
    (render_calls N calls st).1.exited = st.exited ∧
    (∀ e ∈ (render_calls N calls st).2, e.fence = none ∧ ∀ s, e ≠ Event.wait_for_fences s) := by
  induction calls generalizing st with
  | nil => exact ⟨rfl, rfl, rfl, rfl, rfl, fun e he => absurd he (List.not_mem_nil e)⟩
  | cons w rest ih =>
    simp only [render_calls]
    have r := render_fields N w st
    have i := ih (R_RenderFrame_RTX N w st).1
    refine ⟨i.1.trans r.1, i.2.1.trans r.2.1, i.2.2.1.trans r.2.2.1,
      i.2.2.2.1.trans r.2.2.2.1, i.2.2.2.2.1.trans r.2.2.2.2.1, ?_⟩
    intro e he
    rcases List.mem_append.mp he with h | h
    · exact r.2.2.2.2.2 e h
    · exact i.2.2.2.2.2 e h

theorem render_calls_trace_ok (N : Nat) (calls : List Bool) (st : QvkState)
    (P : List Semaphore) (hinv : flags_pending P st) :
    ∃ P1, trace_monitor P (render_calls N calls st).2 = some P1 ∧
      flags_pending P1 (render_calls N calls st).1 := by
  induction calls generalizing st P with
  | nil => exact ⟨P, rfl, hinv⟩
  | cons w rest ih =>
    simp only [render_calls]
    obtain ⟨P1, h1, h2⟩ := render_trace_ok N w st P hinv
    obtain ⟨P2, h3, h4⟩ := ih (R_RenderFrame_RTX N w st).1 P1 h2
    refine ⟨P2, ?_, h4⟩
    rw [trace_monitor_append, h1]
    exact h3


theorem fence_monitor_quiet (evs : List Event) (P : List Nat)
    (h : ∀ e ∈ evs, e.fence_quiet) : fence_monitor P evs = some P := by
  induction evs with
  | nil => rfl
  | cons x xs ih =>
    have hx := h x (List.mem_cons_self _ _)
    have ih2 := ih (fun e he => h e (List.mem_cons_of_mem _ he))
    rw [fence_monitor_step]
    cases x with
    | queue_submit w s f =>
      have : f = none := hx.1
      subst this
      exact ih2
    | wait_for_fences slot => exact absurd rfl (hx.2 slot)
    | reset_fences slot => exact ih2
    | device_wait_idle => exact ih2
    | swapchain_rebuild => exact ih2
    | acquire_next_image s => exact ih2
    | queue_present w => exact ih2
    | process_exit => exact ih2

theorem recreate_quiet (N : Nat) (created : Bool) (st : QvkState) :
    ∀ e ∈ (recreate_swapchain N created st).2, e.fence_quiet ∧ e.trace_quiet := by
  intro e he
  simp only [recreate_swapchain, List.mem_cons, List.mem_singleton, List.not_mem_nil,
    or_false] at he
  rcases he with h | h <;> subst h <;>
    exact ⟨⟨rfl, fun s => by simp⟩, fun w hw => absurd hw (List.not_mem_nil w),
      fun w hw => absurd hw (List.not_mem_nil w)⟩

theorem acquire_loop_spec (N : Nat) (script : List (VkResult × Bool)) (st st2 : QvkState)
    (evs : List Event) (r : Option VkResult)
    (h : acquire_loop N script st = some (st2, evs, r)) :
    st2.frame_counter = st.frame_counter ∧
    st2.current_frame_index = st.current_frame_index ∧
    st2.device_count = st.device_count ∧
    st2.trace_signaled = st.trace_signaled ∧
    st2.exited = st.exited ∧
    (r = none → st2.swap_chain = false) ∧
    (∀ e ∈ evs, e.fence_quiet ∧ e.trace_quiet) := by
  induction script generalizing st evs with
  | nil =>
    simp only [acquire_loop] at h
    by_cases hs : st.swap_chain = false
    · rw [if_pos hs] at h
      simp only [Option.some.injEq, Prod.mk.injEq] at h
      obtain ⟨h1, h2, h3⟩ := h
      subst h1; subst h2; subst h3
      exact ⟨rfl, rfl, rfl, rfl, rfl, fun _ => hs, fun e he => absurd he (List.not_mem_nil e)⟩
    · rw [if_neg hs] at h
      exact absurd h (by simp)
  | cons p rest ih =>
    obtain ⟨res, created⟩ := p
    simp only [acquire_loop] at h
    by_cases hs : st.swap_chain = false
    · rw [if_pos hs] at h
      simp only [Option.some.injEq, Prod.mk.injEq] at h
      obtain ⟨h1, h2, h3⟩ := h
      subst h1; subst h2; subst h3
      exact ⟨rfl, rfl, rfl, rfl, rfl, fun _ => hs, fun e he => absurd he (List.not_mem_nil e)⟩
    · rw [if_neg hs] at h
      have hq : (Event.acquire_next_image
          { frame := st.current_frame_index, gpu := 0,
            kind := SemaphoreKind.image_available }).fence_quiet ∧
          (Event.acquire_next_image
          { frame := st.current_frame_index, gpu := 0,
            kind := SemaphoreKind.image_available }).trace_quiet := by
        refine ⟨⟨rfl, fun s => by simp⟩, fun w hw => absurd hw (List.not_mem_nil w), ?_⟩
        intro s hs2
        simp only [Event.signals, List.mem_singleton] at hs2
        subst hs2
        simp
      by_cases hst : res = VkResult.VK_ERROR_OUT_OF_DATE_KHR ∨ res = VkResult.VK_SUBOPTIMAL_KHR
      · rw [if_pos hst] at h
        cases hrec : acquire_loop N rest (recreate_swapchain N created st).1 with
        | none =>
          rw [hrec] at h
          exact absurd h (by simp)
        | some v =>
          obtain ⟨st3, evs3, r3⟩ := v
          rw [hrec] at h
          simp only [Option.some.injEq, Prod.mk.injEq] at h
          obtain ⟨h1, h2, h3⟩ := h
          subst h1; subst h2; subst h3
          obtain ⟨i1, i2, i3, i4, i5, i6, i7⟩ := ih _ _ hrec
          refine ⟨i1, i2, i3, i4, i5, i6, ?_⟩
          intro e he
          rcases List.mem_cons.mp he with he1 | he1
          · rw [he1]; exact hq
          · rcases List.mem_append.mp he1 with he2 | he2
            · exact recreate_quiet N created st e he2
            · exact i7 e he2
      · rw [if_neg hst] at h
        simp only [Option.some.injEq, Prod.mk.injEq] at h
        obtain ⟨h1, h2, h3⟩ := h
        subst h1; subst h2; subst h3
        refine ⟨rfl, rfl, rfl, rfl, rfl, fun hc => absurd hc (by simp), ?_⟩
        intro e he
        rw [List.mem_singleton] at he
        rw [he]; exact hq

theorem quiet_plain (e : Event)
    (h : e = Event.device_wait_idle ∨ e = Event.swapchain_rebuild ∨ e = Event.process_exit ∨
      (∃ s, e = Event.reset_fences s) ∨ e = Event.queue_submit [] [] none) :
    e.fence_quiet ∧ e.trace_quiet := by
  rcases h with h | h | h | ⟨s, h⟩ | h <;> subst h <;>
    exact ⟨⟨rfl, fun s => by simp⟩, fun w hw => absurd hw (List.not_mem_nil w),
      fun w hw => absurd hw (List.not_mem_nil w)⟩

/-- The shape of a call of `R_BeginFrame_RTX`: the wait on the fence of the slot
`frame_counter % N` comes first; no other event touches a frame fence or a
`trace_finished` semaphore. -/
theorem begin_spec (N : Nat) (env : BeginEnv) (st st2 : QvkState) (evs : List Event)
    (h : R_BeginFrame_RTX N env st = some (st2, evs)) :
    ∃ rest, evs = Event.wait_for_fences (st.frame_counter % N) :: rest ∧
      (∀ e ∈ rest, e.fence_quiet ∧ e.trace_quiet) ∧
      st2.frame_counter = st.frame_counter ∧
      st2.current_frame_index = st.frame_counter % N ∧
      st2.device_count = st.device_count ∧
      st2.trace_signaled = st.trace_signaled := by
  unfold R_BeginFrame_RTX at h
  simp only at h
  by_cases hl : env.res_fence = VkResult.VK_ERROR_DEVICE_LOST
  · rw [if_pos hl] at h
    simp only [Option.some.injEq, Prod.mk.injEq] at h
    obtain ⟨h1, h2⟩ := h
    subst h1; subst h2
    refine ⟨[Event.process_exit], rfl, ?_, rfl, rfl, rfl, rfl⟩
    intro e he
    rw [List.mem_singleton] at he
    exact quiet_plain e (Or.inr (Or.inr (Or.inl he)))
  · rw [if_neg hl] at h
    -- the two conditional rebuilds
    have q1 : ∀ (c : Prop) [Decidable c] (cr : Bool) (s : QvkState),
        (∀ e ∈ (if c then recreate_swapchain N cr s else (s, [])).2,
          e.fence_quiet ∧ e.trace_quiet) ∧
        (if c then recreate_swapchain N cr s else (s, [])).1.frame_counter = s.frame_counter ∧
        (if c then recreate_swapchain N cr s else (s, [])).1.current_frame_index =
          s.current_frame_index ∧
        (if c then recreate_swapchain N cr s else (s, [])).1.device_count = s.device_count ∧
        (if c then recreate_swapchain N cr s else (s, [])).1.trace_signaled =
          s.trace_signaled := by
      intro c _ cr s
      by_cases hc : c
      · rw [if_pos hc]
        exact ⟨recreate_quiet N cr s, rfl, rfl, rfl, rfl⟩
      · rw [if_neg hc]
        exact ⟨fun e he => absurd he (List.not_mem_nil e), rfl, rfl, rfl, rfl⟩
    generalize hr1 : (if ({ st with current_frame_index := st.frame_counter % N } :
        QvkState).swap_chain = false ∧ env.surface_has_extent = true
      then recreate_swapchain N env.created_first
        { st with current_frame_index := st.frame_counter % N }
      else ({ st with current_frame_index := st.frame_counter % N }, [])) = r1 at h
    have a1 := q1 (({ st with current_frame_index := st.frame_counter % N } :
        QvkState).swap_chain = false ∧ env.surface_has_extent = true) env.created_first
      { st with current_frame_index := st.frame_counter % N }
    rw [hr1] at a1
    generalize hr2 : (if env.screen_extent_changed = true
      then recreate_swapchain N env.created_second r1.1 else (r1.1, [])) = r2 at h
    have a2 := q1 (env.screen_extent_changed = true) env.created_second r1.1
    rw [hr2] at a2
    cases hacq : acquire_loop N env.acquire r2.1 with
    | none =>
      rw [hacq] at h
      exact absurd h (by simp)
    | some v =>
      obtain ⟨st3, evs3, r⟩ := v
      rw [hacq] at h
      obtain ⟨b1, b2, b3, b4, _, _, b7⟩ := acquire_loop_spec N _ _ _ _ _ hacq
      have hpre : ∀ e ∈ r1.2 ++ r2.2 ++ evs3, e.fence_quiet ∧ e.trace_quiet := by
        intro e he
        rcases List.mem_append.mp he with he1 | he1
        · rcases List.mem_append.mp he1 with he2 | he2
          · exact a1.1 e he2
          · exact a2.1 e he2
        · exact b7 e he1
      cases r with
      | none =>
        simp only [Option.some.injEq, Prod.mk.injEq] at h
        obtain ⟨h1, h2⟩ := h
        subst h1; subst h2
        exact ⟨_, rfl, hpre, by rw [b1, a2.2.1, a1.2.1], by rw [b2, a2.2.2.1, a1.2.2.1],
          by rw [b3, a2.2.2.2.1, a1.2.2.2.1], by rw [b4, a2.2.2.2.2, a1.2.2.2.2]⟩
      | some res =>
        simp only [Option.some.injEq, Prod.mk.injEq] at h
        obtain ⟨h1, h2⟩ := h
        subst h1; subst h2
        refine ⟨_, rfl, ?_, ?_, ?_, ?_, ?_⟩
        · intro e he
          rcases List.mem_append.mp he with he1 | he1
          · rcases List.mem_append.mp he1 with he2 | he2
            · exact hpre e he2
            · by_cases hw : st3.wait_for_idle_frames ≠ 0
              · rw [if_pos hw] at he2
                rw [List.mem_singleton] at he2
                exact quiet_plain e (Or.inl he2)
              · rw [if_neg hw] at he2
                exact absurd he2 (List.not_mem_nil e)
          · simp only [List.mem_cons, List.mem_singleton, List.not_mem_nil, or_false] at he1
            rcases he1 with he2 | he2
            · exact quiet_plain e (Or.inr (Or.inr (Or.inr (Or.inl ⟨_, he2⟩))))
            · exact quiet_plain e (Or.inr (Or.inr (Or.inr (Or.inr he2))))
        · by_cases hw : st3.wait_for_idle_frames ≠ 0
          · rw [if_pos hw]; simp only; rw [b1, a2.2.1, a1.2.1]
          · rw [if_neg hw]; simp only; rw [b1, a2.2.1, a1.2.1]
        · by_cases hw : st3.wait_for_idle_frames ≠ 0
          · rw [if_pos hw]; simp only; rw [b2, a2.2.2.1, a1.2.2.1]
          · rw [if_neg hw]; simp only; rw [b2, a2.2.2.1, a1.2.2.1]
        · by_cases hw : st3.wait_for_idle_frames ≠ 0
          · rw [if_pos hw]; simp only; rw [b3, a2.2.2.2.1, a1.2.2.2.1]
          · rw [if_neg hw]; simp only; rw [b3, a2.2.2.2.1, a1.2.2.2.1]
        · by_cases hw : st3.wait_for_idle_frames ≠ 0
          · rw [if_pos hw]; simp only; rw [b4, a2.2.2.2.2, a1.2.2.2.2]
          · rw [if_neg hw]; simp only; rw [b4, a2.2.2.2.2, a1.2.2.2.2]


/-- The shape of a call of `R_EndFrame_RTX`: without a swap chain nothing happens;
otherwise the first event is the one submission with the frame fence of the
current slot, and the frame counter grows by one. -/
theorem end_spec (N : Nat) (res : VkResult) (created : Bool) (st : QvkState) :
    (st.swap_chain = false → R_EndFrame_RTX N res created st = (st, [])) ∧
    (st.swap_chain ≠ false → ∃ W S rest,
      (R_EndFrame_RTX N res created st).2 =
        Event.queue_submit W S (some st.current_frame_index) :: rest ∧
      (Event.queue_submit W S (some st.current_frame_index)).trace_quiet ∧
      (∀ e ∈ rest, e.fence_quiet ∧ e.trace_quiet) ∧
      (R_EndFrame_RTX N res created st).1.frame_counter = st.frame_counter + 1) ∧
    (R_EndFrame_RTX N res created st).1.device_count = st.device_count ∧
    (R_EndFrame_RTX N res created st).1.trace_signaled = st.trace_signaled := by
  unfold R_EndFrame_RTX
  by_cases hs : st.swap_chain = false
  · rw [if_pos hs]
    exact ⟨fun _ => rfl, fun h => absurd hs h, rfl, rfl⟩
  · rw [if_neg hs]
    simp only
    have hk : ∀ w ∈ gpu_semaphores st.device_count st.current_frame_index
        SemaphoreKind.render_finished, w.kind ≠ SemaphoreKind.trace_finished := by
      intro w hw
      rw [((mem_gpu_semaphores _ _ _ _).mp hw).2.2]
      decide
    have hp : (Event.queue_present (gpu_semaphores st.device_count st.current_frame_index
        SemaphoreKind.render_finished)).fence_quiet ∧
        (Event.queue_present (gpu_semaphores st.device_count st.current_frame_index
        SemaphoreKind.render_finished)).trace_quiet :=
      ⟨⟨rfl, fun s => by simp⟩, hk, fun w hw => absurd hw (List.not_mem_nil w)⟩
    refine ⟨fun h => absurd h hs, fun _ => ⟨_, _, _, rfl, ?_, ?_, ?_⟩, ?_, ?_⟩
    · refine ⟨?_, hk⟩
      intro w hw
      simp only [Event.waits, List.mem_singleton] at hw
      rw [hw]
      simp
    · intro e he
      rcases List.mem_cons.mp he with h1 | h1
      · rw [h1]; exact hp
      · by_cases hst : res = VkResult.VK_ERROR_OUT_OF_DATE_KHR ∨
            res = VkResult.VK_SUBOPTIMAL_KHR
        · rw [if_pos hst] at h1
          exact recreate_quiet N created _ e h1
        · rw [if_neg hst] at h1
          exact absurd h1 (List.not_mem_nil e)
    · by_cases hst : res = VkResult.VK_ERROR_OUT_OF_DATE_KHR ∨ res = VkResult.VK_SUBOPTIMAL_KHR
      · rw [if_pos hst]; rfl
      · rw [if_neg hst]
    · by_cases hst : res = VkResult.VK_ERROR_OUT_OF_DATE_KHR ∨ res = VkResult.VK_SUBOPTIMAL_KHR
      · rw [if_pos hst]; rfl
      · rw [if_neg hst]
    · by_cases hst : res = VkResult.VK_ERROR_OUT_OF_DATE_KHR ∨ res = VkResult.VK_SUBOPTIMAL_KHR
      · rw [if_pos hst]; rfl
      · rw [if_neg hst]

/-- The shape of the events of one frame, as far as the frame fences go. -/
theorem frame_spec (N : Nat) (env : FrameEnv) (st st2 : QvkState) (evs : List Event)
    (h : run_frame N env st = some (st2, evs)) :
    ∃ X E, evs = Event.wait_for_fences (st.frame_counter % N) :: (X ++ E) ∧
      (∀ e ∈ X, e.fence_quiet) ∧
      ((E = [] ∧ st2.frame_counter = st.frame_counter) ∨
        ∃ W S Y, E = Event.queue_submit W S (some (st.frame_counter % N)) :: Y ∧
          (∀ e ∈ Y, e.fence_quiet) ∧ st2.frame_counter = st.frame_counter + 1) := by
  unfold run_frame at h
  cases hb : R_BeginFrame_RTX N env.begin_env st with
  | none =>
    rw [hb] at h
    exact absurd h (by simp)
  | some v =>
    obtain ⟨st1, evs1⟩ := v
    rw [hb] at h
    simp only at h
    obtain ⟨rest, he, hq, b1, b2, _, _⟩ := begin_spec N _ _ _ _ hb
    by_cases hx : st1.exited = true
    · rw [if_pos hx] at h
      simp only [Option.some.injEq, Prod.mk.injEq] at h
      obtain ⟨h1, h2⟩ := h
      subst h1; subst h2
      exact ⟨rest, [], by rw [he, List.append_nil], fun e h => (hq e h).1, Or.inl ⟨rfl, b1⟩⟩
    · rw [if_neg hx] at h
      simp only [Option.some.injEq, Prod.mk.injEq] at h
      obtain ⟨h1, h2⟩ := h
      have rc := render_calls_fields N env.render_calls st1
      have es := end_spec N env.res_present env.created (render_calls N env.render_calls st1).1
      refine ⟨rest ++ (render_calls N env.render_calls st1).2,
        (R_EndFrame_RTX N env.res_present env.created
          (render_calls N env.render_calls st1).1).2, ?_, ?_, ?_⟩
      · rw [← h2, he]
        simp only [List.cons_append, List.append_assoc]
      · intro e hmem
        rcases List.mem_append.mp hmem with h3 | h3
        · exact (hq e h3).1
        · exact rc.2.2.2.2.2 e h3
      · by_cases hs : (render_calls N env.render_calls st1).1.swap_chain = false
        · left
          rw [es.1 hs] at h1 ⊢
          refine ⟨rfl, ?_⟩
          rw [← h1, rc.1, b1]
        · right
          obtain ⟨W, S, Y, e1, _, e3, e4⟩ := es.2.1 hs
          refine ⟨W, S, Y, ?_, fun e h => (e3 e h).1, ?_⟩
          · rw [e1, rc.2.1, b2]
          · rw [← h1, e4, rc.1, b1]

/-- The events of a frame are accepted by the fence checker from any pending list. -/
theorem frame_fence_ok (N : Nat) (env : FrameEnv) (st st2 : QvkState) (evs : List Event)
    (h : run_frame N env st = some (st2, evs)) (P : List Nat) :
    ∃ P1, fence_monitor P evs = some P1 := by
  obtain ⟨X, E, he, hX, hE⟩ := frame_spec N env st st2 evs h
  rw [he, fence_monitor_step]
  simp only
  rw [fence_monitor_append, fence_monitor_quiet X _ hX]
  simp only [Option.bind]
  rcases hE with ⟨e0, _⟩ | ⟨W, S, Y, e0, hY, _⟩
  · rw [e0]; exact ⟨_, rfl⟩
  · rw [e0, fence_monitor_step]
    simp only
    have hn : st.frame_counter % N ∉
        List.filter (fun s => decide (s ≠ st.frame_counter % N)) P := by
      rw [List.mem_filter]
      simp
    rw [if_neg hn, fence_monitor_quiet Y _ hY]
    exact ⟨_, rfl⟩

theorem succ_mod_ne (N c : Nat) (hN : 2 ≤ N) : c % N ≠ (c + 1) % N := by
  intro h
  have h1 : (c + 1 - c) % N = 0 := Nat.sub_mod_eq_zero_of_mod_eq h.symm
  have h2 : c + 1 - c = 1 := by omega
  rw [h2, Nat.mod_eq_of_lt (by omega)] at h1
  exact absurd h1 (by decide)

/-- The events of a frame are accepted by the slot checker, and the link between
the checker and the frame counter is kept. -/
theorem frame_slot_ok (N : Nat) (hN : 2 ≤ N) (env : FrameEnv) (st st2 : QvkState)
    (evs : List Event) (h : run_frame N env st = some (st2, evs)) (L : Option Nat)
    (hL : last_slot_link N L st) :
    ∃ L1, slot_monitor L evs = some L1 ∧ last_slot_link N L1 st2 := by
  obtain ⟨X, E, he, hX, hE⟩ := frame_spec N env st st2 evs h
  have hXn : ∀ e ∈ Event.wait_for_fences (st.frame_counter % N) :: X, e.fence = none := by
    intro e hmem
    rcases List.mem_cons.mp hmem with h1 | h1
    · rw [h1]; rfl
    · exact (hX e h1).1
  rw [he, ← List.cons_append, slot_monitor_append, slot_monitor_quiet _ _ hXn]
  simp only [Option.bind]
  rcases hE with ⟨e0, hfc⟩ | ⟨W, S, Y, e0, hY, hfc⟩
  · rw [e0]
    refine ⟨L, rfl, ?_⟩
    intro s hs
    obtain ⟨c, h1, h2⟩ := hL s hs
    exact ⟨c, by rw [hfc, h1], h2⟩
  · rw [e0, slot_monitor_step]
    simp only [Event.fence]
    have hne : L ≠ some (st.frame_counter % N) := by
      intro hc
      obtain ⟨c, h1, h2⟩ := hL _ hc
      rw [h1] at h2
      exact succ_mod_ne N c hN h2.symm
    rw [if_neg hne, slot_monitor_quiet Y _ (fun e h => (hY e h).1)]
    refine ⟨_, rfl, ?_⟩
    intro s hs
    simp only [Option.some.injEq] at hs
    exact ⟨st.frame_counter, hfc, hs.symm⟩

theorem flags_pending_quiet (evs : List Event) (P : List Semaphore) (st st2 : QvkState)
    (hinv : flags_pending P st) (hq : ∀ e ∈ evs, e.trace_quiet)
    (h1 : st2.device_count = st.device_count) (h2 : st2.trace_signaled = st.trace_signaled) :
    ∃ P1, trace_monitor P evs = some P1 ∧ flags_pending P1 st2 := by
  obtain ⟨P1, e1, e2⟩ := trace_monitor_quiet evs P hq
  refine ⟨P1, e1, ?_⟩
  intro slot hflag g hg
  rw [h2] at hflag
  rw [h1] at hg
  exact e2 _ rfl (hinv slot hflag g hg)

/-- The events of a frame are accepted by the checker of the `trace_finished` waits,
and the link between the flags and the checker is kept. -/
theorem frame_trace_ok (N : Nat) (env : FrameEnv) (st st2 : QvkState) (evs : List Event)
    (h : run_frame N env st = some (st2, evs)) (P : List Semaphore)
    (hinv : flags_pending P st) :
    ∃ P1, trace_monitor P evs = some P1 ∧ flags_pending P1 st2 := by
  unfold run_frame at h
  cases hb : R_BeginFrame_RTX N env.begin_env st with
  | none =>
    rw [hb] at h
    exact absurd h (by simp)
  | some v =>
    obtain ⟨st1, evs1⟩ := v
    rw [hb] at h
    simp only at h
    obtain ⟨rest, he, hq, _, _, b3, b4⟩ := begin_spec N _ _ _ _ hb
    have hq1 : ∀ e ∈ evs1, e.trace_quiet := by
      intro e hmem
      rw [he] at hmem
      rcases List.mem_cons.mp hmem with h1 | h1
      · rw [h1]
        exact ⟨fun w hw => absurd hw (List.not_mem_nil w),
          fun w hw => absurd hw (List.not_mem_nil w)⟩
      · exact (hq e h1).2
    obtain ⟨P1, m1, i1⟩ := flags_pending_quiet evs1 P st st1 hinv hq1 b3 b4
    by_cases hx : st1.exited = true
    · rw [if_pos hx] at h
      simp only [Option.some.injEq, Prod.mk.injEq] at h
      obtain ⟨h1, h2⟩ := h
      subst h1; subst h2
      exact ⟨P1, m1, i1⟩
    · rw [if_neg hx] at h
      simp only [Option.some.injEq, Prod.mk.injEq] at h
      obtain ⟨h1, h2⟩ := h
      obtain ⟨P2, m2, i2⟩ := render_calls_trace_ok N env.render_calls st1 P1 i1
      have es := end_spec N env.res_present env.created (render_calls N env.render_calls st1).1
      have hq3 : ∀ e ∈ (R_EndFrame_RTX N env.res_present env.created
          (render_calls N env.render_calls st1).1).2, e.trace_quiet := by
        by_cases hs : (render_calls N env.render_calls st1).1.swap_chain = false
        · rw [es.1 hs]
          exact fun e hmem => absurd hmem (List.not_mem_nil e)
        · obtain ⟨W, S, Y, e1, e2, e3, _⟩ := es.2.1 hs
          rw [e1]
          intro e hmem
          rcases List.mem_cons.mp hmem with h3 | h3
          · rw [h3]; exact e2
          · exact (e3 e h3).2
      obtain ⟨P3, m3, i3⟩ := flags_pending_quiet _ P2 _ _ i2 hq3 es.2.2.1 es.2.2.2
      refine ⟨P3, ?_, ?_⟩
      · rw [← h2, trace_monitor_append, trace_monitor_append, m1]
        simp only [Option.bind]
        rw [m2]
        exact m3
      · rw [← h1]; exact i3

/-- Every run of frames is accepted by the three checkers. -/
theorem run_frames_ok (N : Nat) (envs : List FrameEnv) (st st2 : QvkState) (tr : List Event)
    (h : run_frames N envs st = some (st2, tr)) :
    (∀ P : List Nat, ∃ P1, fence_monitor P tr = some P1) ∧
    (2 ≤ N → ∀ L : Option Nat, last_slot_link N L st → ∃ L1, slot_monitor L tr = some L1) ∧
    (∀ P : List Semaphore, flags_pending P st → ∃ P1, trace_monitor P tr = some P1) := by
  induction envs generalizing st tr with
  | nil =>
    simp only [run_frames, Option.some.injEq, Prod.mk.injEq] at h
    obtain ⟨_, h2⟩ := h
    subst h2
    exact ⟨fun P => ⟨P, rfl⟩, fun _ L _ => ⟨L, rfl⟩, fun P _ => ⟨P, rfl⟩⟩
  | cons env rest ih =>
    simp only [run_frames] at h
    cases hf : run_frame N env st with
    | none =>
      rw [hf] at h
      exact absurd h (by simp)
    | some v =>
      obtain ⟨st1, evs1⟩ := v
      rw [hf] at h
      simp only at h
      by_cases hx : st1.exited = true
      · rw [if_pos hx] at h
        simp only [Option.some.injEq, Prod.mk.injEq] at h
        obtain ⟨_, h2⟩ := h
        subst h2
        refine ⟨fun P => frame_fence_ok N env st st1 evs1 hf P, ?_, ?_⟩
        · intro hN L hL
          obtain ⟨L1, m, _⟩ := frame_slot_ok N hN env st st1 evs1 hf L hL
          exact ⟨L1, m⟩
        · intro P hP
          obtain ⟨P1, m, _⟩ := frame_trace_ok N env st st1 evs1 hf P hP
          exact ⟨P1, m⟩
      · rw [if_neg hx] at h
        cases hr : run_frames N rest st1 with
        | none =>
          rw [hr] at h
          exact absurd h (by simp)
        | some v2 =>
          obtain ⟨st3, evs2⟩ := v2
          rw [hr] at h
          simp only [Option.some.injEq, Prod.mk.injEq] at h
          obtain ⟨h1, h2⟩ := h
          subst h1
          subst h2
          obtain ⟨i1, i2, i3⟩ := ih st1 evs2 hr
          refine ⟨?_, ?_, ?_⟩
          · intro P
            obtain ⟨P1, m⟩ := frame_fence_ok N env st st1 evs1 hf P
            obtain ⟨P2, m2⟩ := i1 P1
            exact ⟨P2, by rw [fence_monitor_append, m]; exact m2⟩
          · intro hN L hL
            obtain ⟨L1, m, l1⟩ := frame_slot_ok N hN env st st1 evs1 hf L hL
            obtain ⟨L2, m2⟩ := i2 hN L1 l1
            exact ⟨L2, by rw [slot_monitor_append, m]; exact m2⟩
          · intro P hP
            obtain ⟨P1, m, l1⟩ := frame_trace_ok N env st st1 evs1 hf P hP
            obtain ⟨P2, m2⟩ := i3 P1 l1
            exact ⟨P2, by rw [trace_monitor_append, m]; exact m2⟩


/-! ## Claims on the frame slots -/

/-- C19: `R_BeginFrame_RTX` takes the slot `frame_counter % N` and its first event is the
wait on the fence of this slot, so the wait precedes the reset of the fence and
every submission of the frame; no event of `R_BeginFrame_RTX` after the wait and no
event of `R_RenderFrame_RTX` signals a frame fence.  `R_EndFrame_RTX` with a swap chain
starts with the one submission that signals the fence of the current slot and adds
one to the frame counter; without a swap chain it returns at once.  So in the
trace of every run of frames there is a wait on the fence between two submissions
that signal the same frame fence, and for `2 ≤ N` two fence-signalling submissions
that follow each other use different slots. -/
theorem C19_slot_reuse_after_fence_wait (N : Nat) (envs : List FrameEnv) (st0 stn : QvkState)
    (tr : List Event) (h : run_frames N envs st0 = some (stn, tr)) :
    (∀ (env : BeginEnv) (st st2 : QvkState) (evs : List Event),
      R_BeginFrame_RTX N env st = some (st2, evs) →
      st2.current_frame_index = st.frame_counter % N ∧
      st2.frame_counter = st.frame_counter ∧
      ∃ rest, evs = Event.wait_for_fences (st.frame_counter % N) :: rest ∧
        ∀ e ∈ rest, e.fence = none ∧ ∀ s, e ≠ Event.wait_for_fences s) ∧
    (∀ (world_ready : Bool) (st : QvkState),
      (R_RenderFrame_RTX N world_ready st).1.frame_counter = st.frame_counter ∧
      ∀ e ∈ (R_RenderFrame_RTX N world_ready st).2, e.fence = none) ∧
    (∀ (res : VkResult) (created : Bool) (st : QvkState),
      (st.swap_chain = false → R_EndFrame_RTX N res created st = (st, [])) ∧
      (st.swap_chain = true → ∃ W S rest,
        (R_EndFrame_RTX N res created st).2 =
          Event.queue_submit W S (some st.current_frame_index) :: rest ∧
        (∀ e ∈ rest, e.fence = none) ∧
        (R_EndFrame_RTX N res created st).1.frame_counter = st.frame_counter + 1)) ∧
    fence_discipline tr ∧
    (2 ≤ N → alternating_slots tr) := by
  obtain ⟨r1, r2, _⟩ := run_frames_ok N envs st0 stn tr h
  refine ⟨?_, ?_, ?_, ?_, ?_⟩
  · intro env st st2 evs hb
    obtain ⟨rest, he, hq, b1, b2, _, _⟩ := begin_spec N env st st2 evs hb
    exact ⟨b2, b1, rest, he, fun e hmem => (hq e hmem).1⟩
  · intro world_ready st
    have r := render_fields N world_ready st
    exact ⟨r.1, fun e hmem => (r.2.2.2.2.2 e hmem).1⟩
  · intro res created st
    have es := end_spec N res created st
    refine ⟨es.1, ?_⟩
    intro hs
    obtain ⟨W, S, rest, e1, _, e3, e4⟩ := es.2.1 (by rw [hs]; decide)
    exact ⟨W, S, rest, e1, fun e hmem => (e3 e hmem).1.1, e4⟩
  · obtain ⟨P1, hm⟩ := r1 []
    exact fence_monitor_sound tr [] P1 hm
  · intro hN
    obtain ⟨L1, hm⟩ := r2 hN none (fun s hs => absurd hs (by simp))
    exact slot_monitor_sound tr none L1 hm

/-- Witness for C19: three frames without incident on two slots and one device. -/
theorem C19_slot_reuse_after_fence_wait_witness :
    ∃ (stn : QvkState) (tr : List Event),
      run_frames 2 [example_frame, example_frame, example_frame] (QvkState.init 2 1 true) =
        some (stn, tr) ∧
      stn.frame_counter = 3 ∧ tr.length = 30 ∧
      fence_discipline tr ∧ alternating_slots tr := by
  refine ⟨_, _, rfl, rfl, rfl, ?_, ?_⟩
  · exact (C19_slot_reuse_after_fence_wait 2 [example_frame, example_frame, example_frame]
      (QvkState.init 2 1 true) _ _ rfl).2.2.2.1
  · exact (C19_slot_reuse_after_fence_wait 2 [example_frame, example_frame, example_frame]
      (QvkState.init 2 1 true) _ _ rfl).2.2.2.2 (by decide)

theorem gpu_semaphores_length (device_count frame : Nat) (kind : SemaphoreKind) :
    (gpu_semaphores device_count frame kind).length = device_count := by
  simp [gpu_semaphores]

/-- C20: a call of `R_RenderFrame_RTX` that renders makes four submissions; the first one,
the transfer packet, waits on the `device_count` semaphores `trace_finished` of the
previous slot when the flag of the previous slot is set, and on nothing
otherwise; the third one signals the semaphores `trace_finished` of the current
slot; afterwards the flag of the previous slot has been cleared and then the flag
of the current slot set.  So in the trace of every run of frames that starts
with all flags clear, every wait on a `trace_finished` semaphore comes after a
submission that signals it, with no other wait on it in between. -/
theorem C20_conditional_trace_wait (N : Nat) (envs : List FrameEnv) (st0 stn : QvkState)
    (tr : List Event) (h0 : ∀ slot : Nat, st0.trace_signaled.getD slot false = false)
    (h : run_frames N envs st0 = some (stn, tr)) :
    (∀ st : QvkState, st.swap_chain = true →
      ∃ W : List Semaphore,
        (R_RenderFrame_RTX N true st).2 =
          [Event.queue_submit W
              (gpu_semaphores st.device_count st.current_frame_index
                SemaphoreKind.transfer_finished) none,
            Event.queue_submit
              (gpu_semaphores st.device_count st.current_frame_index
                SemaphoreKind.transfer_finished) [] none,
            Event.queue_submit []
              (gpu_semaphores st.device_count st.current_frame_index
                SemaphoreKind.trace_finished) none,
            Event.queue_submit [] [] none] ∧
        (st.trace_signaled.getD (prev_frame_index N st.current_frame_index) false = true →
          W = gpu_semaphores st.device_count (prev_frame_index N st.current_frame_index)
            SemaphoreKind.trace_finished ∧ W.length = st.device_count) ∧
        (st.trace_signaled.getD (prev_frame_index N st.current_frame_index) false = false →
          W = []) ∧
        (R_RenderFrame_RTX N true st).1.trace_signaled =
          (st.trace_signaled.set (prev_frame_index N st.current_frame_index) false).set
            st.current_frame_index true) ∧
    trace_wait_discipline tr := by
  refine ⟨?_, ?_⟩
  · intro st hs
    unfold R_RenderFrame_RTX
    rw [if_neg (by rw [hs]; decide), if_neg (by decide)]
    refine ⟨_, rfl, ?_, ?_, rfl⟩
    · intro hf
      rw [if_pos hf]
      exact ⟨rfl, gpu_semaphores_length _ _ _⟩
    · intro hf
      rw [if_neg (by rw [hf]; decide)]
  · obtain ⟨_, _, r3⟩ := run_frames_ok N envs st0 stn tr h
    have hinv : flags_pending [] st0 := by
      intro slot hflag
      rw [h0 slot] at hflag
      exact absurd hflag (by decide)
    obtain ⟨P1, hm⟩ := r3 [] hinv
    exact trace_monitor_sound tr P1 hm

/-- Witness for C20: three frames without incident on two slots and one device. -/
theorem C20_conditional_trace_wait_witness :
    ∃ (stn : QvkState) (tr : List Event),
      run_frames 2 [example_frame, example_frame, example_frame] (QvkState.init 2 1 true) =
        some (stn, tr) ∧
      stn.trace_signaled = [true, false] ∧
      trace_wait_discipline tr := by
  refine ⟨_, _, rfl, rfl, ?_⟩
  exact (C20_conditional_trace_wait 2 [example_frame, example_frame, example_frame]
    (QvkState.init 2 1 true) _ _
    (by
      intro slot
      simp only [QvkState.init, List.getD_eq_getElem?_getD]
      rcases slot with _ | _ | k <;> rfl)
    rfl).2

/-! ## Lemmas on the previous slot and on frames that render once -/

theorem prev_frame_index_succ (N c : Nat) (hdiv : N ∣ 4294967296) :
    prev_frame_index N ((c + 1) % N) = c % N := by
  unfold prev_frame_index
  rw [Nat.mod_mod_of_dvd _ hdiv, Nat.add_mod, Nat.mod_mod, ← Nat.add_mod]
  obtain ⟨k, hk⟩ := hdiv
  have e : c + 1 + 4294967295 = c + N * k := by omega
  rw [e, Nat.add_mul_mod_self_left]

theorem render_active (N : Nat) (st : QvkState) (hs : st.swap_chain = true) :
    R_RenderFrame_RTX N true st =
      ({ st with
          trace_signaled :=
            (st.trace_signaled.set (prev_frame_index N st.current_frame_index) false).set
              st.current_frame_index true
          frame_ready := true },
       [Event.queue_submit
          (if st.trace_signaled.getD (prev_frame_index N st.current_frame_index) false = true
            then gpu_semaphores st.device_count (prev_frame_index N st.current_frame_index)
              SemaphoreKind.trace_finished
            else [])
          (gpu_semaphores st.device_count st.current_frame_index
            SemaphoreKind.transfer_finished) none,
        Event.queue_submit
          (gpu_semaphores st.device_count st.current_frame_index
            SemaphoreKind.transfer_finished) [] none,
        Event.queue_submit []
          (gpu_semaphores st.device_count st.current_frame_index SemaphoreKind.trace_finished)
          none,
        Event.queue_submit [] [] none]) := by
  unfold R_RenderFrame_RTX
  rw [if_neg (by rw [hs]; decide), if_neg (by decide)]

theorem begin_quiet (N : Nat) (env : BeginEnv) (st st2 : QvkState) (evs : List Event)
    (h : R_BeginFrame_RTX N env st = some (st2, evs)) : ∀ e ∈ evs, e.trace_quiet := by
  obtain ⟨rest, he, hq, _⟩ := begin_spec N env st st2 evs h
  intro e hmem
  rw [he] at hmem
  rcases List.mem_cons.mp hmem with h1 | h1
  · rw [h1]
    exact ⟨fun w hw => absurd hw (List.not_mem_nil w),
      fun w hw => absurd hw (List.not_mem_nil w)⟩
  · exact (hq e h1).2

theorem end_quiet (N : Nat) (res : VkResult) (created : Bool) (st : QvkState) :
    ∀ e ∈ (R_EndFrame_RTX N res created st).2, e.trace_quiet := by
  have es := end_spec N res created st
  by_cases hs : st.swap_chain = false
  · rw [es.1 hs]
    exact fun e hmem => absurd hmem (List.not_mem_nil e)
  · obtain ⟨W, S, Y, e1, e2, e3, _⟩ := es.2.1 hs
    rw [e1]
    intro e hmem
    rcases List.mem_cons.mp hmem with h3 | h3
    · rw [h3]; exact e2
    · exact (e3 e h3).2

/-- A frame with one rendering call either does nothing to the `trace_finished`
semaphores and keeps the frame counter, or renders with a swap chain and adds
one to the frame counter. -/
theorem frame_once_cases (N : Nat) (env : FrameEnv) (st s1 : QvkState) (ev : List Event)
    (h : run_frame N env st = some (s1, ev)) (hr : env.render_calls = [true]) :
    ((∀ e ∈ ev, e.trace_quiet) ∧ s1.trace_signaled = st.trace_signaled ∧
      s1.device_count = st.device_count ∧ s1.frame_counter = st.frame_counter) ∨
    (∃ (st1 : QvkState) (B E : List Event),
      st1.swap_chain = true ∧ st1.current_frame_index = st.frame_counter % N ∧
      st1.device_count = st.device_count ∧ st1.trace_signaled = st.trace_signaled ∧
      ev = B ++ ((R_RenderFrame_RTX N true st1).2 ++ E) ∧
      (∀ e ∈ B, e.trace_quiet) ∧ (∀ e ∈ E, e.trace_quiet) ∧
      s1.trace_signaled = (R_RenderFrame_RTX N true st1).1.trace_signaled ∧
      s1.device_count = st.device_count ∧ s1.frame_counter = st.frame_counter + 1) := by
  unfold run_frame at h
  cases hb : R_BeginFrame_RTX N env.begin_env st with
  | none =>
    rw [hb] at h
    exact absurd h (by simp)
  | some v =>
    obtain ⟨st1, evs1⟩ := v
    rw [hb] at h
    simp only at h
    obtain ⟨rest, he, hq, b1, b2, b3, b4⟩ := begin_spec N _ _ _ _ hb
    have hbq := begin_quiet N _ _ _ _ hb
    by_cases hx : st1.exited = true
    · rw [if_pos hx] at h
      simp only [Option.some.injEq, Prod.mk.injEq] at h
      obtain ⟨h1, h2⟩ := h
      subst h1; subst h2
      exact Or.inl ⟨hbq, b4, b3, b1⟩
    · rw [if_neg hx, hr] at h
      simp only [render_calls, List.append_nil, Option.some.injEq, Prod.mk.injEq] at h
      obtain ⟨h1, h2⟩ := h
      have rf := render_fields N true st1
      have es := end_spec N env.res_present env.created (R_RenderFrame_RTX N true st1).1
      have eq := end_quiet N env.res_present env.created (R_RenderFrame_RTX N true st1).1
      by_cases hs : st1.swap_chain = true
      · right
        have hs2 : (R_RenderFrame_RTX N true st1).1.swap_chain ≠ false := by
          rw [rf.2.2.1, hs]; decide
        obtain ⟨W, S, Y, _, _, _, e4⟩ := es.2.1 hs2
        refine ⟨st1, evs1, _, hs, b2, b3, b4, ?_, hbq, eq, ?_, ?_, ?_⟩
        · rw [← h2, List.append_assoc]
        · rw [← h1, es.2.2.2]
        · rw [← h1, es.2.2.1, rf.2.2.2.1, b3]
        · rw [← h1, e4, rf.1, b1]
      · left
        have hs1 : st1.swap_chain = false := by
          cases hsc : st1.swap_chain with
          | true => exact absurd hsc hs
          | false => rfl
        have hr0 : R_RenderFrame_RTX N true st1 = (st1, []) := by
          unfold R_RenderFrame_RTX
          rw [if_pos hs1]
        rw [hr0] at h1 h2
        have he0 := (end_spec N env.res_present env.created st1).1 hs1
        rw [he0] at h1 h2
        simp only [List.append_nil] at h2
        subst h1; subst h2
        exact ⟨hbq, b4, b3, b1⟩

theorem getD_set_self (l : List Bool) (i : Nat) (h : i < l.length) :
    (l.set i true).getD i false = true := by
  rw [List.getD_eq_getElem?_getD, List.getElem?_set, if_pos rfl, if_pos h]
  rfl

/-! ## Claims on the cross-frame ordering and on errors -/

/-- C21 (counterexample): with three slots and frame counter 3 the index
`(current_frame_index - 1) % 3` computed on 32 bits is 0, the slot of the frame
itself, not `(3 - 1) % 3 = 2`.  In a run of four frames without incident the trace
packet of frame 2 signals the `trace_finished` semaphore of slot 2, and the transfer
packet of frame 3 waits on nothing. -/
theorem C21_previous_slot_counterexample :
    prev_frame_index 3 (3 % 3) = 0 ∧ (3 - 1) % 3 = 2 ∧
    ∃ (stn : QvkState) (tr : List Event),
      run_frames 3 [example_frame, example_frame, example_frame, example_frame]
        (QvkState.init 3 1 true) = some (stn, tr) ∧
      tr[26]? = some (Event.queue_submit []
        [{ frame := 2, gpu := 0, kind := SemaphoreKind.trace_finished }] none) ∧
      tr[34]? = some (Event.queue_submit []
        [{ frame := 0, gpu := 0, kind := SemaphoreKind.transfer_finished }] none) := by
  refine ⟨by decide, by decide, _, _, rfl, ?_, ?_⟩
  · decide
  · decide

/-- C21 (amended): let the number of slots `N ≥ 2` divide `2^32` (a power of two, such as 2).
When two consecutive frames each call `R_RenderFrame_RTX` once and render, the second
one with frame counter `c`, then the index `(current_frame_index - 1) % N` computed on
32 bits is `(c - 1) % N`, the trace packet of the first frame signals the
`trace_finished` semaphores of that slot, the transfer packet of the second frame
waits on exactly these semaphores, and no event of the second frame waits on
another `trace_finished` semaphore. -/
theorem C21_cross_frame_ordering (N : Nat) (hN : 2 ≤ N) (hdiv : N ∣ 4294967296)
    (env1 env2 : FrameEnv) (st s1 s2 : QvkState) (ev1 ev2 : List Event)
    (hlen : st.trace_signaled.length = N)
    (hr1 : env1.render_calls = [true]) (hr2 : env2.render_calls = [true])
    (h1 : run_frame N env1 st = some (s1, ev1)) (h2 : run_frame N env2 s1 = some (s2, ev2))
    (hc1 : s1.frame_counter = st.frame_counter + 1)
    (hc2 : s2.frame_counter = s1.frame_counter + 1) :
    prev_frame_index N (s1.frame_counter % N) = (s1.frame_counter - 1) % N ∧
    Event.queue_submit []
      (gpu_semaphores st.device_count ((s1.frame_counter - 1) % N)
        SemaphoreKind.trace_finished) none ∈ ev1 ∧
    Event.queue_submit
      (gpu_semaphores st.device_count ((s1.frame_counter - 1) % N)
        SemaphoreKind.trace_finished)
      (gpu_semaphores st.device_count (s1.frame_counter % N)
        SemaphoreKind.transfer_finished) none ∈ ev2 ∧
    (∀ e ∈ ev2, ∀ w ∈ e.waits, w.kind = SemaphoreKind.trace_finished →
      w ∈ gpu_semaphores st.device_count ((s1.frame_counter - 1) % N)
        SemaphoreKind.trace_finished) := by
  have hprev : prev_frame_index N (s1.frame_counter % N) = (s1.frame_counter - 1) % N := by
    rw [hc1]
    exact prev_frame_index_succ N st.frame_counter hdiv
  have hsub : (s1.frame_counter - 1) % N = st.frame_counter % N := by
    rw [hc1]; rfl
  rcases frame_once_cases N env1 st s1 ev1 h1 hr1 with ⟨_, _, _, hc⟩ | ⟨t1, B1, E1, a1, a2, a3,
    a4, a5, _, _, a8, a9, _⟩
  · omega
  rcases frame_once_cases N env2 s1 s2 ev2 h2 hr2 with ⟨_, _, _, hc⟩ | ⟨t2, B2, E2, b1, b2, b3,
    b4, b5, b6, b7, _, _, _⟩
  · omega
  rw [render_active N t1 a1] at a5 a8
  rw [render_active N t2 b1] at b5
  simp only at a8
  have hflag : t2.trace_signaled.getD (prev_frame_index N t2.current_frame_index) false
      = true := by
    rw [b2, hprev, hsub, b4, a8, a2]
    apply getD_set_self
    rw [List.length_set, a4, hlen]
    exact Nat.mod_lt _ (by omega)
  rw [if_pos hflag, b2, hprev, b3, a9] at b5
  rw [a2, a3, ← hsub] at a5
  refine ⟨hprev, ?_, ?_, ?_⟩
  · rw [a5]
    simp
  · rw [b5]
    simp
  · intro e he w hw hk
    rw [b5] at he
    rcases List.mem_append.mp he with hB | hR
    · exact absurd hk ((b6 e hB).1 w hw)
    · rcases List.mem_append.mp hR with hR | hE
      · simp only [List.mem_cons, List.mem_singleton, List.not_mem_nil, or_false] at hR
        rcases hR with h | h | h | h
        · rw [h] at hw
          exact hw
        · rw [h] at hw
          simp only [Event.waits] at hw
          rw [((mem_gpu_semaphores _ _ _ _).mp hw).2.2] at hk
          exact absurd hk (by decide)
        · rw [h] at hw
          exact absurd hw (List.not_mem_nil w)
        · rw [h] at hw
          exact absurd hw (List.not_mem_nil w)
      · exact absurd hk ((b7 e hE).1 w hw)

/-- Witness for C21: the first two frames of a run without incident on two slots and
one device. -/
theorem C21_cross_frame_ordering_witness :
    ∃ (s1 s2 : QvkState) (ev1 ev2 : List Event),
      run_frame 2 example_frame (QvkState.init 2 1 true) = some (s1, ev1) ∧
      run_frame 2 example_frame s1 = some (s2, ev2) ∧
      s1.frame_counter = 1 ∧
      prev_frame_index 2 (s1.frame_counter % 2) = (s1.frame_counter - 1) % 2 ∧
      Event.queue_submit []
        (gpu_semaphores 1 ((s1.frame_counter - 1) % 2) SemaphoreKind.trace_finished)
        none ∈ ev1 ∧
      Event.queue_submit
        (gpu_semaphores 1 ((s1.frame_counter - 1) % 2) SemaphoreKind.trace_finished)
        (gpu_semaphores 1 (s1.frame_counter % 2) SemaphoreKind.transfer_finished)
        none ∈ ev2 := by
  have h := C21_cross_frame_ordering 2 (by decide) (by decide) example_frame example_frame
    (QvkState.init 2 1 true) _ _ _ _ rfl rfl rfl rfl rfl rfl rfl
  exact ⟨_, _, _, _, rfl, rfl, rfl, h.1, h.2.1, h.2.2.1⟩

theorem acquire_loop_no_exit (N : Nat) (script : List (VkResult × Bool)) (st st2 : QvkState)
    (evs : List Event) (r : Option VkResult)
    (h : acquire_loop N script st = some (st2, evs, r)) :
    Event.process_exit ∉ evs ∧ (r ≠ none → st2.swap_chain = true) := by
  induction script generalizing st evs with
  | nil =>
    simp only [acquire_loop] at h
    by_cases hs : st.swap_chain = false
    · rw [if_pos hs] at h
      simp only [Option.some.injEq, Prod.mk.injEq] at h
      obtain ⟨_, h2, h3⟩ := h
      subst h2; subst h3
      exact ⟨List.not_mem_nil _, fun hc => absurd rfl hc⟩
    · rw [if_neg hs] at h
      exact absurd h (by simp)
  | cons p rest ih =>
    obtain ⟨res, created⟩ := p
    simp only [acquire_loop] at h
    by_cases hs : st.swap_chain = false
    · rw [if_pos hs] at h
      simp only [Option.some.injEq, Prod.mk.injEq] at h
      obtain ⟨_, h2, h3⟩ := h
      subst h2; subst h3
      exact ⟨List.not_mem_nil _, fun hc => absurd rfl hc⟩
    · rw [if_neg hs] at h
      by_cases hst : res = VkResult.VK_ERROR_OUT_OF_DATE_KHR ∨ res = VkResult.VK_SUBOPTIMAL_KHR
      · rw [if_pos hst] at h
        cases hrec : acquire_loop N rest (recreate_swapchain N created st).1 with
        | none =>
          rw [hrec] at h
          exact absurd h (by simp)
        | some v =>
          obtain ⟨st3, evs3, r3⟩ := v
          rw [hrec] at h
          simp only [Option.some.injEq, Prod.mk.injEq] at h
          obtain ⟨h1, h2, h3⟩ := h
          subst h1; subst h2; subst h3
          obtain ⟨i1, i2⟩ := ih _ _ hrec
          refine ⟨?_, i2⟩
          intro hmem
          rcases List.mem_cons.mp hmem with hc | hc
          · exact absurd hc (by simp)
          · rcases List.mem_append.mp hc with hc | hc
            · simp [recreate_swapchain] at hc
            · exact i1 hc
      · rw [if_neg hst] at h
        simp only [Option.some.injEq, Prod.mk.injEq] at h
        obtain ⟨h1, h2, h3⟩ := h
        subst h1; subst h2; subst h3
        refine ⟨by simp, fun _ => ?_⟩
        cases hsc : st.swap_chain with
        | true => rfl
        | false => exact absurd hsc hs

/-- In the acquisition loop an error result that is not a stale result has the effect
of `VK_SUCCESS`: the same state and the same events. -/
theorem acquire_loop_error_as_success (N : Nat) (pre : List (VkResult × Bool)) (res : VkResult)
    (cr : Bool) (st : QvkState)
    (hres : ¬ (res = VkResult.VK_ERROR_OUT_OF_DATE_KHR ∨ res = VkResult.VK_SUBOPTIMAL_KHR)) :
    (acquire_loop N (pre ++ [(res, cr)]) st).map (fun v => (v.1, v.2.1, v.2.2.isSome)) =
    (acquire_loop N (pre ++ [(VkResult.VK_SUCCESS, cr)]) st).map
      (fun v => (v.1, v.2.1, v.2.2.isSome)) := by
  induction pre generalizing st with
  | nil =>
    simp only [List.nil_append, acquire_loop]
    by_cases hs : st.swap_chain = false
    · rw [if_pos hs, if_pos hs]
    · rw [if_neg hs, if_neg hs, if_neg hres, if_neg (by decide)]
      rfl
  | cons p rest ih =>
    obtain ⟨r0, c0⟩ := p
    simp only [List.cons_append, acquire_loop]
    by_cases hs : st.swap_chain = false
    · rw [if_pos hs, if_pos hs]
    · rw [if_neg hs, if_neg hs]
      by_cases hst : r0 = VkResult.VK_ERROR_OUT_OF_DATE_KHR ∨ r0 = VkResult.VK_SUBOPTIMAL_KHR
      · rw [if_pos hst, if_pos hst]
        have i := ih (recreate_swapchain N c0 st).1
        cases h1 : acquire_loop N (rest ++ [(res, cr)]) (recreate_swapchain N c0 st).1 with
        | none =>
          rw [h1] at i
          cases h2 : acquire_loop N (rest ++ [(VkResult.VK_SUCCESS, cr)])
              (recreate_swapchain N c0 st).1 with
          | none => rfl
          | some v2 =>
            rw [h2] at i
            exact absurd i (by simp)
        | some v1 =>
          rw [h1] at i
          cases h2 : acquire_loop N (rest ++ [(VkResult.VK_SUCCESS, cr)])
              (recreate_swapchain N c0 st).1 with
          | none =>
            rw [h2] at i
            exact absurd i (by simp)
          | some v2 =>
            rw [h2] at i
            obtain ⟨a1, a2, a3⟩ := v1
            obtain ⟨b1, b2, b3⟩ := v2
            simp only [Option.map_some', Option.some.injEq, Prod.mk.injEq] at i ⊢
            obtain ⟨i1, i2, i3⟩ := i
            exact ⟨i1, by rw [i2], i3⟩
      · rw [if_neg hst, if_neg hst]

/-- A call of `R_BeginFrame_RTX` in which the acquisition ends with an error result that is
not a stale result does what the call does in which it ends with `VK_SUCCESS`. -/
theorem begin_error_as_success (N : Nat) (env : BeginEnv) (pre : List (VkResult × Bool))
    (res : VkResult) (cr : Bool) (st : QvkState)
    (hres : ¬ (res = VkResult.VK_ERROR_OUT_OF_DATE_KHR ∨ res = VkResult.VK_SUBOPTIMAL_KHR)) :
    R_BeginFrame_RTX N { env with acquire := pre ++ [(res, cr)] } st =
      R_BeginFrame_RTX N { env with acquire := pre ++ [(VkResult.VK_SUCCESS, cr)] } st := by
  unfold R_BeginFrame_RTX
  simp only
  by_cases hl : env.res_fence = VkResult.VK_ERROR_DEVICE_LOST
  · rw [if_pos hl, if_pos hl]
  · rw [if_neg hl, if_neg hl]
    generalize (if env.screen_extent_changed = true
      then recreate_swapchain N env.created_second
        (if ({ st with current_frame_index := st.frame_counter % N } :
            QvkState).swap_chain = false ∧ env.surface_has_extent = true
          then recreate_swapchain N env.created_first
            { st with current_frame_index := st.frame_counter % N }
          else ({ st with current_frame_index := st.frame_counter % N }, [])).1
      else ((if ({ st with current_frame_index := st.frame_counter % N } :
            QvkState).swap_chain = false ∧ env.surface_has_extent = true
          then recreate_swapchain N env.created_first
            { st with current_frame_index := st.frame_counter % N }
          else ({ st with current_frame_index := st.frame_counter % N }, [])).1, [])) = r2
    have i := acquire_loop_error_as_success N pre res cr r2.1 hres
    cases h1 : acquire_loop N (pre ++ [(res, cr)]) r2.1 with
    | none =>
      rw [h1] at i
      cases h2 : acquire_loop N (pre ++ [(VkResult.VK_SUCCESS, cr)]) r2.1 with
      | none => rfl
      | some v2 =>
        rw [h2] at i
        exact absurd i (by simp)
    | some v1 =>
      rw [h1] at i
      cases h2 : acquire_loop N (pre ++ [(VkResult.VK_SUCCESS, cr)]) r2.1 with
      | none =>
        rw [h2] at i
        exact absurd i (by simp)
      | some v2 =>
        rw [h2] at i
        obtain ⟨a1, a2, a3⟩ := v1
        obtain ⟨b1, b2, b3⟩ := v2
        simp only [Option.map_some', Option.some.injEq, Prod.mk.injEq] at i
        obtain ⟨i1, i2, i3⟩ := i
        subst i1; subst i2
        cases a3 with
        | none =>
          cases b3 with
          | none => rfl
          | some y => exact absurd i3 (by simp)
        | some x =>
          cases b3 with
          | none => exact absurd i3 (by simp)
          | some y => rfl

/-- Unless the fence wait reports a lost device, `R_BeginFrame_RTX` does not exit, and when
it returns with a swap chain its last events are the reset of the slot fence and
a submission. -/
theorem begin_goes_on (N : Nat) (env : BeginEnv) (st st2 : QvkState) (evs : List Event)
    (h : R_BeginFrame_RTX N env st = some (st2, evs))
    (hl : env.res_fence ≠ VkResult.VK_ERROR_DEVICE_LOST) :
    st2.exited = st.exited ∧ Event.process_exit ∉ evs ∧
    (st2.swap_chain = true → ∃ pre, evs = pre ++
      [Event.reset_fences (st.frame_counter % N), Event.queue_submit [] [] none]) := by
  unfold R_BeginFrame_RTX at h
  simp only at h
  rw [if_neg hl] at h
  have q1 : ∀ (c : Prop) [Decidable c] (cr : Bool) (s : QvkState),
      Event.process_exit ∉ (if c then recreate_swapchain N cr s else (s, [])).2 ∧
      (if c then recreate_swapchain N cr s else (s, [])).1.exited = s.exited := by
    intro c _ cr s
    by_cases hc : c
    · rw [if_pos hc]
      exact ⟨by simp [recreate_swapchain], rfl⟩
    · rw [if_neg hc]
      exact ⟨List.not_mem_nil _, rfl⟩
  generalize hr1 : (if ({ st with current_frame_index := st.frame_counter % N } :
      QvkState).swap_chain = false ∧ env.surface_has_extent = true
    then recreate_swapchain N env.created_first
      { st with current_frame_index := st.frame_counter % N }
    else ({ st with current_frame_index := st.frame_counter % N }, [])) = r1 at h
  have a1 := q1 (({ st with current_frame_index := st.frame_counter % N } :
      QvkState).swap_chain = false ∧ env.surface_has_extent = true) env.created_first
    { st with current_frame_index := st.frame_counter % N }
  rw [hr1] at a1
  generalize hr2 : (if env.screen_extent_changed = true
    then recreate_swapchain N env.created_second r1.1 else (r1.1, [])) = r2 at h
  have a2 := q1 (env.screen_extent_changed = true) env.created_second r1.1
  rw [hr2] at a2
  cases hacq : acquire_loop N env.acquire r2.1 with
  | none =>
    rw [hacq] at h
    exact absurd h (by simp)
  | some v =>
    obtain ⟨st3, evs3, r⟩ := v
    rw [hacq] at h
    obtain ⟨_, _, _, _, b5, b6, _⟩ := acquire_loop_spec N _ _ _ _ _ hacq
    obtain ⟨c1, _⟩ := acquire_loop_no_exit N _ _ _ _ _ hacq
    have hex : st3.exited = st.exited := by rw [b5, a2.2, a1.2]
    have hpre : Event.process_exit ∉ r1.2 ++ r2.2 ++ evs3 := by
      simp only [List.mem_append, not_or]
      exact ⟨⟨a1.1, a2.1⟩, c1⟩
    cases r with
    | none =>
      simp only [Option.some.injEq, Prod.mk.injEq] at h
      obtain ⟨h1, h2⟩ := h
      subst h1; subst h2
      refine ⟨hex, ?_, ?_⟩
      · simp only [List.mem_cons, not_or]
        exact ⟨by simp, hpre⟩
      · intro hs
        rw [b6 rfl] at hs
        exact absurd hs (by decide)
    | some res =>
      simp only [Option.some.injEq, Prod.mk.injEq] at h
      obtain ⟨h1, h2⟩ := h
      subst h1; subst h2
      refine ⟨?_, ?_, ?_⟩
      · by_cases hw : st3.wait_for_idle_frames ≠ 0
        · rw [if_pos hw]; exact hex
        · rw [if_neg hw]; exact hex
      · simp only [List.mem_cons, List.mem_append, not_or]
        refine ⟨by simp, ⟨⟨?_, ?_⟩, ?_⟩⟩
        · simpa only [List.mem_append, not_or] using hpre
        · by_cases hw : st3.wait_for_idle_frames ≠ 0
          · rw [if_pos hw]; simp
          · rw [if_neg hw]; simp
        · simp
      · intro _
        exact ⟨_, by rw [← List.cons_append]⟩

/-- C22 (counterexample): a frame in which the fence wait reports
`VK_ERROR_OUT_OF_DEVICE_MEMORY` and the acquisition reports `VK_ERROR_SURFACE_LOST_KHR`.  The
process does not exit; the fence is reset, the frame is rendered, submitted and
presented, and the frame counter advances, as in a frame without incident. -/
theorem C22_error_not_fatal_counterexample :
    ∃ (stn : QvkState) (tr : List Event),
      run_frames 2 [failing_frame] (QvkState.init 2 1 true) = some (stn, tr) ∧
      run_frames 2 [example_frame] (QvkState.init 2 1 true) = some (stn, tr) ∧
      stn.exited = false ∧ stn.frame_counter = 1 ∧ Event.process_exit ∉ tr ∧
      tr.take 4 = [Event.wait_for_fences 0,
        Event.acquire_next_image
          { frame := 0, gpu := 0, kind := SemaphoreKind.image_available },
        Event.reset_fences 0, Event.queue_submit [] [] none] ∧
      tr[8]? = some (Event.queue_submit
        [{ frame := 0, gpu := 0, kind := SemaphoreKind.image_available }]
        [{ frame := 0, gpu := 0, kind := SemaphoreKind.render_finished }] (some 0)) := by
  refine ⟨_, _, rfl, rfl, rfl, rfl, ?_, ?_, ?_⟩
  · decide
  · decide
  · decide

/-- C22 (amended): in `R_BeginFrame_RTX` a device-lost result of the fence wait ends the
process right after the wait.  Any other result of the fence wait, errors
included, is ignored: the call does what it does after `VK_SUCCESS`.  In the
acquisition an out-of-date or suboptimal result rebuilds the swap chain and
tries again; any other result ends the loop, and an error among them has the
effect of `VK_SUCCESS`.  Unless the device was lost the call does not exit, and when
it returns with a swap chain it has reset the slot fence and made its
submission, so the work of the frame goes on. -/
theorem C22_begin_frame_errors (N : Nat) (env : BeginEnv) (st : QvkState) :
    (env.res_fence = VkResult.VK_ERROR_DEVICE_LOST →
      R_BeginFrame_RTX N env st =
        some ({ st with current_frame_index := st.frame_counter % N, exited := true },
          [Event.wait_for_fences (st.frame_counter % N), Event.process_exit])) ∧
    (∀ res : VkResult, res ≠ VkResult.VK_ERROR_DEVICE_LOST →
      R_BeginFrame_RTX N { env with res_fence := res } st =
        R_BeginFrame_RTX N { env with res_fence := VkResult.VK_SUCCESS } st) ∧
    (∀ (res : VkResult) (created : Bool) (rest : List (VkResult × Bool)) (s : QvkState),
      s.swap_chain = true →
      (res = VkResult.VK_ERROR_OUT_OF_DATE_KHR ∨ res = VkResult.VK_SUBOPTIMAL_KHR) →
      (acquire_loop N ((res, created) :: rest) s).map (fun v => (v.1, v.2.2)) =
        (acquire_loop N rest (recreate_swapchain N created s).1).map
          (fun v => (v.1, v.2.2))) ∧
    (∀ (pre : List (VkResult × Bool)) (res : VkResult) (created : Bool),
      ¬ (res = VkResult.VK_ERROR_OUT_OF_DATE_KHR ∨ res = VkResult.VK_SUBOPTIMAL_KHR) →
      R_BeginFrame_RTX N { env with acquire := pre ++ [(res, created)] } st =
        R_BeginFrame_RTX N { env with acquire := pre ++ [(VkResult.VK_SUCCESS, created)] }
          st) ∧
    (∀ (st2 : QvkState) (evs : List Event), R_BeginFrame_RTX N env st = some (st2, evs) →
      env.res_fence ≠ VkResult.VK_ERROR_DEVICE_LOST →
      st2.exited = st.exited ∧ Event.process_exit ∉ evs ∧
      (st2.swap_chain = true → ∃ pre, evs = pre ++
        [Event.reset_fences (st.frame_counter % N), Event.queue_submit [] [] none])) := by
  refine ⟨?_, ?_, ?_, ?_, ?_⟩
  · intro hl
    unfold R_BeginFrame_RTX
    simp only
    rw [if_pos hl]
  · intro res hres
    unfold R_BeginFrame_RTX
    simp only
    rw [if_neg hres,
      if_neg (show ¬ (VkResult.VK_SUCCESS = VkResult.VK_ERROR_DEVICE_LOST) by decide)]
  · intro res created rest s hs hst
    simp only [acquire_loop]
    rw [if_neg (by rw [hs]; decide), if_pos hst]
    cases acquire_loop N rest (recreate_swapchain N created s).1 with
    | none => rfl
    | some v => rfl
  · intro pre res created hres
    exact begin_error_as_success N env pre res created st hres
  · intro st2 evs h hl
    exact begin_goes_on N env st st2 evs h hl

/-! ## Claims on the light statistics -/

/-- C23: one evaluation of `get_direct_illumination` changes the light statistics exactly
when `pt_light_stats != 0`, the polygonal class was chosen, the light sample is not
null (`l_sum != 0`) and `0 <= polygonal_light_index < num_static_lights`; it then adds 1 to one
counter of the buffer `current_frame_idx % NUM_LIGHT_STATS_BUFFERS` and leaves every other
counter as it was.  The counter is the one at `get_light_stats_addr(..)` when `vis` is not 0
and the one at that address plus 1 when `vis == 0`, and `vis == 0` exactly when the
shadow ray returns 0.  No counter decreases. -/
theorem C23_light_stats_update (B : Nat) (get_light_stats_addr : Nat → Int → Nat → Nat)
    (ubo : GlobalUbo) (x : LightSample) (stats : LightStats) :
    (light_stats_condition ubo x ↔
      (ubo.pt_light_stats ≠ 0 ∧ is_polygonal x = true ∧ x.l_polygonal + x.l_spherical ≠ 0 ∧
        0 ≤ x.polygonal_light_index ∧ x.polygonal_light_index < ubo.num_static_lights)) ∧
    (light_stats_condition ubo x →
      get_direct_illumination B get_light_stats_addr ubo x stats (ubo.current_frame_idx % B)
          (light_stats_counter get_light_stats_addr x) =
        stats (ubo.current_frame_idx % B) (light_stats_counter get_light_stats_addr x) + 1 ∧
      ∀ b a : Nat,
        ¬ (b = ubo.current_frame_idx % B ∧ a = light_stats_counter get_light_stats_addr x) →
        get_direct_illumination B get_light_stats_addr ubo x stats b a = stats b a) ∧
    (¬ light_stats_condition ubo x →
      get_direct_illumination B get_light_stats_addr ubo x stats = stats) ∧
    (light_vis x ≠ 0 →
      light_stats_counter get_light_stats_addr x =
        get_light_stats_addr x.cluster_idx x.polygonal_light_index x.primary_direction) ∧
    (light_vis x = 0 →
      get_light_stats_addr x.cluster_idx x.polygonal_light_index x.primary_direction + 1
        < 4294967296 →
      light_stats_counter get_light_stats_addr x =
        get_light_stats_addr x.cluster_idx x.polygonal_light_index x.primary_direction + 1) ∧
    (is_polygonal x = true → 0 ≤ x.rng2 → (light_vis x = 0 ↔ x.shadow = 0)) ∧
    (∀ b a : Nat, stats b a ≤ get_direct_illumination B get_light_stats_addr ubo x stats b a) := by
  refine ⟨?_, ?_, ?_, ?_, ?_, ?_, ?_⟩
  · unfold light_stats_condition null_light
    simp only [decide_eq_false_iff_not, ge_iff_le]
  · intro hc
    unfold get_direct_illumination atomicAdd
    rw [if_pos hc]
    refine ⟨?_, ?_⟩
    · simp only [and_self, if_true]
    · intro b a hne
      simp only [if_neg hne]
  · intro hc
    unfold get_direct_illumination
    rw [if_neg hc]
  · intro hv
    unfold light_stats_counter
    rw [if_neg hv]
  · intro hv hlt
    unfold light_stats_counter
    rw [if_pos hv, Nat.mod_eq_of_lt hlt]
  · intro hp hr
    have hw : x.rng2 < light_weight x := by
      unfold is_polygonal at hp
      exact of_decide_eq_true hp
    have hpos : (0 : ℚ) < light_weight x := lt_of_le_of_lt hr hw
    unfold light_vis
    rw [if_pos hp]
    constructor
    · intro h
      rcases mul_eq_zero.mp h with h1 | h1
      · exact absurd h1 (one_div_ne_zero (ne_of_gt hpos))
      · exact h1
    · intro h
      rw [h, mul_zero]
  · intro b a
    unfold get_direct_illumination atomicAdd
    by_cases hc : light_stats_condition ubo x
    · rw [if_pos hc]
      by_cases hba : b = ubo.current_frame_idx % B ∧ a = light_stats_counter get_light_stats_addr x
      · simp only [if_pos hba]
        exact Nat.le_succ _
      · simp only [if_neg hba]
        exact le_refl _
    · rw [if_neg hc]

/-- The buffer that is read, as a remainder of natural numbers. -/
theorem stats_read_index_eq (B frame_idx : Nat) (hB : 1 ≤ B) :
    stats_read_index B frame_idx = (frame_idx + (B - 1)) % B := by
  unfold stats_read_index
  have e : ((frame_idx : Int) - 1) % (B : Int) = (((frame_idx + (B - 1)) % B : Nat) : Int) := by
    have e1 : (frame_idx : Int) - 1 + (B : Int) = ((frame_idx + (B - 1) : Nat) : Int) := by
      push_cast [Nat.cast_sub hB]
      ring
    rw [← Int.add_emod_self, e1]
    norm_cast
  rw [e, Int.toNat_ofNat]

/-- C24: for every buffer count `B ≥ 2` and every frame index, the buffer
`(frame_idx - 1) mod B` that is read is one of the `B` buffers and differs from the
buffer `frame_idx mod B` that `get_direct_illumination` writes; an evaluation of
`get_direct_illumination` under that frame index, and under the frame index that
`prepare_ubo` stores from any frame counter, leaves every counter of the buffer that
is read as it was;
and the buffer read in the frame after is the buffer written now. -/
theorem C24_stats_non_interference (B : Nat) (hB : 2 ≤ B) (frame_idx : Nat) :
    stats_read_index B frame_idx < B ∧
    stats_read_index B frame_idx ≠ stats_write_index B frame_idx ∧
    (∀ (get_light_stats_addr : Nat → Int → Nat → Nat) (ubo : GlobalUbo) (x : LightSample)
        (stats : LightStats) (a : Nat), ubo.current_frame_idx = frame_idx →
        get_direct_illumination B get_light_stats_addr ubo x stats
          (stats_read_index B frame_idx) a = stats (stats_read_index B frame_idx) a) ∧
    (∀ (frame_counter : Nat) (get_light_stats_addr : Nat → Int → Nat → Nat) (ubo : GlobalUbo)
        (x : LightSample) (stats : LightStats) (a : Nat),
        ubo.current_frame_idx = prepare_ubo_current_frame_idx frame_counter →
        get_direct_illumination B get_light_stats_addr ubo x stats
            (stats_read_index B (prepare_ubo_current_frame_idx frame_counter)) a =
          stats (stats_read_index B (prepare_ubo_current_frame_idx frame_counter)) a) ∧
    stats_read_index B (frame_idx + 1) = stats_write_index B frame_idx := by
  have hne : ∀ f : Nat, stats_read_index B f ≠ stats_write_index B f := by
    intro f
    rw [stats_read_index_eq B f (by omega)]
    unfold stats_write_index
    have h := succ_mod_ne B (f + (B - 1)) hB
    have e2 : f + (B - 1) + 1 = f + B := by omega
    rw [e2, Nat.add_mod_right] at h
    exact h
  have hkeep : ∀ (f : Nat) (get_light_stats_addr : Nat → Int → Nat → Nat) (ubo : GlobalUbo)
      (x : LightSample) (stats : LightStats) (a : Nat), ubo.current_frame_idx = f →
      get_direct_illumination B get_light_stats_addr ubo x stats (stats_read_index B f) a =
        stats (stats_read_index B f) a := by
    intro f addr_of ubo x stats a hidx
    unfold get_direct_illumination atomicAdd
    by_cases hc : light_stats_condition ubo x
    · rw [if_pos hc]
      have hb : ¬ (stats_read_index B f = ubo.current_frame_idx % B ∧
          a = light_stats_counter addr_of x) := by
        intro hh
        rw [hidx] at hh
        exact hne f hh.1
      simp only [if_neg hb]
    · rw [if_neg hc]
  refine ⟨?_, hne frame_idx, hkeep frame_idx, fun fc => hkeep _, ?_⟩
  · rw [stats_read_index_eq B frame_idx (by omega)]
    exact Nat.mod_lt _ (by omega)
  · rw [stats_read_index_eq B (frame_idx + 1) (by omega)]
    unfold stats_write_index
    have e2 : frame_idx + 1 + (B - 1) = frame_idx + B := by omega
    rw [e2, Nat.add_mod_right]

/-- Witness for C24: three buffers at frame index 0: buffer 2 is read, buffer 0 is
written. -/
theorem C24_stats_non_interference_witness :
    stats_read_index 3 0 = 2 ∧ stats_write_index 3 0 = 0 ∧
    stats_read_index 3 0 ≠ stats_write_index 3 0 :=
  ⟨by decide, by decide, (C24_stats_non_interference 3 (by decide) 0).2.1⟩

/-! ## Claims on the sample ring and on the accumulation target -/

/-- C30: the target count of the blend factor and of the fade of the HUD is
`max(128, pt_accumulation_rendering_framenum)`.  For a configured value below 128 the
target is 128: from counter 6 to counter 133 the blend factor falls with every
frame, it is above `1 / 128` before counter 133 and `1 / 128` from counter 133 on, which
is not `1 / configured value`. -/
theorem C30_effective_target (c : Cvars) (rc : RefModeCvars)
    (hact : is_accumulation_rendering_active c = true) :
    (∀ n0 : Int, (evaluate_reference_mode c rc n0).ref_mode.temporal_blend_factor =
      1 / ((min (max 1 (n0 + 1 - 5)) (max 128 c.pt_accumulation_rendering_framenum) : Int)
        : ℚ)) ∧
    (∀ n0 : Int, c.pt_accumulation_rendering = 1 →
      (evaluate_reference_mode c rc n0).hud_alpha =
        some (max 0 (min 1
          (((50 - (n0 + 1 - 5 - max 128 c.pt_accumulation_rendering_framenum) : Int) : ℚ) *
            (2 / 100))))) ∧
    (c.pt_accumulation_rendering_framenum < 128 →
      get_accumulation_rendering_framenum c = 128 ∧
      (∀ n0 : Int, 6 ≤ n0 + 1 → n0 + 1 < 133 →
        (evaluate_reference_mode c rc (n0 + 1)).ref_mode.temporal_blend_factor <
          (evaluate_reference_mode c rc n0).ref_mode.temporal_blend_factor) ∧
      (∀ n0 : Int, n0 + 1 < 133 →
        1 / 128 < (evaluate_reference_mode c rc n0).ref_mode.temporal_blend_factor) ∧
      (∀ n0 : Int, 133 ≤ n0 + 1 →
        (evaluate_reference_mode c rc n0).ref_mode.temporal_blend_factor = 1 / 128 ∧
        (evaluate_reference_mode c rc n0).ref_mode.temporal_blend_factor ≠
          1 / (c.pt_accumulation_rendering_framenum : ℚ))) := by
  have hval : ∀ m : Int, (evaluate_reference_mode c rc m).ref_mode.temporal_blend_factor =
      1 / ((min (max 1 (m + 1 - 5)) (max 128 c.pt_accumulation_rendering_framenum) : Int)
        : ℚ) := by
    intro m
    unfold evaluate_reference_mode
    rw [if_pos hact]
    rfl
  refine ⟨hval, ?_, ?_⟩
  · intro n0 h1
    unfold evaluate_reference_mode
    rw [if_pos hact]
    simp only [if_pos h1]
    rfl
  · intro hv
    have hT : max 128 c.pt_accumulation_rendering_framenum = 128 := max_eq_left (le_of_lt hv)
    refine ⟨hT, ?_, ?_, ?_⟩
    · intro n0 h6 h133
      rw [hval, hval, hT]
      have e1 : min (max 1 (n0 + 1 + 1 - 5)) (128 : Int) = n0 - 3 := by
        simp only [max_def, min_def]
        split_ifs <;> omega
      have e2 : min (max 1 (n0 + 1 - 5)) (128 : Int) = n0 - 4 := by
        simp only [max_def, min_def]
        split_ifs <;> omega
      rw [e1, e2]
      have p2 : (0 : ℚ) < ((n0 - 4 : Int) : ℚ) := by
        exact_mod_cast (by omega : (0 : Int) < n0 - 4)
      have p3 : ((n0 - 4 : Int) : ℚ) < ((n0 - 3 : Int) : ℚ) := by
        exact_mod_cast (by omega : n0 - 4 < n0 - 3)
      exact one_div_lt_one_div_of_lt p2 p3
    · intro n0 h133
      rw [hval, hT]
      have hlt : min (max 1 (n0 + 1 - 5)) (128 : Int) < 128 := by
        simp only [max_def, min_def]
        split_ifs <;> omega
      have hpos : (0 : Int) < min (max 1 (n0 + 1 - 5)) (128 : Int) := by
        simp only [max_def, min_def]
        split_ifs <;> omega
      have p2 : (0 : ℚ) < ((min (max 1 (n0 + 1 - 5)) (128 : Int) : Int) : ℚ) := by
        exact_mod_cast hpos
      have p3 : ((min (max 1 (n0 + 1 - 5)) (128 : Int) : Int) : ℚ) < 128 := by
        exact_mod_cast hlt
      exact one_div_lt_one_div_of_lt p2 p3
    · intro n0 h133
      have e : (evaluate_reference_mode c rc n0).ref_mode.temporal_blend_factor = 1 / 128 := by
        rw [hval, hT]
        have e1 : min (max 1 (n0 + 1 - 5)) (128 : Int) = 128 := by
          simp only [max_def, min_def]
          split_ifs <;> omega
        rw [e1]
        norm_num
      refine ⟨e, ?_⟩
      rw [e]
      intro h
      rw [one_div, one_div, inv_inj] at h
      have h2 : (128 : Int) = c.pt_accumulation_rendering_framenum := by exact_mod_cast h
      omega

/-- Witness for C30: the target configured as 64, the game fully paused: at counter 133
the blend factor is `1 / 128`, not `1 / 64`. -/
theorem C30_effective_target_witness :
    (evaluate_reference_mode
        { Cvars.default with cl_paused := 2, sv_paused := 1,
                             pt_accumulation_rendering_framenum := 64 }
        (RefModeCvars.mk 2 1 1) 132).ref_mode.temporal_blend_factor = 1 / 128 ∧
    (evaluate_reference_mode
        { Cvars.default with cl_paused := 2, sv_paused := 1,
                             pt_accumulation_rendering_framenum := 64 }
        (RefModeCvars.mk 2 1 1) 132).ref_mode.temporal_blend_factor ≠ 1 / ((64 : Int) : ℚ) :=
  ((C30_effective_target
    { Cvars.default with cl_paused := 2, sv_paused := 1,
                         pt_accumulation_rendering_framenum := 64 }
    (RefModeCvars.mk 2 1 1)
    (by simp [is_accumulation_rendering_active, Cvars.default])).2.2
    (by simp [Cvars.default])).2.2.2 132 (by norm_num)

/-! ## Claims on the matcher under distinct keys -/

/-- C27: after `prepare_entities`, for each family on its own: when the keys of that
family's current list are pairwise distinct and the keys of that family's
previous list are pairwise distinct, `current_to_prev[i] = j` exactly when
`prev_to_current[j] = i`, exactly when `i` and `j` are live indices whose keys are
equal (in the model family: equal with an entity member that is not zero), and
`current_to_prev` is injective on its entries that are not the sentinel.  The
world family needs no assumption on the model keys, and the other way round. -/
theorem C27_matching_distinct_keys (L : Limits) (st : MatcherState)
    (world_ids model_keys : List Int) (hwf : st.WellFormed L)
    (r : MatcherState × InstanceBuffer) (hr : r = prepare_entities L st world_ids model_keys)
    (i j : Nat) :
    ((∀ a a2 : Nat, a < r.1.world_cur_count → a2 < r.1.world_cur_count →
        r.1.world_cur a = r.1.world_cur a2 → a = a2) →
      (∀ b b2 : Nat, b < r.1.world_prev_count → b2 < r.1.world_prev_count →
        r.1.world_prev b = r.1.world_prev b2 → b = b2) →
      (r.2.world.current_to_prev[i]? = some (j : Int) ↔
        (i < r.1.world_cur_count ∧ j < r.1.world_prev_count ∧
          r.1.world_cur i = r.1.world_prev j)) ∧
      (r.2.world.prev_to_current[j]? = some (i : Int) ↔
        (i < r.1.world_cur_count ∧ j < r.1.world_prev_count ∧
          r.1.world_cur i = r.1.world_prev j)) ∧
      (∀ i2 : Nat, r.2.world.current_to_prev[i]? = some (j : Int) →
        r.2.world.current_to_prev[i2]? = some (j : Int) → i = i2) ∧
      (∀ j2 : Nat, r.2.world.prev_to_current[j]? = some (i : Int) →
        r.2.world.prev_to_current[j2]? = some (i : Int) → j = j2)) ∧
    ((∀ a a2 : Nat, a < r.1.model_cur_count → a2 < r.1.model_cur_count →
        r.1.model_cur a = r.1.model_cur a2 → a = a2) →
      (∀ b b2 : Nat, b < r.1.model_prev_count → b2 < r.1.model_prev_count →
        r.1.model_prev b = r.1.model_prev b2 → b = b2) →
      (r.2.model.current_to_prev[i]? = some (j : Int) ↔
        (i < r.1.model_cur_count ∧ j < r.1.model_prev_count ∧
          r.1.model_cur i = r.1.model_prev j ∧
          (hash_of_int (r.1.model_cur i)).entity ≠ 0)) ∧
      (r.2.model.prev_to_current[j]? = some (i : Int) ↔
        (i < r.1.model_cur_count ∧ j < r.1.model_prev_count ∧
          r.1.model_cur i = r.1.model_prev j ∧
          (hash_of_int (r.1.model_cur i)).entity ≠ 0)) ∧
      (∀ i2 : Nat, r.2.model.current_to_prev[i]? = some (j : Int) →
        r.2.model.current_to_prev[i2]? = some (j : Int) → i = i2) ∧
      (∀ j2 : Nat, r.2.model.prev_to_current[j]? = some (i : Int) →
        r.2.model.prev_to_current[j2]? = some (i : Int) → j = j2)) := by
  have TW := world_tables L st world_ids model_keys hwf r hr
  have TM := model_tables L st world_ids model_keys hwf r hr
  have hjs : ∀ n : Nat, ((n : Int) ≠ SENTINEL) := by
    intro n
    simp only [SENTINEL]
    omega
  constructor
  · intro hcw hpw
    have w1 : ∀ a b : Nat, r.2.world.current_to_prev[a]? = some (b : Int) ↔
        (a < r.1.world_cur_count ∧ b < r.1.world_prev_count ∧
          r.1.world_cur a = r.1.world_prev b) := by
      intro a b
      constructor
      · intro h
        obtain ⟨j0, e, hi, hj0, hp, _⟩ := TW.1 a _ h (hjs b)
        have : b = j0 := by exact_mod_cast e
        subst this
        exact ⟨hi, hj0, hp⟩
      · rintro ⟨hi, hj, hp⟩
        refine TW.2.2.1 a b hi hj hp ?_
        intro j2 h1 h2 e2
        have := hpw b j2 hj h2 (hp.symm.trans e2)
        omega
    have w2 : ∀ a b : Nat, r.2.world.prev_to_current[b]? = some (a : Int) ↔
        (a < r.1.world_cur_count ∧ b < r.1.world_prev_count ∧
          r.1.world_cur a = r.1.world_prev b) := by
      intro a b
      constructor
      · intro h
        obtain ⟨i0, e, hi0, hj, hp, _⟩ := TW.2.1 b _ h (hjs a)
        have : a = i0 := by exact_mod_cast e
        subst this
        exact ⟨hi0, hj, hp⟩
      · rintro ⟨hi, hj, hp⟩
        refine TW.2.2.2.1 a b hi hj hp ?_
        intro i2 h1 h2 e2
        have := hcw a i2 hi h2 (hp.trans e2.symm)
        omega
    refine ⟨w1 i j, w2 i j, ?_, ?_⟩
    · intro i2 h1 h2
      obtain ⟨a1, _, a3⟩ := (w1 i j).mp h1
      obtain ⟨b1, _, b3⟩ := (w1 i2 j).mp h2
      exact hcw i i2 a1 b1 (a3.trans b3.symm)
    · intro j2 h1 h2
      obtain ⟨_, a2, a3⟩ := (w2 i j).mp h1
      obtain ⟨_, b2, b3⟩ := (w2 i j2).mp h2
      exact hpw j j2 a2 b2 (a3.symm.trans b3)
  · intro hcm hpm
    have m1 : ∀ a b : Nat, r.2.model.current_to_prev[a]? = some (b : Int) ↔
        (a < r.1.model_cur_count ∧ b < r.1.model_prev_count ∧
          r.1.model_cur a = r.1.model_prev b ∧
          (hash_of_int (r.1.model_cur a)).entity ≠ 0) := by
      intro a b
      constructor
      · intro h
        obtain ⟨j0, e, hi, hj0, hp, _⟩ := TM.1 a _ h (hjs b)
        have : b = j0 := by exact_mod_cast e
        subst this
        exact ⟨hi, hj0, hp.1, hp.2⟩
      · rintro ⟨hi, hj, hp, he⟩
        refine TM.2.2.1 a b hi hj ⟨hp, he⟩ ?_
        intro j2 h1 h2 e2
        have := hpm b j2 hj h2 (hp.symm.trans e2.1)
        omega
    have m2 : ∀ a b : Nat, r.2.model.prev_to_current[b]? = some (a : Int) ↔
        (a < r.1.model_cur_count ∧ b < r.1.model_prev_count ∧
          r.1.model_cur a = r.1.model_prev b ∧
          (hash_of_int (r.1.model_cur a)).entity ≠ 0) := by
      intro a b
      constructor
      · intro h
        obtain ⟨i0, e, hi0, hj, hp, _⟩ := TM.2.1 b _ h (hjs a)
        have : a = i0 := by exact_mod_cast e
        subst this
        exact ⟨hi0, hj, hp.1, hp.2⟩
      · rintro ⟨hi, hj, hp, he⟩
        refine TM.2.2.2.1 a b hi hj ⟨hp, he⟩ ?_
        intro i2 h1 h2 e2
        have := hcm a i2 hi h2 (hp.trans e2.1.symm)
        omega
    refine ⟨m1 i j, m2 i j, ?_, ?_⟩
    · intro i2 h1 h2
      obtain ⟨a1, _, a3, _⟩ := (m1 i j).mp h1
      obtain ⟨b1, _, b3, _⟩ := (m1 i2 j).mp h2
      exact hcm i i2 a1 b1 (a3.trans b3.symm)
    · intro j2 h1 h2
      obtain ⟨_, a2, a3, _⟩ := (m2 i j).mp h1
      obtain ⟨_, b2, b3, _⟩ := (m2 i j2).mp h2
      exact hpm j j2 a2 b2 (a3.symm.trans b3)

/-- Witness for C27: the world lists `[7, 5]` and then `[5, 7]`, the model lists
`[model_key 1 2 0, model_key 2 2 0]` and then `[model_key 2 2 0, model_key 1 2 0]`,
all keys distinct within their list: in both families index 0 of the current
frame and index 1 of the previous frame point to each other. -/
theorem C27_matching_distinct_keys_witness :
    ((prepare_entities example_limits (MatcherState.init example_limits) [7, 5]
        [model_key 1 2 0, model_key 2 2 0]).1.WellFormed example_limits) ∧
    (prepare_entities example_limits
        (prepare_entities example_limits (MatcherState.init example_limits) [7, 5]
          [model_key 1 2 0, model_key 2 2 0]).1
        [5, 7] [model_key 2 2 0, model_key 1 2 0]).2.world.current_to_prev[0]? =
      some ((1 : Nat) : Int) ∧
    (prepare_entities example_limits
        (prepare_entities example_limits (MatcherState.init example_limits) [7, 5]
          [model_key 1 2 0, model_key 2 2 0]).1
        [5, 7] [model_key 2 2 0, model_key 1 2 0]).2.world.prev_to_current[1]? =
      some ((0 : Nat) : Int) ∧
    (prepare_entities example_limits
        (prepare_entities example_limits (MatcherState.init example_limits) [7, 5]
          [model_key 1 2 0, model_key 2 2 0]).1
        [5, 7] [model_key 2 2 0, model_key 1 2 0]).2.model.current_to_prev[0]? =
      some ((1 : Nat) : Int) ∧
    (prepare_entities example_limits
        (prepare_entities example_limits (MatcherState.init example_limits) [7, 5]
          [model_key 1 2 0, model_key 2 2 0]).1
        [5, 7] [model_key 2 2 0, model_key 1 2 0]).2.model.prev_to_current[1]? =
      some ((0 : Nat) : Int) := by
  have hwf := prepare_wellFormed example_limits (MatcherState.init example_limits) [7, 5]
    [model_key 1 2 0, model_key 2 2 0] (wellFormed_after_init _ (by decide) (by decide))
  have h := C27_matching_distinct_keys example_limits
    (prepare_entities example_limits (MatcherState.init example_limits) [7, 5]
      [model_key 1 2 0, model_key 2 2 0]).1
    [5, 7] [model_key 2 2 0, model_key 1 2 0] hwf _ rfl 0 1
  have hw := h.1
    (by
      intro i i2 h1 h2 e
      have a : i < 2 := h1
      have b : i2 < 2 := h2
      interval_cases i <;> interval_cases i2 <;> first | rfl | exact absurd e (by decide))
    (by
      intro i i2 h1 h2 e
      have a : i < 2 := h1
      have b : i2 < 2 := h2
      interval_cases i <;> interval_cases i2 <;> first | rfl | exact absurd e (by decide))
  have hm := h.2
    (by
      intro i i2 h1 h2 e
      have a : i < 2 := h1
      have b : i2 < 2 := h2
      interval_cases i <;> interval_cases i2 <;> first | rfl | exact absurd e (by decide))
    (by
      intro i i2 h1 h2 e
      have a : i < 2 := h1
      have b : i2 < 2 := h2
      interval_cases i <;> interval_cases i2 <;> first | rfl | exact absurd e (by decide))
  exact ⟨hwf, hw.1.mpr ⟨by decide, by decide, by decide⟩,
    hw.2.1.mpr ⟨by decide, by decide, by decide⟩,
    hm.1.mpr ⟨by decide, by decide, by decide, by decide⟩,
    hm.2.1.mpr ⟨by decide, by decide, by decide, by decide⟩⟩
/-! ## Claims on the render extent -/

/-- C29 (the code at the failing input): default cvars with DRS enabled and
`scr_viewsize = 200`, at the first frame: the effective scale is still 0,
`get_render_extent` falls back to the viewport percentage and returns 3840 x 2160 for
a surface of 1920 x 1080, while `get_screen_image_extent` returns 1920 x 1080; with DRS
disabled the same call of `get_screen_image_extent` takes the maximum with the render
extent and returns 3840 x 2160.  Likewise after `drs_maxscale` was lowered to 60 while
the scale is 100: 1920 x 1080 against 1152 x 648. -/
theorem C29_render_extent_at_failing_input :
    (get_render_extent { Cvars.default with drs_enable := 1, scr_viewsize := 200 }
        (drs_process { Cvars.default with drs_enable := 1, scr_viewsize := 200 } 10
          DrsState.init) { width := 1920, height := 1080 } =
        { width := 3840, height := 2160 } ∧
      get_screen_image_extent { Cvars.default with drs_enable := 1, scr_viewsize := 200 }
        { width := 1920, height := 1080 } { width := 3840, height := 2160 } =
        { width := 1920, height := 1080 } ∧
      get_screen_image_extent { Cvars.default with drs_enable := 0, scr_viewsize := 200 }
        { width := 1920, height := 1080 } { width := 3840, height := 2160 } =
        { width := 3840, height := 2160 }) ∧
    (get_render_extent { Cvars.default with drs_enable := 1, drs_maxscale := 60 }
        (drs_process { Cvars.default with drs_enable := 1, drs_maxscale := 60 } 10
          (DrsState.mk 100 100 0 [1, 1, 1, 1, 1])) { width := 1920, height := 1080 } =
        { width := 1920, height := 1080 } ∧
      get_screen_image_extent { Cvars.default with drs_enable := 1, drs_maxscale := 60 }
        { width := 1920, height := 1080 } { width := 1920, height := 1080 } =
        { width := 1152, height := 648 }) := by
  refine ⟨⟨?_, ?_, ?_⟩, ?_, ?_⟩
  all_goals
    norm_num [get_render_extent, get_screen_image_extent, screen_image_width_unrounded,
      render_scale, drs_process, Cvars.default, DrsState.init, is_accumulation_rendering_active,
      SCALING_FRAMES, scale_dimension, to_uint32, to_int, round_width]
    decide

/-! ## Claims on the skinned-pose matrices -/

/-- C26 (the code at the failing input): two frames, each with a model that has `iqmData`
and no pose and a model with two poses.  In the first frame the instance of the
first model is flagged `is_iqm` and holds the matrix index `-1`.  In the second
frame (2 current and 2 previous matrices) the staging buffer holds the two
current matrices followed by the two previous ones, every flagged previous
instance has `offset_prev` raised by 2, and the patched offset of the first
instance is 1, below the appended region `[2, 4)`. -/
theorem C26_static_iqm_patch :
    (prepare_entities_poses example_limits 8 [static_iqm_entity, posed_iqm_entity 1]
      (PoseState.init example_limits 8)).model_instances.take 2 =
      [{ offset_prev := -1, is_iqm := 1 }, { offset_prev := 0, is_iqm := 1 }] ∧
    (prepare_entities_poses example_limits 8 [static_iqm_entity, posed_iqm_entity 2]
      (prepare_entities_poses example_limits 8 [static_iqm_entity, posed_iqm_entity 1]
        (PoseState.init example_limits 8))).iqm_matrix_count true = 2 ∧
    (prepare_entities_poses example_limits 8 [static_iqm_entity, posed_iqm_entity 2]
      (prepare_entities_poses example_limits 8 [static_iqm_entity, posed_iqm_entity 1]
        (PoseState.init example_limits 8))).iqm_matrix_count false = 2 ∧
    (prepare_entities_poses example_limits 8 [static_iqm_entity, posed_iqm_entity 2]
      (prepare_entities_poses example_limits 8 [static_iqm_entity, posed_iqm_entity 1]
        (PoseState.init example_limits 8))).iqm_matrix_staging.take 48 =
      List.replicate 24 2 ++ List.replicate 24 1 ∧
    (prepare_entities_poses example_limits 8 [static_iqm_entity, posed_iqm_entity 2]
      (prepare_entities_poses example_limits 8 [static_iqm_entity, posed_iqm_entity 1]
        (PoseState.init example_limits 8))).model_instances_prev.take 2 =
      [{ offset_prev := 1, is_iqm := 1 }, { offset_prev := 2, is_iqm := 1 }] ∧
    ¬ ((2 : Int) ≤ 1 ∧ (1 : Int) < 2 + 2) := by
  refine ⟨by decide, by decide, by decide, ?_, by decide, by decide⟩
  rfl

/-! ## Lemmas on repeated signals -/

theorem signal_monitor_step (P : List Semaphore) (e : Event) (rest : List Event) :
    signal_monitor P (e :: rest) =
      if ∀ s ∈ e.signals, s.kind = SemaphoreKind.trace_finished → s ∉ P then
        signal_monitor
          (P.filter (fun p => decide (p ∉ e.waits)) ++
            e.signals.filter (fun s => decide (s.kind = SemaphoreKind.trace_finished)))
          rest
      else none := rfl

theorem signal_monitor_append (t1 t2 : List Event) (P : List Semaphore) :
    signal_monitor P (t1 ++ t2) = (signal_monitor P t1).bind fun P1 => signal_monitor P1 t2 := by
  induction t1 generalizing P with
  | nil => rfl
  | cons x xs ih =>
    rw [List.cons_append, signal_monitor_step, signal_monitor_step]
    by_cases h : ∀ s ∈ x.signals, s.kind = SemaphoreKind.trace_finished → s ∉ P
    · rw [if_pos h, if_pos h]; exact ih _
    · rw [if_neg h, if_neg h]; rfl

theorem signal_monitor_pending (b c : List Event) (e2 : Event) (w : Semaphore)
    (P P2 : List Semaphore) (hm : signal_monitor P (b ++ e2 :: c) = some P2) (hp : w ∈ P)
    (hk : w.kind = SemaphoreKind.trace_finished) (he : w ∈ e2.signals) :
    ∃ x ∈ b, w ∈ x.waits := by
  induction b generalizing P with
  | nil =>
    rw [List.nil_append, signal_monitor_step] at hm
    by_cases h : ∀ s ∈ e2.signals, s.kind = SemaphoreKind.trace_finished → s ∉ P
    · exact absurd hp (h w he hk)
    · rw [if_neg h] at hm
      exact absurd hm (by simp)
  | cons y ys ih =>
    rw [List.cons_append, signal_monitor_step] at hm
    by_cases h : ∀ s ∈ y.signals, s.kind = SemaphoreKind.trace_finished → s ∉ P
    · rw [if_pos h] at hm
      by_cases hw : w ∈ y.waits
      · exact ⟨y, List.mem_cons_self _ _, hw⟩
      · have hin : w ∈ P.filter (fun p => decide (p ∉ y.waits)) ++
            y.signals.filter (fun s => decide (s.kind = SemaphoreKind.trace_finished)) := by
          apply List.mem_append_left
          rw [List.mem_filter]
          exact ⟨hp, by simpa using hw⟩
        obtain ⟨x, hx, hxw⟩ := ih _ hm hin
        exact ⟨x, List.mem_cons_of_mem _ hx, hxw⟩
    · rw [if_neg h] at hm
      exact absurd hm (by simp)

/-- A trace accepted by the checker has no repeated signal. -/
theorem signal_monitor_sound (tr : List Event) (P P2 : List Semaphore)
    (hm : signal_monitor P tr = some P2) : no_double_signal tr := by
  intro a b c e1 e2 w htr h1 h2 hk
  subst htr
  induction a generalizing P with
  | nil =>
    rw [List.nil_append, signal_monitor_step] at hm
    by_cases h : ∀ s ∈ e1.signals, s.kind = SemaphoreKind.trace_finished → s ∉ P
    · rw [if_pos h] at hm
      refine signal_monitor_pending b c e2 w _ P2 hm ?_ hk h2
      apply List.mem_append_right
      rw [List.mem_filter]
      exact ⟨h1, by simpa using hk⟩
    · rw [if_neg h] at hm
      exact absurd hm (by simp)
  | cons x xs ih =>
    rw [List.cons_append, signal_monitor_step] at hm
    by_cases h : ∀ s ∈ x.signals, s.kind = SemaphoreKind.trace_finished → s ∉ P
    · rw [if_pos h] at hm
      exact ih _ hm
    · rw [if_neg h] at hm
      exact absurd hm (by simp)

theorem signal_monitor_quiet (evs : List Event) (P : List Semaphore)
    (hP : ∀ p ∈ P, p.kind = SemaphoreKind.trace_finished)
    (h : ∀ e ∈ evs, e.trace_quiet) : signal_monitor P evs = some P := by
  induction evs with
  | nil => rfl
  | cons x xs ih =>
    have hx := h x (List.mem_cons_self _ _)
    rw [signal_monitor_step, if_pos (fun s hs hk => absurd hk (hx.2 s hs))]
    have e1 : P.filter (fun p => decide (p ∉ x.waits)) = P := by
      rw [List.filter_eq_self]
      intro p hp
      have : p ∉ x.waits := fun hw => hx.1 p hw (hP p hp)
      simpa using this
    have e2 : x.signals.filter (fun s => decide (s.kind = SemaphoreKind.trace_finished)) = [] := by
      rw [List.filter_eq_nil_iff]
      intro s hs
      simpa using hx.2 s hs
    rw [e1, e2, List.append_nil]
    exact ih (fun e he => h e (List.mem_cons_of_mem _ he))

theorem filter_trace_other (dc frame : Nat) (k : SemaphoreKind)
    (hk : k ≠ SemaphoreKind.trace_finished) :
    (gpu_semaphores dc frame k).filter
      (fun s => decide (s.kind = SemaphoreKind.trace_finished)) = [] := by
  rw [List.filter_eq_nil_iff]
  intro s hs
  rw [((mem_gpu_semaphores _ _ _ _).mp hs).2.2]
  simpa using hk

theorem filter_trace_self (dc frame : Nat) :
    (gpu_semaphores dc frame SemaphoreKind.trace_finished).filter
      (fun s => decide (s.kind = SemaphoreKind.trace_finished)) =
      gpu_semaphores dc frame SemaphoreKind.trace_finished := by
  rw [List.filter_eq_self]
  intro s hs
  rw [((mem_gpu_semaphores _ _ _ _).mp hs).2.2]
  simp

/-- A frame with one rendering call is accepted by the checker for repeated signals
and keeps the link between the state and the pending semaphores, when the
number of slots divides `2^32`. -/
theorem frame_signal_ok (N : Nat) (hdiv : N ∣ 4294967296) (env : FrameEnv)
    (st s1 : QvkState) (ev : List Event) (P : List Semaphore)
    (h : run_frame N env st = some (s1, ev)) (hr : env.render_calls = [true])
    (hlen : st.trace_signaled.length = N) (hlink : signal_link N P st) :
    ∃ P1, signal_monitor P ev = some P1 ∧ signal_link N P1 s1 ∧
      s1.trace_signaled.length = N := by
  have hNpos : 0 < N := Nat.pos_of_dvd_of_pos hdiv (by norm_num)
  have hPk : ∀ p ∈ P, p.kind = SemaphoreKind.trace_finished := by
    intro p hp
    obtain ⟨c, _, _, hm⟩ := hlink p hp
    exact ((mem_gpu_semaphores _ _ _ _).mp hm).2.2
  rcases frame_once_cases N env st s1 ev h hr with ⟨hq, a1, a2, a3⟩ | ⟨t1, B, E, b1, b2, b3, b4,
    b5, b6, b7, b8, b9, b10⟩
  · refine ⟨P, signal_monitor_quiet ev P hPk hq, ?_, by rw [a1, hlen]⟩
    intro p hp
    obtain ⟨c, h1, h2, h3⟩ := hlink p hp
    exact ⟨c, by rw [a3, h1], by rw [a1]; exact h2, by rw [a2]; exact h3⟩
  · rw [render_active N t1 b1] at b5 b8
    simp only at b8
    -- the waits of the transfer packet cover the pending semaphores
    have hcover : ∀ p ∈ P, p ∈
        (if t1.trace_signaled.getD (prev_frame_index N t1.current_frame_index) false = true
          then gpu_semaphores t1.device_count (prev_frame_index N t1.current_frame_index)
            SemaphoreKind.trace_finished
          else []) := by
      intro p hp
      obtain ⟨c, h1, h2, h3⟩ := hlink p hp
      have hprev : prev_frame_index N t1.current_frame_index = c % N := by
        rw [b2, h1]
        exact prev_frame_index_succ N c hdiv
      rw [hprev, b4, if_pos h2, b3]
      exact h3
    have f1 : P.filter (fun p => decide (p ∉
        (Event.queue_submit
          (if t1.trace_signaled.getD (prev_frame_index N t1.current_frame_index) false = true
            then gpu_semaphores t1.device_count (prev_frame_index N t1.current_frame_index)
              SemaphoreKind.trace_finished
            else [])
          (gpu_semaphores t1.device_count t1.current_frame_index
            SemaphoreKind.transfer_finished) none).waits)) = [] := by
      rw [List.filter_eq_nil_iff]
      intro p hp
      simpa [Event.waits] using hcover p hp
    refine ⟨gpu_semaphores t1.device_count t1.current_frame_index
      SemaphoreKind.trace_finished, ?_, ?_, ?_⟩
    · rw [b5, signal_monitor_append, signal_monitor_quiet B P hPk b6]
      simp only [Option.bind]
      rw [signal_monitor_append]
      have hR : signal_monitor P
          [Event.queue_submit
            (if t1.trace_signaled.getD (prev_frame_index N t1.current_frame_index) false = true
              then gpu_semaphores t1.device_count (prev_frame_index N t1.current_frame_index)
                SemaphoreKind.trace_finished
              else [])
            (gpu_semaphores t1.device_count t1.current_frame_index
              SemaphoreKind.transfer_finished) none,
          Event.queue_submit
            (gpu_semaphores t1.device_count t1.current_frame_index
              SemaphoreKind.transfer_finished) [] none,
          Event.queue_submit []
            (gpu_semaphores t1.device_count t1.current_frame_index
              SemaphoreKind.trace_finished) none,
          Event.queue_submit [] [] none] =
          some (gpu_semaphores t1.device_count t1.current_frame_index
            SemaphoreKind.trace_finished) := by
        rw [signal_monitor_step, if_pos (by
          intro s hs hk
          simp only [Event.signals] at hs
          rw [((mem_gpu_semaphores _ _ _ _).mp hs).2.2] at hk
          exact absurd hk (by decide))]
        rw [f1]
        simp only [Event.signals, filter_trace_other _ _ _ (by decide :
          SemaphoreKind.transfer_finished ≠ SemaphoreKind.trace_finished), List.append_nil]
        rw [signal_monitor_step, if_pos (by
          intro s hs
          simp only [Event.signals] at hs
          exact absurd hs (List.not_mem_nil s))]
        simp only [Event.signals, List.filter_nil, List.append_nil]
        rw [signal_monitor_step, if_pos (by
          intro s _ _
          exact List.not_mem_nil s)]
        simp only [Event.signals, Event.waits, List.filter_nil, List.nil_append,
          filter_trace_self]
        rw [signal_monitor_step, if_pos (by
          intro s hs
          simp only [Event.signals] at hs
          exact absurd hs (List.not_mem_nil s))]
        simp only [Event.signals, Event.waits, List.filter_nil, List.append_nil]
        have : (gpu_semaphores t1.device_count t1.current_frame_index
            SemaphoreKind.trace_finished).filter (fun p => decide (p ∉ ([] : List Semaphore))) =
            gpu_semaphores t1.device_count t1.current_frame_index
              SemaphoreKind.trace_finished := by
          rw [List.filter_eq_self]
          intro p _
          simp
        rw [this]
        rfl
      rw [hR]
      simp only [Option.bind]
      exact signal_monitor_quiet E _
        (fun p hp => ((mem_gpu_semaphores _ _ _ _).mp hp).2.2) b7
    · intro p hp
      refine ⟨st.frame_counter, b10, ?_, ?_⟩
      · rw [b8, ← b2]
        apply getD_set_self
        rw [List.length_set, b4, hlen, b2]
        exact Nat.mod_lt _ hNpos
      · rw [b9, ← b3, ← b2]
        exact hp
    · rw [b8, List.length_set, List.length_set, b4, hlen]

/-- A run of frames with one rendering call each is accepted by the checker for
repeated signals, when the number of slots divides `2^32`. -/
theorem run_signal_ok (N : Nat) (hdiv : N ∣ 4294967296) (envs : List FrameEnv)
    (st st2 : QvkState) (tr : List Event) (P : List Semaphore)
    (h : run_frames N envs st = some (st2, tr))
    (hr : ∀ env ∈ envs, env.render_calls = [true])
    (hlen : st.trace_signaled.length = N) (hlink : signal_link N P st) :
    ∃ P1, signal_monitor P tr = some P1 := by
  induction envs generalizing st tr P with
  | nil =>
    simp only [run_frames, Option.some.injEq, Prod.mk.injEq] at h
    obtain ⟨_, h2⟩ := h
    subst h2
    exact ⟨P, rfl⟩
  | cons env rest ih =>
    simp only [run_frames] at h
    cases hf : run_frame N env st with
    | none =>
      rw [hf] at h
      exact absurd h (by simp)
    | some v =>
      obtain ⟨st1, evs1⟩ := v
      rw [hf] at h
      simp only at h
      obtain ⟨P1, m1, l1, n1⟩ := frame_signal_ok N hdiv env st st1 evs1 P hf
        (hr env (List.mem_cons_self _ _)) hlen hlink
      by_cases hx : st1.exited = true
      · rw [if_pos hx] at h
        simp only [Option.some.injEq, Prod.mk.injEq] at h
        obtain ⟨_, h2⟩ := h
        subst h2
        exact ⟨P1, m1⟩
      · rw [if_neg hx] at h
        cases hrest : run_frames N rest st1 with
        | none =>
          rw [hrest] at h
          exact absurd h (by simp)
        | some v2 =>
          obtain ⟨st3, evs2⟩ := v2
          rw [hrest] at h
          simp only [Option.some.injEq, Prod.mk.injEq] at h
          obtain ⟨h1, h2⟩ := h
          subst h1; subst h2
          obtain ⟨P2, m2⟩ := ih st1 evs2 P1 hrest
            (fun e he => hr e (List.mem_cons_of_mem _ he)) n1 l1
          exact ⟨P2, by rw [signal_monitor_append, m1]; exact m2⟩

/-! ## Claims on repeated signals -/

/-- C28 (counterexample): three runs from the initial state in which a `trace_finished`
semaphore is signalled twice with no wait on it in between.  On two slots: a
frame that calls `R_RenderFrame_RTX` twice (both calls signal the semaphore of slot 0),
and three frames of which the second does not render (frames 0 and 2 both signal
the semaphore of slot 0).  On three slots: six frames that render once each
(frames 2 and 5 both signal the semaphore of slot 2). -/
theorem C28_double_signal_counterexample :
    (∃ (stn : QvkState) (tr : List Event),
      run_frames 2 [double_render_frame] (QvkState.init 2 1 true) = some (stn, tr) ∧
      ¬ no_double_signal tr) ∧
    (∃ (stn : QvkState) (tr : List Event),
      run_frames 2 [example_frame, no_render_frame, example_frame] (QvkState.init 2 1 true)
        = some (stn, tr) ∧
      ¬ no_double_signal tr) ∧
    (∃ (stn : QvkState) (tr : List Event),
      run_frames 3 [example_frame, example_frame, example_frame, example_frame,
        example_frame, example_frame] (QvkState.init 3 1 true) = some (stn, tr) ∧
      ¬ no_double_signal tr) := by
  refine ⟨⟨_, _, rfl, ?_⟩, ⟨_, _, rfl, ?_⟩, ⟨_, _, rfl, ?_⟩⟩
  · intro h
    exact absurd
      (h (List.take 6 ((run_frames 2 [double_render_frame] (QvkState.init 2 1 true)).getD
            (QvkState.init 2 1 true, [])).2)
        (List.take 3 (List.drop 7
          ((run_frames 2 [double_render_frame] (QvkState.init 2 1 true)).getD
            (QvkState.init 2 1 true, [])).2))
        (List.drop 11 ((run_frames 2 [double_render_frame] (QvkState.init 2 1 true)).getD
            (QvkState.init 2 1 true, [])).2)
        (Event.queue_submit [] [{ frame := 0, gpu := 0, kind := SemaphoreKind.trace_finished }]
          none)
        (Event.queue_submit [] [{ frame := 0, gpu := 0, kind := SemaphoreKind.trace_finished }]
          none)
        { frame := 0, gpu := 0, kind := SemaphoreKind.trace_finished }
        (by decide) (by decide) (by decide) rfl)
      (by decide)
  · intro h
    exact absurd
      (h (List.take 6 ((run_frames 2 [example_frame, no_render_frame, example_frame]
            (QvkState.init 2 1 true)).getD (QvkState.init 2 1 true, [])).2)
        (List.take 15 (List.drop 7
          ((run_frames 2 [example_frame, no_render_frame, example_frame]
            (QvkState.init 2 1 true)).getD (QvkState.init 2 1 true, [])).2))
        (List.drop 23 ((run_frames 2 [example_frame, no_render_frame, example_frame]
            (QvkState.init 2 1 true)).getD (QvkState.init 2 1 true, [])).2)
        (Event.queue_submit [] [{ frame := 0, gpu := 0, kind := SemaphoreKind.trace_finished }]
          none)
        (Event.queue_submit [] [{ frame := 0, gpu := 0, kind := SemaphoreKind.trace_finished }]
          none)
        { frame := 0, gpu := 0, kind := SemaphoreKind.trace_finished }
        (by decide) (by decide) (by decide) rfl)
      (by decide)
  · intro h
    exact absurd
      (h (List.take 26 ((run_frames 3 [example_frame, example_frame, example_frame,
            example_frame, example_frame, example_frame]
            (QvkState.init 3 1 true)).getD (QvkState.init 3 1 true, [])).2)
        (List.take 29 (List.drop 27
          ((run_frames 3 [example_frame, example_frame, example_frame,
            example_frame, example_frame, example_frame]
            (QvkState.init 3 1 true)).getD (QvkState.init 3 1 true, [])).2))
        (List.drop 57 ((run_frames 3 [example_frame, example_frame, example_frame,
            example_frame, example_frame, example_frame]
            (QvkState.init 3 1 true)).getD (QvkState.init 3 1 true, [])).2)
        (Event.queue_submit [] [{ frame := 2, gpu := 0, kind := SemaphoreKind.trace_finished }]
          none)
        (Event.queue_submit [] [{ frame := 2, gpu := 0, kind := SemaphoreKind.trace_finished }]
          none)
        { frame := 2, gpu := 0, kind := SemaphoreKind.trace_finished }
        (by decide) (by decide) (by decide) rfl)
      (by decide)

/-- C28 (amended): let the number of slots divide `2^32` (a power of two, such as 2).  In every
run of frames from a state with one flag per slot, in which every frame calls
`R_RenderFrame_RTX` exactly once with the world loaded, no `trace_finished` semaphore is
signalled twice without a wait on it in between. -/
theorem C28_no_double_signal (N : Nat) (hdiv : N ∣ 4294967296) (envs : List FrameEnv)
    (st0 stn : QvkState) (tr : List Event)
    (hlen : st0.trace_signaled.length = N)
    (hr : ∀ env ∈ envs, env.render_calls = [true])
    (h : run_frames N envs st0 = some (stn, tr)) : no_double_signal tr := by
  obtain ⟨P1, hm⟩ := run_signal_ok N hdiv envs st0 stn tr [] h hr hlen
    (fun p hp => absurd hp (List.not_mem_nil p))
  exact signal_monitor_sound tr [] P1 hm

/-- Witness for C28: three frames without incident on two slots and one device. -/
theorem C28_no_double_signal_witness :
    ∃ (stn : QvkState) (tr : List Event),
      run_frames 2 [example_frame, example_frame, example_frame] (QvkState.init 2 1 true) =
        some (stn, tr) ∧
      tr.length = 30 ∧ no_double_signal tr := by
  refine ⟨_, _, rfl, rfl, ?_⟩
  exact C28_no_double_signal 2 (by decide) [example_frame, example_frame, example_frame]
    (QvkState.init 2 1 true) _ _ rfl
    (by
      intro env henv
      simp only [List.mem_cons, List.mem_singleton, List.not_mem_nil, or_false, or_self]
        at henv
      rw [henv]
      rfl)
    rfl

/-! ## Lemmas on double precision arithmetic -/

theorem round_half_even_err (y : ℚ) : |((round_half_even y : Int) : ℚ) - y| ≤ 1 / 2 := by
  have h1 : ((⌊y⌋ : Int) : ℚ) ≤ y := Int.floor_le y
  have h2 : y < ((⌊y⌋ : Int) : ℚ) + 1 := Int.lt_floor_add_one y
  unfold round_half_even
  rw [abs_le]
  split_ifs with a b c
  · constructor <;> linarith
  · push_cast
    constructor <;> linarith
  · constructor <;> linarith
  · push_cast
    constructor <;> linarith

theorem round_half_even_intCast (n : Int) : round_half_even (n : ℚ) = n := by
  unfold round_half_even
  rw [Int.floor_intCast, sub_self, if_pos (by norm_num)]

theorem two_zpow_pos (e : Int) : (0 : ℚ) < (2 : ℚ) ^ e :=
  zpow_pos (by norm_num) e

/-- The finite result of a rounding is the rounded multiple of the last place. -/
theorem round_double_finite_eq (x y : ℚ) (h : round_double x = Double.finite y) :
    y = ((round_half_even (x / (2 : ℚ) ^ double_exponent x) : Int) : ℚ) *
      (2 : ℚ) ^ double_exponent x := by
  unfold round_double at h
  split_ifs at h with a b
  · injection h with h
    exact h.symm

/-- A rounding never gives a NaN. -/
theorem round_double_ne_nan (x : ℚ) : round_double x ≠ Double.nan := by
  unfold round_double
  split_ifs <;> simp

/-- The distance of the rounded multiple to the exact value is at most half a unit
of the last place. -/
theorem round_multiple_err (x : ℚ) (e : Int) :
    |((round_half_even (x / (2 : ℚ) ^ e) : Int) : ℚ) * (2 : ℚ) ^ e - x| ≤ (2 : ℚ) ^ e / 2 := by
  have hp := two_zpow_pos e
  have h := round_half_even_err (x / (2 : ℚ) ^ e)
  have e1 : ((round_half_even (x / (2 : ℚ) ^ e) : Int) : ℚ) * (2 : ℚ) ^ e - x =
      (((round_half_even (x / (2 : ℚ) ^ e) : Int) : ℚ) - x / (2 : ℚ) ^ e) * (2 : ℚ) ^ e := by
    field_simp
  rw [e1, abs_mul, abs_of_pos hp]
  calc |((round_half_even (x / (2 : ℚ) ^ e) : Int) : ℚ) - x / (2 : ℚ) ^ e| * (2 : ℚ) ^ e
      ≤ 1 / 2 * (2 : ℚ) ^ e := mul_le_mul_of_nonneg_right h (le_of_lt hp)
    _ = (2 : ℚ) ^ e / 2 := by ring

/-- The unit of the last place is at most `|x| / 2^52`, or `2^-1074` for small `x`. -/
theorem double_exponent_le (x : ℚ) (hx : x ≠ 0) :
    (2 : ℚ) ^ double_exponent x ≤ |x| / (2 : ℚ) ^ (52 : Nat) + 1 / (2 : ℚ) ^ (1074 : Nat) := by
  unfold double_exponent
  have hx0 : (0 : ℚ) ≤ |x| / (2 : ℚ) ^ (52 : Nat) := by positivity
  have hs0 : (0 : ℚ) ≤ 1 / (2 : ℚ) ^ (1074 : Nat) := by positivity
  by_cases hl : Int.log 2 |x| ≤ -1022
  · rw [max_eq_right hl]
    have : ((2 : ℚ) ^ ((-1022 : Int) - 52)) = 1 / (2 : ℚ) ^ (1074 : Nat) := by
      rw [show ((-1022 : Int) - 52) = -((1074 : Nat) : Int) by norm_num, zpow_neg, zpow_natCast,
        one_div]
    rw [this]
    linarith
  · rw [max_eq_left (by omega)]
    have hxpos : (0 : ℚ) < |x| := abs_pos.mpr hx
    have hle : ((2 : Nat) : ℚ) ^ Int.log 2 |x| ≤ |x| := Int.zpow_log_le_self (by norm_num) hxpos
    rw [zpow_sub₀ (by norm_num : (2 : ℚ) ≠ 0)]
    have e52 : (2 : ℚ) ^ ((52 : Int)) = (2 : ℚ) ^ (52 : Nat) := by
      rw [← zpow_natCast]; rfl
    rw [e52]
    have : (2 : ℚ) ^ Int.log 2 |x| / (2 : ℚ) ^ (52 : Nat) ≤ |x| / (2 : ℚ) ^ (52 : Nat) :=
      div_le_div_of_nonneg_right (by exact_mod_cast hle) (by positivity)
    linarith

/-- The error of a rounding with a finite result: at most `|x| / 2^53 + 2^-1075`. -/
theorem round_double_err (x y : ℚ) (h : round_double x = Double.finite y) :
    |y - x| ≤ |x| / (2 : ℚ) ^ (53 : Nat) + 1 / (2 : ℚ) ^ (1075 : Nat) := by
  rw [round_double_finite_eq x y h]
  by_cases hx : x = 0
  · subst hx
    rw [zero_div, show ((0 : ℚ)) = ((0 : Int) : ℚ) by norm_num, round_half_even_intCast]
    simp only [Int.cast_zero, zero_mul, sub_self, abs_zero, zero_div, zero_add]
    positivity
  · have h1 := round_multiple_err x (double_exponent x)
    have h2 := double_exponent_le x hx
    have e1 : (|x| / (2 : ℚ) ^ (52 : Nat) + 1 / (2 : ℚ) ^ (1074 : Nat)) / 2 =
        |x| / (2 : ℚ) ^ (53 : Nat) + 1 / (2 : ℚ) ^ (1075 : Nat) := by
      rw [pow_succ (2 : ℚ) 52, pow_succ (2 : ℚ) 1074]
      field_simp
      ring
    linarith

/-- A value of magnitude at most `2^1023` rounds to a finite double. -/
theorem round_double_finite (x : ℚ) (hx : |x| ≤ (2 : ℚ) ^ (1023 : Nat)) :
    ∃ y : ℚ, round_double x = Double.finite y := by
  have h1 := round_multiple_err x (double_exponent x)
  have h2 : x ≠ 0 → (2 : ℚ) ^ double_exponent x ≤
      |x| / (2 : ℚ) ^ (52 : Nat) + 1 / (2 : ℚ) ^ (1074 : Nat) := double_exponent_le x
  have hlt : ¬ ((2 : ℚ) ^ (1024 : Nat) ≤
      |((round_half_even (x / (2 : ℚ) ^ double_exponent x) : Int) : ℚ) *
        (2 : ℚ) ^ double_exponent x|) := by
    rw [not_le]
    by_cases hx0 : x = 0
    · subst hx0
      rw [zero_div, show ((0 : ℚ)) = ((0 : Int) : ℚ) by norm_num, round_half_even_intCast]
      simp only [Int.cast_zero, zero_mul, abs_zero]
      positivity
    have h2 := h2 hx0
    have t : |((round_half_even (x / (2 : ℚ) ^ double_exponent x) : Int) : ℚ) *
        (2 : ℚ) ^ double_exponent x| ≤ |x| + (2 : ℚ) ^ double_exponent x / 2 := by
      have := abs_sub_abs_le_abs_sub
        (((round_half_even (x / (2 : ℚ) ^ double_exponent x) : Int) : ℚ) *
          (2 : ℚ) ^ double_exponent x) x
      linarith
    have p52 : (1 : ℚ) ≤ (2 : ℚ) ^ (52 : Nat) := one_le_pow₀ (by norm_num)
    have p1074 : (1 : ℚ) ≤ (2 : ℚ) ^ (1074 : Nat) := one_le_pow₀ (by norm_num)
    have a1 : |x| / (2 : ℚ) ^ (52 : Nat) ≤ |x| := div_le_self (abs_nonneg x) p52
    have a2 : 1 / (2 : ℚ) ^ (1074 : Nat) ≤ 1 := by
      rw [div_le_one (by positivity)]; exact p1074
    have a3 : (1 : ℚ) ≤ (2 : ℚ) ^ (1023 : Nat) := one_le_pow₀ (by norm_num)
    have a4 : (2 : ℚ) ^ (1024 : Nat) = 2 * (2 : ℚ) ^ (1023 : Nat) := by
      rw [pow_succ (2 : ℚ) 1023]; ring
    have a5 : (2 : ℚ) ≤ (2 : ℚ) ^ (1023 : Nat) := by
      calc (2 : ℚ) = (2 : ℚ) ^ (1 : Nat) := by norm_num
        _ ≤ (2 : ℚ) ^ (1023 : Nat) := pow_le_pow_right₀ (by norm_num) (by norm_num)
    rw [a4]
    by_cases hz : |x| ≤ 1
    · linarith
    · push_neg at hz
      have : |x| / (2 : ℚ) ^ (52 : Nat) ≤ |x| / 2 := by
        apply div_le_div_of_nonneg_left (abs_nonneg x) (by norm_num)
        calc (2 : ℚ) = (2 : ℚ) ^ (1 : Nat) := by norm_num
          _ ≤ (2 : ℚ) ^ (52 : Nat) := pow_le_pow_right₀ (by norm_num) (by norm_num)
      linarith
  unfold round_double
  rw [if_neg hlt]
  exact ⟨_, rfl⟩

theorem round_half_even_eq (y : ℚ) (m : Int) (h1 : (m : ℚ) - 1 / 2 < y)
    (h2 : y < (m : ℚ) + 1 / 2) : round_half_even y = m := by
  have f1 : ((⌊y⌋ : Int) : ℚ) ≤ y := Int.floor_le y
  have f2 : y < ((⌊y⌋ : Int) : ℚ) + 1 := Int.lt_floor_add_one y
  have c1 : ((m - 1 : Int) : ℚ) ≤ y := by push_cast; linarith
  have c2 : y < ((m + 1 : Int) : ℚ) := by push_cast; linarith
  have g1 : m - 1 ≤ ⌊y⌋ := Int.le_floor.mpr c1
  have g2 : ⌊y⌋ < m + 1 := Int.floor_lt.mpr c2
  unfold round_half_even
  rcases (by omega : ⌊y⌋ = m - 1 ∨ ⌊y⌋ = m) with e | e
  · have e2 : ((⌊y⌋ : Int) : ℚ) = (m : ℚ) - 1 := by rw [e]; push_cast; ring
    rw [if_neg (by rw [e2]; linarith), if_pos (by rw [e2]; linarith), e]
    ring
  · have e2 : ((⌊y⌋ : Int) : ℚ) = (m : ℚ) := by rw [e]
    rw [if_pos (by rw [e2]; linarith), e]

theorem round_half_even_tie (y : ℚ) (m : Int) (h : y = (m : ℚ) + 1 / 2) :
    round_half_even y = if m % 2 = 0 then m else m + 1 := by
  have c1 : ((m : Int) : ℚ) ≤ y := by linarith
  have c2 : y < ((m + 1 : Int) : ℚ) := by push_cast; linarith
  have g1 : m ≤ ⌊y⌋ := Int.le_floor.mpr c1
  have g2 : ⌊y⌋ < m + 1 := Int.floor_lt.mpr c2
  have e : ⌊y⌋ = m := by omega
  unfold round_half_even
  rw [e, if_neg (by rw [h]; linarith), if_neg (by rw [h]; linarith)]

theorem double_exponent_eq (x : ℚ) (k : Int) (hk : -1022 ≤ k) (h1 : (2 : ℚ) ^ k ≤ |x|)
    (h2 : |x| < (2 : ℚ) ^ (k + 1)) : double_exponent x = k - 52 := by
  have hpos : (0 : ℚ) < |x| := lt_of_lt_of_le (two_zpow_pos k) h1
  have a1 : k ≤ Int.log 2 |x| :=
    (Int.zpow_le_iff_le_log (by norm_num) hpos).mp (by exact_mod_cast h1)
  have a2 : Int.log 2 |x| < k + 1 :=
    (Int.lt_zpow_iff_log_lt (by norm_num) hpos).mp (by exact_mod_cast h2)
  unfold double_exponent
  rw [max_eq_left (by omega)]
  omega

/-- In the normal range the rounded multiple stays below `2^1024`. -/
theorem round_multiple_lt (x : ℚ) (k n : Int) (hk2 : k ≤ 1022)
    (h2 : |x| < (2 : ℚ) ^ (k + 1))
    (hn : |(n : ℚ) - x / (2 : ℚ) ^ (k - 52)| ≤ 1 / 2) :
    |(n : ℚ) * (2 : ℚ) ^ (k - 52)| < (2 : ℚ) ^ (1024 : Nat) := by
  have hp := two_zpow_pos (k - 52)
  have e1 : (n : ℚ) * (2 : ℚ) ^ (k - 52) - x =
      ((n : ℚ) - x / (2 : ℚ) ^ (k - 52)) * (2 : ℚ) ^ (k - 52) := by
    field_simp
  have d : |(n : ℚ) * (2 : ℚ) ^ (k - 52) - x| ≤ 1 / 2 * (2 : ℚ) ^ (k - 52) := by
    rw [e1, abs_mul, abs_of_pos hp]
    exact mul_le_mul_of_nonneg_right hn (le_of_lt hp)
  have t := abs_sub_abs_le_abs_sub ((n : ℚ) * (2 : ℚ) ^ (k - 52)) x
  have u1 : (2 : ℚ) ^ (k - 52) ≤ (2 : ℚ) ^ (k + 1) :=
    zpow_le_zpow_right₀ (by norm_num) (by omega)
  have u2 : (2 : ℚ) ^ (k + 1) ≤ (2 : ℚ) ^ ((1023 : Nat) : Int) :=
    zpow_le_zpow_right₀ (by norm_num) (by push_cast; omega)
  rw [zpow_natCast] at u2
  have a4 : (2 : ℚ) ^ (1024 : Nat) = 2 * (2 : ℚ) ^ (1023 : Nat) := by
    rw [pow_succ (2 : ℚ) 1023]; ring
  have hp1 := two_zpow_pos (k + 1)
  rw [a4]
  linarith

/-- Evaluation of a rounding in the normal range: `x` has its leading bit at `2^k` and
`x / 2^(k - 52)` is nearer to the integer `m` than to any other. -/
theorem round_double_eval (x r : ℚ) (k m : Int) (hk : -1022 ≤ k) (hk2 : k ≤ 1022)
    (h1 : (2 : ℚ) ^ k ≤ x ∨ (2 : ℚ) ^ k ≤ -x)
    (h2 : -(2 : ℚ) ^ (k + 1) < x ∧ x < (2 : ℚ) ^ (k + 1))
    (hm1 : (m : ℚ) - 1 / 2 < x / (2 : ℚ) ^ (k - 52))
    (hm2 : x / (2 : ℚ) ^ (k - 52) < (m : ℚ) + 1 / 2)
    (hr : r = (m : ℚ) * (2 : ℚ) ^ (k - 52)) :
    round_double x = Double.finite r := by
  have h1a : (2 : ℚ) ^ k ≤ |x| := le_abs.mpr h1
  have h2a : |x| < (2 : ℚ) ^ (k + 1) := abs_lt.mpr h2
  have hfin := round_multiple_lt x k m hk2 h2a (by rw [abs_le]; constructor <;> linarith)
  unfold round_double
  rw [double_exponent_eq x k hk h1a h2a, round_half_even_eq _ m hm1 hm2, ← hr,
    if_neg (not_le.mpr (by rw [hr]; exact hfin))]

/-- Evaluation of a rounding in the normal range at a tie: `x / 2^(k - 52)` is halfway
between `m` and `m + 1`, and `n` is the even one of the two. -/
theorem round_double_eval_tie (x r : ℚ) (k m n : Int) (hk : -1022 ≤ k) (hk2 : k ≤ 1022)
    (h1 : (2 : ℚ) ^ k ≤ x ∨ (2 : ℚ) ^ k ≤ -x)
    (h2 : -(2 : ℚ) ^ (k + 1) < x ∧ x < (2 : ℚ) ^ (k + 1))
    (hm : x / (2 : ℚ) ^ (k - 52) = (m : ℚ) + 1 / 2)
    (hn : n = if m % 2 = 0 then m else m + 1)
    (hr : r = (n : ℚ) * (2 : ℚ) ^ (k - 52)) :
    round_double x = Double.finite r := by
  have h1a : (2 : ℚ) ^ k ≤ |x| := le_abs.mpr h1
  have h2a : |x| < (2 : ℚ) ^ (k + 1) := abs_lt.mpr h2
  have hn2 : |(n : ℚ) - x / (2 : ℚ) ^ (k - 52)| ≤ 1 / 2 := by
    rw [hm, hn, abs_le]
    split_ifs
    · constructor <;> linarith
    · push_cast
      constructor <;> linarith
  have hfin := round_multiple_lt x k n hk2 h2a hn2
  unfold round_double
  rw [double_exponent_eq x k hk h1a h2a, round_half_even_tie _ m hm, ← hn, ← hr,
    if_neg (not_le.mpr (by rw [hr]; exact hfin))]

theorem round_double_zero : round_double 0 = Double.finite 0 := by
  unfold round_double
  rw [zero_div, show ((0 : ℚ)) = ((0 : Int) : ℚ) by norm_num, round_half_even_intCast]
  simp only [Int.cast_zero, zero_mul, abs_zero]
  rw [if_neg (by rw [not_le]; positivity)]


/-- An integer below `2^53` in magnitude is a double. -/
theorem round_double_int (z : Int) (hz : |(z : ℚ)| < (2 : ℚ) ^ (53 : Nat)) :
    round_double (z : ℚ) = Double.finite (z : ℚ) := by
  by_cases h0 : z = 0
  · subst h0
    simpa using round_double_zero
  have hq0 : (z : ℚ) ≠ 0 := by exact_mod_cast h0
  have hpos : (0 : ℚ) < |(z : ℚ)| := abs_pos.mpr hq0
  have h1 : (1 : ℚ) ≤ |(z : ℚ)| := by
    have : (1 : Int) ≤ |z| := Int.one_le_abs h0
    exact_mod_cast this
  have l0 : 0 ≤ Int.log 2 |(z : ℚ)| :=
    (Int.zpow_le_iff_le_log (by norm_num) hpos).mp (by simpa using h1)
  have l1 : Int.log 2 |(z : ℚ)| < 53 :=
    (Int.lt_zpow_iff_log_lt (by norm_num) hpos).mp (by
      have : ((2 : Nat) : ℚ) ^ ((53 : Nat) : Int) = (2 : ℚ) ^ (53 : Nat) := by
        rw [zpow_natCast]; norm_num
      rw [show (53 : Int) = ((53 : Nat) : Int) by norm_num, this]
      exact hz)
  have he : double_exponent (z : ℚ) = -(((52 - Int.log 2 |(z : ℚ)|).toNat : Nat) : Int) := by
    unfold double_exponent
    rw [max_eq_left (by omega), Int.toNat_of_nonneg (by omega)]
    ring
  have hy : (z : ℚ) / (2 : ℚ) ^ double_exponent (z : ℚ) =
      ((z * 2 ^ (52 - Int.log 2 |(z : ℚ)|).toNat : Int) : ℚ) := by
    rw [he, zpow_neg, zpow_natCast]
    push_cast
    field_simp
  have hval : ((round_half_even ((z : ℚ) / (2 : ℚ) ^ double_exponent (z : ℚ)) : Int) : ℚ) *
      (2 : ℚ) ^ double_exponent (z : ℚ) = (z : ℚ) := by
    rw [hy, round_half_even_intCast, he, zpow_neg, zpow_natCast]
    push_cast
    field_simp
  unfold round_double
  rw [hval, if_neg]
  rw [not_le]
  calc |(z : ℚ)| < (2 : ℚ) ^ (53 : Nat) := hz
    _ ≤ (2 : ℚ) ^ (1024 : Nat) := pow_le_pow_right₀ (by norm_num) (by norm_num)

/-- A value of magnitude at most `B` rounds to a finite double of magnitude at most
`2 * B + 1`. -/
theorem round_double_bound (x B : ℚ) (hx : |x| ≤ B) (hB : B ≤ (2 : ℚ) ^ (1023 : Nat)) :
    ∃ y : ℚ, round_double x = Double.finite y ∧ |y| ≤ 2 * B + 1 := by
  obtain ⟨y, hy⟩ := round_double_finite x (le_trans hx hB)
  refine ⟨y, hy, ?_⟩
  have e := round_double_err x y hy
  have t := abs_sub_abs_le_abs_sub y x
  have p53 : (1 : ℚ) ≤ (2 : ℚ) ^ (53 : Nat) := one_le_pow₀ (by norm_num)
  have p1075 : (1 : ℚ) ≤ (2 : ℚ) ^ (1075 : Nat) := one_le_pow₀ (by norm_num)
  have a1 : |x| / (2 : ℚ) ^ (53 : Nat) ≤ |x| := div_le_self (abs_nonneg x) p53
  have a2 : 1 / (2 : ℚ) ^ (1075 : Nat) ≤ 1 := by
    rw [div_le_one (by positivity)]; exact p1075
  linarith

/-- A rounding with a finite result loses at most half of a value of magnitude
`2^-1000` or more. -/
theorem round_double_lower (x y : ℚ) (h : round_double x = Double.finite y)
    (hx : 1 / (2 : ℚ) ^ (1000 : Nat) ≤ |x|) : |x| / 4 ≤ |y| := by
  have e := round_double_err x y h
  have t := abs_sub_abs_le_abs_sub x y
  rw [abs_sub_comm] at e
  have a1 : |x| / (2 : ℚ) ^ (53 : Nat) ≤ |x| / 4 := by
    apply div_le_div_of_nonneg_left (abs_nonneg x) (by norm_num)
    calc (4 : ℚ) = (2 : ℚ) ^ (2 : Nat) := by norm_num
      _ ≤ (2 : ℚ) ^ (53 : Nat) := pow_le_pow_right₀ (by norm_num) (by norm_num)
  have a2 : 1 / (2 : ℚ) ^ (1075 : Nat) ≤ (1 / (2 : ℚ) ^ (1000 : Nat)) / 4 := by
    rw [div_div]
    apply div_le_div_of_nonneg_left (by norm_num) (by positivity)
    calc (2 : ℚ) ^ (1000 : Nat) * 4 = (2 : ℚ) ^ (1002 : Nat) := by
          rw [show (4 : ℚ) = (2 : ℚ) ^ (2 : Nat) by norm_num, ← pow_add]
      _ ≤ (2 : ℚ) ^ (1075 : Nat) := pow_le_pow_right₀ (by norm_num) (by norm_num)
  have a3 : (1 / (2 : ℚ) ^ (1000 : Nat)) / 4 ≤ |x| / 4 :=
    div_le_div_of_nonneg_right hx (by norm_num)
  linarith

theorem add_finite_ne_nan (a : Double) (b : ℚ) (ha : a ≠ Double.nan) :
    Double.add a (Double.finite b) ≠ Double.nan := by
  cases a with
  | finite q => exact round_double_ne_nan _
  | pos_inf => simp [Double.add]
  | neg_inf => simp [Double.add]
  | nan => exact absurd rfl ha

theorem sub_finite_ne_nan (a : Double) (b : ℚ) (ha : a ≠ Double.nan) :
    Double.sub a (Double.finite b) ≠ Double.nan := by
  unfold Double.sub Double.neg
  exact add_finite_ne_nan a (-b) ha

theorem mul_finite_ne_nan (a b : ℚ) :
    Double.mul (Double.finite a) (Double.finite b) ≠ Double.nan :=
  round_double_ne_nan _

/-- The clamp of the increase branch: a value from 1 to 10. -/
theorem clamp_double_increase (a : Double) (ha : a ≠ Double.nan) :
    ∃ v : ℚ, clamp_double a (Double.finite 1) (Double.finite 10) = Double.finite v ∧
      1 ≤ v ∧ v ≤ 10 := by
  unfold clamp_double Double.gt
  cases a with
  | finite q =>
    by_cases h1 : q < 1
    · refine ⟨1, ?_, by norm_num, by norm_num⟩
      simp [Double.lt, h1]
    · by_cases h2 : 10 < q
      · refine ⟨10, ?_, by norm_num, by norm_num⟩
        simp [Double.lt, h1, h2]
      · refine ⟨q, ?_, not_lt.mp h1, not_lt.mp h2⟩
        simp [Double.lt, h1, h2]
  | pos_inf => exact ⟨10, by simp [Double.lt], by norm_num, by norm_num⟩
  | neg_inf => exact ⟨1, by simp [Double.lt], by norm_num, by norm_num⟩
  | nan => exact absurd rfl ha

/-- The clamp of the decrease branch with the bounds as written in the call: `-1` or
`-10`. -/
theorem clamp_double_decrease (a : Double) (ha : a ≠ Double.nan) :
    clamp_double a (Double.finite (-1)) (Double.finite (-10)) = Double.finite (-1) ∨
    clamp_double a (Double.finite (-1)) (Double.finite (-10)) = Double.finite (-10) := by
  unfold clamp_double Double.gt
  cases a with
  | finite q =>
    by_cases h1 : q < -1
    · left
      simp [Double.lt, h1]
    · right
      have h2 : -10 < q := by linarith [not_lt.mp h1]
      simp [Double.lt, h1, h2]
  | pos_inf => right; simp [Double.lt]
  | neg_inf => left; simp [Double.lt]
  | nan => exact absurd rfl ha

/-- The integer part of a value from 1 to 10. -/
theorem to_int_step (v : ℚ) (h1 : 1 ≤ v) (h2 : v ≤ 10) :
    Double.to_int (Double.finite v) = some ⌊v⌋ ∧ 1 ≤ ⌊v⌋ ∧ ⌊v⌋ ≤ 10 := by
  have f1 : (1 : Int) ≤ ⌊v⌋ := Int.le_floor.mpr (by exact_mod_cast h1)
  have f2 : ⌊v⌋ ≤ 10 := by
    have : ⌊v⌋ < 11 := Int.floor_lt.mpr (by push_cast; linarith)
    omega
  refine ⟨?_, f1, f2⟩
  show (if int_range (to_int v) then some (to_int v) else none) = some ⌊v⌋
  rw [to_int_of_nonneg v (by linarith), if_pos (by unfold int_range; omega)]

theorem add_finite_eq (a b r : ℚ) (h : round_double (a + b) = Double.finite r) :
    Double.add (Double.finite a) (Double.finite b) = Double.finite r := h

theorem sub_finite_eq (a b r : ℚ) (h : round_double (a + -b) = Double.finite r) :
    Double.sub (Double.finite a) (Double.finite b) = Double.finite r := h

theorem mul_finite_eq (a b r : ℚ) (h : round_double (a * b) = Double.finite r) :
    Double.mul (Double.finite a) (Double.finite b) = Double.finite r := h

theorem div_finite_eq (a b r : ℚ) (hb : b ≠ 0) (h : round_double (a / b) = Double.finite r) :
    Double.div (Double.finite a) (Double.finite b) = Double.finite r := by
  simp only [Double.div]
  rw [if_neg hb, h]

theorem le_two_pow_1023 (B : ℚ) (h : B ≤ (2 : ℚ) ^ (200 : Nat)) : B ≤ (2 : ℚ) ^ (1023 : Nat) :=
  le_trans h (pow_le_pow_right₀ (by norm_num) (by norm_num))

theorem getD_valid (l : List ℚ) (i : Nat) (h : ∀ t ∈ l, 0 ≤ t ∧ t ≤ 1000) :
    |l.getD i 0| ≤ 1000 := by
  by_cases hi : i < l.length
  · rw [List.getD_eq_getElem l 0 hi]
    have := h _ (List.getElem_mem hi)
    rw [abs_le]
    constructor <;> linarith
  · rw [List.getD_eq_default l 0 (by omega)]
    norm_num

/-- The representative time of valid samples is a finite double. -/
theorem representative_time_double_finite (l : List ℚ) (h : ∀ t ∈ l, 0 ≤ t ∧ t ≤ 1000) :
    ∃ r : ℚ, representative_time_double l = Double.finite r ∧ |r| ≤ 20000 := by
  have g1 := getD_valid l 1 h
  have g2 := getD_valid l 2 h
  have g3 := getD_valid l 3 h
  obtain ⟨y1, e1, b1⟩ := round_double_bound (0 + l.getD 1 0) 1000 (by rw [zero_add]; exact g1)
    (le_two_pow_1023 _ (by norm_num))
  obtain ⟨y2, e2, b2⟩ := round_double_bound (y1 + l.getD 2 0) 3001
    (le_trans (abs_add _ _) (by linarith)) (le_two_pow_1023 _ (by norm_num))
  obtain ⟨y3, e3, b3⟩ := round_double_bound (y2 + l.getD 3 0) 7003
    (le_trans (abs_add _ _) (by linarith)) (le_two_pow_1023 _ (by norm_num))
  obtain ⟨y4, e4, b4⟩ := round_double_bound (y3 / 3) 5000
    (by rw [abs_div, abs_of_pos (by norm_num : (0 : ℚ) < 3)]; linarith)
    (le_two_pow_1023 _ (by norm_num))
  refine ⟨y4, ?_, by linarith⟩
  unfold representative_time_double
  simp only [Double.add, e1, e2, e3, Double.div]
  rw [if_neg (by norm_num), e4]

/-- With `drs_target` in the range of a `float`, the target time is an infinity or a
finite double that is not zero. -/
theorem target_time_double_cases (c : Cvars) (ht : |c.drs_target| ≤ (2 : ℚ) ^ (128 : Nat)) :
    target_time_double c = Double.pos_inf ∨ target_time_double c = Double.neg_inf ∨
    ∃ y : ℚ, target_time_double c = Double.finite y ∧ 1 / (2 : ℚ) ^ (128 : Nat) ≤ |y| := by
  unfold target_time_double
  simp only [Double.div]
  by_cases h0 : c.drs_target = 0
  · left
    rw [if_pos h0, if_neg (by norm_num), if_pos (by norm_num)]
  · rw [if_neg h0]
    have hpos : (0 : ℚ) < |c.drs_target| := abs_pos.mpr h0
    have hx : 1000 / (2 : ℚ) ^ (128 : Nat) ≤ |1000 / c.drs_target| := by
      rw [abs_div, abs_of_pos (by norm_num : (0 : ℚ) < 1000)]
      exact div_le_div_of_nonneg_left (by norm_num) hpos ht
    cases hr : round_double (1000 / c.drs_target) with
    | finite y =>
      right; right
      refine ⟨y, rfl, ?_⟩
      have hl := round_double_lower _ y hr (le_trans (by
        rw [div_le_div_iff₀ (by positivity) (by positivity)]
        have : (2 : ℚ) ^ (128 : Nat) ≤ (2 : ℚ) ^ (1000 : Nat) :=
          pow_le_pow_right₀ (by norm_num) (by norm_num)
        have p : (0 : ℚ) < (2 : ℚ) ^ (128 : Nat) := by positivity
        linarith) hx)
      have : 1 / (2 : ℚ) ^ (128 : Nat) ≤ 1000 / (2 : ℚ) ^ (128 : Nat) / 4 := by
        rw [div_div, div_le_div_iff₀ (by positivity) (by positivity)]
        have p : (0 : ℚ) < (2 : ℚ) ^ (128 : Nat) := by positivity
        linarith
      have h4 : 1000 / (2 : ℚ) ^ (128 : Nat) / 4 ≤ |1000 / c.drs_target| / 4 :=
        div_le_div_of_nonneg_right hx (by norm_num)
      linarith
    | pos_inf => left; rfl
    | neg_inf => right; left; rfl
    | nan => exact absurd hr (round_double_ne_nan _)

/-- The quotient `representative_time / target_time` is a finite double. -/
theorem div_target_time_finite (c : Cvars) (r : ℚ) (hr : |r| ≤ 20000)
    (ht : |c.drs_target| ≤ (2 : ℚ) ^ (128 : Nat)) :
    ∃ q : ℚ, Double.div (Double.finite r) (target_time_double c) = Double.finite q ∧
      |q| ≤ (2 : ℚ) ^ (145 : Nat) := by
  rcases target_time_double_cases c ht with e | e | ⟨y, e, hy⟩
  · rw [e]
    exact ⟨0, rfl, by norm_num⟩
  · rw [e]
    exact ⟨0, rfl, by norm_num⟩
  · rw [e]
    have hy0 : y ≠ 0 := by
      intro h
      rw [h, abs_zero] at hy
      have : (0 : ℚ) < 1 / (2 : ℚ) ^ (128 : Nat) := by positivity
      linarith
    have hypos : (0 : ℚ) < |y| := abs_pos.mpr hy0
    have hq : |r / y| ≤ (2 : ℚ) ^ (143 : Nat) := by
      rw [abs_div, div_le_iff₀ hypos]
      have p : (0 : ℚ) < (2 : ℚ) ^ (143 : Nat) := by positivity
      calc |r| ≤ 20000 := hr
        _ ≤ (2 : ℚ) ^ (143 : Nat) * (1 / (2 : ℚ) ^ (128 : Nat)) := by norm_num
        _ ≤ (2 : ℚ) ^ (143 : Nat) * |y| := mul_le_mul_of_nonneg_left hy (le_of_lt p)
    obtain ⟨q, e1, b1⟩ := round_double_bound (r / y) _ hq
      (pow_le_pow_right₀ (by norm_num) (by norm_num))
    refine ⟨q, ?_, le_trans b1 (by norm_num)⟩
    simp only [Double.div]
    rw [if_neg hy0, e1]

/-- With valid samples and `drs_target` in the range of a `float`, the regulator
output is not a NaN. -/
theorem regulator_double_ne_nan (c : Cvars) (l : List ℚ)
    (h : ∀ t ∈ l, 0 ≤ t ∧ t ≤ 1000) (ht : |c.drs_target| ≤ (2 : ℚ) ^ (128 : Nat)) :
    regulator_double c (representative_time_double l) ≠ Double.nan := by
  obtain ⟨r, er, br⟩ := representative_time_double_finite l h
  obtain ⟨q, eq, bq⟩ := div_target_time_finite c r br ht
  obtain ⟨w, ew, _⟩ := round_double_bound (1 + -q) ((2 : ℚ) ^ (146 : Nat))
    (le_trans (abs_add _ _) (by
      rw [abs_neg, abs_of_pos (by norm_num : (0 : ℚ) < 1)]
      have : (2 : ℚ) ^ (146 : Nat) = 2 * (2 : ℚ) ^ (145 : Nat) := by
        rw [pow_succ (2 : ℚ) 145]; ring
      have : (1 : ℚ) ≤ (2 : ℚ) ^ (145 : Nat) := one_le_pow₀ (by norm_num)
      linarith))
    (pow_le_pow_right₀ (by norm_num) (by norm_num))
  unfold regulator_double
  rw [er, eq]
  apply sub_finite_ne_nan
  have : Double.sub (Double.finite 1) (Double.finite q) = Double.finite w := by
    simp only [Double.sub, Double.neg, Double.add]
    exact ew
  rw [this]
  exact mul_finite_ne_nan _ _

theorem int_cast_abs_lt (z : Int) (hz : scale_range z) : |(z : ℚ)| < (2 : ℚ) ^ (53 : Nat) := by
  unfold scale_range at hz
  have h1 : (-2147483638 : ℚ) ≤ (z : ℚ) := by exact_mod_cast hz.1
  have h2 : (z : ℚ) ≤ 2147483637 := by exact_mod_cast hz.2
  rw [abs_lt]
  constructor
  · have : (-(2 : ℚ) ^ (53 : Nat)) < -2147483638 := by norm_num
    linarith
  · have : (2147483637 : ℚ) < (2 : ℚ) ^ (53 : Nat) := by norm_num
    linarith

/-- The first branch: the step is the integer part of a value from 1 to 10. -/
theorem raw_scale_double_increase (c : Cvars) (cur : Int) (l : List ℚ)
    (h : ∀ t ∈ l, 0 ≤ t ∧ t ≤ 1000) (ht : |c.drs_target| ≤ (2 : ℚ) ^ (128 : Nat))
    (hcur : scale_range cur)
    (hlt : drs_headroom_double c (representative_time_double l) = true) :
    ∃ step : Int, 1 ≤ step ∧ step ≤ 10 ∧
      Double.to_int (clamp_double
        (Double.add (regulator_double c (representative_time_double l)) (Double.finite (1 / 2)))
        (Double.finite 1) (Double.finite 10)) = some step ∧
      drs_raw_scale_double c cur (representative_time_double l) = some (cur + step) := by
  obtain ⟨v, ev, v1, v2⟩ := clamp_double_increase _
    (add_finite_ne_nan _ (1 / 2) (regulator_double_ne_nan c l h ht))
  obtain ⟨e, s1, s2⟩ := to_int_step v v1 v2
  refine ⟨⌊v⌋, s1, s2, by rw [ev, e], ?_⟩
  unfold drs_raw_scale_double
  rw [if_pos hlt, ev, e]
  unfold scale_range at hcur
  simp only [Option.some_bind, int_result]
  rw [if_pos (by unfold int_range; omega)]

/-- The second branch: the scale drops by 1 or by 10. -/
theorem raw_scale_double_decrease (c : Cvars) (cur : Int) (l : List ℚ)
    (h : ∀ t ∈ l, 0 ≤ t ∧ t ≤ 1000) (ht : |c.drs_target| ≤ (2 : ℚ) ^ (128 : Nat))
    (hcur : scale_range cur)
    (hlt : drs_headroom_double c (representative_time_double l) = false)
    (hgt : drs_overload_double c (representative_time_double l) = true) :
    drs_raw_scale_double c cur (representative_time_double l) = some (cur - 1) ∨
    drs_raw_scale_double c cur (representative_time_double l) = some (cur - 10) := by
  have hstep : ∀ d : Int, (d = 1 ∨ d = 10) →
      Double.to_int (Double.add (Double.of_int cur) (Double.finite (-(d : ℚ)))) =
        some (cur - d) := by
    intro d hd
    unfold scale_range at hcur
    have e1 : (cur : ℚ) + -(d : ℚ) = ((cur - d : Int) : ℚ) := by push_cast; ring
    have r1 : scale_range (cur - d) ∨ int_range (cur - d) := by
      right
      unfold int_range
      rcases hd with hd | hd <;> omega
    have hb : |((cur - d : Int) : ℚ)| < (2 : ℚ) ^ (53 : Nat) := by
      have h1 : (-2147483648 : ℚ) ≤ ((cur - d : Int) : ℚ) := by
        exact_mod_cast (by rcases hd with hd | hd <;> omega : (-2147483648 : Int) ≤ cur - d)
      have h2 : ((cur - d : Int) : ℚ) ≤ 2147483647 := by
        exact_mod_cast (by rcases hd with hd | hd <;> omega : cur - d ≤ (2147483647 : Int))
      rw [abs_lt]
      constructor
      · have : (-(2 : ℚ) ^ (53 : Nat)) < -2147483648 := by norm_num
        linarith
      · have : (2147483647 : ℚ) < (2 : ℚ) ^ (53 : Nat) := by norm_num
        linarith
    unfold Double.of_int
    rw [round_double_int cur (int_cast_abs_lt cur (by unfold scale_range; exact hcur))]
    simp only [Double.add]
    rw [e1, round_double_int _ hb]
    show (if int_range (to_int ((cur - d : Int) : ℚ)) then some (to_int ((cur - d : Int) : ℚ))
      else none) = some (cur - d)
    rw [to_int_intCast, if_pos (by unfold int_range; rcases hd with hd | hd <;> omega)]
  unfold drs_raw_scale_double
  rw [hlt, if_neg (by decide), if_pos hgt]
  rcases clamp_double_decrease _
    (sub_finite_ne_nan _ (1 / 2) (regulator_double_ne_nan c l h ht)) with e | e
  · left
    rw [e]
    have := hstep 1 (Or.inl rfl)
    simpa using this
  · right
    rw [e]
    have := hstep 10 (Or.inr rfl)
    simpa using this

/-- When the first branch is not taken the scale stays or drops by 1 or by 10. -/
theorem raw_scale_double_no_increase (c : Cvars) (cur : Int) (l : List ℚ)
    (h : ∀ t ∈ l, 0 ≤ t ∧ t ≤ 1000) (ht : |c.drs_target| ≤ (2 : ℚ) ^ (128 : Nat))
    (hcur : scale_range cur)
    (hlt : drs_headroom_double c (representative_time_double l) = false) :
    ∃ step : Int, (step = 0 ∨ step = 1 ∨ step = 10) ∧
      drs_raw_scale_double c cur (representative_time_double l) = some (cur - step) := by
  by_cases hgt : drs_overload_double c (representative_time_double l) = true
  · rcases raw_scale_double_decrease c cur l h ht hcur hlt hgt with e | e
    · exact ⟨1, Or.inr (Or.inl rfl), e⟩
    · exact ⟨10, Or.inr (Or.inr rfl), e⟩
  · refine ⟨0, Or.inl rfl, ?_⟩
    unfold drs_raw_scale_double
    rw [hlt, if_neg (by decide), if_neg hgt, sub_zero]

theorem drs_frames_double_append (c : Cvars) (l1 l2 : List ℚ) (s : DrsState) :
    drs_frames_double c (l1 ++ l2) s =
      (drs_frames_double c l1 s).bind (drs_frames_double c l2) := by
  induction l1 generalizing s with
  | nil => simp [drs_frames_double]
  | cons t rest ih =>
    simp only [List.cons_append, drs_frames_double]
    cases drs_process_double c t s with
    | none => simp
    | some s1 => simp [ih]

/-- Five consecutive valid samples from an empty ring in double arithmetic: the first
four are stored and the fifth triggers the decision on the sorted ring. -/
theorem drs_window_double (c : Cvars) (s : DrsState) (t1 t2 t3 t4 t5 : ℚ)
    (hen : c.drs_enable ≠ 0) (hacc : is_accumulation_rendering_active c = false)
    (hn : s.num_valid_frames = 0) (hlen : s.valid_frame_times.length = 5)
    (h1 : 0 ≤ t1 ∧ t1 ≤ 1000) (h2 : 0 ≤ t2 ∧ t2 ≤ 1000) (h3 : 0 ≤ t3 ∧ t3 ≤ 1000)
    (h4 : 0 ≤ t4 ∧ t4 ≤ 1000) (h5 : 0 ≤ t5 ∧ t5 ≤ 1000) :
    drs_frames_double c [t1, t2, t3, t4, t5] s =
      (drs_raw_scale_double c s.drs_current_scale
        (representative_time_double (qsort compare_doubles [t1, t2, t3, t4, t5]))).map
        (fun scale =>
          { drs_current_scale := max c.drs_minscale (min c.drs_maxscale scale)
            drs_effective_scale := max c.drs_minscale (min c.drs_maxscale scale)
            num_valid_frames := 0
            valid_frame_times := qsort compare_doubles [t1, t2, t3, t4, t5] }) := by
  obtain ⟨cs, es, n, ring⟩ := s
  simp only at hn hlen
  subst hn
  match ring, hlen with
  | [r1, r2, r3, r4, r5], _ =>
    have v : ∀ t : ℚ, 0 ≤ t ∧ t ≤ 1000 → ¬ (t < 0 ∨ t > 1000) := by
      intro t ht hc
      rcases hc with hc | hc
      · exact absurd ht.1 (not_le.mpr hc)
      · exact absurd ht.2 (not_le.mpr hc)
    simp [drs_frames_double, drs_process_double, hen, hacc, v t1 h1, v t2 h2, v t3 h3,
      v t4 h4, v t5 h5, SCALING_FRAMES]

theorem clamp_scale_range (lo hi x : Int) (hlo : scale_range lo) (hhi : scale_range hi) :
    scale_range (max lo (min hi x)) := by
  unfold scale_range at *
  simp only [max_def, min_def]
  split_ifs <;> omega

theorem qsort_valid (l : List ℚ) (hv : ∀ t ∈ l, 0 ≤ t ∧ t ≤ 1000) :
    ∀ t ∈ qsort compare_doubles l, 0 ≤ t ∧ t ≤ 1000 :=
  fun t ht => hv t ((qsort_perm compare_doubles l).mem_iff.mp ht)

/-- One window of five valid samples from an empty ring in double arithmetic, when the
decision takes the first branch. -/
theorem window_headroom_double (c : Cvars) (s : DrsState) (l : List ℚ)
    (hen : c.drs_enable ≠ 0) (hacc : is_accumulation_rendering_active c = false)
    (hn : s.num_valid_frames = 0) (hlen : s.valid_frame_times.length = 5)
    (hl : l.length = 5) (hv : ∀ t ∈ l, 0 ≤ t ∧ t ≤ 1000)
    (ht : |c.drs_target| ≤ (2 : ℚ) ^ (128 : Nat)) (hcur : scale_range s.drs_current_scale)
    (hh : drs_headroom_double c
      (representative_time_double (qsort compare_doubles l)) = true) :
    ∃ (step : Int) (s2 : DrsState), 1 ≤ step ∧ step ≤ 10 ∧
      Double.to_int (clamp_double
        (Double.add (regulator_double c (representative_time_double (qsort compare_doubles l)))
          (Double.finite (1 / 2)))
        (Double.finite 1) (Double.finite 10)) = some step ∧
      drs_frames_double c l s = some s2 ∧
      s2.drs_current_scale =
        max c.drs_minscale (min c.drs_maxscale (s.drs_current_scale + step)) ∧
      s2.num_valid_frames = 0 ∧ s2.valid_frame_times.length = 5 := by
  match l, hl with
  | [t1, t2, t3, t4, t5], _ =>
    have w := drs_window_double c s t1 t2 t3 t4 t5 hen hacc hn hlen
      (hv t1 (by simp)) (hv t2 (by simp)) (hv t3 (by simp)) (hv t4 (by simp)) (hv t5 (by simp))
    obtain ⟨step, a1, a2, a3, a4⟩ := raw_scale_double_increase c s.drs_current_scale _
      (qsort_valid _ hv) ht hcur hh
    refine ⟨step, DrsState.mk
      (max c.drs_minscale (min c.drs_maxscale (s.drs_current_scale + step)))
      (max c.drs_minscale (min c.drs_maxscale (s.drs_current_scale + step))) 0
      (qsort compare_doubles [t1, t2, t3, t4, t5]), a1, a2, a3, ?_, rfl, rfl, ?_⟩
    · rw [w, a4]
      rfl
    · simp only [qsort_length]
      rfl

/-- One window of five valid samples from an empty ring in double arithmetic, when the
decision takes the second branch. -/
theorem window_overload_double (c : Cvars) (s : DrsState) (l : List ℚ)
    (hen : c.drs_enable ≠ 0) (hacc : is_accumulation_rendering_active c = false)
    (hn : s.num_valid_frames = 0) (hlen : s.valid_frame_times.length = 5)
    (hl : l.length = 5) (hv : ∀ t ∈ l, 0 ≤ t ∧ t ≤ 1000)
    (ht : |c.drs_target| ≤ (2 : ℚ) ^ (128 : Nat)) (hcur : scale_range s.drs_current_scale)
    (hh : drs_headroom_double c
      (representative_time_double (qsort compare_doubles l)) = false)
    (ho : drs_overload_double c
      (representative_time_double (qsort compare_doubles l)) = true) :
    ∃ (step : Int) (s2 : DrsState), (step = 1 ∨ step = 10) ∧
      drs_frames_double c l s = some s2 ∧
      s2.drs_current_scale =
        max c.drs_minscale (min c.drs_maxscale (s.drs_current_scale - step)) ∧
      s2.num_valid_frames = 0 ∧ s2.valid_frame_times.length = 5 := by
  match l, hl with
  | [t1, t2, t3, t4, t5], _ =>
    have w := drs_window_double c s t1 t2 t3 t4 t5 hen hacc hn hlen
      (hv t1 (by simp)) (hv t2 (by simp)) (hv t3 (by simp)) (hv t4 (by simp)) (hv t5 (by simp))
    rcases raw_scale_double_decrease c s.drs_current_scale _ (qsort_valid _ hv) ht hcur hh ho
      with e | e
    · refine ⟨1, DrsState.mk
        (max c.drs_minscale (min c.drs_maxscale (s.drs_current_scale - 1)))
        (max c.drs_minscale (min c.drs_maxscale (s.drs_current_scale - 1))) 0
        (qsort compare_doubles [t1, t2, t3, t4, t5]), Or.inl rfl, ?_, rfl, rfl, ?_⟩
      · rw [w, e]
        rfl
      · simp only [qsort_length]
        rfl
    · refine ⟨10, DrsState.mk
        (max c.drs_minscale (min c.drs_maxscale (s.drs_current_scale - 10)))
        (max c.drs_minscale (min c.drs_maxscale (s.drs_current_scale - 10))) 0
        (qsort compare_doubles [t1, t2, t3, t4, t5]), Or.inr rfl, ?_, rfl, rfl, ?_⟩
      · rw [w, e]
        rfl
      · simp only [qsort_length]
        rfl

/-- A run of complete windows in double arithmetic from an empty ring, when every
window from a state with an empty ring and a scale in range ends in a state of
that kind whose scale is a clamped value and is related to the scale before
by `R`. -/
theorem run_windows_double (c : Cvars) (s0 : DrsState) (ts : List ℚ) (R : Int → Int → Prop)
    (hn : s0.num_valid_frames = 0) (hlen : s0.valid_frame_times.length = 5)
    (hmin : scale_range c.drs_minscale) (hmax : scale_range c.drs_maxscale)
    (hs0 : scale_range s0.drs_current_scale)
    (hstep : ∀ j : Nat, 5 * (j + 1) ≤ ts.length → ∀ s : DrsState,
      s.num_valid_frames = 0 → s.valid_frame_times.length = 5 →
      scale_range s.drs_current_scale →
      ∃ s2 : DrsState, drs_frames_double c (drs_window_samples ts j) s = some s2 ∧
        s2.num_valid_frames = 0 ∧ s2.valid_frame_times.length = 5 ∧
        (∃ x : Int, s2.drs_current_scale = max c.drs_minscale (min c.drs_maxscale x)) ∧
        R s.drs_current_scale s2.drs_current_scale)
    (k : Nat) (hk : 5 * k ≤ ts.length) :
    ∃ a : DrsState, drs_frames_double c (ts.take (5 * k)) s0 = some a ∧
      a.num_valid_frames = 0 ∧ a.valid_frame_times.length = 5 ∧
      scale_range a.drs_current_scale ∧
      (1 ≤ k → ∃ x : Int, a.drs_current_scale = max c.drs_minscale (min c.drs_maxscale x)) ∧
      (5 * (k + 1) ≤ ts.length →
        ∃ b : DrsState, drs_frames_double c (ts.take (5 * (k + 1))) s0 = some b ∧
          R a.drs_current_scale b.drs_current_scale) := by
  have next : ∀ (j : Nat) (a : DrsState), 5 * (j + 1) ≤ ts.length →
      drs_frames_double c (ts.take (5 * j)) s0 = some a →
      a.num_valid_frames = 0 → a.valid_frame_times.length = 5 →
      scale_range a.drs_current_scale →
      ∃ b : DrsState, drs_frames_double c (ts.take (5 * (j + 1))) s0 = some b ∧
        b.num_valid_frames = 0 ∧ b.valid_frame_times.length = 5 ∧
        (∃ x : Int, b.drs_current_scale = max c.drs_minscale (min c.drs_maxscale x)) ∧
        R a.drs_current_scale b.drs_current_scale := by
    intro j a hj ha a1 a2 a3
    obtain ⟨b, e, b1, b2, b3, b4⟩ := hstep j hj a a1 a2 a3
    refine ⟨b, ?_, b1, b2, b3, b4⟩
    have e5 : 5 * (j + 1) = 5 * j + 5 := by ring
    rw [e5, List.take_add, drs_frames_double_append, ha]
    exact e
  induction k with
  | zero =>
    refine ⟨s0, rfl, hn, hlen, hs0, fun h => absurd h (by omega), ?_⟩
    intro h
    obtain ⟨b, e, _, _, _, r⟩ := next 0 s0 h rfl hn hlen hs0
    exact ⟨b, e, r⟩
  | succ k ih =>
    obtain ⟨a, ha, a1, a2, a3, _, _⟩ := ih (by omega)
    obtain ⟨b, hb, b1, b2, ⟨x, hx⟩, _⟩ := next k a hk ha a1 a2 a3
    have b3 : scale_range b.drs_current_scale := by
      rw [hx]
      exact clamp_scale_range _ _ _ hmin hmax
    refine ⟨b, hb, b1, b2, b3, fun _ => ⟨x, hx⟩, ?_⟩
    intro h
    obtain ⟨d, e, _, _, _, r⟩ := next (k + 1) b h hb b1 b2 b3
    exact ⟨d, e, r⟩

/-! ## Claims on the resolution controller in double arithmetic -/

/-- C8: at a decision where the representative time is below `target * adjust_up`, with
`target = 1000 / drs_target`, all computed in double arithmetic as `drs_process` does,
the scale before the final clamp is the previous `drs_current_scale` plus the
integer part of `clamp(gain * (1 - representative / target) - 1 + 0.5, 1, 10)`, that
expression evaluated operation by operation in double arithmetic; the step is
an integer between 1 and 10, no conversion is undefined, and the stored scale
is the clamped sum.  The samples are valid frame times, `drs_target` is in the range
of a `float` and the previous scale leaves room for the step in an `int`. -/
theorem C8_increase_step (c : Cvars) (ms : ℚ) (s : DrsState) (rep : Double)
    (hen : c.drs_enable ≠ 0) (hacc : is_accumulation_rendering_active c = false)
    (hms : 0 ≤ ms ∧ ms ≤ 1000) (hn : s.num_valid_frames = 4)
    (hring : ∀ t ∈ s.valid_frame_times, 0 ≤ t ∧ t ≤ 1000)
    (htarget : |c.drs_target| ≤ (2 : ℚ) ^ (128 : Nat))
    (hscale : scale_range s.drs_current_scale)
    (hrep : rep = representative_time_double
      (qsort compare_doubles (s.valid_frame_times.set s.num_valid_frames ms)))
    (hlt : drs_headroom_double c rep = true) :
    ∃ step : Int, 1 ≤ step ∧ step ≤ 10 ∧
      Double.to_int (clamp_double (Double.add (regulator_double c rep) (Double.finite (1 / 2)))
        (Double.finite 1) (Double.finite 10)) = some step ∧
      drs_raw_scale_double c s.drs_current_scale rep = some (s.drs_current_scale + step) ∧
      ∃ s2 : DrsState, drs_process_double c ms s = some s2 ∧
        s2.drs_current_scale =
          max c.drs_minscale (min c.drs_maxscale (s.drs_current_scale + step)) := by
  have hvalid : ∀ t ∈ qsort compare_doubles (s.valid_frame_times.set s.num_valid_frames ms),
      0 ≤ t ∧ t ≤ 1000 := by
    apply qsort_valid
    intro t ht
    rcases List.mem_or_eq_of_mem_set ht with h | h
    · exact hring t h
    · rw [h]; exact hms
  subst hrep
  obtain ⟨step, a1, a2, a3, a4⟩ :=
    raw_scale_double_increase c s.drs_current_scale _ hvalid htarget hscale hlt
  refine ⟨step, a1, a2, a3, a4, ?_⟩
  have hv : ¬ (ms < 0 ∨ ms > 1000) := by
    intro hc
    rcases hc with hc | hc
    · exact absurd hms.1 (not_le.mpr hc)
    · exact absurd hms.2 (not_le.mpr hc)
  have hfull : ¬ (s.num_valid_frames + 1 < SCALING_FRAMES) := by
    rw [hn]; decide
  unfold drs_process_double
  rw [if_neg hen, if_neg (by rw [hacc]; decide), if_neg hv, if_neg hfull, a4]
  exact ⟨_, rfl, rfl⟩

/-- C10 (amended): with DRS enabled, accumulation inactive and a fixed configuration,
feed valid frame times to a controller whose ring is empty, such that at every
decision the representative time that `drs_process` computes in double arithmetic
is below the threshold `target * adjust_up` that it computes.  Then no conversion
is undefined, and for every window `k ≥ 1` the scale after window `k + 1` is at
least the scale after window `k`, strictly greater if that was below
`drs_maxscale`, and equal to `drs_maxscale` if that was `drs_maxscale`.  `drs_target` is in
the range of a `float`, and the scale and its two bounds leave room for one step
in an `int`. -/
theorem C10_monotonic_headroom (c : Cvars) (s0 : DrsState) (ts : List ℚ) (k : Nat)
    (hen : c.drs_enable ≠ 0) (hacc : is_accumulation_rendering_active c = false)
    (hn : s0.num_valid_frames = 0) (hlen : s0.valid_frame_times.length = 5)
    (htarget : |c.drs_target| ≤ (2 : ℚ) ^ (128 : Nat))
    (hmin : scale_range c.drs_minscale) (hmax : scale_range c.drs_maxscale)
    (hs0 : scale_range s0.drs_current_scale)
    (hv : ∀ t ∈ ts, 0 ≤ t ∧ t ≤ 1000)
    (hrep : ∀ j : Nat, 5 * (j + 1) ≤ ts.length →
      drs_headroom_double c (representative_time_double
        (qsort compare_doubles (drs_window_samples ts j))) = true)
    (hk : 1 ≤ k) (hts : 5 * (k + 1) ≤ ts.length) :
    ∃ a b : DrsState, drs_frames_double c (ts.take (5 * k)) s0 = some a ∧
      drs_frames_double c (ts.take (5 * (k + 1))) s0 = some b ∧
      a.drs_current_scale ≤ b.drs_current_scale ∧
      (a.drs_current_scale < c.drs_maxscale → a.drs_current_scale < b.drs_current_scale) ∧
      (a.drs_current_scale = c.drs_maxscale → b.drs_current_scale = c.drs_maxscale) := by
  obtain ⟨a, ha, _, _, _, h5, h6⟩ := run_windows_double c s0 ts
    (fun x y => ∃ step : Int, 1 ≤ step ∧
      y = max c.drs_minscale (min c.drs_maxscale (x + step)))
    hn hlen hmin hmax hs0
    (by
      intro j hj s a1 a2 a3
      have hl : (drs_window_samples ts j).length = 5 := by
        unfold drs_window_samples
        rw [List.length_take, List.length_drop]
        omega
      have hvw : ∀ t ∈ drs_window_samples ts j, 0 ≤ t ∧ t ≤ 1000 := by
        intro t ht
        unfold drs_window_samples at ht
        exact hv t (List.mem_of_mem_drop (List.mem_of_mem_take ht))
      obtain ⟨step, s2, b1, _, _, b4, b5, b6, b7⟩ :=
        window_headroom_double c s _ hen hacc a1 a2 hl hvw htarget a3 (hrep j hj)
      exact ⟨s2, b4, b6, b7, ⟨_, b5⟩, step, b1, b5⟩)
    k (by omega)
  obtain ⟨x, hx⟩ := h5 hk
  obtain ⟨b, hb, step, g1, g3⟩ := h6 hts
  refine ⟨a, b, ha, hb, ?_⟩
  rw [g3]
  exact clamp_scale_mono _ _ _ x step hx g1

/-- C11 (amended): with DRS enabled, accumulation inactive and a fixed configuration,
feed valid frame times to a controller with an empty ring whose
`drs_current_scale` is at least `drs_minscale`, such that at every decision the
representative time that `drs_process` computes in double arithmetic is above the
threshold `target * adjust_down` that it computes and not below the threshold
`target * adjust_up` that it computes.  Then no conversion is undefined, the scale
after each window is at most the scale before that window, it never goes below
`drs_minscale`, and it stays at `drs_minscale` once it is there.  `drs_target` is in the
range of a `float`, and the scale and its two bounds leave room for one step in an
`int`. -/
theorem C11_monotonic_overload (c : Cvars) (s0 : DrsState) (ts : List ℚ) (k : Nat)
    (hen : c.drs_enable ≠ 0) (hacc : is_accumulation_rendering_active c = false)
    (hn : s0.num_valid_frames = 0) (hlen : s0.valid_frame_times.length = 5)
    (htarget : |c.drs_target| ≤ (2 : ℚ) ^ (128 : Nat))
    (hmin : scale_range c.drs_minscale) (hmax : scale_range c.drs_maxscale)
    (hs0 : scale_range s0.drs_current_scale)
    (hstart : c.drs_minscale ≤ s0.drs_current_scale)
    (hv : ∀ t ∈ ts, 0 ≤ t ∧ t ≤ 1000)
    (hrep : ∀ j : Nat, 5 * (j + 1) ≤ ts.length →
      drs_overload_double c (representative_time_double
        (qsort compare_doubles (drs_window_samples ts j))) = true ∧
      drs_headroom_double c (representative_time_double
        (qsort compare_doubles (drs_window_samples ts j))) = false)
    (hts : 5 * (k + 1) ≤ ts.length) :
    ∃ a b : DrsState, drs_frames_double c (ts.take (5 * k)) s0 = some a ∧
      drs_frames_double c (ts.take (5 * (k + 1))) s0 = some b ∧
      b.drs_current_scale ≤ a.drs_current_scale ∧
      c.drs_minscale ≤ b.drs_current_scale ∧
      (a.drs_current_scale = c.drs_minscale → b.drs_current_scale = c.drs_minscale) := by
  obtain ⟨a, ha, _, _, _, h5, h6⟩ := run_windows_double c s0 ts
    (fun x y => ∃ step : Int, 1 ≤ step ∧
      y = max c.drs_minscale (min c.drs_maxscale (x - step)))
    hn hlen hmin hmax hs0
    (by
      intro j hj s a1 a2 a3
      have hl : (drs_window_samples ts j).length = 5 := by
        unfold drs_window_samples
        rw [List.length_take, List.length_drop]
        omega
      have hvw : ∀ t ∈ drs_window_samples ts j, 0 ≤ t ∧ t ≤ 1000 := by
        intro t ht
        unfold drs_window_samples at ht
        exact hv t (List.mem_of_mem_drop (List.mem_of_mem_take ht))
      obtain ⟨step, s2, b1, b4, b5, b6, b7⟩ :=
        window_overload_double c s _ hen hacc a1 a2 hl hvw htarget a3 (hrep j hj).2
          (hrep j hj).1
      exact ⟨s2, b4, b6, b7, ⟨_, b5⟩, step, by rcases b1 with e | e <;> omega, b5⟩)
    k (by omega)
  obtain ⟨b, hb, step, g1, g3⟩ := h6 hts
  have hlo : c.drs_minscale ≤ a.drs_current_scale := by
    rcases Nat.eq_zero_or_pos k with h0 | hpos
    · subst h0
      have e : a = s0 := by
        have : drs_frames_double c (ts.take (5 * 0)) s0 = some s0 := by
          simp [drs_frames_double]
        rw [this] at ha
        exact (Option.some.inj ha).symm
      rw [e]
      exact hstart
    · obtain ⟨x, hx⟩ := h5 hpos
      rw [hx]
      exact le_max_left _ _
  refine ⟨a, b, ha, hb, ?_⟩
  rw [g3]
  exact clamp_scale_antitone _ _ _ step hlo g1

/-- Witness for C8: `drs_target = 50`, the other cvars as registered, scale 50, four stored
samples of 13.5 ms and a fifth sample of 13.5 ms.  The quotient `13.5 / 20` is
rounded, the regulator output plus 0.5 comes to `6755399441055743 / 2^50`, just
below 6, and the stored scale is 55. -/
theorem C8_increase_step_witness :
    ∃ s2 : DrsState,
      drs_process_double { Cvars.default_float with drs_enable := 1, drs_target := 50 } (27 / 2)
        (DrsState.mk 50 50 4 [27 / 2, 27 / 2, 27 / 2, 27 / 2, 0]) = some s2 ∧
      s2.drs_current_scale = 55 := by
  have r1 : round_double (27 / 2) = Double.finite (27 / 2) :=
    by apply round_double_eval _ _ (3) (7599824371187712) <;> norm_num
  have r2 : round_double (27) = Double.finite (27) :=
    by apply round_double_eval _ _ (4) (7599824371187712) <;> norm_num
  have r3 : round_double (81 / 2) = Double.finite (81 / 2) :=
    by apply round_double_eval _ _ (5) (5699868278390784) <;> norm_num
  have r4 : round_double (20) = Double.finite (20) :=
    by apply round_double_eval _ _ (4) (5629499534213120) <;> norm_num
  have r5 : round_double (77175195 / 4194304) = Double.finite (77175195 / 4194304) :=
    by apply round_double_eval _ _ (4) (5179139665428480) <;> norm_num
  have r6 : round_double (27 / 40) = Double.finite (3039929748475085 / 4503599627370496) :=
    by apply round_double_eval _ _ (-1) (6079859496950170) <;> norm_num
  have r7 : round_double (1463669878895411 / 4503599627370496) = Double.finite (1463669878895411 / 4503599627370496) :=
    by apply round_double_eval _ _ (-2) (5854679515581644) <;> norm_num
  have r8 : round_double (7318349394477055 / 1125899906842624) = Double.finite (7318349394477055 / 1125899906842624) :=
    by apply round_double_eval _ _ (2) (7318349394477055) <;> norm_num
  have r9 : round_double (6192449487634431 / 1125899906842624) = Double.finite (6192449487634431 / 1125899906842624) :=
    by apply round_double_eval _ _ (2) (6192449487634431) <;> norm_num
  have r10 : round_double (6755399441055743 / 1125899906842624) = Double.finite (6755399441055743 / 1125899906842624) :=
    by apply round_double_eval _ _ (2) (6755399441055743) <;> norm_num
  have hq : qsort compare_doubles
      ((DrsState.mk 50 50 4 [27 / 2, 27 / 2, 27 / 2, 27 / 2, 0]).valid_frame_times.set
        (DrsState.mk 50 50 4 [27 / 2, 27 / 2, 27 / 2, 27 / 2, 0]).num_valid_frames (27 / 2)) =
      [27 / 2, 27 / 2, 27 / 2, 27 / 2, 27 / 2] := by
    norm_num [qsort, ordered_insert, compare_doubles]
  have hrep : representative_time_double [27 / 2, 27 / 2, 27 / 2, 27 / 2, 27 / 2] =
      Double.finite (27 / 2) := by
    norm_num [representative_time_double, Double.add, Double.div, r1, r2, r3]
  have hlt : drs_headroom_double
      { Cvars.default_float with drs_enable := 1, drs_target := 50 }
      (Double.finite (27 / 2)) = true := by
    norm_num [drs_headroom_double, target_time_double, Double.mul, Double.div, Double.lt,
      Cvars.default_float, Cvars.default, r4, r5]
  have hstep : Double.to_int (clamp_double
      (Double.add (regulator_double
        { Cvars.default_float with drs_enable := 1, drs_target := 50 }
        (Double.finite (27 / 2))) (Double.finite (1 / 2)))
      (Double.finite 1) (Double.finite 10)) = some 5 := by
    norm_num [regulator_double, target_time_double, clamp_double, Double.add, Double.sub,
      Double.neg, Double.mul, Double.div, Double.lt, Double.gt, Double.to_int, int_range,
      to_int, Cvars.default_float, Cvars.default, r4, r6, r7, r8, r9, r10]
  obtain ⟨step, _, _, e, _, s2, p1, p2⟩ := C8_increase_step
    { Cvars.default_float with drs_enable := 1, drs_target := 50 } (27 / 2)
    (DrsState.mk 50 50 4 [27 / 2, 27 / 2, 27 / 2, 27 / 2, 0]) (Double.finite (27 / 2))
    (by simp [Cvars.default_float, Cvars.default])
    (by simp [is_accumulation_rendering_active, Cvars.default_float, Cvars.default])
    (by norm_num) rfl
    (by
      intro t ht
      simp only [List.mem_cons, List.mem_singleton, List.not_mem_nil, or_false] at ht
      rcases ht with e | e | e | e | e <;> rw [e] <;> norm_num)
    (by
      show |(50 : ℚ)| ≤ _
      rw [abs_le]
      constructor <;> norm_num)
    (by unfold scale_range; decide)
    (by rw [hq, hrep]) hlt
  rw [hstep] at e
  have e5 : step = 5 := (Option.some.inj e).symm
  subst e5
  exact ⟨s2, p1, by rw [p2]; decide⟩

/-- Five equal samples are sorted. -/
theorem qsort_equal (t : ℚ) :
    qsort compare_doubles [t, t, t, t, t] = [t, t, t, t, t] := by
  simp [qsort, ordered_insert, compare_doubles]

/-- Five equal valid samples from an empty ring in double arithmetic. -/
theorem window_equal_double (c : Cvars) (hen : c.drs_enable ≠ 0)
    (hacc : is_accumulation_rendering_active c = false) (t : ℚ) (ht : 0 ≤ t ∧ t ≤ 1000)
    (cur eff : Int) (ring : List ℚ) (hring : ring.length = 5) (N : Int)
    (hraw : drs_raw_scale_double c cur (representative_time_double [t, t, t, t, t]) = some N) :
    drs_frames_double c [t, t, t, t, t] (DrsState.mk cur eff 0 ring) =
      some (DrsState.mk (max c.drs_minscale (min c.drs_maxscale N))
        (max c.drs_minscale (min c.drs_maxscale N)) 0 [t, t, t, t, t]) := by
  rw [drs_window_double c _ t t t t t hen hacc rfl hring ht ht ht ht ht, qsort_equal, hraw]
  rfl

/-- C10 (counterexample): `drs_target = 35`, the other cvars as registered, DRS enabled.  The
computed threshold `target * adjust_up` is `7398770950612115 / 2^48` ms and every frame
time is the double next below it, `3699385475306057 / 2^47` ms, which is also below
the exact threshold.  The sum of three samples is rounded up and the computed
representative time is the threshold itself, so neither branch runs: the scale
is 50 after the first window and still 50, below `drs_maxscale = 100`, after the
second. -/
theorem C10_headroom_hold_counterexample :
    round_double (3699385475306057 / 140737488355328) =
      Double.finite (3699385475306057 / 140737488355328) ∧
    ((0 : ℚ) ≤ 3699385475306057 / 140737488355328 ∧
      (3699385475306057 / 140737488355328 : ℚ) ≤ 1000) ∧
    (3699385475306057 / 140737488355328 : ℚ) < 1000 / 35 * (15435039 / 16777216) ∧
    drs_headroom_double { Cvars.default_float with drs_enable := 1, drs_target := 35 }
      (Double.finite (3699385475306057 / 140737488355328)) = true ∧
    representative_time_double
      [3699385475306057 / 140737488355328, 3699385475306057 / 140737488355328,
        3699385475306057 / 140737488355328, 3699385475306057 / 140737488355328,
        3699385475306057 / 140737488355328] =
      Double.finite (7398770950612115 / 281474976710656) ∧
    drs_headroom_double { Cvars.default_float with drs_enable := 1, drs_target := 35 }
      (Double.finite (7398770950612115 / 281474976710656)) = false ∧
    (∃ a b : DrsState,
      drs_frames_double { Cvars.default_float with drs_enable := 1, drs_target := 35 }
        [3699385475306057 / 140737488355328, 3699385475306057 / 140737488355328,
          3699385475306057 / 140737488355328, 3699385475306057 / 140737488355328,
          3699385475306057 / 140737488355328] DrsState.init = some a ∧
      drs_frames_double { Cvars.default_float with drs_enable := 1, drs_target := 35 }
        ([3699385475306057 / 140737488355328, 3699385475306057 / 140737488355328,
          3699385475306057 / 140737488355328, 3699385475306057 / 140737488355328,
          3699385475306057 / 140737488355328] ++
         [3699385475306057 / 140737488355328, 3699385475306057 / 140737488355328,
          3699385475306057 / 140737488355328, 3699385475306057 / 140737488355328,
          3699385475306057 / 140737488355328]) DrsState.init = some b ∧
      a.drs_current_scale = 50 ∧ b.drs_current_scale = 50 ∧
      ({ Cvars.default_float with drs_enable := 1, drs_target := 35 } : Cvars).drs_maxscale
        = 100) := by
  have r1 : round_double (200 / 7) = Double.finite (8042142191733029 / 281474976710656) :=
    by apply round_double_eval _ _ (4) (8042142191733029) <;> norm_num
  have r2 : round_double (124130778372944780203131 / 4722366482869645213696) =
      Double.finite (7398770950612115 / 281474976710656) :=
    by apply round_double_eval _ _ (4) (7398770950612115) <;> norm_num
  have r3 : round_double (3699385475306057 / 140737488355328) =
      Double.finite (3699385475306057 / 140737488355328) :=
    by apply round_double_eval _ _ (4) (7398770950612114) <;> norm_num
  have r4 : round_double (3699385475306057 / 70368744177664) =
      Double.finite (3699385475306057 / 70368744177664) :=
    by apply round_double_eval _ _ (5) (7398770950612114) <;> norm_num
  have r5 : round_double (11098156425918171 / 140737488355328) =
      Double.finite (2774539106479543 / 35184372088832) :=
    by apply round_double_eval_tie _ _ (6) (5549078212959085) (5549078212959086) <;> norm_num
  have r6 : round_double (2774539106479543 / 105553116266496) =
      Double.finite (7398770950612115 / 281474976710656) :=
    by apply round_double_eval _ _ (4) (7398770950612115) <;> norm_num
  have r11 : round_double (16528283011729446798061 / 590295810358705651712) =
      Double.finite (3940649750645029 / 140737488355328) :=
    by apply round_double_eval _ _ (4) (7881299501290058) <;> norm_num
  have hen : ({ Cvars.default_float with drs_enable := 1, drs_target := 35 } : Cvars).drs_enable
      ≠ 0 := by simp [Cvars.default_float, Cvars.default]
  have hacc : is_accumulation_rendering_active
      { Cvars.default_float with drs_enable := 1, drs_target := 35 } = false := by
    simp [is_accumulation_rendering_active, Cvars.default_float, Cvars.default]
  have hrep : representative_time_double
      [3699385475306057 / 140737488355328, 3699385475306057 / 140737488355328,
        3699385475306057 / 140737488355328, 3699385475306057 / 140737488355328,
        3699385475306057 / 140737488355328] =
      Double.finite (7398770950612115 / 281474976710656) := by
    norm_num [representative_time_double, Double.add, Double.div, r3, r4, r5, r6]
  have hhead : drs_headroom_double
      { Cvars.default_float with drs_enable := 1, drs_target := 35 }
      (Double.finite (7398770950612115 / 281474976710656)) = false := by
    norm_num [drs_headroom_double, target_time_double, Double.mul, Double.div, Double.lt,
      Cvars.default_float, Cvars.default, r1, r2]
  have hover : drs_overload_double
      { Cvars.default_float with drs_enable := 1, drs_target := 35 }
      (Double.finite (7398770950612115 / 281474976710656)) = false := by
    norm_num [drs_overload_double, target_time_double, Double.mul, Double.div, Double.lt,
      Double.gt, Cvars.default_float, Cvars.default, r1, r11]
  have hraw : ∀ cur : Int,
      drs_raw_scale_double { Cvars.default_float with drs_enable := 1, drs_target := 35 } cur
        (representative_time_double
          [3699385475306057 / 140737488355328, 3699385475306057 / 140737488355328,
            3699385475306057 / 140737488355328, 3699385475306057 / 140737488355328,
            3699385475306057 / 140737488355328]) = some cur := by
    intro cur
    rw [hrep]
    unfold drs_raw_scale_double
    rw [hhead, hover]
    simp
  have hv : (0 : ℚ) ≤ 3699385475306057 / 140737488355328 ∧
      (3699385475306057 / 140737488355328 : ℚ) ≤ 1000 := by norm_num
  have w1 := window_equal_double _ hen hacc _ hv 0 0 (List.replicate 5 0) rfl 0 (hraw 0)
  have w2 := window_equal_double _ hen hacc _ hv 50 50
    [3699385475306057 / 140737488355328, 3699385475306057 / 140737488355328,
      3699385475306057 / 140737488355328, 3699385475306057 / 140737488355328,
      3699385475306057 / 140737488355328] rfl 50 (hraw 50)
  refine ⟨r3, hv, by norm_num, ?_, hrep, hhead, ?_⟩
  · norm_num [drs_headroom_double, target_time_double, Double.mul, Double.div, Double.lt,
      Cvars.default_float, Cvars.default, r1, r2]
  · have i0 : DrsState.init = DrsState.mk 0 0 0 (List.replicate 5 0) := rfl
    have w12 := drs_frames_double_append
      { Cvars.default_float with drs_enable := 1, drs_target := 35 }
      [3699385475306057 / 140737488355328, 3699385475306057 / 140737488355328,
        3699385475306057 / 140737488355328, 3699385475306057 / 140737488355328,
        3699385475306057 / 140737488355328]
      [3699385475306057 / 140737488355328, 3699385475306057 / 140737488355328,
        3699385475306057 / 140737488355328, 3699385475306057 / 140737488355328,
        3699385475306057 / 140737488355328] DrsState.init
    rw [i0, w1, Option.some_bind] at w12
    rw [show max ({ Cvars.default_float with drs_enable := 1, drs_target := 35 } :
        Cvars).drs_minscale
      (min ({ Cvars.default_float with drs_enable := 1, drs_target := 35 } : Cvars).drs_maxscale
        0) = 50 by decide] at w12
    rw [w2] at w12
    rw [i0]
    exact ⟨_, _, w1, w12, by decide, by decide, rfl⟩

/-- The target time at 60 frames per second in double arithmetic. -/
theorem target_time_double_60 (c : Cvars) (h1 : c.drs_target = 60) :
    target_time_double c = Double.finite (4691249611844267 / 281474976710656) := by
  have r4 : round_double (50 / 3) = Double.finite (4691249611844267 / 281474976710656) :=
    by apply round_double_eval _ _ (4) (4691249611844267) <;> norm_num
  unfold target_time_double
  rw [h1]
  norm_num [Double.div, r4]

/-- The regulator output for a representative time of 20 ms at 60 frames per second
with gain 20, in double arithmetic. -/
theorem regulator_double_60_20 (c : Cvars) (h1 : c.drs_target = 60) (h2 : c.drs_gain = 20) :
    regulator_double c (Double.finite 20) =
      Double.finite (-(5629499534213119 / 1125899906842624)) := by
  have r6 : round_double (5629499534213120 / 4691249611844267) =
      Double.finite (5404319552844595 / 4503599627370496) :=
    by apply round_double_eval _ _ (0) (5404319552844595) <;> norm_num
  have r7 : round_double (-(900719925474099 / 4503599627370496)) =
      Double.finite (-(900719925474099 / 4503599627370496)) :=
    by apply round_double_eval _ _ (-3) (-7205759403792792) <;> norm_num
  have r8 : round_double (-(4503599627370495 / 1125899906842624)) =
      Double.finite (-(4503599627370495 / 1125899906842624)) :=
    by apply round_double_eval _ _ (1) (-9007199254740990) <;> norm_num
  have r9 : round_double (-(5629499534213119 / 1125899906842624)) =
      Double.finite (-(5629499534213119 / 1125899906842624)) :=
    by apply round_double_eval _ _ (2) (-5629499534213119) <;> norm_num
  unfold regulator_double
  rw [target_time_double_60 c h1, h2]
  norm_num [Double.add, Double.sub, Double.neg, Double.mul, Double.div, r6, r7, r8, r9]

/-- A decision on a representative time of 20 ms at 60 frames per second with gain 20
and `drs_adjust_up = 2`: the first branch runs and the step is 1. -/
theorem raw_scale_double_60_20_up2 (c : Cvars) (h1 : c.drs_target = 60) (h2 : c.drs_gain = 20)
    (h3 : c.drs_adjust_up = 2) (cur : Int) (hcur : scale_range cur) :
    drs_headroom_double c (Double.finite 20) = true ∧
    drs_raw_scale_double c cur (Double.finite 20) = some (cur + 1) := by
  have r5 : round_double (4691249611844267 / 140737488355328) =
      Double.finite (4691249611844267 / 140737488355328) :=
    by apply round_double_eval _ _ (5) (4691249611844267) <;> norm_num
  have r10 : round_double (-(5066549580791807 / 1125899906842624)) =
      Double.finite (-(5066549580791807 / 1125899906842624)) :=
    by apply round_double_eval _ _ (2) (-5066549580791807) <;> norm_num
  have hh : drs_headroom_double c (Double.finite 20) = true := by
    unfold drs_headroom_double
    rw [target_time_double_60 c h1, h3]
    norm_num [Double.mul, Double.lt, r5]
  refine ⟨hh, ?_⟩
  unfold drs_raw_scale_double
  rw [if_pos hh, regulator_double_60_20 c h1 h2]
  have hs : Double.to_int (clamp_double
      (Double.add (Double.finite (-(5629499534213119 / 1125899906842624)))
        (Double.finite (1 / 2))) (Double.finite 1) (Double.finite 10)) = some 1 := by
    norm_num [clamp_double, Double.add, Double.lt, Double.gt, Double.to_int, int_range, to_int,
      r10]
  rw [hs]
  unfold scale_range at hcur
  simp only [Option.some_bind, int_result]
  rw [if_pos (by unfold int_range; omega)]

/-- Five samples that are all equal to the target time computed at 33 frames per
second, `4264772374403879 / 2^47` ms: the sum of three samples is rounded down and
the computed representative time is the double below the samples. -/
theorem representative_double_33 :
    round_double (4264772374403879 / 140737488355328) =
      Double.finite (4264772374403879 / 140737488355328) ∧
    representative_time_double
      [4264772374403879 / 140737488355328, 4264772374403879 / 140737488355328,
        4264772374403879 / 140737488355328, 4264772374403879 / 140737488355328,
        4264772374403879 / 140737488355328] =
      Double.finite (8529544748807757 / 281474976710656) := by
  have r2 : round_double (4264772374403879 / 140737488355328) =
      Double.finite (4264772374403879 / 140737488355328) :=
    by apply round_double_eval _ _ (4) (8529544748807758) <;> norm_num
  have r3 : round_double (4264772374403879 / 70368744177664) =
      Double.finite (4264772374403879 / 70368744177664) :=
    by apply round_double_eval _ _ (5) (8529544748807758) <;> norm_num
  have r4 : round_double (12794317123211637 / 140737488355328) =
      Double.finite (3198579280802909 / 35184372088832) :=
    by apply round_double_eval_tie _ _ (6) (6397158561605818) (6397158561605818) <;> norm_num
  have r5 : round_double (3198579280802909 / 105553116266496) =
      Double.finite (8529544748807757 / 281474976710656) :=
    by apply round_double_eval _ _ (4) (8529544748807757) <;> norm_num
  refine ⟨r2, ?_⟩
  norm_num [representative_time_double, Double.add, Double.div, r2, r3, r4, r5]

/-- The target time at 33 frames per second in double arithmetic. -/
theorem target_time_double_33 (c : Cvars) (h1 : c.drs_target = 33) :
    target_time_double c = Double.finite (4264772374403879 / 140737488355328) := by
  have r1 : round_double (1000 / 33) = Double.finite (4264772374403879 / 140737488355328) :=
    by apply round_double_eval _ _ (4) (8529544748807758) <;> norm_num
  unfold target_time_double
  rw [h1]
  norm_num [Double.div, r1]

/-- The two tests at 33 frames per second with `drs_adjust_up = 1` and the registered
`drs_adjust_down`: a time equal to the target time is not below the first threshold
and is above the second, and the double below it is below the first
threshold. -/
theorem tests_double_33 (c : Cvars) (h1 : c.drs_target = 33) (h3 : c.drs_adjust_up = 1)
    (h4 : c.drs_adjust_down = 2055209 / 2097152) :
    drs_headroom_double c (Double.finite (4264772374403879 / 140737488355328)) = false ∧
    drs_overload_double c (Double.finite (4264772374403879 / 140737488355328)) = true ∧
    drs_headroom_double c (Double.finite (8529544748807757 / 281474976710656)) = true := by
  have r2 : round_double (4264772374403879 / 140737488355328) =
      Double.finite (4264772374403879 / 140737488355328) :=
    by apply round_double_eval _ _ (4) (8529544748807758) <;> norm_num
  have r11 : round_double (8764998566826221755711 / 295147905179352825856) =
      Double.finite (4179477008259879 / 140737488355328) :=
    by apply round_double_eval _ _ (4) (8358954016519758) <;> norm_num
  have ht := target_time_double_33 c h1
  refine ⟨?_, ?_, ?_⟩
  · unfold drs_headroom_double
    rw [ht, h3]
    norm_num [Double.mul, Double.lt, r2]
  · unfold drs_overload_double
    rw [ht, h4]
    norm_num [Double.mul, Double.lt, Double.gt, r11]
  · unfold drs_headroom_double
    rw [ht, h3]
    norm_num [Double.mul, Double.lt, r2]

/-- The regulator output at 33 frames per second with gain 20 for the representative
time `8529544748807757 / 2^48` ms, in double arithmetic. -/
theorem regulator_double_33 (c : Cvars) (h1 : c.drs_target = 33) (h2 : c.drs_gain = 20) :
    regulator_double c (Double.finite (8529544748807757 / 281474976710656)) =
      Double.finite (-(2251799813685243 / 2251799813685248)) := by
  unfold regulator_double
  rw [target_time_double_33 c h1, h2,
    div_finite_eq _ _ (9007199254740991 / 9007199254740992) (by norm_num)
      (by apply round_double_eval _ _ (-1) (9007199254740991) <;> norm_num),
    sub_finite_eq _ _ (1 / 9007199254740992)
      (by apply round_double_eval _ _ (-53) (4503599627370496) <;> norm_num),
    mul_finite_eq _ _ (5 / 2251799813685248)
      (by apply round_double_eval _ _ (-49) (5629499534213120) <;> norm_num),
    sub_finite_eq _ _ (-(2251799813685243 / 2251799813685248))
      (by apply round_double_eval _ _ (-1) (-9007199254740972) <;> norm_num)]

/-- The decision at 33 frames per second with gain 20 and `drs_adjust_up = 1` on the
representative time `8529544748807757 / 2^48` ms: the first branch runs and the step
is 1. -/
theorem raw_scale_double_33 (c : Cvars) (h1 : c.drs_target = 33) (h2 : c.drs_gain = 20)
    (h3 : c.drs_adjust_up = 1) (h4 : c.drs_adjust_down = 2055209 / 2097152) :
    drs_raw_scale_double c 50 (Double.finite (8529544748807757 / 281474976710656)) =
      some 51 := by
  unfold drs_raw_scale_double
  rw [if_pos (tests_double_33 c h1 h3 h4).2.2, regulator_double_33 c h1 h2,
    add_finite_eq _ _ (-(1125899906842619 / 2251799813685248))
      (by apply round_double_eval _ _ (-2) (-9007199254740952) <;> norm_num)]
  norm_num [clamp_double, Double.lt, Double.gt, Double.to_int, int_range, to_int, int_result]

/-- The representative time of five samples of 10 ms and of five samples of 20 ms. -/
theorem representative_double_10_20 :
    representative_time_double [10, 10, 10, 10, 10] = Double.finite 10 ∧
    representative_time_double [20, 20, 20, 20, 20] = Double.finite 20 := by
  have r1 : round_double (10) = Double.finite (10) :=
    by apply round_double_eval _ _ (3) (5629499534213120) <;> norm_num
  have r2 : round_double (20) = Double.finite (20) :=
    by apply round_double_eval _ _ (4) (5629499534213120) <;> norm_num
  have r3 : round_double (30) = Double.finite (30) :=
    by apply round_double_eval _ _ (4) (8444249301319680) <;> norm_num
  have r4 : round_double (40) = Double.finite (40) :=
    by apply round_double_eval _ _ (5) (5629499534213120) <;> norm_num
  have r5 : round_double (60) = Double.finite (60) :=
    by apply round_double_eval _ _ (5) (8444249301319680) <;> norm_num
  constructor
  · norm_num [representative_time_double, Double.add, Double.div, r1, r2, r3]
  · norm_num [representative_time_double, Double.add, Double.div, r2, r4, r5]

/-- The two thresholds at 60 frames per second with the registered `adjust_up` and
`adjust_down`, in double arithmetic. -/
theorem thresholds_double_60 (c : Cvars) (h1 : c.drs_target = 60)
    (h3 : c.drs_adjust_up = 15435039 / 16777216)
    (h4 : c.drs_adjust_down = 2055209 / 2097152) :
    Double.mul (target_time_double c) (Double.finite c.drs_adjust_up) =
      Double.finite (8631899442380801 / 562949953421312) ∧
    Double.mul (target_time_double c) (Double.finite c.drs_adjust_down) =
      Double.finite (4597424709085867 / 281474976710656) := by
  rw [target_time_double_60 c h1, h3, h4]
  exact ⟨mul_finite_eq _ _ _
      (by apply round_double_eval _ _ (3) (8631899442380801) <;> norm_num),
    mul_finite_eq _ _ _
      (by apply round_double_eval _ _ (4) (4597424709085867) <;> norm_num)⟩

/-- Witness for C10: ten frames of 10 ms from program start under the registered cvars
with DRS enabled, comparing the first and the second window. -/
theorem C10_monotonic_headroom_witness :
    ∃ a b : DrsState,
      drs_frames_double { Cvars.default_float with drs_enable := 1 }
        (([10, 10, 10, 10, 10, 10, 10, 10, 10, 10] : List ℚ).take (5 * 1)) DrsState.init =
        some a ∧
      drs_frames_double { Cvars.default_float with drs_enable := 1 }
        (([10, 10, 10, 10, 10, 10, 10, 10, 10, 10] : List ℚ).take (5 * (1 + 1)))
        DrsState.init = some b ∧
      a.drs_current_scale ≤ b.drs_current_scale ∧
      (a.drs_current_scale <
          ({ Cvars.default_float with drs_enable := 1 } : Cvars).drs_maxscale →
        a.drs_current_scale < b.drs_current_scale) ∧
      (a.drs_current_scale =
          ({ Cvars.default_float with drs_enable := 1 } : Cvars).drs_maxscale →
        b.drs_current_scale =
          ({ Cvars.default_float with drs_enable := 1 } : Cvars).drs_maxscale) :=
  C10_monotonic_headroom { Cvars.default_float with drs_enable := 1 } DrsState.init
    [10, 10, 10, 10, 10, 10, 10, 10, 10, 10] 1
    (by simp [Cvars.default_float, Cvars.default])
    (by simp [is_accumulation_rendering_active, Cvars.default_float, Cvars.default]) rfl rfl
    (by
      show |(60 : ℚ)| ≤ _
      rw [abs_le]
      constructor <;> norm_num)
    (by unfold scale_range; decide) (by unfold scale_range; decide)
    (by unfold scale_range; decide)
    (by
      intro t ht
      simp only [List.mem_cons, List.mem_singleton, List.not_mem_nil, or_false, or_self] at ht
      rw [ht]
      norm_num)
    (by
      intro j hj
      have hj2 : j < 2 := by
        simp only [List.length_cons, List.length_nil] at hj
        omega
      have hw : drs_window_samples ([10, 10, 10, 10, 10, 10, 10, 10, 10, 10] : List ℚ) j =
          [10, 10, 10, 10, 10] := by
        interval_cases j <;> simp [drs_window_samples]
      rw [hw, qsort_equal, representative_double_10_20.1]
      unfold drs_headroom_double
      rw [(thresholds_double_60 _ rfl rfl rfl).1]
      norm_num [Double.lt])
    (le_refl 1) (by simp)

/-- Witness for C11: the registered cvars with DRS enabled, after the warm-up at scale
100, five frames of 20 ms. -/
theorem C11_monotonic_overload_witness :
    ∃ a b : DrsState,
      drs_frames_double { Cvars.default_float with drs_enable := 1 }
        (([20, 20, 20, 20, 20] : List ℚ).take (5 * 0))
        (DrsState.mk 100 100 0 [1, 1, 1, 1, 1]) = some a ∧
      drs_frames_double { Cvars.default_float with drs_enable := 1 }
        (([20, 20, 20, 20, 20] : List ℚ).take (5 * (0 + 1)))
        (DrsState.mk 100 100 0 [1, 1, 1, 1, 1]) = some b ∧
      b.drs_current_scale ≤ a.drs_current_scale ∧
      ({ Cvars.default_float with drs_enable := 1 } : Cvars).drs_minscale ≤
        b.drs_current_scale ∧
      (a.drs_current_scale =
          ({ Cvars.default_float with drs_enable := 1 } : Cvars).drs_minscale →
        b.drs_current_scale =
          ({ Cvars.default_float with drs_enable := 1 } : Cvars).drs_minscale) :=
  C11_monotonic_overload { Cvars.default_float with drs_enable := 1 }
    (DrsState.mk 100 100 0 [1, 1, 1, 1, 1]) [20, 20, 20, 20, 20] 0
    (by simp [Cvars.default_float, Cvars.default])
    (by simp [is_accumulation_rendering_active, Cvars.default_float, Cvars.default]) rfl rfl
    (by
      show |(60 : ℚ)| ≤ _
      rw [abs_le]
      constructor <;> norm_num)
    (by unfold scale_range; decide) (by unfold scale_range; decide)
    (by unfold scale_range; decide)
    (by decide)
    (by
      intro t ht
      simp only [List.mem_cons, List.mem_singleton, List.not_mem_nil, or_false, or_self] at ht
      rw [ht]
      norm_num)
    (by
      intro j hj
      have hj2 : j < 1 := by
        simp only [List.length_cons, List.length_nil] at hj
        omega
      have hw : drs_window_samples ([20, 20, 20, 20, 20] : List ℚ) j =
          [20, 20, 20, 20, 20] := by
        interval_cases j
        simp [drs_window_samples]
      rw [hw, qsort_equal, representative_double_10_20.2]
      unfold drs_headroom_double drs_overload_double
      rw [(thresholds_double_60 _ rfl rfl rfl).1, (thresholds_double_60 _ rfl rfl rfl).2]
      norm_num [Double.lt, Double.gt])
    (by simp)

/-- C11 (counterexample): in double arithmetic, frame times of 20 ms are above
`target * adjust_down` (16.33 ms at 60 frames per second).  From program start under
the registered cvars with DRS enabled the first window raises `drs_current_scale`
from 0 to 50; and with `drs_adjust_up = 2` the second window raises it from 50 to 51.
With `drs_target = 33` and `drs_adjust_up = 1`, five frame times equal to the computed
target time `4264772374403879 / 2^47` ms are above `target * adjust_down` and none is below
`target * adjust_up`, computed or exact, yet the computed representative time is
below the computed threshold and the window raises the scale from 50 to 51. -/
theorem C11_overload_counterexample :
    ((1000 : ℚ) / 60 * (2055209 / 2097152) < 20 ∧
      drs_overload_double { Cvars.default_float with drs_enable := 1 }
        (Double.finite 20) = true ∧
      DrsState.init.drs_current_scale = 0 ∧
      ∃ a : DrsState,
        drs_frames_double { Cvars.default_float with drs_enable := 1 } [20, 20, 20, 20, 20]
          DrsState.init = some a ∧ a.drs_current_scale = 50) ∧
    (∃ a b : DrsState,
      drs_frames_double { Cvars.default_float with drs_enable := 1, drs_adjust_up := 2 }
        [20, 20, 20, 20, 20] DrsState.init = some a ∧
      drs_frames_double { Cvars.default_float with drs_enable := 1, drs_adjust_up := 2 }
        ([20, 20, 20, 20, 20] ++ [20, 20, 20, 20, 20]) DrsState.init = some b ∧
      a.drs_current_scale = 50 ∧ b.drs_current_scale = 51) ∧
    (round_double (4264772374403879 / 140737488355328) =
        Double.finite (4264772374403879 / 140737488355328) ∧
      ¬ ((4264772374403879 / 140737488355328 : ℚ) < 1000 / 33 * 1) ∧
      (1000 : ℚ) / 33 * (2055209 / 2097152) < 4264772374403879 / 140737488355328 ∧
      drs_headroom_double
        { Cvars.default_float with drs_enable := 1, drs_target := 33, drs_adjust_up := 1 }
        (Double.finite (4264772374403879 / 140737488355328)) = false ∧
      drs_overload_double
        { Cvars.default_float with drs_enable := 1, drs_target := 33, drs_adjust_up := 1 }
        (Double.finite (4264772374403879 / 140737488355328)) = true ∧
      drs_headroom_double
        { Cvars.default_float with drs_enable := 1, drs_target := 33, drs_adjust_up := 1 }
        (representative_time_double
          [4264772374403879 / 140737488355328, 4264772374403879 / 140737488355328,
            4264772374403879 / 140737488355328, 4264772374403879 / 140737488355328,
            4264772374403879 / 140737488355328]) = true ∧
      ∃ a : DrsState,
        drs_frames_double
          { Cvars.default_float with drs_enable := 1, drs_target := 33, drs_adjust_up := 1 }
          [4264772374403879 / 140737488355328, 4264772374403879 / 140737488355328,
            4264772374403879 / 140737488355328, 4264772374403879 / 140737488355328,
            4264772374403879 / 140737488355328]
          (DrsState.mk 50 50 0 [1, 1, 1, 1, 1]) = some a ∧ a.drs_current_scale = 51) := by
  have v20 : (0 : ℚ) ≤ 20 ∧ (20 : ℚ) ≤ 1000 := by norm_num
  have i0 : DrsState.init = DrsState.mk 0 0 0 (List.replicate 5 0) := rfl
  have hacc : ∀ (t u : ℚ), is_accumulation_rendering_active
      { Cvars.default_float with drs_enable := 1, drs_target := t, drs_adjust_up := u } =
        false := by
    intro t u
    simp [is_accumulation_rendering_active, Cvars.default_float, Cvars.default]
  refine ⟨⟨by norm_num, ?_, rfl, ?_⟩, ?_, ?_⟩
  · unfold drs_overload_double
    rw [(thresholds_double_60 _ rfl rfl rfl).2]
    norm_num [Double.lt, Double.gt]
  · have hh : drs_headroom_double { Cvars.default_float with drs_enable := 1 }
        (representative_time_double [20, 20, 20, 20, 20]) = false := by
      rw [representative_double_10_20.2]
      unfold drs_headroom_double
      rw [(thresholds_double_60 _ rfl rfl rfl).1]
      norm_num [Double.lt]
    have ho : drs_overload_double { Cvars.default_float with drs_enable := 1 }
        (representative_time_double [20, 20, 20, 20, 20]) = true := by
      rw [representative_double_10_20.2]
      unfold drs_overload_double
      rw [(thresholds_double_60 _ rfl rfl rfl).2]
      norm_num [Double.lt, Double.gt]
    have hd := raw_scale_double_decrease { Cvars.default_float with drs_enable := 1 } 0
      [20, 20, 20, 20, 20]
      (by
        intro t ht
        simp only [List.mem_cons, List.mem_singleton, List.not_mem_nil, or_false,
          or_self] at ht
        rw [ht]
        norm_num)
      (by
        show |(60 : ℚ)| ≤ _
        rw [abs_le]
        constructor <;> norm_num)
      (by unfold scale_range; decide) hh ho
    rw [i0]
    rcases hd with e | e
    · exact ⟨_, window_equal_double { Cvars.default_float with drs_enable := 1 }
        (by simp [Cvars.default_float, Cvars.default])
        (hacc 60 (15435039 / 16777216)) 20 v20 0 0 (List.replicate 5 0) rfl _ e, by decide⟩
    · exact ⟨_, window_equal_double { Cvars.default_float with drs_enable := 1 }
        (by simp [Cvars.default_float, Cvars.default])
        (hacc 60 (15435039 / 16777216)) 20 v20 0 0 (List.replicate 5 0) rfl _ e, by decide⟩
  · have hraw : ∀ cur : Int, scale_range cur →
        drs_raw_scale_double
          { Cvars.default_float with drs_enable := 1, drs_adjust_up := 2 } cur
          (representative_time_double [20, 20, 20, 20, 20]) = some (cur + 1) := by
      intro cur hcur
      rw [representative_double_10_20.2]
      exact (raw_scale_double_60_20_up2 _ rfl rfl rfl cur hcur).2
    have w1 := window_equal_double
      { Cvars.default_float with drs_enable := 1, drs_adjust_up := 2 }
      (by simp [Cvars.default_float, Cvars.default]) (hacc 60 2) 20 v20 0 0
      (List.replicate 5 0) rfl _ (hraw 0 (by unfold scale_range; decide))
    have w2 := window_equal_double
      { Cvars.default_float with drs_enable := 1, drs_adjust_up := 2 }
      (by simp [Cvars.default_float, Cvars.default]) (hacc 60 2) 20 v20 50 50
      [20, 20, 20, 20, 20] rfl _ (hraw 50 (by unfold scale_range; decide))
    have w12 := drs_frames_double_append
      { Cvars.default_float with drs_enable := 1, drs_adjust_up := 2 }
      [20, 20, 20, 20, 20] [20, 20, 20, 20, 20] DrsState.init
    rw [i0, w1, Option.some_bind] at w12
    rw [show max ({ Cvars.default_float with drs_enable := 1, drs_adjust_up := 2 } :
        Cvars).drs_minscale
      (min ({ Cvars.default_float with drs_enable := 1, drs_adjust_up := 2 } :
        Cvars).drs_maxscale (0 + 1)) = 50 by decide] at w12
    rw [w2] at w12
    rw [i0]
    exact ⟨_, _, w1, w12, by decide, by decide⟩
  · refine ⟨representative_double_33.1, by norm_num, by norm_num,
      (tests_double_33 _ rfl rfl rfl).1, (tests_double_33 _ rfl rfl rfl).2.1, ?_, ?_⟩
    · rw [representative_double_33.2]
      exact (tests_double_33 _ rfl rfl rfl).2.2
    · have hraw : drs_raw_scale_double
          { Cvars.default_float with drs_enable := 1, drs_target := 33, drs_adjust_up := 1 } 50
          (representative_time_double
            [4264772374403879 / 140737488355328, 4264772374403879 / 140737488355328,
              4264772374403879 / 140737488355328, 4264772374403879 / 140737488355328,
              4264772374403879 / 140737488355328]) = some 51 := by
        rw [representative_double_33.2]
        exact raw_scale_double_33 _ rfl rfl rfl rfl
      exact ⟨_, window_equal_double _ (by simp [Cvars.default_float, Cvars.default])
        (hacc 33 1) _ (by norm_num) 50 50 [1, 1, 1, 1, 1] rfl _ hraw, by decide⟩

end Q2RTX
